import Mathlib

/-!
# KMS output backend (backend/drm/drm.c): a shallow embedding

The C code is single threaded and mutates one `struct wlr_drm_backend` from an
event loop.  The embedding passes that state explicitly:

* connectors live in `wlr_drm_backend.outputs` (the `wl_list` in list order) and
  are named by their position in it; a connector's `crtc` pointer into the
  `drm->crtcs` array is the array index (`conn->crtc - drm->crtcs`);
* every call that leaves drm.c (the atomic/legacy interface, the renderer
  helpers, `wlr_output_*`, `wlr_buffer_*`, timers) is appended to
  `wlr_drm_backend.log`; a call whose result drm.c inspects takes that result
  from `Env`, a record of functions of the log so far, so that theorems
  quantified over `Env` cover every behaviour of the kernel and renderer;
* a function whose C execution can be undefined (null dereference, division by
  zero, failed `assert`) returns `Option`, `none` standing for the undefined run.
-/

namespace Wlr

/-! ## Constants taken from headers outside drm.c -/

/-- The `UNMATCHED` marker of backend/drm/util.h, `(uint32_t)-1`. -/
def UNMATCHED : Nat := 4294967295

/-- Fourcc code `DRM_FORMAT_INVALID`. -/
def DRM_FORMAT_INVALID : Nat := 0
/-- Fourcc code 'AR24'. -/
def DRM_FORMAT_ARGB8888 : Nat := 0x34325241
/-- Fourcc code 'XR24'. -/
def DRM_FORMAT_XRGB8888 : Nat := 0x34325258
/-- Fourcc code 'AB24'. -/
def DRM_FORMAT_ABGR8888 : Nat := 0x34324241
/-- Fourcc code 'XB24'. -/
def DRM_FORMAT_XBGR8888 : Nat := 0x34324258

/-- Presentation flag bits of `enum wlr_output_present_flag`. -/
def WLR_OUTPUT_PRESENT_VSYNC : Nat := 1
/-- Presentation flag: timestamp from the hardware clock. -/
def WLR_OUTPUT_PRESENT_HW_CLOCK : Nat := 2
/-- Presentation flag: completion reported by the hardware. -/
def WLR_OUTPUT_PRESENT_HW_COMPLETION : Nat := 4
/-- Presentation flag: the client buffer was scanned out directly. -/
def WLR_OUTPUT_PRESENT_ZERO_COPY : Nat := 8

/-! ## Data model -/

/-- The `enum wlr_drm_connector_state`. -/
inductive wlr_drm_connector_state where
  | WLR_DRM_CONN_DISCONNECTED
  | WLR_DRM_CONN_NEEDS_MODESET
  | WLR_DRM_CONN_CLEANUP
  | WLR_DRM_CONN_CONNECTED
  | WLR_DRM_CONN_DISAPPEARED
  deriving DecidableEq, Repr

export wlr_drm_connector_state (WLR_DRM_CONN_DISCONNECTED WLR_DRM_CONN_NEEDS_MODESET
  WLR_DRM_CONN_CLEANUP WLR_DRM_CONN_CONNECTED WLR_DRM_CONN_DISAPPEARED)

/-- The `enum wlr_output_state_buffer_type` of `output->pending.buffer_type`. -/
inductive wlr_output_state_buffer_type where
  | WLR_OUTPUT_STATE_BUFFER_RENDER
  | WLR_OUTPUT_STATE_BUFFER_SCANOUT
  deriving DecidableEq, Repr

export wlr_output_state_buffer_type (WLR_OUTPUT_STATE_BUFFER_RENDER
  WLR_OUTPUT_STATE_BUFFER_SCANOUT)

/-- The `drmModeModeInfo` of xf86drmMode.h: the timings, the flags, the type
and the 32 bytes of the name.  `refresh_rate` is not a member of the C struct:
it stands for the rate `calculate_refresh_rate` of util.c derives from the
timings. -/
structure drmModeModeInfo where
  clock : Nat := 0
  hdisplay : Nat
  hsync_start : Nat := 0
  hsync_end : Nat := 0
  htotal : Nat := 0
  hskew : Nat := 0
  vdisplay : Nat
  vsync_start : Nat := 0
  vsync_end : Nat := 0
  vtotal : Nat := 0
  vscan : Nat := 0
  vrefresh : Nat := 0
  flags : Nat
  type : Nat
  name : List Nat := []
  refresh_rate : Nat
  deriving DecidableEq, Repr

/-- The fields of `struct wlr_output_mode` (a `struct wlr_drm_mode` seen through
its `wlr_mode` member), and the `drm_mode` member of the `struct wlr_drm_mode`
around it. -/
structure wlr_output_mode where
  width : Nat
  height : Nat
  refresh : Nat
  preferred : Bool
  drm_mode : drmModeModeInfo := { hdisplay := 0, vdisplay := 0, flags := 0, type := 0, refresh_rate := 0 }
  deriving DecidableEq, Repr

/-- The fields of `struct wlr_dmabuf_attributes`. -/
structure wlr_dmabuf_attributes where
  width : Nat
  height : Nat
  format : Nat
  flags : Nat
  modifier : Nat
  n_planes : Nat
  offset : List Nat
  stride : List Nat
  fd : List Int
  deriving DecidableEq, Repr

/-- A client buffer (`struct wlr_buffer`): an identity and, when the buffer can
be exported, the attributes `wlr_buffer_get_dmabuf` hands out. -/
structure wlr_buffer where
  handle : Nat
  dmabuf : Option wlr_dmabuf_attributes
  deriving DecidableEq, Repr

/-- The part of `struct wlr_drm_plane` drm.c reads and writes.  `formats` is
the plane's set of supported (format, modifier) pairs; the cursor fields are
those of a cursor plane.  The render surfaces
(`plane->surf`, `plane->mgpu_surf`) belong to renderer.c and are reached only
through `Env`. -/
structure wlr_drm_plane where
  drm_format : Nat
  formats : List (Nat × Nat)
  type : Nat := 0
  id : Nat := 0
  cursor_enabled : Bool := false
  cursor_hotspot_x : Int := 0
  cursor_hotspot_y : Int := 0
  deriving DecidableEq, Repr

/-- The part of `struct wlr_drm_crtc` drm.c reads and writes.  `gamma_table`
is the single allocation holding the red, green and blue channels one after the
other. -/
structure wlr_drm_crtc where
  id : Nat
  primary : wlr_drm_plane
  cursor : Option wlr_drm_plane
  gamma_table : List Nat
  gamma_table_size : Nat
  deriving DecidableEq, Repr

/-- The `struct wlr_drm_connector` together with the fields of its embedded
`struct wlr_output` that drm.c touches (`current_mode`, `enabled`, `width`,
`height`, `refresh`, `needs_frame`, `frame_pending`, `modes`, `transform`,
`scale`).  `old_crtc` is the kernel id of the CRTC configuration saved for
restoration, if any; `props_link_status` and `props_path` are the property ids
`conn->props.link_status` and `conn->props.path`.  The scale, a `float` in C, is
a rational number here. -/
structure wlr_drm_connector where
  id : Nat
  state : wlr_drm_connector_state
  crtc : Option Nat
  possible_crtc : Nat
  desired_enabled : Bool
  desired_mode : Option wlr_output_mode
  current_mode : Option wlr_output_mode
  modes : List wlr_output_mode
  enabled : Bool
  width : Nat
  height : Nat
  refresh : Nat
  needs_frame : Bool
  frame_pending : Bool
  pageflip_pending : Bool
  pending_buffer : Option wlr_buffer
  current_buffer : Option wlr_buffer
  pending_dmabuf : Option wlr_dmabuf_attributes
  old_crtc : Option Nat
  cursor_x : Int := 0
  cursor_y : Int := 0
  transform : Nat := 0
  scale : Rat := 1
  props_link_status : Nat := 0
  props_path : Nat := 0
  deriving DecidableEq, Repr

/-- What `output->pending` holds when a commit is requested. -/
structure wlr_output_state where
  buffer_type : wlr_output_state_buffer_type
  buffer : Option wlr_buffer
  deriving DecidableEq, Repr

/-- One entry of the log: a call that leaves drm.c, with its arguments.
Connectors and CRTCs are named by index. -/
inductive Event where
  | dealloc_crtc (conn : Nat) (crtc : Option Nat)
  | malloc (size : Nat)
  | crtc_set_gamma (crtc : Nat) (size : Nat) (table : List Nat)
  | crtc_pageflip (conn : Nat) (crtc : Nat) (fb_id : Nat) (mode : Option wlr_output_mode)
  | conn_enable (conn : Nat) (enable : Bool)
  | init_drm_plane_surfaces (crtc : Nat) (width height : Nat)
  | finish_drm_surface (crtc : Nat) (cursor : Bool)
  | post_drm_surface (crtc : Nat) (mgpu : Bool)
  | swap_drm_surface_buffers (crtc : Nat)
  | get_drm_surface_front (crtc : Nat)
  | copy_drm_surface_mgpu (crtc : Nat) (bo : Option Nat)
  | get_fb_for_bo (bo : Option Nat) (format : Nat)
  | import_gbm_bo (attribs : Option wlr_dmabuf_attributes)
  | timer_update (conn : Nat) (ms_delay : Nat)
  | wlr_output_update_enabled (conn : Nat) (enabled : Bool)
  | wlr_output_update_mode (conn : Nat) (mode : Option wlr_output_mode)
  | wlr_output_update_needs_frame (conn : Nat)
  | wlr_output_damage_whole (conn : Nat)
  | wlr_output_send_frame (conn : Nat)
  | wlr_output_send_present (conn : Nat) (seq : Nat) (refresh : Int) (flags : Nat)
  | wlr_output_destroy (conn : Nat)
  | wlr_buffer_ref (buffer : Option wlr_buffer)
  | wlr_buffer_unref (buffer : Option wlr_buffer)
  | destroy_signal (conn : Nat)
  | drmModeSetCrtc (crtc_id : Nat) (conn_id : Nat)
  | drmModeSetCursor (crtc_id : Nat)
  | drmGetCap (parent : Bool) (cap : Nat)
  | drmSetClientCap (cap : Nat) (value : Nat)
  | getenv_no_atomic
  | calloc_plane (crtc : Nat)
  | init_drm_surface (crtc : Nat) (mgpu : Bool) (width height : Nat)
  | render_cursor (crtc : Nat) (width height : Int) (transform : Nat)
  | swap_cursor_buffers (crtc : Nat)
  | copy_cursor_mgpu (crtc : Nat) (bo : Nat)
  | glFinish
  | crtc_set_cursor (crtc : Nat) (bo : Option Nat)
  | crtc_move_cursor (crtc : Nat) (x y : Int)
  | calloc_connector (id : Nat)
  | calloc_mode (conn : Nat)
  | get_link_status (conn : Nat)
  | get_drm_connector_props (conn : Nat)
  | parse_edid (conn : Nat)
  | new_output (conn : Nat)
  deriving DecidableEq, Repr

/-- A page-flip completion event as the kernel delivers it to
`page_flip_handler`. -/
structure page_flip_event where
  seq : Nat
  tv_sec : Nat
  tv_usec : Nat
  crtc_id : Nat
  deriving DecidableEq, Repr

/-- The two implementations of `struct wlr_drm_interface`. -/
inductive wlr_drm_interface where
  | legacy_iface
  | atomic_iface
  deriving DecidableEq, Repr

export wlr_drm_interface (legacy_iface atomic_iface)

/-- The `struct wlr_drm_backend`: session flag, whether a parent (primary) GPU
exists, the CRTC array, the connector list and the log of calls made so far;
`iface` is the bound interface (`none` for `NULL`) and `clock` the clock id
(0 for `CLOCK_REALTIME`, 1 for `CLOCK_MONOTONIC`). -/
structure wlr_drm_backend where
  session_active : Bool
  parent : Bool
  addfb2_modifiers : Bool
  gbm_format : Nat
  crtcs : List wlr_drm_crtc
  outputs : List wlr_drm_connector
  log : List Event
  iface : Option wlr_drm_interface := none
  clock : Nat := 0
  deriving DecidableEq, Repr

/-- The results of the calls that leave drm.c, each as a function of the log at
the moment of the call and of the call's arguments.  The first five are the
members of `drm->iface` that the modelled functions use. -/
structure Env where
  conn_enable : List Event → Nat → Bool → Bool
  crtc_pageflip : List Event → Nat → Nat → Nat → Option wlr_output_mode → Bool
  crtc_set_gamma : List Event → Nat → Nat → List Nat → Bool
  crtc_get_gamma_size : Nat → Nat
  malloc : List Event → Nat → Bool
  init_drm_plane_surfaces : List Event → Nat → Nat → Nat → Bool
  swap_drm_surface_buffers : List Event → Nat → Option Nat
  get_drm_surface_front : List Event → Nat → Option Nat
  surf_back : List Event → Nat → Option Nat
  copy_drm_surface_mgpu : List Event → Nat → Option Nat → Option Nat
  get_fb_for_bo : List Event → Option Nat → Nat → Nat
  import_gbm_bo : List Event → Option wlr_dmabuf_attributes → Option Nat
  gbm_bo_get_format : Nat → Nat

/-! ## Helpers of the embedding -/

/-- Append one entry to the log. -/
def emit (drm : wlr_drm_backend) (e : Event) : wlr_drm_backend :=
  { drm with log := drm.log ++ [e] }

/-- Store connector `c` at position `i` of the connector list. -/
def set_conn (drm : wlr_drm_backend) (i : Nat) (c : wlr_drm_connector) : wlr_drm_backend :=
  { drm with outputs := drm.outputs.set i c }

/-- Store CRTC `c` at index `k` of the CRTC array. -/
def set_crtc (drm : wlr_drm_backend) (k : Nat) (c : wlr_drm_crtc) : wlr_drm_backend :=
  { drm with crtcs := drm.crtcs.set k c }

/-! ## wlr_output helpers called by drm.c -/

/-- Modelled from the spec: `wlr_output_update_enabled` of types/wlr_output.c,
which is not part of the sources; it records the enabled flag and reports it
("is reported disabled"). -/
def wlr_output_update_enabled (drm : wlr_drm_backend) (i : Nat) (enabled : Bool) :
    wlr_drm_backend :=
  match drm.outputs[i]? with
  | none => drm
  | some c => emit (set_conn drm i { c with enabled := enabled })
      (Event.wlr_output_update_enabled i enabled)

/-- Modelled from the spec: `wlr_output_update_mode` of types/wlr_output.c,
which is not part of the sources; it makes `mode` the current mode (clearing it
for `NULL`, "its mode cleared") together with the derived width, height and
refresh, and reports the change. -/
def wlr_output_update_mode (drm : wlr_drm_backend) (i : Nat) (mode : Option wlr_output_mode) :
    wlr_drm_backend :=
  match drm.outputs[i]? with
  | none => drm
  | some c =>
    let c1 : wlr_drm_connector := match mode with
      | some m => { c with current_mode := some m, width := m.width, height := m.height,
                           refresh := m.refresh }
      | none => { c with current_mode := none, width := 0, height := 0, refresh := 0 }
    emit (set_conn drm i c1) (Event.wlr_output_update_mode i mode)

/-- Modelled from the spec: `wlr_output_update_needs_frame` of
types/wlr_output.c, which is not part of the sources; it flags the output as
needing a frame and notifies ("needs-frame"). -/
def wlr_output_update_needs_frame (drm : wlr_drm_backend) (i : Nat) : wlr_drm_backend :=
  match drm.outputs[i]? with
  | none => drm
  | some c => emit (set_conn drm i { c with needs_frame := true })
      (Event.wlr_output_update_needs_frame i)

/-! ## Gamma -/

/-- The `fill_empty_gamma_table`: the value written to `r[i]`, `g[i]` and `b[i]`,
for `i < size`, is `(uint16_t)((uint32_t)0xffff * i / (size - 1))`.  The result
is the three channels.  With `size = 1` the first iteration divides by zero,
and with `size` from `2^32` on the `uint32_t` counter never reaches `size`, so
the loop does not end: both runs are undefined. -/
def fill_empty_gamma_table (size : Nat) : Option (List Nat × List Nat × List Nat) :=
  if size = 1 ∨ 2 ^ 32 ≤ size then none
  else
    let ramp := (List.range size).map fun i => (0xffff * i % 2 ^ 32) / (size - 1) % 2 ^ 16
    some (ramp, ramp, ramp)

/-- The `drm_connector_get_gamma_size`. -/
def drm_connector_get_gamma_size (env : Env) (drm : wlr_drm_backend) (i : Nat) : Nat :=
  match drm.outputs[i]? with
  | none => 0
  | some conn =>
    match conn.crtc with
    | some k => env.crtc_get_gamma_size k
    | none => 0

/-- The three channels `set_drm_connector_gamma` puts into the new table: the
linear ramp on a reset, and otherwise `size` entries copied from each of the
caller's arrays `r`, `g` and `b` (copying out of a shorter array is undefined). -/
def gamma_channels (reset : Bool) (size : Nat) (r g b : List Nat) :
    Option (List Nat × List Nat × List Nat) :=
  if reset then fill_empty_gamma_table size
  else if r.length < size ∨ g.length < size ∨ b.length < size then none
  else some (r.take size, g.take size, b.take size)

/-- The part of `set_drm_connector_gamma` that follows the choice of the size:
the table is allocated, filled, handed to the interface and, on success, stored
in the CRTC with index `k`. -/
def set_gamma_sized (env : Env) (drm : wlr_drm_backend) (i k : Nat) (reset : Bool)
    (size : Nat) (r g b : List Nat) : Option (wlr_drm_backend × Bool) :=
  if env.malloc drm.log (3 * size * 2) = false then
    some (emit drm (Event.malloc (3 * size * 2)), false)
  else
    match gamma_channels reset size r g b with
    | none => none
    | some (r1, g1, b1) =>
      if env.crtc_set_gamma (emit drm (Event.malloc (3 * size * 2))).log k size
          (r1 ++ g1 ++ b1) = true then
        match drm.crtcs[k]? with
        | none => none
        | some crtc =>
          some (set_crtc
            (wlr_output_update_needs_frame
              (emit (emit drm (Event.malloc (3 * size * 2)))
                (Event.crtc_set_gamma k size (r1 ++ g1 ++ b1))) i) k
            { crtc with gamma_table := r1 ++ g1 ++ b1, gamma_table_size := size }, true)
      else
        some (emit (emit drm (Event.malloc (3 * size * 2)))
          (Event.crtc_set_gamma k size (r1 ++ g1 ++ b1)), false)

/-- The `set_drm_connector_gamma` for the connector at position `i`.  `r`, `g`
and `b` are the caller's arrays. -/
def set_drm_connector_gamma (env : Env) (drm : wlr_drm_backend) (i : Nat) (size : Nat)
    (r g b : List Nat) : Option (wlr_drm_backend × Bool) :=
  match drm.outputs[i]? with
  | none => none
  | some conn =>
    match conn.crtc with
    | none => some (drm, false)
    | some k =>
      if size = 0 then
        if drm_connector_get_gamma_size env drm i = 0 then some (drm, false)
        else set_gamma_sized env drm i k true (drm_connector_get_gamma_size env drm i) r g b
      else set_gamma_sized env drm i k false size r g b

/-! ## Starting the renderer, releasing a CRTC, cleaning a connector up -/

/-- The `drm_connector_start_renderer` for the connector at position `i`.  When
the page-flip is refused the retry timer is armed with
`1000000.0f / current_mode->refresh` converted to `int`: for a refresh of 0 the
quotient is infinite and its conversion is undefined; for a refresh from 1 on
the `float` quotient converted to `int` is the integer quotient (the dividend
and every refresh up to 1000000 are exact in `float`, a quotient that is not
whole lies further than half a unit in the last place below the next whole
number, and a larger refresh gives 0). -/
def drm_connector_start_renderer (env : Env) (drm : wlr_drm_backend) (i : Nat) :
    Option wlr_drm_backend :=
  match drm.outputs[i]? with
  | none => none
  | some conn =>
    if conn.state ≠ WLR_DRM_CONN_CONNECTED then some drm
    else
      match conn.crtc with
      | none => some drm
      | some k =>
        match drm.crtcs[k]? with
        | none => none
        | some crtc =>
          let bo := env.get_drm_surface_front drm.log k
          let drm := emit drm (Event.get_drm_surface_front k)
          let fb_id := env.get_fb_for_bo drm.log bo crtc.primary.drm_format
          let drm := emit drm (Event.get_fb_for_bo bo crtc.primary.drm_format)
          match conn.current_mode with
          | none => none
          | some mode =>
            let ok := env.crtc_pageflip drm.log i k fb_id (some mode)
            let drm := emit drm (Event.crtc_pageflip i k fb_id (some mode))
            if ok then
              let drm := set_conn drm i { conn with pageflip_pending := true }
              some (wlr_output_update_enabled drm i true)
            else if mode.refresh = 0 then none
            else some (emit drm (Event.timer_update i (1000000 / mode.refresh)))

/-- The `dealloc_crtc` for the connector at position `i`.  The call itself is
logged, with the CRTC the connector holds on entry (`none`: the function returns
at its first test).  The surface of the cursor plane is reached through
`conn->crtc->cursor` without a test: a CRTC without a cursor plane makes the
run undefined. -/
def dealloc_crtc (env : Env) (drm : wlr_drm_backend) (i : Nat) : Option wlr_drm_backend :=
  match drm.outputs[i]? with
  | none => none
  | some conn =>
    let drm := emit drm (Event.dealloc_crtc i conn.crtc)
    match conn.crtc with
    | none => some drm
    | some k =>
      match set_drm_connector_gamma env drm i 0 [] [] [] with
      | none => none
      | some (drm, _) =>
        let drm := emit drm (Event.finish_drm_surface k false)
        match drm.crtcs[k]? with
        | none => none
        | some crtc =>
          if crtc.cursor = none then none
          else
            let drm := emit drm (Event.finish_drm_surface k true)
            let drm := emit drm (Event.conn_enable i false)
            match drm.outputs[i]? with
            | none => none
            | some conn => some (set_conn drm i { conn with crtc := none })

/-- The `drm_connector_cleanup` for the connector at position `i`. -/
def drm_connector_cleanup (env : Env) (drm : wlr_drm_backend) (i : Nat) :
    Option wlr_drm_backend :=
  match drm.outputs[i]? with
  | none => some drm
  | some conn =>
    let finish (drm : wlr_drm_backend) : Option wlr_drm_backend :=
      match dealloc_crtc env drm i with
      | none => none
      | some drm =>
        match drm.outputs[i]? with
        | none => none
        | some conn =>
          let drm := set_conn drm i { conn with possible_crtc := 0, desired_mode := none }
          let drm := emit drm (Event.destroy_signal i)
          match drm.outputs[i]? with
          | none => none
          | some conn => some (set_conn drm i { conn with state := WLR_DRM_CONN_DISCONNECTED })
    match conn.state with
    | WLR_DRM_CONN_CONNECTED | WLR_DRM_CONN_CLEANUP =>
      let drm := emit drm (Event.wlr_buffer_unref conn.pending_buffer)
      let drm := emit drm (Event.wlr_buffer_unref conn.current_buffer)
      let drm := set_conn drm i { conn with
        current_mode := none, desired_mode := none, modes := [], enabled := false,
        width := 0, height := 0, refresh := 0, needs_frame := false, frame_pending := false,
        pending_buffer := none, current_buffer := none }
      finish drm
    | WLR_DRM_CONN_NEEDS_MODESET => finish drm
    | WLR_DRM_CONN_DISCONNECTED =>
      some (set_conn drm i { conn with state := WLR_DRM_CONN_DISCONNECTED })
    | WLR_DRM_CONN_DISAPPEARED => some drm

/-! ## The CRTC allocator -/

/-- The `previous_match` array `realloc_crtcs` builds: entry `k` is the position
of the (last) connector holding CRTC `k`, or `UNMATCHED`. -/
def previous_match_from : List wlr_drm_connector → Nat → List Nat → List Nat
  | [], _, acc => acc
  | conn :: rest, i, acc =>
    match conn.crtc with
    | some k => previous_match_from rest (i + 1) (acc.set k i)
    | none => previous_match_from rest (i + 1) acc

/-- The `previous_match` array of a backend. -/
def previous_match (drm : wlr_drm_backend) : List Nat :=
  previous_match_from drm.outputs 0 (List.replicate drm.crtcs.length UNMATCHED)

/-- One entry of `connector_constraints`: the possible-CRTC mask of a connector
that is connected or needs a modeset and is wanted by the user, and 0
otherwise. -/
def connector_constraint (conn : wlr_drm_connector) : Nat :=
  if (conn.state = WLR_DRM_CONN_CONNECTED ∨ conn.state = WLR_DRM_CONN_NEEDS_MODESET) ∧
      conn.desired_enabled = true then conn.possible_crtc
  else 0

/-- The `connector_constraints` array of a backend. -/
def connector_constraints (drm : wlr_drm_backend) : List Nat :=
  drm.outputs.map connector_constraint

/-- The `connector_match` array `realloc_crtcs` derives from `new_match`: all
entries start at -1 (`none`), then for each CRTC `i` in increasing order with
`new_match[i] != UNMATCHED` entry `new_match[i]` is set to `i`. -/
def connector_match_of (num_outputs num_crtcs : Nat) (new_match : List Nat) :
    List (Option Nat) :=
  (List.range num_crtcs).foldl
    (fun cm i =>
      if new_match.getD i UNMATCHED ≠ UNMATCHED then cm.set (new_match.getD i UNMATCHED) (some i)
      else cm)
    (List.replicate num_outputs none)

/-- The test of the loop that keeps the old configuration: some connector is
connected, wanted, and has no CRTC in `connector_match`. -/
def keeps_old_configuration (drm : wlr_drm_backend) (connector_match : List (Option Nat)) :
    Bool :=
  (List.range drm.outputs.length).any fun i =>
    match drm.outputs[i]? with
    | none => false
    | some conn =>
      decide (conn.state = WLR_DRM_CONN_CONNECTED) && conn.desired_enabled &&
        decide (connector_match.getD i none = none)

/-- One iteration of the loop "Apply new configuration" of `realloc_crtcs`, for
the connector at position `i`.  The flag of the result tells whether the loop
is left through `break`. -/
def realloc_step (env : Env) (connector_match : List (Option Nat)) (drm : wlr_drm_backend)
    (i : Nat) : Option (wlr_drm_backend × Bool) :=
  match drm.outputs[i]? with
  | none => none
  | some conn =>
    let prev_enabled := conn.crtc.isSome
    if prev_enabled ∧ connector_match.getD i none = conn.crtc then some (drm, false)
    else
      match dealloc_crtc env drm i with
      | none => none
      | some drm =>
        match connector_match.getD i none with
        | none =>
          if prev_enabled then
            match drm.outputs[i]? with
            | none => none
            | some conn =>
              let drm := set_conn drm i { conn with state := WLR_DRM_CONN_NEEDS_MODESET }
              let drm := wlr_output_update_enabled drm i false
              match drm.outputs[i]? with
              | none => none
              | some conn =>
                let drm := set_conn drm i { conn with desired_mode := conn.current_mode }
                some (wlr_output_update_mode drm i none, false)
          else some (drm, false)
        | some k =>
          match drm.outputs[i]? with
          | none => none
          | some conn =>
            let drm := set_conn drm i { conn with crtc := some k }
            if conn.state ≠ WLR_DRM_CONN_CONNECTED then some (drm, false)
            else
              match conn.current_mode with
              | none => none
              | some mode =>
                let ok := env.init_drm_plane_surfaces drm.log k mode.width mode.height
                let drm := emit drm (Event.init_drm_plane_surfaces k mode.width mode.height)
                if !ok then
                  match drm_connector_cleanup env drm i with
                  | none => none
                  | some drm => some (drm, true)
                else
                  match drm_connector_start_renderer env drm i with
                  | none => none
                  | some drm => some (emit drm (Event.wlr_output_damage_whole i), false)

/-- The loop "Apply new configuration": `n` iterations are left, the next one
is for position `i`. -/
def realloc_apply (env : Env) (connector_match : List (Option Nat)) :
    Nat → Nat → wlr_drm_backend → Option wlr_drm_backend
  | 0, _, drm => some drm
  | n + 1, i, drm =>
    match realloc_step env connector_match drm i with
    | none => none
    | some (drm, true) => some drm
    | some (drm, false) => realloc_apply env connector_match n (i + 1) drm

/-- The part of `realloc_crtcs` that follows the call of `match_obj`, given the
`new_match` array that call has filled in. -/
def realloc_crtcs_with (env : Env) (drm : wlr_drm_backend) (new_match : List Nat) :
    Option wlr_drm_backend :=
  let connector_match := connector_match_of drm.outputs.length drm.crtcs.length new_match
  if keeps_old_configuration drm connector_match then some drm
  else realloc_apply env connector_match drm.outputs.length 0 drm

/-- The `realloc_crtcs`.  The matcher `match_obj` of backend/drm/util.c is not
part of the sources and is a parameter: it receives `num_outputs`,
`connector_constraints`, `num_crtcs` and `previous_match` and returns
`new_match`.  A backend without a CRTC fails the `assert`. -/
def realloc_crtcs (env : Env) (match_obj : Nat → List Nat → Nat → List Nat → List Nat)
    (drm : wlr_drm_backend) : Option wlr_drm_backend :=
  if drm.crtcs.length = 0 then none
  else if drm.outputs.length = 0 then some drm
  else
    realloc_crtcs_with env drm
      (match_obj drm.outputs.length (connector_constraints drm) drm.crtcs.length
        (previous_match drm))

/-! ## The commit pipeline -/

/-- Modelled from the spec: `wlr_output_send_frame` of types/wlr_output.c, which
is not part of the sources; it emits the "new-frame-available notification". -/
def wlr_output_send_frame (drm : wlr_drm_backend) (i : Nat) : wlr_drm_backend :=
  match drm.outputs[i]? with
  | none => drm
  | some c => emit (set_conn drm i { c with frame_pending := false })
      (Event.wlr_output_send_frame i)

/-- The call `get_fb_for_bo(bo, format, drm->addfb2_modifiers)` of the commit
path together with the test of its result: `none` where the C code returns
false because the id is 0. -/
def commit_fb (env : Env) (drm : wlr_drm_backend) (bo : Nat) (format : Nat) :
    wlr_drm_backend × Option Nat :=
  if env.get_fb_for_bo drm.log (some bo) format = 0 then
    (emit drm (Event.get_fb_for_bo (some bo) format), none)
  else
    (emit drm (Event.get_fb_for_bo (some bo) format),
      some (env.get_fb_for_bo drm.log (some bo) format))

/-- The `switch` of `drm_connector_commit`: the buffer object for the frame is
acquired and its framebuffer looked up.  The result is `none` where the C code
returns false, and the framebuffer id otherwise. -/
def commit_acquire (env : Env) (drm : wlr_drm_backend) (k : Nat) (crtc : wlr_drm_crtc)
    (conn : wlr_drm_connector) (pending : wlr_output_state) : wlr_drm_backend × Option Nat :=
  match pending.buffer_type with
  | WLR_OUTPUT_STATE_BUFFER_RENDER =>
    match env.swap_drm_surface_buffers drm.log k with
    | none => (emit drm (Event.swap_drm_surface_buffers k), none)
    | some bo =>
      let drm := emit drm (Event.swap_drm_surface_buffers k)
      if drm.parent then
        match env.copy_drm_surface_mgpu drm.log k (some bo) with
        | none => (emit drm (Event.copy_drm_surface_mgpu k (some bo)), none)
        | some bo1 =>
          commit_fb env (emit drm (Event.copy_drm_surface_mgpu k (some bo))) bo1
            crtc.primary.drm_format
      else commit_fb env drm bo crtc.primary.drm_format
  | WLR_OUTPUT_STATE_BUFFER_SCANOUT =>
    match env.import_gbm_bo drm.log conn.pending_dmabuf with
    | none => (emit drm (Event.import_gbm_bo conn.pending_dmabuf), none)
    | some bo =>
      commit_fb env (emit drm (Event.import_gbm_bo conn.pending_dmabuf)) bo
        (env.gbm_bo_get_format bo)

/-- The end of `drm_connector_commit`, after a successful page-flip request:
the flip is marked pending and, for a scanned-out client buffer, the buffer is
retained as pending. -/
def commit_retain (drm : wlr_drm_backend) (i : Nat) (conn : wlr_drm_connector)
    (pending : wlr_output_state) : wlr_drm_backend :=
  match pending.buffer_type with
  | WLR_OUTPUT_STATE_BUFFER_SCANOUT =>
    let drm := emit drm (Event.wlr_buffer_unref conn.pending_buffer)
    let drm := emit drm (Event.wlr_buffer_ref pending.buffer)
    set_conn drm i { conn with pageflip_pending := true, pending_buffer := pending.buffer }
  | WLR_OUTPUT_STATE_BUFFER_RENDER =>
    set_conn drm i { conn with pageflip_pending := true }

/-- The `drm_connector_commit` for the output at position `i`; `pending` is
`output->pending`, whose buffer the `assert` requires to be committed. -/
def drm_connector_commit (env : Env) (drm : wlr_drm_backend) (i : Nat)
    (pending : wlr_output_state) : Option (wlr_drm_backend × Bool) :=
  match drm.outputs[i]? with
  | none => none
  | some conn =>
    if !drm.session_active then some (drm, false)
    else
      match conn.crtc with
      | none => some (drm, false)
      | some k =>
        match drm.crtcs[k]? with
        | none => none
        | some crtc =>
          match commit_acquire env drm k crtc conn pending with
          | (drm, none) => some (drm, false)
          | (drm, some fb_id) =>
            if conn.pageflip_pending then some (drm, false)
            else
              let ok := env.crtc_pageflip drm.log i k fb_id none
              let drm := emit drm (Event.crtc_pageflip i k fb_id none)
              if !ok then some (drm, false)
              else
                some (wlr_output_update_enabled (commit_retain drm i conn pending) i true, true)

/-- The `drm_connector_schedule_frame` for the output at position `i`. -/
def drm_connector_schedule_frame (env : Env) (drm : wlr_drm_backend) (i : Nat) :
    Option (wlr_drm_backend × Bool) :=
  match drm.outputs[i]? with
  | none => none
  | some conn =>
    if !drm.session_active then some (drm, false)
    else
      match conn.crtc with
      | none => some (drm, false)
      | some k =>
        match drm.crtcs[k]? with
        | none => none
        | some crtc =>
          match env.surf_back drm.log k with
          | none => some (wlr_output_send_frame drm i, true)
          | some b =>
            let copied : wlr_drm_backend × Option Nat :=
              if drm.parent then
                (emit drm (Event.copy_drm_surface_mgpu k (some b)),
                  env.copy_drm_surface_mgpu drm.log k (some b))
              else (drm, some b)
            let drm := copied.1
            let bo := copied.2
            if conn.pageflip_pending then some (drm, true)
            else
              let fb_id := env.get_fb_for_bo drm.log bo crtc.primary.drm_format
              let drm := emit drm (Event.get_fb_for_bo bo crtc.primary.drm_format)
              let ok := env.crtc_pageflip drm.log i k fb_id none
              let drm := emit drm (Event.crtc_pageflip i k fb_id none)
              if !ok then some (drm, false)
              else
                let drm := set_conn drm i { conn with pageflip_pending := true }
                some (wlr_output_update_enabled drm i true, true)

/-- The `strip_alpha_channel`. -/
def strip_alpha_channel (format : Nat) : Nat :=
  if format = DRM_FORMAT_ARGB8888 then DRM_FORMAT_XRGB8888 else DRM_FORMAT_INVALID

/-- Modelled from the spec: `wlr_drm_format_set_has` of render/drm_format_set.c,
which is not part of the sources; a plane has "a set of supported (format,
modifier) pairs" and the test is membership of the pair. -/
def wlr_drm_format_set_has (formats : List (Nat × Nat)) (format modifier : Nat) : Bool :=
  decide ((format, modifier) ∈ formats)

/-- The `drm_connector_attach_buffer` for the output at position `i`. -/
def drm_connector_attach_buffer (drm : wlr_drm_backend) (i : Nat) (buffer : wlr_buffer) :
    Option (wlr_drm_backend × Bool) :=
  match drm.outputs[i]? with
  | none => none
  | some conn =>
    if !drm.session_active then some (drm, false)
    else
      match conn.crtc with
      | none => some (drm, false)
      | some k =>
        match buffer.dmabuf with
        | none => some (drm, false)
        | some attribs =>
          if attribs.flags ≠ 0 then some (drm, false)
          else if attribs.width ≠ conn.width ∨ attribs.height ≠ conn.height then
            some (drm, false)
          else
            match drm.crtcs[k]? with
            | none => none
            | some crtc =>
              if !wlr_drm_format_set_has crtc.primary.formats attribs.format attribs.modifier
              then
                let format := strip_alpha_channel attribs.format
                if format ≠ DRM_FORMAT_INVALID ∧
                    wlr_drm_format_set_has crtc.primary.formats format attribs.modifier = true
                then
                  some (set_conn drm i
                    { conn with pending_dmabuf := some { attribs with format := format } }, true)
                else some (drm, false)
              else
                some (set_conn drm i { conn with pending_dmabuf := some attribs }, true)

/-- The timer callback `retry_pageflip` for the connector at position `i`. -/
def retry_pageflip (env : Env) (drm : wlr_drm_backend) (i : Nat) : Option wlr_drm_backend :=
  drm_connector_start_renderer env drm i

/-- The `drm_connector_set_mode` for the output at position `i`. -/
def drm_connector_set_mode (env : Env)
    (match_obj : Nat → List Nat → Nat → List Nat → List Nat)
    (drm : wlr_drm_backend) (i : Nat) (mode : wlr_output_mode) :
    Option (wlr_drm_backend × Bool) :=
  match drm.outputs[i]? with
  | none => none
  | some conn =>
    let reallocated : Option wlr_drm_backend :=
      if conn.crtc = none then realloc_crtcs env match_obj drm else some drm
    match reallocated with
    | none => none
    | some drm =>
      match drm.outputs[i]? with
      | none => none
      | some conn =>
        match conn.crtc with
        | none => some (set_conn drm i { conn with desired_mode := some mode }, false)
        | some k =>
          let ok := env.init_drm_plane_surfaces drm.log k mode.width mode.height
          let drm := emit drm (Event.init_drm_plane_surfaces k mode.width mode.height)
          if !ok then some (drm, false)
          else
            let drm := set_conn drm i { conn with state := WLR_DRM_CONN_CONNECTED,
                                                  desired_mode := none }
            let drm := wlr_output_update_mode drm i (some mode)
            let drm := wlr_output_update_enabled drm i true
            match drm.outputs[i]? with
            | none => none
            | some conn =>
              let drm := set_conn drm i { conn with desired_enabled := true }
              match drm_connector_start_renderer env drm i with
              | none => none
              | some drm => some (emit drm (Event.wlr_output_damage_whole i), true)

/-- The `attempt_enable_needs_modeset`: the connectors from position `i` on, `n`
of them. -/
def attempt_enable_needs_modeset_from (env : Env)
    (match_obj : Nat → List Nat → Nat → List Nat → List Nat) :
    Nat → Nat → wlr_drm_backend → Option wlr_drm_backend
  | 0, _, drm => some drm
  | n + 1, i, drm =>
    match drm.outputs[i]? with
    | none => some drm
    | some conn =>
      if conn.state = WLR_DRM_CONN_NEEDS_MODESET ∧ conn.crtc ≠ none ∧
          conn.desired_enabled = true then
        match conn.desired_mode with
        | none => attempt_enable_needs_modeset_from env match_obj n (i + 1) drm
        | some mode =>
          match drm_connector_set_mode env match_obj drm i mode with
          | none => none
          | some (drm, _) => attempt_enable_needs_modeset_from env match_obj n (i + 1) drm
      else attempt_enable_needs_modeset_from env match_obj n (i + 1) drm

/-- The `attempt_enable_needs_modeset`. -/
def attempt_enable_needs_modeset (env : Env)
    (match_obj : Nat → List Nat → Nat → List Nat → List Nat) (drm : wlr_drm_backend) :
    Option wlr_drm_backend :=
  attempt_enable_needs_modeset_from env match_obj drm.outputs.length 0 drm

/-- The `enable_drm_connector` for the output at position `i`. -/
def enable_drm_connector (env : Env)
    (match_obj : Nat → List Nat → Nat → List Nat → List Nat)
    (drm : wlr_drm_backend) (i : Nat) (enable : Bool) : Option (wlr_drm_backend × Bool) :=
  match drm.outputs[i]? with
  | none => none
  | some conn =>
    if conn.state ≠ WLR_DRM_CONN_CONNECTED ∧ conn.state ≠ WLR_DRM_CONN_NEEDS_MODESET then
      some (drm, false)
    else
      let drm := set_conn drm i { conn with desired_enabled := enable }
      let reallocated : Option wlr_drm_backend :=
        if enable = true ∧ conn.crtc = none then realloc_crtcs env match_obj drm else some drm
      match reallocated with
      | none => none
      | some drm =>
        let ok := env.conn_enable drm.log i enable
        let drm := emit drm (Event.conn_enable i enable)
        if !ok then some (drm, false)
        else
          let started : Option wlr_drm_backend :=
            if enable then drm_connector_start_renderer env drm i
            else
              match realloc_crtcs env match_obj drm with
              | none => none
              | some drm => attempt_enable_needs_modeset env match_obj drm
          match started with
          | none => none
          | some drm => some (wlr_output_update_enabled drm i enable, true)

/-! ## Page-flip completion and shutdown -/

/-- The connector `page_flip_handler` selects: the last one in the list whose
CRTC has the id `crtc_id`.  `i` is the position of the head of the list. -/
def find_flipped : List wlr_drm_connector → List wlr_drm_crtc → Nat → Nat → Option Nat →
    Option Nat
  | [], _, _, _, found => found
  | search :: rest, crtcs, crtc_id, i, found =>
    match search.crtc with
    | none => find_flipped rest crtcs crtc_id (i + 1) found
    | some k =>
      match crtcs[k]? with
      | none => find_flipped rest crtcs crtc_id (i + 1) found
      | some crtc =>
        if crtc.id = crtc_id then find_flipped rest crtcs crtc_id (i + 1) (some i)
        else find_flipped rest crtcs crtc_id (i + 1) found

/-- The `mhz_to_nsec`: `1000000000000LL / mhz` converted to `int`; dividing by
zero is undefined. -/
def mhz_to_nsec (mhz : Nat) : Option Int :=
  if mhz = 0 then none
  else some ((((1000000000000 / mhz + 2 ^ 31) % 2 ^ 32 : Nat) : Int) - 2 ^ 31)

/-- Modelled from the spec: `wlr_output_destroy` of types/wlr_output.c, which is
not part of the sources, reaching `drm_connector_destroy`: the connector leaves
the list ("destruction deferred until the flip completes"). -/
def wlr_output_destroy (drm : wlr_drm_backend) (i : Nat) : wlr_drm_backend :=
  emit { drm with outputs := drm.outputs.eraseIdx i } (Event.wlr_output_destroy i)

/-- The flags `page_flip_handler` puts into the presentation event, given the
buffer that has just become current. -/
def present_flags (current_buffer : Option wlr_buffer) : Nat :=
  if current_buffer ≠ none then
    WLR_OUTPUT_PRESENT_VSYNC ||| WLR_OUTPUT_PRESENT_HW_CLOCK |||
      WLR_OUTPUT_PRESENT_HW_COMPLETION ||| WLR_OUTPUT_PRESENT_ZERO_COPY
  else
    WLR_OUTPUT_PRESENT_VSYNC ||| WLR_OUTPUT_PRESENT_HW_CLOCK |||
      WLR_OUTPUT_PRESENT_HW_COMPLETION

/-- The `else` branch of the flag computation in `page_flip_handler`: the render
surface of the primary plane is posted and, with a parent GPU, the multi-GPU
surface as well. -/
def post_surfaces (drm : wlr_drm_backend) (k : Nat) : wlr_drm_backend :=
  if drm.parent then
    emit (emit drm (Event.post_drm_surface k false)) (Event.post_drm_surface k true)
  else emit drm (Event.post_drm_surface k false)

/-- The end of `page_flip_handler`, reached for a connected connector `conn` at
position `i` that holds the CRTC with index `k`: the buffers move on and the
presentation and frame events go out. -/
def page_flip_complete (drm : wlr_drm_backend) (ev : page_flip_event) (i k : Nat)
    (conn : wlr_drm_connector) : Option wlr_drm_backend :=
  match mhz_to_nsec conn.refresh with
  | none => none
  | some refresh =>
    let drm := emit drm (Event.wlr_buffer_unref conn.current_buffer)
    let drm := set_conn drm i
      { conn with current_buffer := conn.pending_buffer, pending_buffer := none }
    let drm := if conn.pending_buffer ≠ none then drm else post_surfaces drm k
    let drm := emit drm
      (Event.wlr_output_send_present i ev.seq refresh (present_flags conn.pending_buffer))
    some (if drm.session_active then wlr_output_send_frame drm i else drm)

/-- The `page_flip_handler`. -/
def page_flip_handler (drm : wlr_drm_backend) (ev : page_flip_event) :
    Option wlr_drm_backend :=
  match find_flipped drm.outputs drm.crtcs ev.crtc_id 0 none with
  | none => some drm
  | some i =>
    match drm.outputs[i]? with
    | none => none
    | some conn =>
      let drm := set_conn drm i { conn with pageflip_pending := false }
      if conn.state = WLR_DRM_CONN_DISAPPEARED then some (wlr_output_destroy drm i)
      else
        match conn.crtc with
        | none => some drm
        | some k =>
          if conn.state ≠ WLR_DRM_CONN_CONNECTED then some drm
          else page_flip_complete drm ev i k { conn with pageflip_pending := false }

/-- The `handle_drm_event`: `drmHandleEvent` reads the events the kernel has
queued and hands each to `page_flip_handler`. -/
def handle_drm_event : wlr_drm_backend → List page_flip_event → Option wlr_drm_backend
  | drm, [] => some drm
  | drm, ev :: rest =>
    match page_flip_handler drm ev with
    | none => none
    | some drm => handle_drm_event drm rest

/-- The first loop of `restore_drm_outputs`: every connected connector is moved
to the cleanup state. -/
def restore_mark_cleanup (outputs : List wlr_drm_connector) : List wlr_drm_connector :=
  outputs.map fun conn =>
    if conn.state = WLR_DRM_CONN_CONNECTED then { conn with state := WLR_DRM_CONN_CLEANUP }
    else conn

/-- The inner loop of the wait in `restore_drm_outputs`: bit `i` of `to_close`
is cleared for each connector that is not in the cleanup state with a flip
pending.  The mask `1 << i` is an `int`: positions from 31 on are undefined. -/
def restore_update_to_close : List wlr_drm_connector → Nat → Nat → Option Nat
  | [], _, to_close => some to_close
  | conn :: rest, i, to_close =>
    if conn.state ≠ WLR_DRM_CONN_CLEANUP ∨ conn.pageflip_pending = false then
      if 31 ≤ i then none
      else restore_update_to_close rest (i + 1) (to_close ^^^ (to_close &&& (1 <<< i)))
    else restore_update_to_close rest (i + 1) to_close

/-- The wait loop of `restore_drm_outputs`.  Each element of the first argument
is what one call of `handle_drm_event` reads; the list ends where the five
seconds are over. -/
def restore_wait : List (List page_flip_event) → wlr_drm_backend → Nat →
    Option wlr_drm_backend
  | [], drm, _ => some drm
  | batch :: rest, drm, to_close =>
    if to_close = 0 then some drm
    else
      match handle_drm_event drm batch with
      | none => none
      | some drm =>
        match restore_update_to_close drm.outputs 0 to_close with
        | none => none
        | some to_close => restore_wait rest drm to_close

/-- The last loop of `restore_drm_outputs`: the saved configuration of every
connector that has one is set again. -/
def restore_old_crtcs : List wlr_drm_connector → wlr_drm_backend → wlr_drm_backend
  | [], drm => drm
  | conn :: rest, drm =>
    match conn.old_crtc with
    | none => restore_old_crtcs rest drm
    | some crtc_id =>
      restore_old_crtcs rest
        (emit (emit drm (Event.drmModeSetCrtc crtc_id conn.id)) (Event.drmModeSetCursor crtc_id))

/-- The `restore_drm_outputs`.  `batches` is what the kernel delivers during the
wait.  The initial mask `(1L << n) - 1` is undefined from 63 connectors on. -/
def restore_drm_outputs (drm : wlr_drm_backend) (batches : List (List page_flip_event)) :
    Option wlr_drm_backend :=
  if 63 ≤ drm.outputs.length then none
  else
    let to_close := 2 ^ drm.outputs.length - 1
    let drm := { drm with outputs := restore_mark_cleanup drm.outputs }
    match restore_wait batches drm to_close with
    | none => none
    | some drm => some (restore_old_crtcs drm.outputs drm)

/-- The connector record `scan_drm_connectors` creates for a kernel connector it
has not seen before: zeroed by `calloc`, then given its state, id and saved
CRTC. -/
def new_connector (id : Nat) (old_crtc : Option Nat) : wlr_drm_connector :=
  { id := id, state := WLR_DRM_CONN_DISCONNECTED, crtc := none, possible_crtc := 0,
    desired_enabled := false, desired_mode := none, current_mode := none, modes := [],
    enabled := false, width := 0, height := 0, refresh := 0, needs_frame := false,
    frame_pending := false, pageflip_pending := false, pending_buffer := none,
    current_buffer := none, pending_dmabuf := none, old_crtc := old_crtc }

/-! ## The matcher, from the specification -/

/-- All arrays of length `num_res` whose entries are `UNMATCHED` or the index of
an object below `num_objs`. -/
def match_candidates (num_objs : Nat) : Nat → List (List Nat)
  | 0 => [[]]
  | num_res + 1 =>
    (match_candidates num_objs num_res).flatMap fun rest =>
      (UNMATCHED :: List.range num_objs).map fun v => rest ++ [v]

/-- An array `out` (resource to object) is a matching under the constraints
`objs`: resource `j` goes to object `i` only if bit `j` of `objs[i]` is set, and
no object gets two resources. -/
def match_valid (objs : List Nat) (out : List Nat) : Bool :=
  (List.range out.length).all fun j =>
    out.getD j UNMATCHED == UNMATCHED ||
      (Nat.testBit (objs.getD (out.getD j UNMATCHED) 0) j &&
        (List.range j).all fun j2 => out.getD j2 UNMATCHED != out.getD j UNMATCHED)

/-- The number of matched resources ("the count of satisfied wants"). -/
def match_score (out : List Nat) : Nat :=
  (out.filter fun v => v != UNMATCHED).length

/-- The number of resources that keep the object they had in `res` ("prior
pairs preserved"). -/
def match_kept (res out : List Nat) : Nat :=
  ((List.range out.length).filter fun j =>
    res.getD j UNMATCHED != UNMATCHED && out.getD j UNMATCHED == res.getD j UNMATCHED).length

/-- Array `a` is at least as good as `b`: more matched resources, or as many and
at least as many prior pairs preserved. -/
def match_at_least (res a b : List Nat) : Bool :=
  decide (match_score b < match_score a) ||
    (decide (match_score b = match_score a) && decide (match_kept res b ≤ match_kept res a))

/-- An array `out` is a result the specification allows for the constraints
`objs` and the previous assignment `res`: it is a matching and no matching is
strictly better. -/
def match_optimal (num_objs : Nat) (objs : List Nat) (num_res : Nat) (res out : List Nat) :
    Bool :=
  decide (out ∈ match_candidates num_objs num_res) && match_valid objs out &&
    (match_candidates num_objs num_res).all fun cand =>
      !match_valid objs cand || match_at_least res out cand

/-- Modelled from the spec: `match_obj` of backend/drm/util.c, which is not part
of the sources.  The allocator is "bipartite graph matching where connector i
may use CRTC j only if bit j is set in connector i's possible-CRTC mask",
"maximizing the count of satisfied wants, while preferring to keep a connector
on its currently-held CRTC"; a connector with an empty constraint "can never
match".  The model searches all arrays and returns the first optimal one. -/
def match_obj (num_objs : Nat) (objs : List Nat) (num_res : Nat) (res : List Nat) : List Nat :=
  ((match_candidates num_objs num_res).find? fun out =>
    match_optimal num_objs objs num_res res out).getD (List.replicate num_res UNMATCHED)

/-! ## Predicates on backend states -/

/-- The CRTC indices held by the connectors, in list order (with repetitions). -/
def held_crtcs (drm : wlr_drm_backend) : List Nat :=
  drm.outputs.filterMap fun conn => conn.crtc

/-- No two connectors hold the same CRTC: the multiset of assigned CRTC indices
has no duplicates. -/
def no_double_allocation (drm : wlr_drm_backend) : Prop :=
  (held_crtcs drm).Nodup

/-- The connector at position `i` holds CRTC `k`. -/
def holds (drm : wlr_drm_backend) (i k : Nat) : Prop :=
  ∃ conn, drm.outputs[i]? = some conn ∧ conn.crtc = some k

/-- Every `crtc` pointer of a connector points into the CRTC array. -/
def crtcs_in_range (drm : wlr_drm_backend) : Prop :=
  ∀ k ∈ held_crtcs drm, k < drm.crtcs.length

/-- Invariant (b) of the data model for one connector: a buffer that is not
`NULL` implies the connected state. -/
def buffers_only_connected (conn : wlr_drm_connector) : Prop :=
  (conn.pending_buffer ≠ none ∨ conn.current_buffer ≠ none) →
    conn.state = WLR_DRM_CONN_CONNECTED

/-- The weaker form of invariant (b) that shutdown keeps: a buffer that is not
`NULL` implies the connected or the cleanup state. -/
def buffers_only_connected_or_cleanup (conn : wlr_drm_connector) : Prop :=
  (conn.pending_buffer ≠ none ∨ conn.current_buffer ≠ none) →
    (conn.state = WLR_DRM_CONN_CONNECTED ∨ conn.state = WLR_DRM_CONN_CLEANUP)

/-- The log entry is a page-flip request. -/
def is_crtc_pageflip : Event → Bool
  | Event.crtc_pageflip _ _ _ _ => true
  | _ => false

/-- Backend `drm1` is `drm` with entries appended to the log, none of them a
page-flip request, and nothing else changed. -/
def logged_without_pageflip (drm drm1 : wlr_drm_backend) : Prop :=
  ∃ rest, drm1 = { drm with log := drm.log ++ rest } ∧ ∀ e ∈ rest, is_crtc_pageflip e = false

/-- The log entry is a page-flip request for the connector at position `i`. -/
def is_pageflip_of (i : Nat) : Event → Bool
  | Event.crtc_pageflip conn _ _ _ => conn == i
  | _ => false

instance (conn : wlr_drm_connector) : Decidable (buffers_only_connected conn) := by
  unfold buffers_only_connected; infer_instance

instance (conn : wlr_drm_connector) : Decidable (buffers_only_connected_or_cleanup conn) := by
  unfold buffers_only_connected_or_cleanup; infer_instance

instance (drm : wlr_drm_backend) : Decidable (no_double_allocation drm) := by
  unfold no_double_allocation; infer_instance

instance (drm : wlr_drm_backend) : Decidable (crtcs_in_range drm) := by
  unfold crtcs_in_range; infer_instance

/-! ## Concrete states used to exercise the definitions -/

/-- An environment in which every call succeeds; the hardware gamma ramp has
256 entries. -/
def env_accepting : Env :=
  { conn_enable := fun _ _ _ => true
    crtc_pageflip := fun _ _ _ _ _ => true
    crtc_set_gamma := fun _ _ _ _ => true
    crtc_get_gamma_size := fun _ => 256
    malloc := fun _ _ => true
    init_drm_plane_surfaces := fun _ _ _ _ => true
    swap_drm_surface_buffers := fun _ _ => some 1
    get_drm_surface_front := fun _ _ => some 1
    surf_back := fun _ _ => some 1
    copy_drm_surface_mgpu := fun _ _ bo => bo
    get_fb_for_bo := fun _ _ _ => 7
    import_gbm_bo := fun _ _ => some 2
    gbm_bo_get_format := fun _ => DRM_FORMAT_XRGB8888 }

/-- A 1920x1080 mode at 60 Hz. -/
def mode_1080p : wlr_output_mode :=
  { width := 1920, height := 1080, refresh := 60000, preferred := true }

/-- A primary plane that scans out XRGB8888 with the linear modifier 0. -/
def plane_xrgb : wlr_drm_plane :=
  { drm_format := DRM_FORMAT_XRGB8888, formats := [(DRM_FORMAT_XRGB8888, 0)] }

/-- A cursor plane that scans out ARGB8888 with the linear modifier 0. -/
def plane_cursor : wlr_drm_plane :=
  { drm_format := DRM_FORMAT_ARGB8888, formats := [(DRM_FORMAT_ARGB8888, 0)], type := 2 }

/-- A CRTC with the given kernel id, the primary plane `plane_xrgb`, the cursor
plane `plane_cursor` and no gamma table. -/
def crtc_with_id (id : Nat) : wlr_drm_crtc :=
  { id := id, primary := plane_xrgb, cursor := some plane_cursor, gamma_table := [],
    gamma_table_size := 0 }

/-- A CRTC with the given kernel id and the primary plane `plane_xrgb`, for
which no cursor plane has been found. -/
def crtc_bare (id : Nat) : wlr_drm_crtc :=
  { id := id, primary := plane_xrgb, cursor := none, gamma_table := [], gamma_table_size := 0 }

/-- A connector showing `mode_1080p` on the CRTC with index `k`. -/
def connector_on (id k : Nat) : wlr_drm_connector :=
  { new_connector id none with
    state := WLR_DRM_CONN_CONNECTED, crtc := some k, possible_crtc := 1 <<< k,
    desired_enabled := true, current_mode := some mode_1080p, modes := [mode_1080p],
    enabled := true, width := 1920, height := 1080, refresh := 60000 }

/-- A connector that waits for a modeset, without a CRTC, with the given
possible-CRTC mask. -/
def connector_waiting (id mask : Nat) : wlr_drm_connector :=
  { new_connector id none with
    state := WLR_DRM_CONN_NEEDS_MODESET, possible_crtc := mask, desired_enabled := true,
    modes := [mode_1080p] }

/-- A backend with an active session, the given CRTCs and connectors, and an
empty log. -/
def backend_of (crtcs : List wlr_drm_crtc) (outputs : List wlr_drm_connector) :
    wlr_drm_backend :=
  { session_active := true, parent := false, addfb2_modifiers := false,
    gbm_format := DRM_FORMAT_XRGB8888, crtcs := crtcs, outputs := outputs, log := [] }

/-- One CRTC, one connector showing a mode on it. -/
def backend_single : wlr_drm_backend :=
  backend_of [crtc_with_id 40] [connector_on 70 0]

/-- A pending output state with a rendered buffer. -/
def pending_render : wlr_output_state :=
  { buffer_type := WLR_OUTPUT_STATE_BUFFER_RENDER, buffer := none }

/-- The dmabuf attributes of a 1920x1080 buffer with the given format and the
linear modifier 0. -/
def client_attribs (format : Nat) : wlr_dmabuf_attributes :=
  { width := 1920, height := 1080, format := format, flags := 0, modifier := 0,
    n_planes := 1, offset := [0], stride := [7680], fd := [9] }

/-- A client buffer of 1920x1080 with the given format and the linear
modifier 0. -/
def client_buffer (format : Nat) : wlr_buffer :=
  { handle := 5, dmabuf := some (client_attribs format) }

/-- One CRTC whose primary plane scans out XBGR8888 only, one connector showing
a mode on it. -/
def backend_xbgr : wlr_drm_backend :=
  backend_of
    [{ crtc_with_id 40 with
        primary := { drm_format := DRM_FORMAT_XBGR8888, formats := [(DRM_FORMAT_XBGR8888, 0)] } }]
    [connector_on 70 0]

/-- The environment `env_accepting` with a hardware gamma ramp of 65539
entries. -/
def env_wide_gamma : Env :=
  { env_accepting with crtc_get_gamma_size := fun _ => 65539 }

/-- A completion event for the CRTC with kernel id 40. -/
def flip_event_40 : page_flip_event :=
  { seq := 1, tv_sec := 0, tv_usec := 0, crtc_id := 40 }

/-- One CRTC and two connected, wanted connectors; the first holds the CRTC, the
second holds none. -/
def backend_contended : wlr_drm_backend :=
  backend_of [crtc_with_id 40] [connector_on 70 0, { connector_on 71 0 with crtc := none }]

/-- The environment `env_accepting` in which `init_drm_plane_surfaces` fails. -/
def env_surfaces_failing : Env :=
  { env_accepting with init_drm_plane_surfaces := fun _ _ _ _ => false }

/-- Three CRTCs and four connectors.  Connector 0 waits for a modeset and can
only use CRTC 0; connector 1 shows a mode on CRTC 1 and can use CRTC 1 or 2;
connector 2 shows a mode on CRTC 0 but has been disabled by the user; connector
3 waits for a modeset and can only use CRTC 1. -/
def backend_hotplug : wlr_drm_backend :=
  backend_of [crtc_with_id 40, crtc_with_id 41, crtc_with_id 42]
    [connector_waiting 70 1,
     { connector_on 71 1 with possible_crtc := 6 },
     { connector_on 72 0 with desired_enabled := false },
     connector_waiting 73 2]

/-- One CRTC that nobody holds and one wanted connector that waits for a
modeset and can use it. -/
def backend_waiting : wlr_drm_backend :=
  backend_of [crtc_with_id 40] [connector_waiting 70 1]

/-- Backend `drm1` differs from `drm` at most in the connector at position `i`,
in the contents of CRTCs, and in the log: the connector list has the same
length and the same entries at every other position, and the CRTC array has the
same length. -/
def touches_only (i : Nat) (drm drm1 : wlr_drm_backend) : Prop :=
  drm1.outputs.length = drm.outputs.length ∧
  (∀ j, j ≠ i → drm1.outputs[j]? = drm.outputs[j]?) ∧
  drm1.crtcs.length = drm.crtcs.length

/-- Two CRTCs and two connectors: connector 0 shows a mode on CRTC 0 and can use
either CRTC; connector 1 waits for a modeset and can only use CRTC 0. -/
def backend_eviction : wlr_drm_backend :=
  backend_of [crtc_with_id 40, crtc_with_id 41]
    [{ connector_on 70 0 with possible_crtc := 3 }, connector_waiting 71 1]

/-- The scenario of the specification: two CRTCs and three connectors with the
possible-CRTC masks 0b01, 0b11 and 0b10; connector 0 shows a mode on CRTC 0,
connector 2 shows a mode on CRTC 1, and connector 1 has become wanted and waits
for a modeset. -/
def backend_scenario : wlr_drm_backend :=
  backend_of [crtc_with_id 40, crtc_with_id 41]
    [{ connector_on 70 0 with possible_crtc := 1 },
     connector_waiting 71 3,
     { connector_on 72 1 with possible_crtc := 2 }]

/-- One CRTC and one connected connector that scans out a client buffer. -/
def backend_scanout : wlr_drm_backend :=
  backend_of [crtc_with_id 40]
    [{ connector_on 70 0 with current_buffer := some (client_buffer DRM_FORMAT_XRGB8888) }]

/-- Two CRTCs; connector 0 scans out a client buffer on CRTC 0 and has been
disabled by the user; connector 1 waits for a modeset and can only use
CRTC 0. -/
def backend_disabled_scanout : wlr_drm_backend :=
  backend_of [crtc_with_id 40, crtc_with_id 41]
    [{ connector_on 70 0 with
        desired_enabled := false,
        current_buffer := some (client_buffer DRM_FORMAT_XRGB8888) },
     connector_waiting 71 1]

/-- Connector `c1` has the state and the buffers of connector `c`. -/
def same_state_and_buffers (c c1 : wlr_drm_connector) : Prop :=
  c1.state = c.state ∧ c1.pending_buffer = c.pending_buffer ∧
    c1.current_buffer = c.current_buffer

/-- The connector at position `i` of `drm1`, if `drm` has one there, has the
state and the buffers it has in `drm`. -/
def keeps_state_and_buffers (i : Nat) (drm drm1 : wlr_drm_backend) : Prop :=
  ∀ c, drm.outputs[i]? = some c →
    ∃ c1, drm1.outputs[i]? = some c1 ∧ same_state_and_buffers c c1

/-- A predicate on connectors that looks at the state and the buffers only, and
holds for every connected connector and for every connector without buffers. -/
def buffer_predicate (P : wlr_drm_connector → Prop) : Prop :=
  (∀ c c1, same_state_and_buffers c c1 → P c → P c1) ∧
  (∀ c, c.state = WLR_DRM_CONN_CONNECTED → P c) ∧
  (∀ c, c.pending_buffer = none → c.current_buffer = none → P c)

/-- One CRTC and one wanted connector that waits for a modeset and already
holds the CRTC. -/
def backend_waiting_on_crtc : wlr_drm_backend :=
  backend_of [crtc_with_id 40] [{ connector_waiting 70 1 with crtc := some 0 }]

/-- A pending output state with a client buffer for direct scan-out. -/
def pending_scanout : wlr_output_state :=
  { buffer_type := WLR_OUTPUT_STATE_BUFFER_SCANOUT,
    buffer := some (client_buffer DRM_FORMAT_XRGB8888) }

/-- The hardware gamma size of every CRTC is one for which the reset ramp is
defined: not 1 and below 2^32. -/
def gamma_defined (env : Env) (drm : wlr_drm_backend) : Prop :=
  ∀ k, k < drm.crtcs.length →
    env.crtc_get_gamma_size k ≠ 1 ∧ env.crtc_get_gamma_size k < 2 ^ 32

/-- Every connected connector has a current mode. -/
def modes_present (drm : wlr_drm_backend) : Prop :=
  ∀ c ∈ drm.outputs, c.state = WLR_DRM_CONN_CONNECTED → c.current_mode ≠ none

instance (env : Env) (drm : wlr_drm_backend) : Decidable (gamma_defined env drm) := by
  unfold gamma_defined; infer_instance

instance (drm : wlr_drm_backend) : Decidable (modes_present drm) := by
  unfold modes_present; infer_instance

/-- The log entries `dealloc_crtc` can produce: its own entry, the calls of the
gamma reset, the release of the two plane surfaces and the disabling of the
connector. -/
def dealloc_event : Event → Bool
  | Event.dealloc_crtc _ _ => true
  | Event.malloc _ => true
  | Event.crtc_set_gamma _ _ _ => true
  | Event.wlr_output_update_needs_frame _ => true
  | Event.finish_drm_surface _ _ => true
  | Event.conn_enable _ _ => true
  | _ => false

/-- The cursor planes of the CRTCs of a backend, in order. -/
def cursors_of (drm : wlr_drm_backend) : List (Option wlr_drm_plane) :=
  drm.crtcs.map fun crtc => crtc.cursor

/-- Every CRTC of the backend has a cursor plane. -/
def cursors_present (drm : wlr_drm_backend) : Prop :=
  ∀ cursor ∈ cursors_of drm, cursor ≠ none

instance (drm : wlr_drm_backend) : Decidable (cursors_present drm) := by
  unfold cursors_present; infer_instance

/-- Backend `drm1` is `drm` with the connector at position `i` replaced by `c1`
and the entries `rest` appended to the log; the CRTC array keeps its length and
its cursor planes, and the session flag and the parent are as before. -/
def replaces (drm drm1 : wlr_drm_backend) (i : Nat) (c1 : wlr_drm_connector)
    (rest : List Event) : Prop :=
  drm1.outputs = drm.outputs.set i c1 ∧ drm1.crtcs.length = drm.crtcs.length ∧
  drm1.log = drm.log ++ rest ∧ drm1.session_active = drm.session_active ∧
  drm1.parent = drm.parent ∧ cursors_of drm1 = cursors_of drm

/-- The backend `backend_single` after the session has been switched away. -/
def backend_inactive : wlr_drm_backend :=
  { backend_single with session_active := false }

/-- The backend `backend_inactive` with a CRTC for which no cursor plane has
been found. -/
def backend_inactive_bare : wlr_drm_backend :=
  { backend_inactive with crtcs := [crtc_bare 40] }

/-- The log entry arms a retry timer. -/
def is_timer_update : Event → Bool
  | Event.timer_update _ _ => true
  | _ => false

/-- Backend `drm1` is `drm` with entries appended to the log, none of which arms
a timer, and nothing else changed. -/
def logged_without_timer (drm drm1 : wlr_drm_backend) : Prop :=
  ∃ rest, drm1 = { drm with log := drm.log ++ rest } ∧ ∀ e ∈ rest, is_timer_update e = false

/-- The environment `env_accepting` in which every page-flip request is
rejected. -/
def env_flip_failing : Env :=
  { env_accepting with crtc_pageflip := fun _ _ _ _ _ => false }

/-! ## The DRM lease manager (types/wlr_drm_lease_v1.c) -/

/-- The `struct wlr_drm_lease_connector_v1`: the DRM connector it offers, the
lease that currently holds it (`active_lease`, by position in the list of
leases) and the client resources bound to it. -/
structure wlr_drm_lease_connector_v1 where
  drm_connector : Nat
  active_lease : Option Nat
  resources : List Nat
  deriving DecidableEq, Repr

/-- The `struct wlr_drm_lease_v1`: its list of `wlr_drm_connector_lease_v1`
entries, each given by the position of the lease connector it points to, and the
lessee id. -/
structure wlr_drm_lease_v1 where
  connectors : List Nat
  lessee_id : Nat
  deriving DecidableEq, Repr

/-- The `struct wlr_drm_lease_request_v1`: the `invalid` flag, the list of
`wlr_drm_connector_lease_v1` entries and the lease created at submission (by
position in the list of leases). -/
structure wlr_drm_lease_request_v1 where
  invalid : Bool
  connectors : List Nat
  lease : Option Nat
  deriving DecidableEq, Repr

/-- A call that leaves wlr_drm_lease_v1.c. -/
inductive LeaseEvent where
  | send_finished (lease : Nat)
  | drm_create_lease (conns : List Nat) (nconns : Nat)
  | send_withdrawn (resource : Nat)
  | set_user_data (resource : Nat)
  | send_lease_fd (lease : Nat) (fd : Int)
  | close (fd : Int)
  | wl_global_create
  deriving DecidableEq, Repr

/-- The `struct wlr_drm_lease_manager_v1` with the objects it owns: the lease
connectors, the leases, and the log of calls made so far. -/
structure wlr_drm_lease_manager_v1 where
  connectors : List wlr_drm_lease_connector_v1
  leases : List wlr_drm_lease_v1
  log : List LeaseEvent
  backend : Nat := 0
  deriving DecidableEq, Repr

/-- The loop of `drm_lease_request_v1_validate` over the entries of the request:
`some false` at the first entry whose connector has an active lease, `none` for
an entry that points to no connector. -/
def validate_connectors (conns : List wlr_drm_lease_connector_v1) :
    List Nat → Option Bool
  | [] => some true
  | c :: rest =>
    match conns[c]? with
    | none => none
    | some connector =>
      if connector.active_lease ≠ none then some false
      else validate_connectors conns rest

/-- The `drm_lease_request_v1_validate`. -/
def drm_lease_request_v1_validate (manager : wlr_drm_lease_manager_v1)
    (req : wlr_drm_lease_request_v1) : Option Bool :=
  if req.invalid then some false
  else validate_connectors manager.connectors req.connectors

/-- The loop that fills `conns` in `wlr_drm_lease_manager_v1_grant_lease_request`:
the DRM connector of each entry of the lease. -/
def lease_drm_connectors (conns : List wlr_drm_lease_connector_v1) :
    List Nat → Option (List Nat)
  | [] => some []
  | c :: rest =>
    match conns[c]?, lease_drm_connectors conns rest with
    | some connector, some out => some (connector.drm_connector :: out)
    | _, _ => none

/-- The last loop of `wlr_drm_lease_manager_v1_grant_lease_request`: every
connector of the lease gets the lease as its `active_lease`, and each of its
resources is withdrawn. -/
def lease_activate (lease : Nat) :
    List Nat → wlr_drm_lease_manager_v1 → Option wlr_drm_lease_manager_v1
  | [], manager => some manager
  | c :: rest, manager =>
    match manager.connectors[c]? with
    | none => none
    | some conn_lease =>
      lease_activate lease rest
        { manager with
          connectors := manager.connectors.set c { conn_lease with active_lease := some lease }
          log := manager.log ++ conn_lease.resources.flatMap fun r =>
            [LeaseEvent.send_withdrawn r, LeaseEvent.set_user_data r] }

/-- The `wlr_drm_lease_manager_v1_grant_lease_request`.  `drm_create_lease` of
the DRM backend is not part of the sources; it is a parameter that gives, for
the log, the connector array and its length, the file descriptor and the lessee
id it stores.  The result holds the manager, the request and the returned lease
(`none` for `NULL`).  A request without a lease fails the `assert`; the array
`conns` has `nconns + 1` elements, and filling it with more is undefined. -/
def wlr_drm_lease_manager_v1_grant_lease_request
    (drm_create_lease : List LeaseEvent → List Nat → Nat → Int × Nat)
    (manager : wlr_drm_lease_manager_v1) (request : wlr_drm_lease_request_v1) :
    Option (wlr_drm_lease_manager_v1 × wlr_drm_lease_request_v1 × Option Nat) :=
  match request.lease with
  | none => none
  | some l =>
    match manager.leases[l]? with
    | none => none
    | some lease =>
      match drm_lease_request_v1_validate manager request with
      | none => none
      | some false =>
        some ({ manager with log := manager.log ++ [LeaseEvent.send_finished l] }, request, none)
      | some true =>
        let nconns := request.connectors.length
        let lease := { lease with connectors := request.connectors.reverse ++ lease.connectors }
        let request := { request with connectors := [] }
        if nconns + 1 < lease.connectors.length then none
        else
          match lease_drm_connectors manager.connectors lease.connectors with
          | none => none
          | some conns =>
            let created := drm_create_lease manager.log conns nconns
            let lease := { lease with lessee_id := created.2 }
            let manager := { manager with
              leases := manager.leases.set l lease
              log := manager.log ++ [LeaseEvent.drm_create_lease conns nconns] }
            if created.1 < 0 then
              some ({ manager with log := manager.log ++ [LeaseEvent.send_finished l] },
                request, none)
            else
              match lease_activate l lease.connectors manager with
              | none => none
              | some manager =>
                some ({ manager with log := manager.log ++
                  [LeaseEvent.send_lease_fd l created.1, LeaseEvent.close created.1] },
                  request, some l)

/-- A lease manager with two connectors, the second of which is leased to lease
0, and two leases. -/
def manager_one_leased : wlr_drm_lease_manager_v1 :=
  { connectors := [{ drm_connector := 70, active_lease := none, resources := [11] },
                   { drm_connector := 71, active_lease := some 0, resources := [] }]
    leases := [{ connectors := [1], lessee_id := 5 }, { connectors := [], lessee_id := 0 }]
    log := [] }

/-! ## Feature detection -/

/-- The `DRM_CAP_PRIME` of drm.h. -/
def DRM_CAP_PRIME : Nat := 0x5
/-- The `DRM_PRIME_CAP_IMPORT` of drm.h. -/
def DRM_PRIME_CAP_IMPORT : Nat := 0x1
/-- The `DRM_PRIME_CAP_EXPORT` of drm.h. -/
def DRM_PRIME_CAP_EXPORT : Nat := 0x2
/-- The `DRM_CAP_TIMESTAMP_MONOTONIC` of drm.h. -/
def DRM_CAP_TIMESTAMP_MONOTONIC : Nat := 0x6
/-- The `DRM_CAP_CURSOR_WIDTH` of drm.h. -/
def DRM_CAP_CURSOR_WIDTH : Nat := 0x8
/-- The `DRM_CAP_CURSOR_HEIGHT` of drm.h. -/
def DRM_CAP_CURSOR_HEIGHT : Nat := 0x9
/-- The `DRM_CAP_ADDFB2_MODIFIERS` of drm.h. -/
def DRM_CAP_ADDFB2_MODIFIERS : Nat := 0x10
/-- The `DRM_CAP_CRTC_IN_VBLANK_EVENT` of drm.h. -/
def DRM_CAP_CRTC_IN_VBLANK_EVENT : Nat := 0x12
/-- The `DRM_CLIENT_CAP_UNIVERSAL_PLANES` of drm.h. -/
def DRM_CLIENT_CAP_UNIVERSAL_PLANES : Nat := 2
/-- The `DRM_CLIENT_CAP_ATOMIC` of drm.h. -/
def DRM_CLIENT_CAP_ATOMIC : Nat := 3

/-- The answers of libdrm about capabilities, each as a function of the log at
the moment of the call and of the call's arguments, and the value of the
environment variable `WLR_DRM_NO_ATOMIC`.  `drmGetCap` gives its return value
and the value it stores; its first argument tells whether the file descriptor
is the parent's. -/
structure Caps where
  drmGetCap : List Event → Bool → Nat → Int × Nat
  drmSetClientCap : List Event → Nat → Nat → Int
  getenv_no_atomic : Option String

/-- The first part of `check_drm_features`: with a parent GPU, PRIME import on
this device and PRIME export on the parent are required.  The flag is false
where the C code returns false. -/
def check_prime (caps : Caps) (drm : wlr_drm_backend) : wlr_drm_backend × Bool :=
  if drm.parent then
    if (caps.drmGetCap drm.log false DRM_CAP_PRIME).1 ≠ 0 ∨
        (caps.drmGetCap drm.log false DRM_CAP_PRIME).2 &&& DRM_PRIME_CAP_IMPORT = 0 then
      (emit drm (Event.drmGetCap false DRM_CAP_PRIME), false)
    else if (caps.drmGetCap (emit drm (Event.drmGetCap false DRM_CAP_PRIME)).log true
          DRM_CAP_PRIME).1 ≠ 0 ∨
        (caps.drmGetCap (emit drm (Event.drmGetCap false DRM_CAP_PRIME)).log true
          DRM_CAP_PRIME).2 &&& DRM_PRIME_CAP_EXPORT = 0 then
      (emit (emit drm (Event.drmGetCap false DRM_CAP_PRIME))
        (Event.drmGetCap true DRM_CAP_PRIME), false)
    else
      (emit (emit drm (Event.drmGetCap false DRM_CAP_PRIME))
        (Event.drmGetCap true DRM_CAP_PRIME), true)
  else (drm, true)

/-- The choice of the interface in `check_drm_features`: the environment
variable is read, and unless it is "1" the atomic client capability is
requested. -/
def select_iface (caps : Caps) (drm : wlr_drm_backend) : wlr_drm_backend :=
  if caps.getenv_no_atomic = some "1" then
    { emit drm Event.getenv_no_atomic with iface := some legacy_iface }
  else if caps.drmSetClientCap (emit drm Event.getenv_no_atomic).log DRM_CLIENT_CAP_ATOMIC 1 ≠ 0
  then
    { emit (emit drm Event.getenv_no_atomic) (Event.drmSetClientCap DRM_CLIENT_CAP_ATOMIC 1) with
      iface := some legacy_iface }
  else
    { emit (emit drm Event.getenv_no_atomic) (Event.drmSetClientCap DRM_CLIENT_CAP_ATOMIC 1) with
      iface := some atomic_iface }

/-- The end of `check_drm_features`: the clock and the support of modifiers. -/
def select_clock (caps : Caps) (drm : wlr_drm_backend) : wlr_drm_backend :=
  let ret := caps.drmGetCap drm.log false DRM_CAP_TIMESTAMP_MONOTONIC
  let drm := emit drm (Event.drmGetCap false DRM_CAP_TIMESTAMP_MONOTONIC)
  let drm := { drm with clock := if ret.1 = 0 ∧ ret.2 = 1 then 1 else 0 }
  let ret := caps.drmGetCap drm.log false DRM_CAP_ADDFB2_MODIFIERS
  let drm := emit drm (Event.drmGetCap false DRM_CAP_ADDFB2_MODIFIERS)
  { drm with addfb2_modifiers := decide (ret.1 = 0 ∧ ret.2 = 1) }

/-- The `check_drm_features`. -/
def check_drm_features (caps : Caps) (drm : wlr_drm_backend) : wlr_drm_backend × Bool :=
  if (check_prime caps drm).2 = false then ((check_prime caps drm).1, false)
  else
    let drm := (check_prime caps drm).1
    if caps.drmSetClientCap drm.log DRM_CLIENT_CAP_UNIVERSAL_PLANES 1 ≠ 0 then
      (emit drm (Event.drmSetClientCap DRM_CLIENT_CAP_UNIVERSAL_PLANES 1), false)
    else
      let drm := emit drm (Event.drmSetClientCap DRM_CLIENT_CAP_UNIVERSAL_PLANES 1)
      if (caps.drmGetCap drm.log false DRM_CAP_CRTC_IN_VBLANK_EVENT).1 ≠ 0 ∨
          (caps.drmGetCap drm.log false DRM_CAP_CRTC_IN_VBLANK_EVENT).2 = 0 then
        (emit drm (Event.drmGetCap false DRM_CAP_CRTC_IN_VBLANK_EVENT), false)
      else
        let drm := emit drm (Event.drmGetCap false DRM_CAP_CRTC_IN_VBLANK_EVENT)
        (select_clock caps (select_iface caps drm), true)

/-- The log entry requests the atomic client capability. -/
def is_atomic_request : Event → Bool
  | Event.drmSetClientCap cap _ => cap == DRM_CLIENT_CAP_ATOMIC
  | _ => false

/-- A device with every capability, on which no environment variable is set. -/
def caps_full : Caps :=
  { drmGetCap := fun _ _ _ => (0, 1)
    drmSetClientCap := fun _ _ _ => 0
    getenv_no_atomic := none }

/-- The device `caps_full` with `WLR_DRM_NO_ATOMIC=1` in the environment. -/
def caps_no_atomic : Caps :=
  { caps_full with getenv_no_atomic := some "1" }

/-! ## The hardware cursor -/

/-- The results of the calls that `drm_connector_set_cursor` and
`drm_connector_move_cursor` make outside drm.c, each as a function of the log at
the moment of the call and of the call's arguments.  The render surface of the
cursor plane of a CRTC belongs to renderer.c: `surf_gbm` tells whether
`plane->surf.gbm` is set, `surf_width` and `surf_height` give its size and
`surf_back` its back buffer.  The last three are the pure helpers of
types/wlr_box.c and types/wlr_output.c. -/
structure CursorEnv where
  calloc_plane : List Event → Nat → Bool
  drmGetCap : List Event → Nat → Int × Nat
  surf_gbm : List Event → Nat → Bool
  surf_width : List Event → Nat → Int
  surf_height : List Event → Nat → Int
  init_drm_surface : List Event → Nat → Bool → Nat → Nat → Bool
  surf_back : List Event → Nat → Option Nat
  copy_drm_surface_mgpu : List Event → Nat → Nat → Option Nat
  crtc_set_cursor : List Event → Nat → Option Nat → Bool
  crtc_move_cursor : List Event → Nat → Int → Int → Bool
  wlr_output_transform_invert : Nat → Nat
  wlr_box_transform : Int → Int → Nat → Int → Int → Int × Int
  wlr_output_transformed_resolution : Nat → Nat → Nat → Int × Int

/-- The plane `calloc` returns: all fields zero. -/
def zeroed_plane : wlr_drm_plane :=
  { drm_format := 0, formats := [] }

/-- Store `plane` as the cursor plane of the CRTC with index `k`. -/
def set_cursor_plane (drm : wlr_drm_backend) (k : Nat) (plane : wlr_drm_plane) :
    wlr_drm_backend :=
  match drm.crtcs[k]? with
  | none => drm
  | some crtc => set_crtc drm k { crtc with cursor := some plane }

/-- The start of `drm_connector_set_cursor`: the cursor plane of the CRTC, or a
freshly allocated one where the CRTC has none; `none` where the allocation
fails. -/
def cursor_plane (cenv : CursorEnv) (drm : wlr_drm_backend) (k : Nat) (crtc : wlr_drm_crtc) :
    wlr_drm_backend × Option wlr_drm_plane :=
  match crtc.cursor with
  | some plane => (drm, some plane)
  | none =>
    if cenv.calloc_plane drm.log k then
      (set_cursor_plane (emit drm (Event.calloc_plane k)) k zeroed_plane, some zeroed_plane)
    else (emit drm (Event.calloc_plane k), none)

/-- The block `if (!plane->surf.gbm)` of `drm_connector_set_cursor`: the size of
the cursor is asked for (64 where the kernel does not tell) and the render
surfaces are set up.  The flag is false where the C code returns false. -/
def cursor_surfaces (cenv : CursorEnv) (drm : wlr_drm_backend) (k : Nat) :
    wlr_drm_backend × Bool :=
  if cenv.surf_gbm drm.log k then (drm, true)
  else
    let rw := cenv.drmGetCap drm.log DRM_CAP_CURSOR_WIDTH
    let drm := emit drm (Event.drmGetCap false DRM_CAP_CURSOR_WIDTH)
    let w := if rw.1 ≠ 0 then 64 else rw.2
    let rh := cenv.drmGetCap drm.log DRM_CAP_CURSOR_HEIGHT
    let drm := emit drm (Event.drmGetCap false DRM_CAP_CURSOR_HEIGHT)
    let h := if rh.1 ≠ 0 then 64 else rh.2
    if cenv.init_drm_surface drm.log k false w h = false then
      (emit drm (Event.init_drm_surface k false w h), false)
    else if drm.parent = false then (emit drm (Event.init_drm_surface k false w h), true)
    else
      let drm := emit drm (Event.init_drm_surface k false w h)
      (emit drm (Event.init_drm_surface k true w h), cenv.init_drm_surface drm.log k true w h)

/-- The update of the hotspot in `drm_connector_set_cursor`, for the connector
`conn` at position `i` on CRTC `k` with cursor plane `plane`; `hotspot` is the
transformed hotspot.  The result holds the plane, and the flag is false where
the C code returns false. -/
def cursor_hotspot (cenv : CursorEnv) (drm : wlr_drm_backend) (i k : Nat)
    (conn : wlr_drm_connector) (plane : wlr_drm_plane) (hotspot : Int × Int) :
    wlr_drm_backend × wlr_drm_plane × Bool :=
  if plane.cursor_hotspot_x ≠ hotspot.1 ∨ plane.cursor_hotspot_y ≠ hotspot.2 then
    let x := conn.cursor_x - (hotspot.1 - plane.cursor_hotspot_x)
    let y := conn.cursor_y - (hotspot.2 - plane.cursor_hotspot_y)
    let plane := { plane with cursor_hotspot_x := hotspot.1, cursor_hotspot_y := hotspot.2 }
    let drm := set_conn drm i { conn with cursor_x := x, cursor_y := y }
    let drm := set_cursor_plane drm k plane
    let ok := cenv.crtc_move_cursor drm.log k x y
    let drm := emit drm (Event.crtc_move_cursor k x y)
    if ok then (wlr_output_update_needs_frame drm i, plane, true)
    else (drm, plane, false)
  else (drm, plane, true)

/-- The conversion of a `float` to `int`: the fraction is dropped. -/
def float_to_int (q : Rat) : Int :=
  if 0 ≤ q then Rat.floor q else Rat.ceil q

/-- The drawing of the cursor image in `drm_connector_set_cursor`.  `texture`
is the size `wlr_texture_get_size` reports, `none` for a `NULL` texture.  The
result holds the plane, and the flag is false where the C code returns false.
The calls that draw the texture, from `make_drm_surface_current` to
`wlr_renderer_end`, are one entry of the log.  Scaling by a `scale` of 0 has no
defined result. -/
def cursor_texture (cenv : CursorEnv) (drm : wlr_drm_backend) (k : Nat)
    (conn : wlr_drm_connector) (plane : wlr_drm_plane) (texture : Option (Int × Int))
    (scale : Int) (transform : Nat) : Option (wlr_drm_backend × wlr_drm_plane × Bool) :=
  let plane := { plane with cursor_enabled := false }
  match texture with
  | none => some (set_cursor_plane drm k plane, plane, true)
  | some size =>
    if scale = 0 then none
    else
      let width := float_to_int ((size.1 : Rat) * conn.scale / (scale : Rat))
      let height := float_to_int ((size.2 : Rat) * conn.scale / (scale : Rat))
      if width > cenv.surf_width drm.log k ∨ height > cenv.surf_height drm.log k then
        some (set_cursor_plane drm k plane, plane, false)
      else
        let drm := emit drm (Event.render_cursor k width height transform)
        let drm := emit drm (Event.swap_cursor_buffers k)
        let plane := { plane with cursor_enabled := true }
        some (set_cursor_plane drm k plane, plane, true)

/-- The end of `drm_connector_set_cursor`, reached with an active session: the
buffer is handed to the interface. -/
def cursor_commit (cenv : CursorEnv) (drm : wlr_drm_backend) (i k : Nat)
    (plane : wlr_drm_plane) : wlr_drm_backend × Bool :=
  let bo : Option Nat := if plane.cursor_enabled then cenv.surf_back drm.log k else none
  let copied : wlr_drm_backend × Option Nat :=
    match bo with
    | some b =>
      if drm.parent then
        (emit drm (Event.copy_cursor_mgpu k b), cenv.copy_drm_surface_mgpu drm.log k b)
      else (drm, some b)
    | none => (drm, none)
  let drm := copied.1
  let bo := copied.2
  let drm := if bo ≠ none then emit drm Event.glFinish else drm
  let ok := cenv.crtc_set_cursor drm.log k bo
  let drm := emit drm (Event.crtc_set_cursor k bo)
  if ok then (wlr_output_update_needs_frame drm i, true) else (drm, false)

/-- The `drm_connector_set_cursor` for the output at position `i`.  The
arithmetic on the cursor position is that of unbounded integers.  The
projection matrix of the plane, which only the renderer reads, is left out. -/
def drm_connector_set_cursor (cenv : CursorEnv) (drm : wlr_drm_backend) (i : Nat)
    (texture : Option (Int × Int)) (scale : Int) (transform : Nat)
    (hotspot_x hotspot_y : Int) (update_texture : Bool) : Option (wlr_drm_backend × Bool) :=
  match drm.outputs[i]? with
  | none => none
  | some conn =>
    match conn.crtc with
    | none => some (drm, false)
    | some k =>
      match drm.crtcs[k]? with
      | none => none
      | some crtc =>
        match cursor_plane cenv drm k crtc with
        | (drm, none) => some (drm, false)
        | (drm, some plane) =>
          match cursor_surfaces cenv drm k with
          | (drm, false) => some (drm, false)
          | (drm, true) =>
            let hotspot := cenv.wlr_box_transform hotspot_x hotspot_y
              (cenv.wlr_output_transform_invert conn.transform)
              (cenv.surf_width drm.log k) (cenv.surf_height drm.log k)
            match cursor_hotspot cenv drm i k conn plane hotspot with
            | (drm, _, false) => some (drm, false)
            | (drm, plane, true) =>
              if !update_texture then some (drm, true)
              else
                match drm.outputs[i]? with
                | none => none
                | some conn =>
                  match cursor_texture cenv drm k conn plane texture scale transform with
                  | none => none
                  | some (drm, _, false) => some (drm, false)
                  | some (drm, plane, true) =>
                    if !drm.session_active then some (drm, true)
                    else some (cursor_commit cenv drm i k plane)

/-- The `drm_connector_move_cursor` for the output at position `i`. -/
def drm_connector_move_cursor (cenv : CursorEnv) (drm : wlr_drm_backend) (i : Nat)
    (x y : Int) : Option (wlr_drm_backend × Bool) :=
  match drm.outputs[i]? with
  | none => none
  | some conn =>
    match conn.crtc with
    | none => some (drm, false)
    | some k =>
      match drm.crtcs[k]? with
      | none => none
      | some crtc =>
        let size := cenv.wlr_output_transformed_resolution conn.width conn.height conn.transform
        let box := cenv.wlr_box_transform x y (cenv.wlr_output_transform_invert conn.transform)
          size.1 size.2
        let box : Int × Int :=
          match crtc.cursor with
          | some plane => (box.1 - plane.cursor_hotspot_x, box.2 - plane.cursor_hotspot_y)
          | none => box
        let drm := set_conn drm i { conn with cursor_x := box.1, cursor_y := box.2 }
        if !drm.session_active then some (drm, true)
        else
          let ok := cenv.crtc_move_cursor drm.log k box.1 box.2
          let drm := emit drm (Event.crtc_move_cursor k box.1 box.2)
          if ok then some (wlr_output_update_needs_frame drm i, true) else some (drm, false)

/-- The log entry is a call of the interface's `crtc_set_cursor` or
`crtc_move_cursor`. -/
def is_cursor_call : Event → Bool
  | Event.crtc_set_cursor _ _ => true
  | Event.crtc_move_cursor _ _ _ => true
  | _ => false

/-- A cursor environment in which every call succeeds, the cursor surface exists
with 64x64 pixels, and no transform is applied. -/
def cenv_accepting : CursorEnv :=
  { calloc_plane := fun _ _ => true
    drmGetCap := fun _ _ => (0, 64)
    surf_gbm := fun _ _ => true
    surf_width := fun _ _ => 64
    surf_height := fun _ _ => 64
    init_drm_surface := fun _ _ _ _ _ => true
    surf_back := fun _ _ => some 3
    copy_drm_surface_mgpu := fun _ _ b => some b
    crtc_set_cursor := fun _ _ _ => true
    crtc_move_cursor := fun _ _ _ _ => true
    wlr_output_transform_invert := fun t => t
    wlr_box_transform := fun x y _ _ _ => (x, y)
    wlr_output_transformed_resolution := fun w h _ => (w, h) }

/-- What one iteration of the loop "Apply new configuration" of `realloc_crtcs`
makes of the connector `c` at position `i`: `c1` is the connector afterwards and
`rest` a list that holds the log entries of the iteration. -/
def step_post (cm : List (Option Nat)) (i : Nat) (c c1 : wlr_drm_connector)
    (rest : List Event) : Prop :=
  (c1.crtc = none ∨ c1.crtc = cm.getD i none) ∧
  (c1.state = WLR_DRM_CONN_CONNECTED → c1.current_mode ≠ none) ∧
  (cm.getD i none = none → c1.crtc = none) ∧
  (cm.getD i none = none → c.crtc = none → c1 = c) ∧
  (cm.getD i none = none → c.crtc ≠ none →
    c1.state = WLR_DRM_CONN_NEEDS_MODESET ∧ c1.desired_mode = c.current_mode ∧
    c1.current_mode = none ∧ c1.enabled = false ∧
    Event.wlr_output_update_enabled i false ∈ rest) ∧
  (∀ k, cm.getD i none = some k →
    (c1.crtc = some k ∧ c1.state = c.state) ∨
    (c1.crtc = none ∧ c.state = WLR_DRM_CONN_CONNECTED ∧
      c1.state = WLR_DRM_CONN_DISCONNECTED)) ∧
  (c1.state = WLR_DRM_CONN_CONNECTED →
    c1.current_mode.map (fun mode => mode.refresh) ≠ some 0)

/-- The conditions under which every step of `realloc_crtcs` is defined: the
CRTC array has `n` entries, each with a cursor plane and with a gamma size for
which the reset ramp is defined, every CRTC held lies in the array, and every
connected connector has a current mode whose refresh is not 0. -/
def realloc_ready (env : Env) (n : Nat) (drm : wlr_drm_backend) : Prop :=
  drm.crtcs.length = n ∧ gamma_defined env drm ∧
  (∀ c ∈ drm.outputs, (∀ k, c.crtc = some k → k < n) ∧
    (c.state = WLR_DRM_CONN_CONNECTED → c.current_mode ≠ none) ∧
    (c.state = WLR_DRM_CONN_CONNECTED →
      c.current_mode.map (fun mode => mode.refresh) ≠ some 0)) ∧
  cursors_present drm

/-- The `connector_match` array `realloc_crtcs` computes in the backend `drm`
from what the matcher `match_obj` returns. -/
def connector_match (match_obj : Nat → List Nat → Nat → List Nat → List Nat)
    (drm : wlr_drm_backend) : List (Option Nat) :=
  connector_match_of drm.outputs.length drm.crtcs.length
    (match_obj drm.outputs.length (connector_constraints drm) drm.crtcs.length
      (previous_match drm))

/-- The matcher that returns CRTC 0 to connector 0, CRTC 1 to connector 3 and
CRTC 2 to connector 1, whatever it is asked. -/
def matcher_hotplug : Nat → List Nat → Nat → List Nat → List Nat :=
  fun _ _ _ _ => [0, 3, 1]

/-! ## Scanning the connectors -/

/-- The `DRM_MODE_CONNECTED` of xf86drmMode.h. -/
def DRM_MODE_CONNECTED : Nat := 1
/-- The `DRM_MODE_LINK_STATUS_BAD` of drm_mode.h. -/
def DRM_MODE_LINK_STATUS_BAD : Nat := 1
/-- The `DRM_MODE_FLAG_INTERLACE` of drm_mode.h. -/
def DRM_MODE_FLAG_INTERLACE : Nat := 16
/-- The `DRM_MODE_TYPE_PREFERRED` of drm_mode.h. -/
def DRM_MODE_TYPE_PREFERRED : Nat := 8
/-- The `DRM_MODE_ENCODER_DPMST` of drm_mode.h. -/
def DRM_MODE_ENCODER_DPMST : Nat := 7

/-- The fields of `drmModeEncoder` that drm.c reads. -/
structure drmModeEncoder where
  encoder_type : Nat
  crtc_id : Nat
  possible_crtcs : Nat
  deriving DecidableEq, Repr

/-- The fields of `drmModeConnector` that drm.c reads. -/
structure drmModeConnector where
  connector_id : Nat
  encoder_id : Nat
  connection : Nat
  modes : List drmModeModeInfo
  encoders : List Nat
  deriving DecidableEq, Repr

/-- The fields of `drmModeRes` that `scan_drm_connectors` reads. -/
structure drmModeRes where
  connectors : List Nat
  encoders : List Nat
  deriving DecidableEq, Repr

/-- What the kernel and the allocator answer during one scan.  The queries of
libdrm give the same answer throughout the scan; the allocations depend on the
log.  `get_link_status` is the call of `get_drm_prop` for the property
`link_status` of a connector (`none` where it fails), and
`get_drm_connector_props` gives the property ids `link_status` and `path` that
`get_drm_connector_props` of properties.c stores. -/
structure Kernel where
  drmModeGetResources : Option drmModeRes
  drmModeGetConnector : Nat → Option drmModeConnector
  drmModeGetEncoder : Nat → Option drmModeEncoder
  drmModeGetCrtc : Nat → Option Nat
  get_link_status : Nat → Option Nat
  get_drm_connector_props : Nat → Nat × Nat
  calloc_connector : List Event → Nat → Bool
  calloc_mode : List Event → Nat → Bool

/-- The local state of `scan_drm_connectors`: the backend, the array `seen` and
the array `new_outputs` (by position in the connector list). -/
structure scan_state where
  drm : wlr_drm_backend
  seen : List Bool
  new_outputs : List Nat

/-- The first loop of `get_possible_crtcs`, and its second loop when `mst` is
set: the masks of the encoders that can be read, restricted to DP MST encoders
in the second loop, are or-ed together. -/
def possible_crtcs_of (kernel : Kernel) (mst : Bool) : List Nat → Nat → Nat
  | [], ret => ret
  | e :: rest, ret =>
    match kernel.drmModeGetEncoder e with
    | none => possible_crtcs_of kernel mst rest ret
    | some enc =>
      if mst = true ∧ enc.encoder_type ≠ DRM_MODE_ENCODER_DPMST then
        possible_crtcs_of kernel mst rest ret
      else possible_crtcs_of kernel mst rest (ret ||| enc.possible_crtcs)

/-- The `get_possible_crtcs`. -/
def get_possible_crtcs (kernel : Kernel) (res : drmModeRes) (conn : drmModeConnector)
    (is_mst : Bool) : Nat :=
  let ret := possible_crtcs_of kernel false conn.encoders 0
  if is_mst = false ∨ ret ≠ 0 then ret
  else possible_crtcs_of kernel true res.encoders ret

/-- The loop over the modes of a kernel connector in `scan_drm_connectors`: each
mode that can be allocated and is not interlaced is put at the head of the mode
list of the connector at position `i`. -/
def scan_modes (kernel : Kernel) (i : Nat) :
    List drmModeModeInfo → wlr_drm_backend → List wlr_output_mode →
      wlr_drm_backend × List wlr_output_mode
  | [], drm, modes => (drm, modes)
  | m :: rest, drm, modes =>
    if kernel.calloc_mode drm.log i = false then
      scan_modes kernel i rest (emit drm (Event.calloc_mode i)) modes
    else if m.flags &&& DRM_MODE_FLAG_INTERLACE ≠ 0 then
      scan_modes kernel i rest (emit drm (Event.calloc_mode i)) modes
    else
      scan_modes kernel i rest (emit drm (Event.calloc_mode i))
        ({ width := m.hdisplay, height := m.vdisplay, refresh := m.refresh_rate,
           preferred := decide (m.type &&& DRM_MODE_TYPE_PREFERRED ≠ 0), drm_mode := m } :: modes)

/-- The position of the first connector with the kernel id `id`. -/
def find_connector : List wlr_drm_connector → Nat → Nat → Option Nat
  | [], _, _ => none
  | c :: rest, id, index => if c.id = id then some index else find_connector rest id (index + 1)

/-- The index of the first CRTC with the kernel id `id`. -/
def find_crtc : List wlr_drm_crtc → Nat → Nat → Option Nat
  | [], _, _ => none
  | c :: rest, id, index => if c.id = id then some index else find_crtc rest id (index + 1)

/-- The end of one iteration of the first loop of `scan_drm_connectors`, for
the connector at position `i` and the kernel connector `drm_conn`: a connector
that has been plugged in gets its modes and waits for a modeset, and one that
has been unplugged is cleaned up. -/
def scan_connection (env : Env) (kernel : Kernel) (res : drmModeRes) (st : scan_state)
    (i : Nat) (drm_conn : drmModeConnector) : Option scan_state :=
  match st.drm.outputs[i]? with
  | none => none
  | some wlr_conn =>
    if wlr_conn.state = WLR_DRM_CONN_DISCONNECTED ∧
        drm_conn.connection = DRM_MODE_CONNECTED then
      let props := kernel.get_drm_connector_props wlr_conn.id
      let drm := emit st.drm (Event.get_drm_connector_props i)
      let drm := emit drm (Event.parse_edid i)
      let scanned := scan_modes kernel i drm_conn.modes drm wlr_conn.modes
      let drm := scanned.1
      let wlr_conn := { wlr_conn with
        props_link_status := props.1, props_path := props.2, modes := scanned.2,
        possible_crtc := get_possible_crtcs kernel res drm_conn (decide (props.2 ≠ 0)) }
      let drm := set_conn drm i wlr_conn
      let drm := wlr_output_update_enabled drm i (decide (wlr_conn.crtc ≠ none))
      match drm.outputs[i]? with
      | none => none
      | some wlr_conn =>
        some { drm := set_conn drm i { wlr_conn with
                 desired_enabled := true, state := WLR_DRM_CONN_NEEDS_MODESET }
               seen := st.seen
               new_outputs := st.new_outputs ++ [i] }
    else if (wlr_conn.state = WLR_DRM_CONN_CONNECTED ∨
        wlr_conn.state = WLR_DRM_CONN_NEEDS_MODESET) ∧
        drm_conn.connection ≠ DRM_MODE_CONNECTED then
      match drm_connector_cleanup env st.drm i with
      | none => none
      | some drm => some { st with drm := drm }
    else some st

/-- The search for the connector of a kernel connector in
`scan_drm_connectors`: a connector that is found is marked in `seen`, and one
that is not found is allocated and put at the end of the list.  The second
component is the position of the connector, `none` where the allocation fails.
`seen_len` is the number of connectors at the start of the scan; marking a
connector beyond the end of `seen` is undefined. -/
def scan_lookup (kernel : Kernel) (seen_len : Nat) (st : scan_state)
    (drm_conn : drmModeConnector) : Option (scan_state × Option Nat) :=
  match find_connector st.drm.outputs drm_conn.connector_id 0 with
  | none =>
    if kernel.calloc_connector st.drm.log drm_conn.connector_id then
      let old_crtc := match kernel.drmModeGetEncoder drm_conn.encoder_id with
        | some enc => kernel.drmModeGetCrtc enc.crtc_id
        | none => none
      let drm := emit st.drm (Event.calloc_connector drm_conn.connector_id)
      some ({ st with drm := { drm with
                outputs := drm.outputs ++ [new_connector drm_conn.connector_id old_crtc] } },
            some st.drm.outputs.length)
    else
      some ({ st with drm := emit st.drm (Event.calloc_connector drm_conn.connector_id) }, none)
  | some index =>
    if seen_len < index then none
    else some ({ st with seen := st.seen.set index true }, some index)

/-- One iteration of the first loop of `scan_drm_connectors`, for the kernel
connector with the id `id`. -/
def scan_connector (env : Env) (kernel : Kernel) (res : drmModeRes) (seen_len : Nat)
    (st : scan_state) (id : Nat) : Option scan_state :=
  match kernel.drmModeGetConnector id with
  | none => some st
  | some drm_conn =>
    match scan_lookup kernel seen_len st drm_conn with
    | none => none
    | some (st, none) => some st
    | some (st, some i) =>
      match st.drm.outputs[i]? with
      | none => none
      | some wlr_conn =>
        let crtc : Option Nat :=
          match kernel.drmModeGetEncoder drm_conn.encoder_id with
          | some enc =>
            match find_crtc st.drm.crtcs enc.crtc_id 0 with
            | some k => some k
            | none => wlr_conn.crtc
          | none => none
        let st := { st with drm := set_conn st.drm i { wlr_conn with crtc := crtc } }
        if wlr_conn.props_link_status ≠ 0 then
          match kernel.get_link_status wlr_conn.id with
          | none => some { st with drm := emit st.drm (Event.get_link_status i) }
          | some link_status =>
            let st := { st with drm := emit st.drm (Event.get_link_status i) }
            if link_status = DRM_MODE_LINK_STATUS_BAD then
              match drm_connector_cleanup env st.drm i with
              | none => none
              | some drm => scan_connection env kernel res { st with drm := drm } i drm_conn
            else scan_connection env kernel res st i drm_conn
        else scan_connection env kernel res st i drm_conn

/-- The first loop of `scan_drm_connectors`, over the connector ids the kernel
reports. -/
def scan_connectors (env : Env) (kernel : Kernel) (res : drmModeRes) (seen_len : Nat) :
    List Nat → scan_state → Option scan_state
  | [], st => some st
  | id :: rest, st =>
    match scan_connector env kernel res seen_len st id with
    | none => none
    | some st => scan_connectors env kernel res seen_len rest st

/-- The loop of `scan_drm_connectors` over the connectors in reverse order, with
`index` connectors left: a connector that was there at the start of the scan
and has not been seen is cleaned up, and then destroyed, or moved to the state
DISAPPEARED if a page-flip is pending.  Destroying a connector moves the later
ones one position down. -/
def scan_disappeared (env : Env) (seen_len : Nat) : Nat → scan_state → Option scan_state
  | 0, st => some st
  | index + 1, st =>
    if seen_len ≤ index ∨ st.seen.getD index false = true then
      scan_disappeared env seen_len index st
    else
      match drm_connector_cleanup env st.drm index with
      | none => none
      | some drm =>
        match drm.outputs[index]? with
        | none => none
        | some conn =>
          if conn.pageflip_pending then
            scan_disappeared env seen_len index
              { st with
                drm := set_conn drm index { conn with state := WLR_DRM_CONN_DISAPPEARED } }
          else
            scan_disappeared env seen_len index
              { st with
                drm := wlr_output_destroy drm index
                new_outputs := st.new_outputs.map fun j => if index < j then j - 1 else j }

/-- The `scan_drm_connectors`.  The matcher `match_obj` is handed on to
`realloc_crtcs`. -/
def scan_drm_connectors (env : Env)
    (match_obj : Nat → List Nat → Nat → List Nat → List Nat) (kernel : Kernel)
    (drm : wlr_drm_backend) : Option wlr_drm_backend :=
  if drm.crtcs.length = 0 then some drm
  else
    match kernel.drmModeGetResources with
    | none => some drm
    | some res =>
      let seen_len := drm.outputs.length
      match scan_connectors env kernel res seen_len res.connectors
          { drm := drm, seen := List.replicate seen_len false, new_outputs := [] } with
      | none => none
      | some st =>
        match scan_disappeared env seen_len st.drm.outputs.length st with
        | none => none
        | some st =>
          match realloc_crtcs env match_obj st.drm with
          | none => none
          | some drm =>
            attempt_enable_needs_modeset env match_obj
              (st.new_outputs.foldl (fun drm i => emit drm (Event.new_output i)) drm)

/-- A kernel that reports no connector at all. -/
def kernel_unplugged : Kernel :=
  { drmModeGetResources := some { connectors := [], encoders := [] }
    drmModeGetConnector := fun _ => none
    drmModeGetEncoder := fun _ => none
    drmModeGetCrtc := fun _ => none
    get_link_status := fun _ => none
    get_drm_connector_props := fun _ => (0, 0)
    calloc_connector := fun _ _ => true
    calloc_mode := fun _ _ => true }

/-- The environment `env_accepting` on hardware without a gamma ramp. -/
def env_no_gamma : Env :=
  { env_accepting with crtc_get_gamma_size := fun _ => 0 }

/-- One CRTC and one connected connector on it with a page-flip pending. -/
def backend_flipping : wlr_drm_backend :=
  backend_of [crtc_with_id 40] [{ connector_on 70 0 with pageflip_pending := true }]

/-- The backend `backend_flipping` after its connector has been cleaned up and
moved to the state DISAPPEARED, with the log of that cleanup and of the
following reallocation. -/
def backend_vanished : wlr_drm_backend :=
  { backend_flipping with
    outputs := [{ new_connector 70 none with
      state := WLR_DRM_CONN_DISAPPEARED, desired_enabled := true, pageflip_pending := true }]
    log := [Event.wlr_buffer_unref none, Event.wlr_buffer_unref none,
      Event.dealloc_crtc 0 (some 0), Event.finish_drm_surface 0 false,
      Event.finish_drm_surface 0 true, Event.conn_enable 0 false, Event.destroy_signal 0,
      Event.dealloc_crtc 0 none] }

/-- The environment `env_accepting` with a hardware gamma ramp of one entry. -/
def env_unit_gamma : Env :=
  { env_accepting with crtc_get_gamma_size := fun _ => 1 }

/-! ## Planes -/

/-- The `DRM_FORMAT_MOD_INVALID` of drm_fourcc.h. -/
def DRM_FORMAT_MOD_INVALID : Nat := 0x00ffffffffffffff

/-- The `DRM_PLANE_TYPE_OVERLAY` of drm_mode.h. -/
def DRM_PLANE_TYPE_OVERLAY : Nat := 0
/-- The `DRM_PLANE_TYPE_PRIMARY` of drm_mode.h. -/
def DRM_PLANE_TYPE_PRIMARY : Nat := 1
/-- The `DRM_PLANE_TYPE_CURSOR` of drm_mode.h. -/
def DRM_PLANE_TYPE_CURSOR : Nat := 2

/-- The fields of `drmModePlane` that drm.c reads; `count_formats` is the length
of `formats`. -/
structure drmModePlane where
  plane_id : Nat
  possible_crtcs : Nat
  formats : List Nat
  deriving DecidableEq, Repr

/-- The `struct drm_format_modifier` of drm_mode.h: a 64-bit mask of formats,
the 32-bit index of the format that bit 0 stands for, and the modifier. -/
structure drm_format_modifier where
  formats : Nat
  offset : Nat
  modifier : Nat
  deriving DecidableEq, Repr

/-- An IN_FORMATS blob (`struct drm_format_modifier_blob` with the two arrays
it points into): `fmts` is the array of `count_formats` formats at
`formats_offset`, `mods` the array of `count_modifiers` entries at
`modifiers_offset`. -/
structure drm_format_modifier_blob where
  fmts : List Nat
  mods : List drm_format_modifier
  deriving DecidableEq, Repr

/-- The members of `union wlr_drm_plane_props` that drm.c reads: the ids of the
properties `type` and `IN_FORMATS` (0 when the plane has none). -/
structure wlr_drm_plane_props where
  type : Nat
  in_formats : Nat
  deriving DecidableEq, Repr

/-- The plane members of a `struct wlr_drm_crtc` while `init_planes` fills them
in: `primary` and `cursor` are NULL until a plane is found, and `overlays` is
the list of overlay plane ids. -/
structure crtc_planes where
  primary : Option wlr_drm_plane
  cursor : Option wlr_drm_plane
  overlays : List Nat
  deriving DecidableEq, Repr

/-- What the plane enumeration asks of the kernel and of the allocator. -/
structure PlaneEnv where
  drmModeGetPlaneResources : Option (List Nat)
  drmModeGetPlane : Nat → Option drmModePlane
  get_drm_plane_props : Nat → Option wlr_drm_plane_props
  get_drm_prop : Nat → Nat → Option Nat
  drmModeGetPropertyBlob : Nat → Option drm_format_modifier_blob
  calloc_plane : Nat → Bool
  realloc_overlays : Nat → Bool

/-- Modelled from the spec: `wlr_drm_format_set_add` of render/drm_format_set.c,
which is not part of the sources; it adds the pair to the plane's "supported
(format, modifier) set". -/
def wlr_drm_format_set_add (formats : List (Nat × Nat)) (format modifier : Nat) :
    List (Nat × Nat) :=
  if (format, modifier) ∈ formats then formats else formats ++ [(format, modifier)]

/-- The loop "Choose an RGB format for the plane" of `add_plane` over the
legacy format list: the format set and `rgb_format` after it.  The loop is left
at the first ARGB8888. -/
def add_legacy_formats : List Nat → List (Nat × Nat) → Nat → List (Nat × Nat) × Nat
  | [], formats, rgb_format => (formats, rgb_format)
  | fmt :: rest, formats, rgb_format =>
    if fmt = DRM_FORMAT_ARGB8888 then
      (wlr_drm_format_set_add formats fmt DRM_FORMAT_MOD_INVALID, fmt)
    else if fmt = DRM_FORMAT_XRGB8888 then
      add_legacy_formats rest (wlr_drm_format_set_add formats fmt DRM_FORMAT_MOD_INVALID) fmt
    else
      add_legacy_formats rest (wlr_drm_format_set_add formats fmt DRM_FORMAT_MOD_INVALID)
        rgb_format

/-- The inner loop of the IN_FORMATS decoding of `add_plane` for one modifier
entry: `n` bits remain, starting at bit `j`.  The index `j + mods[i].offset` is
computed in 32 bits; reading `fmts` past its end is undefined. -/
def add_in_formats_bits (fmts : List Nat) (entry : drm_format_modifier) :
    Nat → Nat → List (Nat × Nat) → Option (List (Nat × Nat))
  | 0, _, formats => some formats
  | n + 1, j, formats =>
    if entry.formats &&& (1 <<< j) ≠ 0 then
      match fmts[(j + entry.offset) % 2 ^ 32]? with
      | none => none
      | some fmt =>
        add_in_formats_bits fmts entry n (j + 1)
          (wlr_drm_format_set_add formats fmt entry.modifier)
    else add_in_formats_bits fmts entry n (j + 1) formats

/-- The outer loop of the IN_FORMATS decoding of `add_plane`, over the modifier
entries. -/
def add_in_formats (fmts : List Nat) :
    List drm_format_modifier → List (Nat × Nat) → Option (List (Nat × Nat))
  | [], formats => some formats
  | entry :: rest, formats =>
    match add_in_formats_bits fmts entry 64 0 formats with
    | none => none
    | some formats => add_in_formats fmts rest formats

/-- The block `if (p->props.in_formats)` of `add_plane` for the plane `id`: the
outer `none` is an undefined run, the inner `none` the jump to `error`. -/
def plane_in_formats (penv : PlaneEnv) (id : Nat) (props : wlr_drm_plane_props)
    (formats : List (Nat × Nat)) : Option (Option (List (Nat × Nat))) :=
  if props.in_formats = 0 then some (some formats)
  else
    match penv.get_drm_prop id props.in_formats with
    | none => some none
    | some blob_id =>
      match penv.drmModeGetPropertyBlob blob_id with
      | none => some none
      | some blob =>
        match add_in_formats blob.fmts blob.mods formats with
        | none => none
        | some formats => some (some formats)

/-- The `add_plane` for the plane members `crtc` of a CRTC.  A primary plane
for a CRTC that has one fails the `assert`, and a plane of another type than
primary or cursor reaches `abort`. -/
def add_plane (penv : PlaneEnv) (crtc : crtc_planes) (drm_plane : drmModePlane) (type : Nat)
    (props : wlr_drm_plane_props) : Option (crtc_planes × Bool) :=
  if type = DRM_PLANE_TYPE_PRIMARY ∧ crtc.primary ≠ none then none
  else if type = DRM_PLANE_TYPE_CURSOR ∧ crtc.cursor ≠ none then some (crtc, true)
  else if penv.calloc_plane drm_plane.plane_id = false then some (crtc, false)
  else
    match plane_in_formats penv drm_plane.plane_id props
        (add_legacy_formats drm_plane.formats [] DRM_FORMAT_INVALID).1 with
    | none => none
    | some none => some (crtc, false)
    | some (some formats) =>
      if type = DRM_PLANE_TYPE_PRIMARY then
        some ({ crtc with
          primary := some
            { drm_format := (add_legacy_formats drm_plane.formats [] DRM_FORMAT_INVALID).2,
              formats := formats, type := type, id := drm_plane.plane_id } }, true)
      else if type = DRM_PLANE_TYPE_CURSOR then
        some ({ crtc with
          cursor := some
            { drm_format := (add_legacy_formats drm_plane.formats [] DRM_FORMAT_INVALID).2,
              formats := formats, type := type, id := drm_plane.plane_id } }, true)
      else none

/-- The `ffs` of the C library on a 32-bit `int`, searching from bit `j` with
`n` bits left: one plus the index of the least significant set bit, and 0 when
no bit is set. -/
def ffs_from (i : Nat) : Nat → Nat → Nat
  | 0, _ => 0
  | n + 1, j => if i.testBit j then j + 1 else ffs_from i n (j + 1)

/-- The `ffs` of the C library on the 32-bit pattern of `i`. -/
def ffs (i : Nat) : Nat :=
  ffs_from (i % 2 ^ 32) 32 0

/-- The `crtc_bit` of `init_planes`: `ffs(plane->possible_crtcs) - 1`. -/
def plane_crtc_bit (possible_crtcs : Nat) : Int :=
  (ffs possible_crtcs : Int) - 1

/-- The condition of the `assert` on `crtc_bit` in `init_planes`. -/
def plane_crtc_assert (num_crtcs : Nat) (crtc_bit : Int) : Bool :=
  decide (0 ≤ crtc_bit) && decide (crtc_bit.toNat < num_crtcs)

/-- The loop of `init_planes` over the plane ids; the result is the plane
members of the CRTCs and whether the loop ran to its end (`false` after a jump
to `error`).  The `type` property is a 64-bit value that `add_plane` receives
in 32 bits. -/
def init_planes_loop (penv : PlaneEnv) :
    List Nat → List crtc_planes → Option (List crtc_planes × Bool)
  | [], crtcs => some (crtcs, true)
  | id :: rest, crtcs =>
    match penv.drmModeGetPlane id with
    | none => some (crtcs, false)
    | some plane =>
      match penv.get_drm_plane_props id with
      | none => some (crtcs, false)
      | some props =>
        match penv.get_drm_prop id props.type with
        | none => some (crtcs, false)
        | some type =>
          if plane_crtc_assert crtcs.length (plane_crtc_bit plane.possible_crtcs) = false then
            none
          else
            match crtcs[(plane_crtc_bit plane.possible_crtcs).toNat]? with
            | none => none
            | some crtc =>
              if type = DRM_PLANE_TYPE_OVERLAY then
                if penv.realloc_overlays id = true then
                  init_planes_loop penv rest
                    (crtcs.set (plane_crtc_bit plane.possible_crtcs).toNat
                      { crtc with overlays := crtc.overlays ++ [id] })
                else init_planes_loop penv rest crtcs
              else
                match add_plane penv crtc plane (type % 2 ^ 32) props with
                | none => none
                | some (crtc, false) =>
                  some (crtcs.set (plane_crtc_bit plane.possible_crtcs).toNat crtc, false)
                | some (crtc, true) =>
                  init_planes_loop penv rest
                    (crtcs.set (plane_crtc_bit plane.possible_crtcs).toNat crtc)

/-- The `init_planes` for the plane members `crtcs` of the backend's CRTCs. -/
def init_planes (penv : PlaneEnv) (crtcs : List crtc_planes) :
    Option (List crtc_planes × Bool) :=
  match penv.drmModeGetPlaneResources with
  | none => some (crtcs, false)
  | some planes => init_planes_loop penv planes crtcs

/-- A plane environment in which every call succeeds; plane `id` has the type
`id % 3`, the legacy formats ARGB8888 then XRGB8888, no IN_FORMATS property and
serves CRTC 0. -/
def penv_accepting : PlaneEnv :=
  { drmModeGetPlaneResources := some [1, 2]
    drmModeGetPlane := fun id => some
      { plane_id := id, possible_crtcs := 1,
        formats := [DRM_FORMAT_ARGB8888, DRM_FORMAT_XRGB8888] }
    get_drm_plane_props := fun _ => some { type := 5, in_formats := 0 }
    get_drm_prop := fun id _ => some (id % 3)
    drmModeGetPropertyBlob := fun _ => none
    calloc_plane := fun _ => true
    realloc_overlays := fun _ => true }

/-- A blob with the formats XRGB8888 and ARGB8888 and one modifier entry, the
linear modifier 0, for both of them. -/
def blob_linear : drm_format_modifier_blob :=
  { fmts := [DRM_FORMAT_XRGB8888, DRM_FORMAT_ARGB8888]
    mods := [{ formats := 3, offset := 0, modifier := 0 }] }

/-- The plane environment `penv_accepting` with an IN_FORMATS property on every
plane, whose blob is `blob_linear`. -/
def penv_in_formats : PlaneEnv :=
  { penv_accepting with
    get_drm_plane_props := fun _ => some { type := 5, in_formats := 6 }
    get_drm_prop := fun id prop => if prop = 6 then some 11 else some (id % 3)
    drmModeGetPropertyBlob := fun _ => some blob_linear }

/-- The plane members of a CRTC without planes. -/
def crtc_no_planes : crtc_planes :=
  { primary := none, cursor := none, overlays := [] }

/-- The kernel plane with id 1, for CRTC 0, whose legacy format list is
ARGB8888 followed by XRGB8888. -/
def plane_argb_first : drmModePlane :=
  { plane_id := 1, possible_crtcs := 1, formats := [DRM_FORMAT_ARGB8888, DRM_FORMAT_XRGB8888] }

/-- The plane members of a CRTC whose primary plane scans out ARGB8888 and has
that format alone in its set. -/
def crtc_argb_primary : crtc_planes :=
  { crtc_no_planes with
    primary := some
      { drm_format := DRM_FORMAT_ARGB8888,
        formats := [(DRM_FORMAT_ARGB8888, DRM_FORMAT_MOD_INVALID)], type := 1, id := 1 } }

/-! ## Custom modes -/

/-- The `DRM_MODE_TYPE_USERDEF` of drm_mode.h. -/
def DRM_MODE_TYPE_USERDEF : Nat := 32

/-- The `memcmp(&mode->drm_mode, modeinfo, sizeof(*modeinfo)) == 0` of
`wlr_drm_connector_add_mode`: the struct has no padding, so the comparison is
that of all its members. -/
def memcmp_modeinfo (a b : drmModeModeInfo) : Bool :=
  decide (a.clock = b.clock ∧ a.hdisplay = b.hdisplay ∧ a.hsync_start = b.hsync_start ∧
    a.hsync_end = b.hsync_end ∧ a.htotal = b.htotal ∧ a.hskew = b.hskew ∧
    a.vdisplay = b.vdisplay ∧ a.vsync_start = b.vsync_start ∧ a.vsync_end = b.vsync_end ∧
    a.vtotal = b.vtotal ∧ a.vscan = b.vscan ∧ a.vrefresh = b.vrefresh ∧ a.flags = b.flags ∧
    a.type = b.type ∧ a.name = b.name)

/-- The `wlr_drm_connector_add_mode` for the output at position `i`;
`calloc_mode` tells whether the allocation of the mode succeeds. -/
def wlr_drm_connector_add_mode (calloc_mode : List Event → Nat → Bool) (drm : wlr_drm_backend)
    (i : Nat) (modeinfo : drmModeModeInfo) : Option (wlr_drm_backend × Bool) :=
  match drm.outputs[i]? with
  | none => none
  | some conn =>
    if modeinfo.type ≠ DRM_MODE_TYPE_USERDEF then some (drm, false)
    else if conn.modes.any (fun mode => memcmp_modeinfo mode.drm_mode modeinfo) = true then
      some (drm, true)
    else if calloc_mode drm.log i = false then some (emit drm (Event.calloc_mode i), false)
    else
      some (set_conn (emit drm (Event.calloc_mode i)) i
        { conn with
          modes :=
            { width := modeinfo.hdisplay, height := modeinfo.vdisplay,
              refresh := modeinfo.refresh_rate, preferred := false, drm_mode := modeinfo } ::
              conn.modes }, true)

/-- The mode list of the output at position `i`. -/
def modes_of (drm : wlr_drm_backend) (i : Nat) : List wlr_output_mode :=
  match drm.outputs[i]? with
  | none => []
  | some conn => conn.modes

/-- A user-defined description of a 1280x720 mode. -/
def modeinfo_custom : drmModeModeInfo :=
  { clock := 74250, hdisplay := 1280, htotal := 1650, vdisplay := 720, vtotal := 750,
    flags := 0, type := DRM_MODE_TYPE_USERDEF, refresh_rate := 60000 }

/-! ## Creating the lease manager -/

/-- What `wlr_drm_lease_manager_v1_create` asks about the backends, which are
named by numbers, and of the allocator and the display:
`wlr_multi_for_each_backend` gives the backends the callback is called with, in
order. -/
structure BackendEnv where
  wlr_backend_is_drm : Nat → Bool
  wlr_backend_is_multi : Nat → Bool
  wlr_multi_for_each_backend : Nat → List Nat
  calloc_manager : Bool
  wl_global_create : Bool

/-- The `multi_backend_cb`: `ptr` is the backend `*ptr` held before the call,
the result the one it holds afterwards. -/
def multi_backend_cb (benv : BackendEnv) (ptr : Nat) (backend : Nat) : Nat :=
  if benv.wlr_backend_is_drm backend = true then backend else ptr

/-- The `wlr_drm_lease_manager_v1_create`; `display` tells whether the display
is not NULL.  The result is the manager (`none` for NULL) and the calls made to
the display. -/
def wlr_drm_lease_manager_v1_create (benv : BackendEnv) (display : Bool) (backend : Nat) :
    Option (Option wlr_drm_lease_manager_v1 × List LeaseEvent) :=
  if display = false then none
  else if benv.wlr_backend_is_drm backend = false ∧ benv.wlr_backend_is_multi backend = true then
    if benv.wlr_backend_is_drm
        ((benv.wlr_multi_for_each_backend backend).foldl (multi_backend_cb benv) backend) =
        false then
      some (none, [])
    else if benv.calloc_manager = false then some (none, [])
    else if benv.wl_global_create = false then some (none, [LeaseEvent.wl_global_create])
    else
      some (some
        { connectors := [], leases := [], log := [LeaseEvent.wl_global_create],
          backend :=
            (benv.wlr_multi_for_each_backend backend).foldl (multi_backend_cb benv) backend },
        [LeaseEvent.wl_global_create])
  else some (none, [])

/-- Backend 1 is a multi-backend that holds the backends 2 (not DRM) and 3
(DRM); every allocation succeeds. -/
def benv_multi : BackendEnv :=
  { wlr_backend_is_drm := fun b => decide (b = 3)
    wlr_backend_is_multi := fun b => decide (b = 1)
    wlr_multi_for_each_backend := fun b => if b = 1 then [2, 3] else []
    calloc_manager := true
    wl_global_create := true }

/-! ## Exporting a frame as a dmabuf (types/wlr_export_dmabuf_v1.c) -/

/-- The `ZWLR_EXPORT_DMABUF_FRAME_V1_CANCEL_REASON_TEMPORARY` of the protocol. -/
def CANCEL_REASON_TEMPORARY : Nat := 0
/-- The `ZWLR_EXPORT_DMABUF_FRAME_V1_CANCEL_REASON_PERMANENT` of the protocol. -/
def CANCEL_REASON_PERMANENT : Nat := 1
/-- The `ZWLR_EXPORT_DMABUF_FRAME_V1_FLAGS_TRANSIENT` of the protocol. -/
def FLAGS_TRANSIENT : Nat := 1

/-- A call that leaves wlr_export_dmabuf_v1.c; frames are named by the id of
their resource, outputs by numbers. -/
inductive ExportEvent where
  | wl_resource_post_no_memory
  | wl_client_post_no_memory
  | send_cancel (resource reason : Nat)
  | wlr_output_lock_attach_render (output : Nat) (lock : Bool)
  | wlr_output_lock_software_cursors (output : Nat) (lock : Bool)
  | wlr_dmabuf_attributes_finish (resource : Nat)
  | wl_resource_set_user_data (resource : Nat)
  | send_frame (resource width height flags frame_flags format mod_high mod_low n_planes : Nat)
  | send_object (resource index : Nat) (fd size : Int) (offset stride plane_index : Nat)
  | send_ready (resource tv_sec_hi tv_sec_lo tv_nsec : Nat)
  deriving DecidableEq, Repr

/-- The `struct wlr_export_dmabuf_frame_v1`; `listening` tells whether
`output_precommit` is linked into the output's precommit signal. -/
structure wlr_export_dmabuf_frame_v1 where
  resource : Nat
  output : Nat
  cursor_locked : Bool
  listening : Bool
  deriving DecidableEq, Repr

/-- The `struct wlr_export_dmabuf_manager_v1` with its list of frames, and the
log of calls made so far. -/
structure wlr_export_dmabuf_manager_v1 where
  frames : List wlr_export_dmabuf_frame_v1
  log : List ExportEvent
  deriving DecidableEq, Repr

/-- What `manager_handle_capture_output` asks of the allocator, of libwayland
and of the output: `export_dmabuf` tells whether the output implements
`export_dmabuf`, `wlr_output_export_dmabuf` gives the attributes of the exported
buffer (`none` when the export fails). -/
structure ExportEnv where
  calloc_frame : Bool
  wl_resource_create : Nat → Option Nat
  export_dmabuf : Nat → Bool
  wlr_output_export_dmabuf : Nat → Option wlr_dmabuf_attributes
  output_width : Nat → Nat
  output_height : Nat → Nat
  lseek : Int → Int

/-- The `frame_destroy` for the frame named by `resource`; nothing happens when
there is no such frame (the frame pointer is NULL). -/
def frame_destroy (manager : wlr_export_dmabuf_manager_v1) (resource : Nat) :
    wlr_export_dmabuf_manager_v1 :=
  match manager.frames.find? (fun f => decide (f.resource = resource)) with
  | none => manager
  | some frame =>
    { frames := manager.frames.filter (fun f => decide (f.resource ≠ resource))
      log := manager.log ++
        [ExportEvent.wlr_output_lock_attach_render frame.output false] ++
        (if frame.cursor_locked = true then
          [ExportEvent.wlr_output_lock_software_cursors frame.output false] else []) ++
        [ExportEvent.wlr_dmabuf_attributes_finish resource,
         ExportEvent.wl_resource_set_user_data resource] }

/-- The `frame_handle_resource_destroy`. -/
def frame_handle_resource_destroy (manager : wlr_export_dmabuf_manager_v1) (resource : Nat) :
    wlr_export_dmabuf_manager_v1 :=
  frame_destroy manager resource

/-- The `frame_output_handle_precommit` for the frame named by `resource`;
`committed_buffer` tells whether the pending state of the output commits a
buffer, and `tv_sec`, `tv_nsec` are the time of the event. -/
def frame_output_handle_precommit (manager : wlr_export_dmabuf_manager_v1) (resource : Nat)
    (committed_buffer : Bool) (tv_sec tv_nsec : Nat) : wlr_export_dmabuf_manager_v1 :=
  if committed_buffer = false then manager
  else
    frame_destroy
      { frames := manager.frames.map
          (fun f => if f.resource = resource then { f with listening := false } else f)
        log := manager.log ++
          [ExportEvent.send_ready resource (tv_sec / 2 ^ 32 % 2 ^ 32) (tv_sec % 2 ^ 32)
            tv_nsec] }
      resource

/-- The loop of `manager_handle_capture_output` over the planes of the exported
buffer, from plane `i` on, with `n` planes left. -/
def send_objects (env : ExportEnv) (resource : Nat) (attribs : wlr_dmabuf_attributes) :
    Nat → Nat → Option (List ExportEvent)
  | 0, _ => some []
  | n + 1, i =>
    match attribs.fd[i]?, attribs.offset[i]?, attribs.stride[i]? with
    | some fd, some offset, some stride =>
      match send_objects env resource attribs n (i + 1) with
      | none => none
      | some rest =>
        some (ExportEvent.send_object resource i fd (env.lseek fd) offset stride i :: rest)
    | _, _, _ => none

/-- The `manager_handle_capture_output` for the new id `id` and the output
`output`. -/
def manager_handle_capture_output (env : ExportEnv) (manager : wlr_export_dmabuf_manager_v1)
    (id : Nat) (overlay_cursor : Int) (output : Nat) : Option wlr_export_dmabuf_manager_v1 :=
  if env.calloc_frame = false then
    some { manager with log := manager.log ++ [ExportEvent.wl_resource_post_no_memory] }
  else
    match env.wl_resource_create id with
    | none => some { manager with log := manager.log ++ [ExportEvent.wl_client_post_no_memory] }
    | some resource =>
      if env.export_dmabuf output = false then
        some (frame_destroy
          { frames :=
              { resource := resource, output := output, cursor_locked := false,
                listening := false } :: manager.frames
            log := manager.log ++ [ExportEvent.send_cancel resource CANCEL_REASON_PERMANENT] }
          resource)
      else
        match env.wlr_output_export_dmabuf output with
        | none =>
          some (frame_destroy
            { frames :=
                { resource := resource, output := output, cursor_locked := false,
                  listening := false } :: manager.frames
              log := manager.log ++ [ExportEvent.send_cancel resource CANCEL_REASON_TEMPORARY] }
            resource)
        | some attribs =>
          match send_objects env resource attribs attribs.n_planes 0 with
          | none => none
          | some objects =>
            some
              { frames :=
                  { resource := resource, output := output,
                    cursor_locked := decide (overlay_cursor ≠ 0), listening := true } ::
                    manager.frames
                log := manager.log ++
                  [ExportEvent.wlr_output_lock_attach_render output true] ++
                  (if overlay_cursor ≠ 0 then
                    [ExportEvent.wlr_output_lock_software_cursors output true] else []) ++
                  [ExportEvent.send_frame resource (env.output_width output)
                    (env.output_height output) attribs.flags FLAGS_TRANSIENT attribs.format
                    (attribs.modifier / 2 ^ 32 % 2 ^ 32) (attribs.modifier % 2 ^ 32)
                    attribs.n_planes] ++ objects }

/-- How often the attach-render lock of `output` is taken (`lock = true`) or
released (`lock = false`) in a log. -/
def attach_render_calls (log : List ExportEvent) (output : Nat) (lock : Bool) : Nat :=
  log.count (ExportEvent.wlr_output_lock_attach_render output lock)

/-- How often the software-cursor lock of `output` is taken or released in a
log. -/
def software_cursor_calls (log : List ExportEvent) (output : Nat) (lock : Bool) : Nat :=
  log.count (ExportEvent.wlr_output_lock_software_cursors output lock)

/-- A manager without frames and with an empty log. -/
def manager_idle : wlr_export_dmabuf_manager_v1 :=
  { frames := [], log := [] }

/-- An environment in which the allocations succeed and no output implements
`export_dmabuf`. -/
def eenv_unsupported : ExportEnv :=
  { calloc_frame := true
    wl_resource_create := fun id => some id
    export_dmabuf := fun _ => false
    wlr_output_export_dmabuf := fun _ => none
    output_width := fun _ => 1920
    output_height := fun _ => 1080
    lseek := fun _ => 8294400 }

/-- An environment in which the allocations succeed and every output implements
`export_dmabuf`, which fails. -/
def eenv_failing : ExportEnv :=
  { eenv_unsupported with export_dmabuf := fun _ => true }

/-- An environment in which the allocations and the export succeed. -/
def eenv_exporting : ExportEnv :=
  { eenv_unsupported with
    export_dmabuf := fun _ => true
    wlr_output_export_dmabuf := fun _ => some
      { width := 1920, height := 1080, format := DRM_FORMAT_XRGB8888, flags := 0, modifier := 0,
        n_planes := 1, offset := [0], stride := [7680], fd := [9] } }

/-! ## A disconnected connector on a bound encoder -/

/-- The `DRM_MODE_DISCONNECTED` of xf86drmMode.h. -/
def DRM_MODE_DISCONNECTED : Nat := 2

/-- A kernel that reports one connector, with id 70 and the connection status
`connection`, whose current encoder 50 is bound to the CRTC with id 40. -/
def kernel_bound_encoder (connection : Nat) : Kernel :=
  { drmModeGetResources := some { connectors := [70], encoders := [50] }
    drmModeGetConnector := fun id =>
      if id = 70 then
        some { connector_id := 70, encoder_id := 50, connection := connection,
               modes := [{ hdisplay := 1920, vdisplay := 1080, flags := 0, type := 0,
                           refresh_rate := 60000 }],
               encoders := [50] }
      else none
    drmModeGetEncoder := fun id =>
      if id = 50 then some { encoder_type := 2, crtc_id := 40, possible_crtcs := 1 } else none
    drmModeGetCrtc := fun _ => none
    get_link_status := fun _ => none
    get_drm_connector_props := fun _ => (0, 0)
    calloc_connector := fun _ _ => true
    calloc_mode := fun _ _ => true }

/-- One CRTC (kernel id 40) and one connector (kernel id 70) that is
DISCONNECTED and holds no CRTC. -/
def backend_unplugged : wlr_drm_backend :=
  backend_of [crtc_with_id 40] [new_connector 70 none]

/-- One CRTC and one connector that is DISCONNECTED and holds the CRTC. -/
def backend_unplugged_bound : wlr_drm_backend :=
  backend_of [crtc_with_id 40] [{ new_connector 70 none with crtc := some 0 }]

/-- The matcher that assigns no CRTC, which is what a matcher that respects the
constraints returns when no connector may take part. -/
def matcher_unmatched : Nat → List Nat → Nat → List Nat → List Nat :=
  fun _ _ num_res _ => List.replicate num_res UNMATCHED

/-- The state of the connector at position `i`. -/
def state_of (drm : wlr_drm_backend) (i : Nat) : Option wlr_drm_connector_state :=
  match drm.outputs[i]? with
  | none => none
  | some conn => some conn.state

/-- The log entry is the destroy notification of a connector.  Within
`realloc_crtcs` it is emitted only by the `drm_connector_cleanup` that precedes
the `break`, so a run that has none has not been aborted. -/
def is_destroy_signal : Event → Bool
  | Event.destroy_signal _ => true
  | _ => false

/-- A 1920x1080 mode with the refresh rate 0 mHz. -/
def mode_no_refresh : wlr_output_mode :=
  { width := 1920, height := 1080, refresh := 0, preferred := false }

/-- The backend `backend_hotplug` after one `realloc_crtcs` with the matcher of
the specification, every kernel call succeeding. -/
def backend_hotplug_settled : wlr_drm_backend :=
  (realloc_crtcs env_no_gamma match_obj backend_hotplug).getD backend_hotplug

/-- What one iteration of the loop "Apply new configuration" of `realloc_crtcs`
that has ended normally has done to the connector at position `i`, where `c` is
the connector before, `c1` the connector after and `rest` what the log has grown
by: an unmatched connector holds no CRTC, is untouched if it held none, and
otherwise has taken the lost-CRTC transition; a matched connector holds the CRTC
it was matched to in the state it had, or has been cleaned up. -/
def step_done (cm : List (Option Nat)) (i : Nat) (c c1 : wlr_drm_connector)
    (rest : List Event) : Prop :=
  (cm.getD i none = none → c1.crtc = none) ∧
  (cm.getD i none = none → c.crtc = none → c1 = c) ∧
  (cm.getD i none = none → c.crtc ≠ none →
    c1.state = WLR_DRM_CONN_NEEDS_MODESET ∧ c1.desired_mode = c.current_mode ∧
    c1.current_mode = none ∧ c1.enabled = false ∧
    Event.wlr_output_update_enabled i false ∈ rest) ∧
  (∀ k, cm.getD i none = some k →
    (c1.crtc = some k ∧ c1.state = c.state) ∨
    (c1.crtc = none ∧ c.state = WLR_DRM_CONN_CONNECTED ∧
      c1.state = WLR_DRM_CONN_DISCONNECTED))

/-! # Theorems -/

/-! ## Frame lemmas -/


@[simp] theorem emit_outputs (drm : wlr_drm_backend) (e : Event) :
    (emit drm e).outputs = drm.outputs := rfl
@[simp] theorem emit_crtcs (drm : wlr_drm_backend) (e : Event) :
    (emit drm e).crtcs = drm.crtcs := rfl
@[simp] theorem emit_session_active (drm : wlr_drm_backend) (e : Event) :
    (emit drm e).session_active = drm.session_active := rfl
@[simp] theorem emit_parent (drm : wlr_drm_backend) (e : Event) :
    (emit drm e).parent = drm.parent := rfl
@[simp] theorem emit_log (drm : wlr_drm_backend) (e : Event) :
    (emit drm e).log = drm.log ++ [e] := rfl
@[simp] theorem set_conn_outputs (drm : wlr_drm_backend) (i : Nat) (c : wlr_drm_connector) :
    (set_conn drm i c).outputs = drm.outputs.set i c := rfl
@[simp] theorem set_conn_crtcs (drm : wlr_drm_backend) (i : Nat) (c : wlr_drm_connector) :
    (set_conn drm i c).crtcs = drm.crtcs := rfl
@[simp] theorem set_conn_session_active (drm : wlr_drm_backend) (i : Nat)
    (c : wlr_drm_connector) : (set_conn drm i c).session_active = drm.session_active := rfl
@[simp] theorem set_conn_parent (drm : wlr_drm_backend) (i : Nat) (c : wlr_drm_connector) :
    (set_conn drm i c).parent = drm.parent := rfl
@[simp] theorem set_conn_log (drm : wlr_drm_backend) (i : Nat) (c : wlr_drm_connector) :
    (set_conn drm i c).log = drm.log := rfl
@[simp] theorem set_crtc_outputs (drm : wlr_drm_backend) (k : Nat) (c : wlr_drm_crtc) :
    (set_crtc drm k c).outputs = drm.outputs := rfl
@[simp] theorem set_crtc_crtcs (drm : wlr_drm_backend) (k : Nat) (c : wlr_drm_crtc) :
    (set_crtc drm k c).crtcs = drm.crtcs.set k c := rfl
@[simp] theorem set_crtc_log (drm : wlr_drm_backend) (k : Nat) (c : wlr_drm_crtc) :
    (set_crtc drm k c).log = drm.log := rfl
@[simp] theorem set_crtc_session_active (drm : wlr_drm_backend) (k : Nat) (c : wlr_drm_crtc) :
    (set_crtc drm k c).session_active = drm.session_active := rfl
@[simp] theorem set_crtc_parent (drm : wlr_drm_backend) (k : Nat) (c : wlr_drm_crtc) :
    (set_crtc drm k c).parent = drm.parent := rfl

theorem update_enabled_eq (drm : wlr_drm_backend) (i : Nat) (b : Bool) (c : wlr_drm_connector)
    (h : drm.outputs[i]? = some c) :
    wlr_output_update_enabled drm i b =
      emit (set_conn drm i { c with enabled := b }) (Event.wlr_output_update_enabled i b) := by
  simp [wlr_output_update_enabled, h]

theorem getElem?_set_self_of_some {α : Type} (l : List α) (i : Nat) (a b : α)
    (h : l[i]? = some a) : (l.set i b)[i]? = some b := by
  have hi : i < l.length := by
    by_contra hc
    rw [List.getElem?_eq_none (by omega)] at h
    cases h
  simp [List.getElem?_set_self, hi]

theorem logged_refl (drm : wlr_drm_backend) : logged_without_pageflip drm drm :=
  ⟨[], by simp, by simp⟩

theorem logged_emit {drm drm1 : wlr_drm_backend} (h : logged_without_pageflip drm drm1)
    (e : Event) (he : is_crtc_pageflip e = false) :
    logged_without_pageflip drm (emit drm1 e) := by
  obtain ⟨rest, h1, h2⟩ := h
  refine ⟨rest ++ [e], ?_, ?_⟩
  · subst h1; simp [emit]
  · intro x hx
    rcases List.mem_append.mp hx with hx | hx
    · exact h2 x hx
    · simp at hx; subst hx; exact he

theorem commit_acquire_logged (env : Env) (drm : wlr_drm_backend) (k : Nat)
    (crtc : wlr_drm_crtc) (conn : wlr_drm_connector) (pending : wlr_output_state) :
    logged_without_pageflip drm (commit_acquire env drm k crtc conn pending).1 := by
  unfold commit_acquire commit_fb
  dsimp only
  repeat' split
  all_goals repeat (first | exact logged_refl _ | refine logged_emit ?_ _ rfl)

theorem commit_true (env : Env) (drm drm1 : wlr_drm_backend) (i : Nat)
    (pending : wlr_output_state)
    (h : drm_connector_commit env drm i pending = some (drm1, true)) :
    ∃ conn k crtc c1, drm.outputs[i]? = some conn ∧ drm.session_active = true ∧
      conn.crtc = some k ∧ drm.crtcs[k]? = some crtc ∧ drm1.outputs[i]? = some c1 ∧
      c1.pageflip_pending = true ∧ c1.crtc = some k ∧ drm1.crtcs = drm.crtcs ∧
      drm1.session_active = true := by
  unfold drm_connector_commit at h
  split at h
  · cases h
  rename_i conn hconn
  split at h
  · simp at h
  rename_i hact
  split at h
  · simp at h
  rename_i k hk
  split at h
  · cases h
  rename_i crtc hcrtc
  have hlog := commit_acquire_logged env drm k crtc conn pending
  split at h
  · simp at h
  rename_i drmA fb hacq
  rw [hacq] at hlog
  obtain ⟨rest, hA, -⟩ := hlog
  simp only [] at hA
  split at h
  · simp at h
  dsimp only at h
  split at h
  · simp at h
  simp only [Option.some.injEq, Prod.mk.injEq, and_true] at h
  have hret : ∃ c2, (commit_retain (emit drmA (Event.crtc_pageflip i k fb none)) i conn
      pending).outputs = drm.outputs.set i c2 ∧ c2.pageflip_pending = true ∧ c2.crtc = some k ∧
      (commit_retain (emit drmA (Event.crtc_pageflip i k fb none)) i conn pending).crtcs
        = drm.crtcs ∧
      (commit_retain (emit drmA (Event.crtc_pageflip i k fb none)) i conn pending).session_active
        = drm.session_active := by
    unfold commit_retain
    subst hA
    cases pending.buffer_type <;> exact ⟨_, rfl, rfl, hk, rfl, rfl⟩
  obtain ⟨c2, ho, hp, hc, hcr, hs⟩ := hret
  have h2 : (commit_retain (emit drmA (Event.crtc_pageflip i k fb none)) i conn
      pending).outputs[i]? = some c2 := by
    rw [ho]; exact getElem?_set_self_of_some _ _ _ _ hconn
  rw [update_enabled_eq _ _ _ _ h2] at h
  subst h
  refine ⟨conn, k, crtc, { c2 with enabled := true }, hconn, by simpa using hact, hk, hcrtc,
    ?_, hp, hc, ?_, ?_⟩
  · simp only [emit_outputs, set_conn_outputs]
    exact getElem?_set_self_of_some _ _ _ _ h2
  · simpa using hcr
  · simp only [emit_session_active, set_conn_session_active, hs]
    simpa using hact

/-- C5 (flip backpressure): when `drm_connector_commit` has returned true for
an output, a second `drm_connector_commit` on that output, with no completion
event handled in between, returns false, appends no page-flip request to the
log (and changes nothing but the log), and leaves `pageflip_pending` true. -/
theorem flip_backpressure (env : Env) (drm drm1 : wlr_drm_backend) (i : Nat)
    (pending pending2 : wlr_output_state)
    (h : drm_connector_commit env drm i pending = some (drm1, true)) :
    ∃ drm2, drm_connector_commit env drm1 i pending2 = some (drm2, false) ∧
      logged_without_pageflip drm1 drm2 ∧
      ∃ conn, drm2.outputs[i]? = some conn ∧ conn.pageflip_pending = true := by
  obtain ⟨conn, k, crtc, c1, -, -, -, hcrtc, hc1, hp, hk, hcr, hs⟩ := commit_true env drm drm1 i pending h
  rw [← hcr] at hcrtc
  have hlog := commit_acquire_logged env drm1 k crtc c1 pending2
  unfold drm_connector_commit
  simp only [hc1, hs, hk, hcrtc, hp]
  rcases hacq : commit_acquire env drm1 k crtc c1 pending2 with ⟨drmA, fb⟩
  rw [hacq] at hlog
  have hout : drmA.outputs[i]? = some c1 := by
    obtain ⟨rest, hA, -⟩ := hlog
    simp only [] at hA
    subst hA
    exact hc1
  cases fb <;> exact ⟨drmA, by simp, hlog, c1, hout, hp⟩


/-- C5 at a concrete backend: one connector on one CRTC, every kernel call
succeeding. -/
theorem flip_backpressure_witness :
    ∃ drm2, drm_connector_commit env_accepting
        ((drm_connector_commit env_accepting backend_single 0 pending_render).getD
          (backend_single, false)).1 0 pending_render = some (drm2, false) ∧
      logged_without_pageflip
        ((drm_connector_commit env_accepting backend_single 0 pending_render).getD
          (backend_single, false)).1 drm2 ∧
      ∃ conn, drm2.outputs[0]? = some conn ∧ conn.pageflip_pending = true :=
  flip_backpressure env_accepting backend_single _ 0 pending_render pending_render (by decide)

/-! ## Format fallback -/

/-- C6, as stated, fails for ABGR8888: the plane lacks (ABGR8888, 0) and has the
opaque equivalent (XBGR8888, 0), the buffer has flags 0 and the size of the
output, the session is active and the connector holds a CRTC, and yet
`drm_connector_attach_buffer` returns false and records nothing. -/
theorem format_fallback_abgr_counterexample :
    backend_xbgr.session_active = true ∧
    (∃ conn crtc attribs, backend_xbgr.outputs[0]? = some conn ∧ conn.crtc = some 0 ∧
      backend_xbgr.crtcs[0]? = some crtc ∧
      (client_buffer DRM_FORMAT_ABGR8888).dmabuf = some attribs ∧
      attribs.format = DRM_FORMAT_ABGR8888 ∧ attribs.flags = 0 ∧
      attribs.width = conn.width ∧ attribs.height = conn.height ∧
      (DRM_FORMAT_ABGR8888, attribs.modifier) ∉ crtc.primary.formats ∧
      (DRM_FORMAT_XBGR8888, attribs.modifier) ∈ crtc.primary.formats) ∧
    drm_connector_attach_buffer backend_xbgr 0 (client_buffer DRM_FORMAT_ABGR8888) =
      some (backend_xbgr, false) :=
  ⟨rfl, ⟨connector_on 70 0, _, client_attribs DRM_FORMAT_ABGR8888, rfl, rfl, rfl, rfl, rfl, rfl,
    rfl, rfl, by decide, by decide⟩, by decide⟩

/-- C6, amended (format fallback for ARGB8888, the only format
`strip_alpha_channel` maps).  Let a buffer have the format f, the modifier m,
the flags 0 and the output's dimensions, on an output with an active session and
a CRTC whose primary plane lacks (f, m).  If f is ARGB8888 and the plane has
(XRGB8888, m), `drm_connector_attach_buffer` returns true and records the
buffer's attributes as the pending dmabuf with the format replaced by XRGB8888
and nothing else changed.  For every other format f, `strip_alpha_channel`
yields DRM_FORMAT_INVALID and no fallback is tried: whatever the plane supports,
`drm_connector_attach_buffer` returns false and records nothing. -/
theorem format_fallback_argb (drm : wlr_drm_backend) (i k : Nat) (conn : wlr_drm_connector)
    (crtc : wlr_drm_crtc) (buffer : wlr_buffer) (attribs : wlr_dmabuf_attributes)
    (hact : drm.session_active = true) (hconn : drm.outputs[i]? = some conn)
    (hk : conn.crtc = some k) (hcrtc : drm.crtcs[k]? = some crtc)
    (hbuf : buffer.dmabuf = some attribs)
    (hflags : attribs.flags = 0) (hw : attribs.width = conn.width)
    (hh : attribs.height = conn.height)
    (hlack : (attribs.format, attribs.modifier) ∉ crtc.primary.formats) :
    (attribs.format = DRM_FORMAT_ARGB8888 →
      (DRM_FORMAT_XRGB8888, attribs.modifier) ∈ crtc.primary.formats →
      drm_connector_attach_buffer drm i buffer =
        some (set_conn drm i
          { conn with pending_dmabuf := some { attribs with format := DRM_FORMAT_XRGB8888 } },
          true)) ∧
    (attribs.format ≠ DRM_FORMAT_ARGB8888 →
      strip_alpha_channel attribs.format = DRM_FORMAT_INVALID ∧
      drm_connector_attach_buffer drm i buffer = some (drm, false)) := by
  constructor
  · intro hfmt hhas
    have hne : DRM_FORMAT_XRGB8888 ≠ DRM_FORMAT_INVALID := by decide
    rw [hfmt] at hlack
    simp [drm_connector_attach_buffer, hconn, hact, hk, hbuf, hflags, hw, hh, hcrtc,
      wlr_drm_format_set_has, strip_alpha_channel, hfmt, hlack, hhas, hne]
  · intro hfmt
    have hstrip : strip_alpha_channel attribs.format = DRM_FORMAT_INVALID := by
      unfold strip_alpha_channel
      rw [if_neg hfmt]
    refine ⟨hstrip, ?_⟩
    simp [drm_connector_attach_buffer, hconn, hact, hk, hbuf, hflags, hw, hh, hcrtc,
      wlr_drm_format_set_has, hstrip, hlack]

/-- C6 amended, at concrete backends: an ARGB8888 client buffer on a plane that
scans out XRGB8888 only is attached as XRGB8888, and an ABGR8888 client buffer
on a plane that scans out XBGR8888 only is refused. -/
theorem format_fallback_argb_witness :
    drm_connector_attach_buffer backend_single 0 (client_buffer DRM_FORMAT_ARGB8888) =
      some (set_conn backend_single 0
        { connector_on 70 0 with
          pending_dmabuf := some (client_attribs DRM_FORMAT_XRGB8888) }, true) ∧
    strip_alpha_channel (client_attribs DRM_FORMAT_ABGR8888).format = DRM_FORMAT_INVALID ∧
    drm_connector_attach_buffer backend_xbgr 0 (client_buffer DRM_FORMAT_ABGR8888) =
      some (backend_xbgr, false) :=
  ⟨(format_fallback_argb backend_single 0 0 (connector_on 70 0) (crtc_with_id 40)
      (client_buffer DRM_FORMAT_ARGB8888) (client_attribs DRM_FORMAT_ARGB8888)
      rfl rfl rfl rfl rfl rfl rfl rfl (by decide)).1 rfl (by decide),
    (format_fallback_argb backend_xbgr 0 0 (connector_on 70 0) _
      (client_buffer DRM_FORMAT_ABGR8888) (client_attribs DRM_FORMAT_ABGR8888)
      rfl rfl rfl rfl rfl rfl rfl rfl (by decide)).2 (by decide)⟩

/-! ## Gamma -/


theorem needs_frame_eq (drm : wlr_drm_backend) (i : Nat) (c : wlr_drm_connector)
    (h : drm.outputs[i]? = some c) :
    wlr_output_update_needs_frame drm i =
      emit (set_conn drm i { c with needs_frame := true })
        (Event.wlr_output_update_needs_frame i) := by
  simp [wlr_output_update_needs_frame, h]

theorem getElem?_set_self_of_lt {α : Type} (l : List α) (i : Nat) (b : α)
    (h : i < l.length) : (l.set i b)[i]? = some b := by
  simp [List.getElem?_set_self, h]

theorem lt_length_of_getElem? {α : Type} {l : List α} {i : Nat} {a : α}
    (h : l[i]? = some a) : i < l.length := by
  by_contra hc
  rw [List.getElem?_eq_none (by omega)] at h
  cases h

/-- What a successful `set_gamma_sized` leaves behind. -/
theorem set_gamma_sized_true (env : Env) (drm drm1 : wlr_drm_backend) (i k : Nat)
    (reset : Bool) (size : Nat) (r g b : List Nat) (conn : wlr_drm_connector)
    (hconn : drm.outputs[i]? = some conn)
    (h : set_gamma_sized env drm i k reset size r g b = some (drm1, true)) :
    ∃ crtc r1 g1 b1, drm.crtcs[k]? = some crtc ∧
      gamma_channels reset size r g b = some (r1, g1, b1) ∧
      drm1.outputs = drm.outputs.set i { conn with needs_frame := true } ∧
      drm1.crtcs = drm.crtcs.set k
        { crtc with gamma_table := r1 ++ g1 ++ b1, gamma_table_size := size } := by
  unfold set_gamma_sized at h
  split at h
  · simp at h
  split at h
  · cases h
  rename_i r1 g1 b1 hch
  split at h
  swap
  · simp at h
  split at h
  · cases h
  rename_i crtc hcrtc
  rw [needs_frame_eq _ i conn (by simpa using hconn)] at h
  simp only [Option.some.injEq, Prod.mk.injEq, and_true] at h
  subst h
  exact ⟨crtc, r1, g1, b1, hcrtc, hch, rfl, rfl⟩

/-- What a successful `set_drm_connector_gamma` leaves behind. -/
theorem set_gamma_true (env : Env) (drm drm1 : wlr_drm_backend) (i size : Nat)
    (r g b : List Nat)
    (h : set_drm_connector_gamma env drm i size r g b = some (drm1, true)) :
    ∃ conn k conn1 crtc1, drm.outputs[i]? = some conn ∧ conn.crtc = some k ∧
      drm1.outputs[i]? = some conn1 ∧ conn1.crtc = some k ∧
      drm1.crtcs[k]? = some crtc1 ∧
      (size = 0 →
        crtc1.gamma_table_size = env.crtc_get_gamma_size k ∧
        ∃ ramp, fill_empty_gamma_table (env.crtc_get_gamma_size k) = some (ramp, ramp, ramp) ∧
          crtc1.gamma_table = ramp ++ ramp ++ ramp) := by
  unfold set_drm_connector_gamma at h
  split at h
  · cases h
  rename_i conn hconn
  split at h
  · simp at h
  rename_i k hk
  have hgs : drm_connector_get_gamma_size env drm i = env.crtc_get_gamma_size k := by
    simp [drm_connector_get_gamma_size, hconn, hk]
  have key : ∀ reset sz, set_gamma_sized env drm i k reset sz r g b = some (drm1, true) →
      ∃ conn1 crtc1 r1 g1 b1, drm1.outputs[i]? = some conn1 ∧ conn1.crtc = some k ∧
        drm1.crtcs[k]? = some crtc1 ∧ gamma_channels reset sz r g b = some (r1, g1, b1) ∧
        crtc1.gamma_table = r1 ++ g1 ++ b1 ∧ crtc1.gamma_table_size = sz := by
    intro reset sz hs
    obtain ⟨crtc, r1, g1, b1, hcrtc, hch, ho, hc⟩ :=
      set_gamma_sized_true env drm drm1 i k reset sz r g b conn hconn hs
    refine ⟨{ conn with needs_frame := true },
      { crtc with gamma_table := r1 ++ g1 ++ b1, gamma_table_size := sz }, r1, g1, b1,
      ?_, hk, ?_, hch, rfl, rfl⟩
    · rw [ho]; exact getElem?_set_self_of_lt _ _ _ (lt_length_of_getElem? hconn)
    · rw [hc]; exact getElem?_set_self_of_lt _ _ _ (lt_length_of_getElem? hcrtc)
  split at h
  · rename_i hz
    split at h
    · simp at h
    obtain ⟨conn1, crtc1, r1, g1, b1, h1, h2, h3, h4, h5, h6⟩ := key _ _ h
    refine ⟨conn, k, conn1, crtc1, hconn, hk, h1, h2, h3, fun _ => ⟨by rw [h6, hgs], ?_⟩⟩
    rw [hgs] at h4
    simp only [gamma_channels, if_true] at h4
    have h4' := h4
    unfold fill_empty_gamma_table at h4
    split at h4
    · cases h4
    · simp only [Option.some.injEq, Prod.mk.injEq] at h4
      obtain ⟨e1, e2, e3⟩ := h4
      subst e1; subst e2; subst e3
      exact ⟨_, h4', h5⟩
  · rename_i hz
    obtain ⟨conn1, crtc1, r1, g1, b1, h1, h2, h3, -, -, -⟩ := key _ _ h
    exact ⟨conn, k, conn1, crtc1, hconn, hk, h1, h2, h3, fun h0 => absurd h0 hz⟩

theorem fill_empty_gamma_table_eq (size : Nat) (ramp : List Nat)
    (h : fill_empty_gamma_table size = some (ramp, ramp, ramp)) :
    size ≠ 1 ∧ size < 2 ^ 32 ∧
      ramp = (List.range size).map fun i => (0xffff * i % 2 ^ 32) / (size - 1) % 2 ^ 16 := by
  unfold fill_empty_gamma_table at h
  split at h
  · cases h
  · rename_i hc
    simp only [Option.some.injEq, Prod.mk.injEq, and_self] at h
    exact ⟨by omega, by omega, h.symm⟩

/-- Within the range where the 32-bit product does not wrap, the entry the fill
writes at index `j` is the exact quotient. -/
theorem ramp_entry_exact (size j : Nat) (h2 : 2 ≤ size) (h3 : size ≤ 65538) (hj : j < size) :
    (0xffff * j % 2 ^ 32) / (size - 1) % 2 ^ 16 = 65535 * j / (size - 1) := by
  have h1 : 0xffff * j < 2 ^ 32 := by omega
  rw [Nat.mod_eq_of_lt h1]
  apply Nat.mod_eq_of_lt
  apply Nat.div_lt_of_lt_mul
  norm_num
  omega

/-- Entry `j` of the table a successful reset stores, in each channel. -/
theorem reset_table_entry (size : Nat) (ramp : List Nat)
    (h : fill_empty_gamma_table size = some (ramp, ramp, ramp)) (j : Nat) (hj : j < size) :
    ramp.length = size ∧
    (ramp ++ ramp ++ ramp)[j]? = some ((0xffff * j % 2 ^ 32) / (size - 1) % 2 ^ 16) ∧
    (ramp ++ ramp ++ ramp)[size + j]? = some ((0xffff * j % 2 ^ 32) / (size - 1) % 2 ^ 16) ∧
    (ramp ++ ramp ++ ramp)[2 * size + j]? =
      some ((0xffff * j % 2 ^ 32) / (size - 1) % 2 ^ 16) := by
  obtain ⟨-, -, hr⟩ := fill_empty_gamma_table_eq size ramp h
  have hlen : ramp.length = size := by rw [hr]; simp
  have hrj : ramp[j]? = some ((0xffff * j % 2 ^ 32) / (size - 1) % 2 ^ 16) := by
    rw [hr]; simp [List.getElem?_map, List.getElem?_range, hj]
  refine ⟨hlen, ?_, ?_, ?_⟩
  · rw [List.append_assoc, List.getElem?_append_left (by omega)]; exact hrj
  · rw [List.append_assoc, List.getElem?_append_right (by omega),
      List.getElem?_append_left (by omega)]
    rw [hlen, Nat.add_sub_cancel_left]; exact hrj
  · rw [List.getElem?_append_right (by simp; omega)]
    simp only [List.length_append, hlen]
    rw [show 2 * size + j - (size + size) = j by omega]; exact hrj

/-- A call of `set_drm_connector_gamma` succeeds when the allocation and the
interface succeed and the channels are defined. -/
theorem set_gamma_succeeds (env : Env) (drm : wlr_drm_backend) (i size : Nat)
    (r g b : List Nat) (conn : wlr_drm_connector) (k : Nat) (crtc : wlr_drm_crtc)
    (hconn : drm.outputs[i]? = some conn) (hk : conn.crtc = some k)
    (hcrtc : drm.crtcs[k]? = some crtc)
    (hm : ∀ l n, env.malloc l n = true) (hs : ∀ l c n t, env.crtc_set_gamma l c n t = true)
    (hsize : env.crtc_get_gamma_size k ≠ 0)
    (hch : (gamma_channels (decide (size = 0))
      (if size = 0 then env.crtc_get_gamma_size k else size) r g b).isSome = true) :
    ∃ drm1, set_drm_connector_gamma env drm i size r g b = some (drm1, true) := by
  have hgs : drm_connector_get_gamma_size env drm i = env.crtc_get_gamma_size k := by
    simp [drm_connector_get_gamma_size, hconn, hk]
  unfold set_drm_connector_gamma
  simp only [hconn, hk, hgs, hsize, if_false]
  by_cases hz : size = 0
  · simp only [hz, if_true, decide_True] at hch ⊢
    obtain ⟨⟨r1, g1, b1⟩, hc⟩ := Option.isSome_iff_exists.mp hch
    simp [set_gamma_sized, hm, hs, hc, hcrtc]
  · simp only [hz, if_false, decide_False] at hch ⊢
    obtain ⟨⟨r1, g1, b1⟩, hc⟩ := Option.isSome_iff_exists.mp hch
    simp [set_gamma_sized, hm, hs, hc, hcrtc]

/-- The gamma round trip for a hardware gamma size G with 2 ≤ G ≤ 65538, for
which no product wraps: when a connector holds a CRTC whose hardware-reported gamma
size is G, and `set_drm_connector_gamma` succeeds first with a custom table of
size N and then with size 0, the CRTC's stored table has size G (not N), has
3 * G entries, holds in each of its three channels at index j the value
floor(65535 * j / (G - 1)), and each channel is non-decreasing. -/
theorem gamma_round_trip (env : Env) (drm drm1 drm2 : wlr_drm_backend) (i N G k : Nat)
    (r g b r0 g0 b0 : List Nat) (conn : wlr_drm_connector)
    (hconn : drm.outputs[i]? = some conn) (hk : conn.crtc = some k)
    (hG : env.crtc_get_gamma_size k = G) (hG2 : 2 ≤ G) (hG3 : G ≤ 65538)
    (h1 : set_drm_connector_gamma env drm i N r g b = some (drm1, true))
    (h2 : set_drm_connector_gamma env drm1 i 0 r0 g0 b0 = some (drm2, true)) :
    ∃ crtc, drm2.crtcs[k]? = some crtc ∧ crtc.gamma_table_size = G ∧
      crtc.gamma_table.length = 3 * G ∧
      (∀ c j, c < 3 → j < G →
        crtc.gamma_table[c * G + j]? = some (65535 * j / (G - 1))) ∧
      (∀ c j1 j2, c < 3 → j1 ≤ j2 → j2 < G →
        crtc.gamma_table.getD (c * G + j1) 0 ≤ crtc.gamma_table.getD (c * G + j2) 0) := by
  obtain ⟨conn0, k0, conn1, -, hc0, hk0, hc1, hk1, -, -⟩ := set_gamma_true env drm drm1 i N r g b h1
  rw [hconn] at hc0
  cases hc0
  rw [hk] at hk0
  cases hk0
  obtain ⟨conn1', k1, -, crtc2, hc1', hk1', -, -, hcrtc2, hres⟩ :=
    set_gamma_true env drm1 drm2 i 0 r0 g0 b0 h2
  rw [hc1] at hc1'
  cases hc1'
  rw [hk1] at hk1'
  cases hk1'
  obtain ⟨hsz, ramp, hfill, htab⟩ := hres rfl
  rw [hG] at hsz hfill
  have hent : ∀ c j, c < 3 → j < G →
      crtc2.gamma_table[c * G + j]? = some (65535 * j / (G - 1)) := by
    intro c j hc hj
    obtain ⟨-, e0, e1, e2⟩ := reset_table_entry G ramp hfill j hj
    rw [ramp_entry_exact G j hG2 hG3 hj] at e0 e1 e2
    rw [htab]
    interval_cases c
    · simpa using e0
    · simpa using e1
    · exact e2
  refine ⟨crtc2, hcrtc2, hsz, ?_, hent, ?_⟩
  · obtain ⟨hl, -⟩ := reset_table_entry G ramp hfill 0 (by omega)
    rw [htab]; simp only [List.length_append, hl]; omega
  · intro c j1 j2 hc h12 hj2
    have e1 := hent c j1 hc (by omega)
    have e2 := hent c j2 hc hj2
    rw [List.getD_eq_getElem?_getD, List.getD_eq_getElem?_getD, e1, e2]
    simp only [Option.getD_some]
    exact Nat.div_le_div_right (Nat.mul_le_mul_left _ h12)


/-- The gamma round trip at a concrete backend: the hardware ramp has 256
entries, a custom table of size 2 is set and then reset. -/
theorem gamma_round_trip_witness :
    ∃ drm1 drm2 crtc,
      set_drm_connector_gamma env_accepting backend_single 0 2 [0, 65535] [0, 65535] [0, 65535] =
        some (drm1, true) ∧
      set_drm_connector_gamma env_accepting drm1 0 0 [] [] [] = some (drm2, true) ∧
      drm2.crtcs[0]? = some crtc ∧ crtc.gamma_table_size = 256 ∧
      crtc.gamma_table.length = 3 * 256 ∧
      (∀ c j, c < 3 → j < 256 →
        crtc.gamma_table[c * 256 + j]? = some (65535 * j / (256 - 1))) ∧
      (∀ c j1 j2, c < 3 → j1 ≤ j2 → j2 < 256 →
        crtc.gamma_table.getD (c * 256 + j1) 0 ≤ crtc.gamma_table.getD (c * 256 + j2) 0) := by
  obtain ⟨drm1, h1⟩ := set_gamma_succeeds env_accepting backend_single 0 2 [0, 65535] [0, 65535]
    [0, 65535] (connector_on 70 0) 0 (crtc_with_id 40) rfl rfl rfl (fun _ _ => rfl)
    (fun _ _ _ _ => rfl) (by decide) (by decide)
  obtain ⟨c0, k1, conn1, crtc1, hc0, hk0, hc1, hk1, hcrtc1, -⟩ :=
    set_gamma_true _ _ _ _ _ _ _ _ h1
  have e0 : some (connector_on 70 0) = some c0 := hc0
  cases e0
  have e1 : some 0 = some k1 := hk0
  cases e1
  obtain ⟨drm2, h2⟩ := set_gamma_succeeds env_accepting drm1 0 0 [] [] [] conn1 0 crtc1 hc1 hk1
    hcrtc1 (fun _ _ => rfl) (fun _ _ _ _ => rfl) (by decide)
    (by simp [gamma_channels, fill_empty_gamma_table, env_accepting])
  obtain ⟨crtc, h⟩ := gamma_round_trip env_accepting backend_single drm1 drm2 0 2 256 0
    [0, 65535] [0, 65535] [0, 65535] [] [] [] (connector_on 70 0) rfl rfl rfl (by decide)
    (by decide) h1 h2
  exact ⟨drm1, drm2, crtc, h1, h2, h⟩

/-- C7 fails for the hardware gamma size G = 65539: a custom table of size 2 is
set, the reset with size 0 succeeds, and the red channel of the stored table
falls from 65534 at index 65537 to 0 at index 65538, because the 32-bit product
`(uint32_t)0xffff * i` of `fill_empty_gamma_table` wraps at i = 65538.  The
stored table is not a non-decreasing ramp. -/
theorem gamma_round_trip_counterexample :
    ∃ drm1 drm2 crtc,
      backend_single.outputs[0]? = some (connector_on 70 0) ∧
      (connector_on 70 0).crtc = some 0 ∧ env_wide_gamma.crtc_get_gamma_size 0 = 65539 ∧
      set_drm_connector_gamma env_wide_gamma backend_single 0 2 [0, 65535] [0, 65535]
        [0, 65535] = some (drm1, true) ∧
      set_drm_connector_gamma env_wide_gamma drm1 0 0 [] [] [] = some (drm2, true) ∧
      drm2.crtcs[0]? = some crtc ∧
      crtc.gamma_table[65537]? = some 65534 ∧ crtc.gamma_table[65538]? = some 0 := by
  obtain ⟨drm1, h1⟩ := set_gamma_succeeds env_wide_gamma backend_single 0 2 [0, 65535]
    [0, 65535] [0, 65535] (connector_on 70 0) 0 (crtc_with_id 40) rfl rfl rfl (fun _ _ => rfl)
    (fun _ _ _ _ => rfl) (by decide) (by decide)
  obtain ⟨c0, k1, conn1, crtc1, hc0, hk0, hc1, hk1, hcrtc1, -⟩ :=
    set_gamma_true _ _ _ _ _ _ _ _ h1
  have e0 : some (connector_on 70 0) = some c0 := hc0
  cases e0
  have e1 : some 0 = some k1 := hk0
  cases e1
  obtain ⟨drm2, h2⟩ := set_gamma_succeeds env_wide_gamma drm1 0 0 [] [] [] conn1 0 crtc1 hc1 hk1
    hcrtc1 (fun _ _ => rfl) (fun _ _ _ _ => rfl) (by decide)
    (by simp [gamma_channels, fill_empty_gamma_table, env_wide_gamma])
  obtain ⟨_, k2, _, crtc2, hc2, hk2, -, -, hcrtc2, hres⟩ := set_gamma_true _ _ _ _ _ _ _ _ h2
  have hk20 : k2 = 0 := by
    rw [hc1] at hc2; cases hc2; rw [hk1] at hk2; cases hk2; rfl
  subst hk20
  obtain ⟨-, ramp, hfill, htab⟩ := hres rfl
  have hsz : env_wide_gamma.crtc_get_gamma_size 0 = 65539 := rfl
  rw [hsz] at hfill
  obtain ⟨-, e1, -, -⟩ := reset_table_entry 65539 ramp hfill 65537 (by decide)
  obtain ⟨-, e2, -, -⟩ := reset_table_entry 65539 ramp hfill 65538 (by decide)
  refine ⟨drm1, drm2, crtc2, rfl, rfl, rfl, h1, h2, hcrtc2, ?_, ?_⟩
  · rw [htab, e1]; norm_num
  · rw [htab, e2]; norm_num

/-! ## Page-flips -/

/-- C8, as stated, fails for `drm_connector_start_renderer`: after a successful
commit on the only connector its `pageflip_pending` flag is true; a following
`drm_connector_set_mode`, and likewise the `retry_pageflip` timer, reaches
`drm_connector_start_renderer`, which requests the page-flip of the modeset for
that connector without looking at the flag. -/
theorem pageflip_issued_while_pending :
    ∃ drm1 conn1 drm2 drm3,
      drm_connector_commit env_accepting backend_single 0 pending_render = some (drm1, true) ∧
      drm1.outputs[0]? = some conn1 ∧ conn1.pageflip_pending = true ∧
      drm_connector_set_mode env_accepting match_obj drm1 0 mode_1080p = some (drm2, true) ∧
      drm2.log = drm1.log ++
        [Event.init_drm_plane_surfaces 0 1920 1080,
         Event.wlr_output_update_mode 0 (some mode_1080p),
         Event.wlr_output_update_enabled 0 true,
         Event.get_drm_surface_front 0,
         Event.get_fb_for_bo (some 1) DRM_FORMAT_XRGB8888,
         Event.crtc_pageflip 0 0 7 (some mode_1080p),
         Event.wlr_output_update_enabled 0 true,
         Event.wlr_output_damage_whole 0] ∧
      retry_pageflip env_accepting drm1 0 = some drm3 ∧
      drm3.log = drm1.log ++
        [Event.get_drm_surface_front 0,
         Event.get_fb_for_bo (some 1) DRM_FORMAT_XRGB8888,
         Event.crtc_pageflip 0 0 7 (some mode_1080p),
         Event.wlr_output_update_enabled 0 true] :=
  ⟨_, _, _, _, rfl, rfl, rfl, rfl, rfl, rfl, rfl⟩


theorem find_flipped_none (l : List wlr_drm_connector) (crtcs : List wlr_drm_crtc)
    (crtc_id start : Nat) (found : Option Nat)
    (h : ∀ (j : Nat) (c : wlr_drm_connector) (k : Nat) (crtc : wlr_drm_crtc),
      l[j]? = some c → c.crtc = some k → crtcs[k]? = some crtc → crtc.id ≠ crtc_id) :
    find_flipped l crtcs crtc_id start found = found := by
  induction l generalizing start found with
  | nil => rfl
  | cons c rest ih =>
    have hrest : ∀ (j : Nat) (c : wlr_drm_connector) (k : Nat) (crtc : wlr_drm_crtc),
        rest[j]? = some c → c.crtc = some k → crtcs[k]? = some crtc → crtc.id ≠ crtc_id :=
      fun j c1 k crtc hj => h (j + 1) c1 k crtc (by rw [List.getElem?_cons_succ]; exact hj)
    unfold find_flipped
    split
    · exact ih _ _ hrest
    · rename_i k hk
      split
      · exact ih _ _ hrest
      · rename_i crtc hcrtc
        have := h 0 c k crtc (by simp) hk hcrtc
        rw [if_neg this]
        exact ih _ _ hrest

theorem find_flipped_last (l : List wlr_drm_connector) (crtcs : List wlr_drm_crtc)
    (crtc_id start : Nat) (found : Option Nat) (i k : Nat) (conn : wlr_drm_connector)
    (crtc : wlr_drm_crtc) (hconn : l[i]? = some conn) (hk : conn.crtc = some k)
    (hcrtc : crtcs[k]? = some crtc) (hid : crtc.id = crtc_id)
    (hlast : ∀ (j : Nat) (c : wlr_drm_connector) (k : Nat) (crtc : wlr_drm_crtc),
      i < j → l[j]? = some c → c.crtc = some k → crtcs[k]? = some crtc → crtc.id ≠ crtc_id) :
    find_flipped l crtcs crtc_id start found = some (start + i) := by
  induction l generalizing start found i with
  | nil => simp at hconn
  | cons c rest ih =>
    cases i with
    | zero =>
      simp only [List.getElem?_cons_zero, Option.some.injEq] at hconn
      subst hconn
      unfold find_flipped
      simp only [hk, hcrtc, hid, if_true]
      exact find_flipped_none rest crtcs crtc_id _ _
        (fun j c1 k crtc hj =>
          hlast (j + 1) c1 k crtc (by omega) (by rw [List.getElem?_cons_succ]; exact hj))
    | succ i =>
      have hrest : ∀ f, find_flipped rest crtcs crtc_id (start + 1) f = some (start + (i + 1)) := by
        intro f
        have := ih (start + 1) f i (by rw [List.getElem?_cons_succ] at hconn; exact hconn)
          (fun j c1 k crtc hij hj =>
            hlast (j + 1) c1 k crtc (by omega) (by rw [List.getElem?_cons_succ]; exact hj))
        rw [this]; congr 1; omega
      unfold find_flipped
      split
      · exact hrest _
      · split
        · exact hrest _
        · split <;> exact hrest _

theorem send_frame_eq (drm : wlr_drm_backend) (i : Nat) (c : wlr_drm_connector)
    (h : drm.outputs[i]? = some c) :
    wlr_output_send_frame drm i =
      emit (set_conn drm i { c with frame_pending := false }) (Event.wlr_output_send_frame i) := by
  simp [wlr_output_send_frame, h]

theorem post_surfaces_outputs (drm : wlr_drm_backend) (k : Nat) :
    (post_surfaces drm k).outputs = drm.outputs := by
  unfold post_surfaces; split <;> rfl

theorem post_surfaces_session_active (drm : wlr_drm_backend) (k : Nat) :
    (post_surfaces drm k).session_active = drm.session_active := by
  unfold post_surfaces; split <;> rfl

theorem post_surfaces_log (drm : wlr_drm_backend) (k : Nat) :
    (post_surfaces drm k).log = drm.log ++ ([Event.post_drm_surface k false] ++
      (if drm.parent = true then [Event.post_drm_surface k true] else [])) := by
  unfold post_surfaces; split <;> simp

/-- Flip completion where the refresh rate is not 0: for a connector at position
`i` in the connected
state that holds a CRTC with the kernel id of the event, no connector later in
the list holding a CRTC with that id (so that the handler's search ends on
it; in particular whenever the CRTC is held by this connector alone), the
handler returns whenever the output's refresh is not 0, and whenever it returns:
`pageflip_pending` is false, the former pending buffer is the current one, no
buffer is pending, and the log has grown by exactly: the release of the former
current buffer; the posting of the render surfaces if no client buffer became
current; one presentation event with the flags VSYNC, HW_CLOCK, HW_COMPLETION
and, exactly when the new current buffer is not `NULL`, ZERO_COPY; and a frame
event exactly when the session is active. -/
theorem flip_completion (drm : wlr_drm_backend) (ev : page_flip_event) (i k : Nat)
    (conn : wlr_drm_connector) (crtc : wlr_drm_crtc)
    (hconn : drm.outputs[i]? = some conn) (hstate : conn.state = WLR_DRM_CONN_CONNECTED)
    (hk : conn.crtc = some k) (hcrtc : drm.crtcs[k]? = some crtc)
    (hid : crtc.id = ev.crtc_id)
    (hlast : ∀ (j : Nat) (c : wlr_drm_connector) (k1 : Nat) (crtc1 : wlr_drm_crtc),
      i < j → drm.outputs[j]? = some c → c.crtc = some k1 → drm.crtcs[k1]? = some crtc1 →
      crtc1.id ≠ ev.crtc_id) :
    (conn.refresh ≠ 0 → ∃ drm1, page_flip_handler drm ev = some drm1) ∧
    ∀ drm1, page_flip_handler drm ev = some drm1 →
      ∃ conn1 refresh, drm1.outputs[i]? = some conn1 ∧
        conn1.pageflip_pending = false ∧
        conn1.current_buffer = conn.pending_buffer ∧
        conn1.pending_buffer = none ∧
        drm1.log = drm.log ++ [Event.wlr_buffer_unref conn.current_buffer] ++
          (if conn.pending_buffer = none then
            [Event.post_drm_surface k false] ++
              (if drm.parent = true then [Event.post_drm_surface k true] else [])
           else []) ++
          [Event.wlr_output_send_present i ev.seq refresh
            (WLR_OUTPUT_PRESENT_VSYNC ||| WLR_OUTPUT_PRESENT_HW_CLOCK |||
              WLR_OUTPUT_PRESENT_HW_COMPLETION |||
              (if conn.pending_buffer = none then 0 else WLR_OUTPUT_PRESENT_ZERO_COPY))] ++
          (if drm.session_active = true then [Event.wlr_output_send_frame i] else []) := by
  have hfind := find_flipped_last drm.outputs drm.crtcs ev.crtc_id 0 none i k conn crtc hconn hk
    hcrtc hid hlast
  rw [Nat.zero_add] at hfind
  have hi : i < drm.outputs.length := lt_length_of_getElem? hconn
  have hhandler : page_flip_handler drm ev =
      page_flip_complete (set_conn drm i { conn with pageflip_pending := false }) ev i k
        { conn with pageflip_pending := false } := by
    unfold page_flip_handler
    simp [hfind, hconn, hstate, hk]
  rw [hhandler]
  unfold page_flip_complete
  constructor
  · intro hr
    simp only [mhz_to_nsec, hr, if_false]
    exact ⟨_, rfl⟩
  · intro drm1 h
    split at h
    · cases h
    rename_i refresh hrefresh
    dsimp only at h
    have hflags : present_flags conn.pending_buffer =
        WLR_OUTPUT_PRESENT_VSYNC ||| WLR_OUTPUT_PRESENT_HW_CLOCK |||
          WLR_OUTPUT_PRESENT_HW_COMPLETION |||
          (if conn.pending_buffer = none then 0 else WLR_OUTPUT_PRESENT_ZERO_COPY) := by
      unfold present_flags
      by_cases hp : conn.pending_buffer = none <;> simp [hp]
    rw [hflags] at h
    have hout : ∀ d : wlr_drm_backend, d.outputs = (drm.outputs.set i
        { conn with pageflip_pending := false }).set i
          { conn with
            pageflip_pending := false, current_buffer := conn.pending_buffer,
            pending_buffer := none } →
        d.outputs[i]? = some { conn with
          pageflip_pending := false, current_buffer := conn.pending_buffer,
          pending_buffer := none } := by
      intro d hd
      rw [hd]
      exact getElem?_set_self_of_lt _ _ _ (by simpa using hi)
    simp only [Option.some.injEq] at h
    by_cases hp : conn.pending_buffer = none
    · simp only [hp, ne_eq, not_true_eq_false, if_false, if_true, emit_session_active,
        post_surfaces_session_active, set_conn_session_active] at h
      split at h
      · rename_i hs
        rw [send_frame_eq _ i _ (hout _ (by simp [post_surfaces_outputs, hp]))] at h
        subst h
        refine ⟨_, refresh, getElem?_set_self_of_lt _ _ _ (by simpa [post_surfaces_outputs] using hi),
          rfl, rfl, rfl, ?_⟩
        simp [hp, hs, post_surfaces_log]
      · rename_i hs
        subst h
        refine ⟨_, refresh, hout _ (by simp [post_surfaces_outputs, hp]), rfl, rfl, rfl, ?_⟩
        simp [hp, hs, post_surfaces_log]
    · simp only [hp, ne_eq, not_false_eq_true, if_false, if_true, emit_session_active,
        set_conn_session_active] at h
      split at h
      · rename_i hs
        rw [send_frame_eq _ i _ (hout _ (by simp))] at h
        subst h
        refine ⟨_, refresh, getElem?_set_self_of_lt _ _ _ (by simpa using hi),
          rfl, rfl, rfl, ?_⟩
        simp [hp, hs]
      · rename_i hs
        subst h
        refine ⟨_, refresh, hout _ (by simp), rfl, rfl, rfl, ?_⟩
        simp [hp, hs]


/-- Flip completion at a concrete backend: one connected connector on the CRTC
with kernel id 40, and a completion event for that CRTC. -/
theorem flip_completion_witness :
    ((connector_on 70 0).refresh ≠ 0 →
      ∃ drm1, page_flip_handler backend_single flip_event_40 = some drm1) ∧
    ∀ drm1, page_flip_handler backend_single flip_event_40 = some drm1 →
      ∃ conn1 refresh, drm1.outputs[0]? = some conn1 ∧
        conn1.pageflip_pending = false ∧
        conn1.current_buffer = (connector_on 70 0).pending_buffer ∧
        conn1.pending_buffer = none ∧
        drm1.log = backend_single.log ++
          [Event.wlr_buffer_unref (connector_on 70 0).current_buffer] ++
          (if (connector_on 70 0).pending_buffer = none then
            [Event.post_drm_surface 0 false] ++
              (if backend_single.parent = true then [Event.post_drm_surface 0 true] else [])
           else []) ++
          [Event.wlr_output_send_present 0 flip_event_40.seq refresh
            (WLR_OUTPUT_PRESENT_VSYNC ||| WLR_OUTPUT_PRESENT_HW_CLOCK |||
              WLR_OUTPUT_PRESENT_HW_COMPLETION |||
              (if (connector_on 70 0).pending_buffer = none then 0
               else WLR_OUTPUT_PRESENT_ZERO_COPY))] ++
          (if backend_single.session_active = true then [Event.wlr_output_send_frame 0]
           else []) :=
  flip_completion backend_single flip_event_40 0 0 (connector_on 70 0) (crtc_with_id 40)
    rfl rfl rfl rfl rfl
    (fun j c k1 crtc1 hij hj => by
      have hnone : backend_single.outputs[j]? = none :=
        List.getElem?_eq_none (by simp [backend_single, backend_of]; omega)
      rw [hnone] at hj
      cases hj)

/-- C10 fails for a connector whose output has the refresh rate 0.  For a
connector at position `i` in the connected state that holds a CRTC with the
kernel id of the event, and that the search of the handler ends on,
`page_flip_handler` reaches `mhz_to_nsec(conn->output.refresh)`, which divides
by the refresh rate: with the rate 0 the division is by zero, the handler has
no defined result, and no presentation event and no frame notification are
emitted. -/
theorem flip_completion_zero_refresh (drm : wlr_drm_backend) (ev : page_flip_event)
    (i k : Nat) (conn : wlr_drm_connector) (crtc : wlr_drm_crtc)
    (hconn : drm.outputs[i]? = some conn) (hstate : conn.state = WLR_DRM_CONN_CONNECTED)
    (hk : conn.crtc = some k) (hcrtc : drm.crtcs[k]? = some crtc)
    (hid : crtc.id = ev.crtc_id)
    (hlast : ∀ (j : Nat) (c : wlr_drm_connector) (k1 : Nat) (crtc1 : wlr_drm_crtc),
      i < j → drm.outputs[j]? = some c → c.crtc = some k1 → drm.crtcs[k1]? = some crtc1 →
      crtc1.id ≠ ev.crtc_id)
    (hzero : conn.refresh = 0) :
    mhz_to_nsec conn.refresh = none ∧ page_flip_handler drm ev = none := by
  have hfind := find_flipped_last drm.outputs drm.crtcs ev.crtc_id 0 none i k conn crtc hconn hk
    hcrtc hid hlast
  rw [Nat.zero_add] at hfind
  have hmhz : mhz_to_nsec conn.refresh = none := by
    rw [hzero]
    rfl
  refine ⟨hmhz, ?_⟩
  unfold page_flip_handler
  simp only [hfind, hconn, hstate, hk]
  unfold page_flip_complete
  simp [hmhz]

/-- C10 fails at a concrete backend: `drm_connector_set_mode` with the mode
`mode_no_refresh` on the connector of `backend_single` returns true and leaves
the connector connected on CRTC 0, with a page-flip pending and the refresh
rate 0; the completion event of that page-flip has no defined result. -/
theorem flip_completion_zero_refresh_witness :
    ∃ d c, drm_connector_set_mode env_accepting match_obj backend_single 0 mode_no_refresh =
        some (d, true) ∧
      d.outputs = [c] ∧ c.state = WLR_DRM_CONN_CONNECTED ∧ c.crtc = some 0 ∧
      c.pageflip_pending = true ∧ c.refresh = 0 ∧
      mhz_to_nsec c.refresh = none ∧ page_flip_handler d flip_event_40 = none := by
  refine ⟨_, _, rfl, rfl, rfl, rfl, rfl, rfl, ?_⟩
  exact flip_completion_zero_refresh _ flip_event_40 0 0 _ (crtc_with_id 40) rfl rfl rfl rfl
    rfl (fun j c k1 crtc1 hij hj => by
      cases j with
      | zero => omega
      | succ j => cases hj) rfl

/-! ## The CRTC allocator -/


theorem connector_match_of_succ (n m : Nat) (nm : List Nat) :
    connector_match_of n (m + 1) nm =
      if nm.getD m UNMATCHED ≠ UNMATCHED then
        (connector_match_of n m nm).set (nm.getD m UNMATCHED) (some m)
      else connector_match_of n m nm := by
  simp only [connector_match_of, List.range_succ, List.foldl_append, List.foldl_cons,
    List.foldl_nil]

theorem connector_match_of_length (n m : Nat) (nm : List Nat) :
    (connector_match_of n m nm).length = n := by
  induction m with
  | zero => simp [connector_match_of]
  | succ m ih =>
    rw [connector_match_of_succ]
    split
    · rw [List.length_set, ih]
    · exact ih

/-- An entry of `connector_match` that is not -1 names a CRTC whose entry of
`new_match` is this connector. -/
theorem connector_match_of_some (n m : Nat) (nm : List Nat) (i k : Nat)
    (h : (connector_match_of n m nm)[i]? = some (some k)) :
    k < m ∧ nm.getD k UNMATCHED = i ∧ i ≠ UNMATCHED := by
  induction m with
  | zero =>
    simp only [connector_match_of, List.range_zero, List.foldl_nil] at h
    rw [List.getElem?_replicate] at h
    split at h <;> simp at h
  | succ m ih =>
    rw [connector_match_of_succ] at h
    split at h
    · rename_i hne
      rw [List.getElem?_set] at h
      split at h
      · rename_i heq
        split at h
        · simp only [Option.some.injEq] at h
          subst h
          exact ⟨by omega, heq, by rw [← heq]; exact hne⟩
        · cases h
      · obtain ⟨h1, h2, h3⟩ := ih h
        exact ⟨by omega, h2, h3⟩
    · obtain ⟨h1, h2, h3⟩ := ih h
      exact ⟨by omega, h2, h3⟩

/-- A connector that no CRTC's entry of `new_match` names has -1 in
`connector_match`. -/
theorem connector_match_of_none (n m : Nat) (nm : List Nat) (i : Nat) (hi : i < n)
    (h : ∀ k, k < m → nm.getD k UNMATCHED ≠ i) :
    (connector_match_of n m nm)[i]? = some none := by
  induction m with
  | zero =>
    simp only [connector_match_of, List.range_zero, List.foldl_nil]
    rw [List.getElem?_replicate, if_pos hi]
  | succ m ih =>
    have ih' := ih (fun k hk => h k (by omega))
    rw [connector_match_of_succ]
    split
    · rw [List.getElem?_set_ne (h m (by omega))]
      exact ih'
    · exact ih'

/-- A connector that some CRTC's entry of `new_match` names has a CRTC in
`connector_match`. -/
theorem connector_match_of_matched (n m : Nat) (nm : List Nat) (i k : Nat) (hi : i < n)
    (hk : k < m) (hnm : nm.getD k UNMATCHED = i) (hu : i ≠ UNMATCHED) :
    ∃ k1, (connector_match_of n m nm)[i]? = some (some k1) := by
  induction m with
  | zero => omega
  | succ m ih =>
    rw [connector_match_of_succ]
    by_cases hkm : k = m
    · subst hkm
      rw [if_pos (by rw [hnm]; exact hu), hnm]
      exact ⟨k, by rw [List.getElem?_set_self (by rw [connector_match_of_length]; exact hi)]⟩
    · obtain ⟨k1, hk1⟩ := ih (by omega)
      split
      · rw [List.getElem?_set]
        split
        · rw [connector_match_of_length]
          rename_i heq
          rw [heq, if_pos hi]
          exact ⟨m, rfl⟩
        · exact ⟨k1, hk1⟩
      · exact ⟨k1, hk1⟩

theorem getD_none_of_getElem? (l : List (Option Nat)) (i : Nat) (h : l[i]? = some none) :
    l.getD i none = none := by
  simp [h]

/-- C1 (discarding the reallocation): in a backend with at least one CRTC, if a
connector that is connected and wanted is named by no entry of the `new_match`
array the matcher returns, `realloc_crtcs` returns the backend it was given:
no connector's `crtc`, state, current mode or desired mode changes, and the log
is unchanged, so `dealloc_crtc` is called on no connector. -/
theorem realloc_keeps_old_configuration (env : Env)
    (matcher : Nat → List Nat → Nat → List Nat → List Nat) (drm : wlr_drm_backend) (i : Nat)
    (conn : wlr_drm_connector) (hcrtcs : drm.crtcs ≠ [])
    (hconn : drm.outputs[i]? = some conn) (hstate : conn.state = WLR_DRM_CONN_CONNECTED)
    (hdesired : conn.desired_enabled = true)
    (hnone : ∀ k, k < drm.crtcs.length →
      (matcher drm.outputs.length (connector_constraints drm) drm.crtcs.length
        (previous_match drm)).getD k UNMATCHED ≠ i) :
    realloc_crtcs env matcher drm = some drm := by
  have hi : i < drm.outputs.length := lt_length_of_getElem? hconn
  have hc : drm.crtcs.length ≠ 0 := by
    intro h0; exact hcrtcs (List.length_eq_zero.mp h0)
  have ho : drm.outputs.length ≠ 0 := by omega
  unfold realloc_crtcs
  rw [if_neg hc, if_neg ho]
  unfold realloc_crtcs_with
  have hcm := connector_match_of_none drm.outputs.length drm.crtcs.length _ i hi hnone
  have hkeep : keeps_old_configuration drm (connector_match_of drm.outputs.length
      drm.crtcs.length (matcher drm.outputs.length (connector_constraints drm)
        drm.crtcs.length (previous_match drm))) = true := by
    unfold keeps_old_configuration
    rw [List.any_eq_true]
    refine ⟨i, List.mem_range.mpr hi, ?_⟩
    simp [hconn, hstate, hdesired, hcm]
  simp only [hkeep, if_true]


/-- C1 at a concrete backend: two connected, wanted connectors compete for the
only CRTC; the matcher of the specification leaves the second without one. -/
theorem realloc_keeps_old_configuration_witness :
    realloc_crtcs env_accepting match_obj backend_contended = some backend_contended :=
  realloc_keeps_old_configuration env_accepting match_obj backend_contended 1
    { connector_on 71 0 with crtc := none } (by decide) rfl rfl rfl (by decide)


theorem previous_match_from_length (l : List wlr_drm_connector) (start : Nat) (acc : List Nat) :
    (previous_match_from l start acc).length = acc.length := by
  induction l generalizing start acc with
  | nil => rfl
  | cons c rest ih =>
    unfold previous_match_from
    split
    · rw [ih, List.length_set]
    · rw [ih]

/-- An entry of `previous_match` is either the initial entry or the position of
a connector that holds this CRTC. -/
theorem previous_match_from_some (l : List wlr_drm_connector) (start : Nat) (acc : List Nat)
    (k v : Nat) (h : (previous_match_from l start acc)[k]? = some v) :
    acc[k]? = some v ∨ ∃ j c, l[j]? = some c ∧ c.crtc = some k ∧ v = start + j := by
  induction l generalizing start acc with
  | nil => exact Or.inl h
  | cons c rest ih =>
    unfold previous_match_from at h
    split at h
    · rename_i k1 hk1
      rcases ih _ _ h with h1 | ⟨j, c1, hj, hc1, hv⟩
      · rw [List.getElem?_set] at h1
        split at h1
        · rename_i heq
          split at h1
          · simp only [Option.some.injEq] at h1
            exact Or.inr ⟨0, c, by simp, by rw [hk1, heq], by omega⟩
          · cases h1
        · exact Or.inl h1
      · exact Or.inr ⟨j + 1, c1, by rw [List.getElem?_cons_succ]; exact hj, hc1, by omega⟩
    · rcases ih _ _ h with h1 | ⟨j, c1, hj, hc1, hv⟩
      · exact Or.inl h1
      · exact Or.inr ⟨j + 1, c1, by rw [List.getElem?_cons_succ]; exact hj, hc1, by omega⟩

theorem previous_match_from_untouched (l : List wlr_drm_connector) (start : Nat)
    (acc : List Nat) (k : Nat)
    (h : ∀ (j : Nat) (c : wlr_drm_connector), l[j]? = some c → c.crtc ≠ some k) :
    (previous_match_from l start acc)[k]? = acc[k]? := by
  induction l generalizing start acc with
  | nil => rfl
  | cons c rest ih =>
    have hrest : ∀ (j : Nat) (c1 : wlr_drm_connector), rest[j]? = some c1 → c1.crtc ≠ some k :=
      fun j c1 hj => h (j + 1) c1 (by rw [List.getElem?_cons_succ]; exact hj)
    unfold previous_match_from
    split
    · rename_i k1 hk1
      rw [ih _ _ hrest, List.getElem?_set_ne]
      intro heq
      exact h 0 c (by simp) (by rw [hk1, heq])
    · exact ih _ _ hrest

/-- The entry of `previous_match` for a CRTC is the position of the last
connector that holds it. -/
theorem previous_match_from_last (l : List wlr_drm_connector) (start : Nat) (acc : List Nat)
    (k j : Nat) (c : wlr_drm_connector) (hj : l[j]? = some c) (hc : c.crtc = some k)
    (hk : k < acc.length)
    (hlast : ∀ (j1 : Nat) (c1 : wlr_drm_connector), j < j1 → l[j1]? = some c1 →
      c1.crtc ≠ some k) :
    (previous_match_from l start acc)[k]? = some (start + j) := by
  induction l generalizing start acc j with
  | nil => simp at hj
  | cons c0 rest ih =>
    cases j with
    | zero =>
      simp only [List.getElem?_cons_zero, Option.some.injEq] at hj
      subst hj
      unfold previous_match_from
      simp only [hc]
      rw [previous_match_from_untouched rest _ _ k
        (fun j1 c1 hj1 => hlast (j1 + 1) c1 (by omega)
          (by rw [List.getElem?_cons_succ]; exact hj1))]
      rw [List.getElem?_set_self hk]
      rfl
    | succ j =>
      have hrest : ∀ acc1 : List Nat, k < acc1.length →
          (previous_match_from rest (start + 1) acc1)[k]? = some (start + (j + 1)) := by
        intro acc1 hk1
        rw [ih (start + 1) acc1 j (by rw [List.getElem?_cons_succ] at hj; exact hj) hk1
          (fun j1 c1 hlt hj1 => hlast (j1 + 1) c1 (by omega)
            (by rw [List.getElem?_cons_succ]; exact hj1))]
        congr 1; omega
      unfold previous_match_from
      split
      · exact hrest _ (by rw [List.length_set]; exact hk)
      · exact hrest _ hk

/-- In a list whose held CRTCs are pairwise distinct, two positions that hold
the same CRTC are the same position. -/
theorem holder_unique (l : List wlr_drm_connector)
    (hnodup : (l.filterMap fun conn => conn.crtc).Nodup) (i j k : Nat)
    (a b : wlr_drm_connector) (hi : l[i]? = some a) (hj : l[j]? = some b)
    (ha : a.crtc = some k) (hb : b.crtc = some k) : i = j := by
  induction l generalizing i j with
  | nil => simp at hi
  | cons c rest ih =>
    have hmem : ∀ (n : Nat) (x : wlr_drm_connector), rest[n]? = some x → x.crtc = some k →
        k ∈ rest.filterMap fun conn => conn.crtc := by
      intro n x hn hx
      rw [List.mem_filterMap]
      exact ⟨x, List.mem_iff_getElem?.mpr ⟨n, hn⟩, hx⟩
    cases i with
    | zero =>
      cases j with
      | zero => rfl
      | succ j =>
        exfalso
        simp only [List.getElem?_cons_zero, Option.some.injEq] at hi
        subst hi
        rw [List.getElem?_cons_succ] at hj
        rw [List.filterMap_cons, ha, List.nodup_cons] at hnodup
        exact hnodup.1 (hmem j b hj hb)
    | succ i =>
      cases j with
      | zero =>
        exfalso
        simp only [List.getElem?_cons_zero, Option.some.injEq] at hj
        subst hj
        rw [List.getElem?_cons_succ] at hi
        rw [List.filterMap_cons, hb, List.nodup_cons] at hnodup
        exact hnodup.1 (hmem i a hi ha)
      | succ j =>
        rw [List.getElem?_cons_succ] at hi hj
        have hn : (rest.filterMap fun conn => conn.crtc).Nodup := by
          rw [List.filterMap_cons] at hnodup
          split at hnodup
          · exact hnodup
          · exact (List.nodup_cons.mp hnodup).2
        rw [ih hn i j hi hj]

theorem getElem?_of_getD_ne {l : List Nat} {k v d : Nat} (h : l.getD k d = v) (hv : v ≠ d) :
    l[k]? = some v := by
  rw [List.getD_eq_getElem?_getD] at h
  cases hk : l[k]? with
  | none => rw [hk] at h; exact absurd h.symm hv
  | some x => rw [hk] at h; simp only [Option.getD_some] at h; rw [h]

/-- When `new_match` is `previous_match`, the entry of `connector_match` for a
connector is the CRTC it holds. -/
theorem connector_match_previous (drm : wlr_drm_backend) (hrange : crtcs_in_range drm)
    (hnodup : no_double_allocation drm) (hlen : drm.outputs.length ≤ UNMATCHED) (i : Nat)
    (conn : wlr_drm_connector) (hconn : drm.outputs[i]? = some conn) :
    (connector_match_of drm.outputs.length drm.crtcs.length (previous_match drm))[i]? =
      some conn.crtc := by
  have hi : i < drm.outputs.length := lt_length_of_getElem? hconn
  have hiu : i ≠ UNMATCHED := by omega
  have hprev : ∀ k, (previous_match drm).getD k UNMATCHED = i → conn.crtc = some k := by
    intro k hk
    have h1 := getElem?_of_getD_ne hk hiu
    rcases previous_match_from_some _ _ _ _ _ h1 with h2 | ⟨j, c, hj, hc, hv⟩
    · rw [List.getElem?_replicate] at h2
      split at h2
      · simp only [Option.some.injEq] at h2
        exact absurd h2.symm hiu
      · cases h2
    · rw [Nat.zero_add] at hv
      subst hv
      rw [hconn] at hj
      cases hj
      exact hc
  cases hc : conn.crtc with
  | none =>
    apply connector_match_of_none _ _ _ _ hi
    intro k _ hk
    rw [hprev k hk] at hc
    cases hc
  | some k =>
    have hk : k < drm.crtcs.length :=
      hrange k (List.mem_filterMap.mpr ⟨conn, List.mem_iff_getElem?.mpr ⟨i, hconn⟩, hc⟩)
    have hpk : (previous_match drm)[k]? = some (0 + i) :=
      previous_match_from_last drm.outputs 0 _ k i conn hconn hc
        (by rw [List.length_replicate]; exact hk)
        (fun j1 c1 hlt hj1 hc1 => by
          have := holder_unique drm.outputs hnodup i j1 k conn c1 hconn hj1 hc hc1
          omega)
    rw [Nat.zero_add] at hpk
    obtain ⟨k1, hk1⟩ := connector_match_of_matched drm.outputs.length drm.crtcs.length
      (previous_match drm) i k hi hk (by simp [hpk]) hiu
    obtain ⟨-, h2, -⟩ := connector_match_of_some _ _ _ _ _ hk1
    have := hprev k1 h2
    rw [hc] at this
    cases this
    exact hk1

/-- One iteration of the loop that applies the new configuration changes
nothing but the log when the connector is matched to the CRTC it holds, or is
unmatched and holds none. -/
theorem realloc_step_stable (env : Env) (cm : List (Option Nat)) (drm : wlr_drm_backend)
    (i : Nat) (conn : wlr_drm_connector) (hconn : drm.outputs[i]? = some conn)
    (hcm : cm.getD i none = conn.crtc) :
    realloc_step env cm drm i =
      some ({ drm with log := drm.log ++
        (if conn.crtc = none then [Event.dealloc_crtc i none] else []) }, false) := by
  rw [List.getD_eq_getElem?_getD] at hcm
  unfold realloc_step
  simp only [hconn]
  cases hc : conn.crtc with
  | some k =>
    rw [hc] at hcm
    simp [hcm]
  | none =>
    rw [hc] at hcm
    simp [hcm, hc, dealloc_crtc, hconn, emit]

theorem realloc_apply_stable (env : Env) (cm : List (Option Nat)) (n i : Nat)
    (drm : wlr_drm_backend) (hn : i + n ≤ drm.outputs.length)
    (hcm : ∀ (j : Nat) (c : wlr_drm_connector), drm.outputs[j]? = some c →
      cm.getD j none = c.crtc) :
    ∃ rest, realloc_apply env cm n i drm = some { drm with log := drm.log ++ rest } ∧
      ∀ e ∈ rest, ∃ j c, e = Event.dealloc_crtc j none ∧ drm.outputs[j]? = some c ∧
        c.crtc = none := by
  induction n generalizing i drm with
  | zero => exact ⟨[], by simp [realloc_apply], by simp⟩
  | succ n ih =>
    have hi : i < drm.outputs.length := by omega
    obtain ⟨conn, hconn⟩ : ∃ conn, drm.outputs[i]? = some conn :=
      ⟨drm.outputs[i], List.getElem?_eq_getElem hi⟩
    unfold realloc_apply
    rw [realloc_step_stable env cm drm i conn hconn (hcm i conn hconn)]
    simp only []
    obtain ⟨rest, h1, h2⟩ := ih (i + 1)
      { drm with log := drm.log ++ (if conn.crtc = none then [Event.dealloc_crtc i none]
        else []) } (by simpa using by omega) hcm
    refine ⟨(if conn.crtc = none then [Event.dealloc_crtc i none] else []) ++ rest, ?_, ?_⟩
    · rw [h1]; simp
    · intro e he
      rcases List.mem_append.mp he with he | he
      · split at he
        · rename_i hc
          simp only [List.mem_singleton] at he
          exact ⟨i, conn, he, hconn, hc⟩
        · simp at he
      · exact h2 e he

/-- When the `new_match` array the matcher returns equals `previous_match`, in
a backend with at least one CRTC, fewer than 2^32 - 1 connectors, every held
CRTC inside the CRTC array and no CRTC held twice, `realloc_crtcs` returns, no
field of a connector or CRTC has changed, and the log has grown only by calls
of `dealloc_crtc` on connectors that hold no CRTC (where it returns at
once). -/
theorem realloc_stable (env : Env) (matcher : Nat → List Nat → Nat → List Nat → List Nat)
    (drm : wlr_drm_backend) (hcrtcs : drm.crtcs ≠ []) (hrange : crtcs_in_range drm)
    (hnodup : no_double_allocation drm) (hlen : drm.outputs.length ≤ UNMATCHED)
    (hsame : matcher drm.outputs.length (connector_constraints drm) drm.crtcs.length
      (previous_match drm) = previous_match drm) :
    ∃ rest, realloc_crtcs env matcher drm = some { drm with log := drm.log ++ rest } ∧
      ∀ e ∈ rest, ∃ j c, e = Event.dealloc_crtc j none ∧ drm.outputs[j]? = some c ∧
        c.crtc = none := by
  have hc : drm.crtcs.length ≠ 0 := by
    intro h0; exact hcrtcs (List.length_eq_zero.mp h0)
  unfold realloc_crtcs
  rw [if_neg hc]
  split
  · exact ⟨[], by simp, by simp⟩
  · rw [hsame]
    unfold realloc_crtcs_with
    dsimp only
    split
    · exact ⟨[], by simp, by simp⟩
    · exact realloc_apply_stable env _ drm.outputs.length 0 drm (by omega)
        (fun j c hj => by
          rw [List.getD_eq_getElem?_getD,
            connector_match_previous drm hrange hnodup hlen j c hj]
          rfl)

/-! ## The matcher of the specification at an assignment that is already best -/

theorem match_candidates_length (num_objs : Nat) :
    ∀ (num_res : Nat) (out : List Nat), out ∈ match_candidates num_objs num_res →
      out.length = num_res := by
  intro num_res
  induction num_res with
  | zero =>
    intro out h
    simp only [match_candidates, List.mem_singleton] at h
    rw [h]; rfl
  | succ m ih =>
    intro out h
    simp only [match_candidates, List.mem_flatMap, List.mem_map] at h
    obtain ⟨rest, hrest, v, -, hv⟩ := h
    rw [← hv, List.length_append, ih rest hrest]
    rfl

/-- The array the matcher of the specification returns has one entry for each
resource and is a matching under the constraints. -/
theorem match_obj_valid (num_objs : Nat) (objs : List Nat) (num_res : Nat) (res : List Nat) :
    (match_obj num_objs objs num_res res).length = num_res ∧
    match_valid objs (match_obj num_objs objs num_res res) = true := by
  unfold match_obj
  cases hf : (match_candidates num_objs num_res).find? fun out =>
      match_optimal num_objs objs num_res res out with
  | none =>
    simp only [Option.getD_none, List.length_replicate, true_and]
    unfold match_valid
    rw [List.all_eq_true]
    intro j hj
    simp only [List.length_replicate, List.mem_range] at hj
    rw [List.getD_eq_getElem?_getD, List.getElem?_replicate, if_pos hj]
    simp
  | some out =>
    simp only [Option.getD_some]
    have hopt := List.find?_some hf
    have hmem := List.mem_of_find?_eq_some hf
    unfold match_optimal at hopt
    simp only [Bool.and_eq_true, decide_eq_true_eq] at hopt
    exact ⟨match_candidates_length _ _ _ hmem, hopt.1.2⟩

/-- In a matching, a resource goes only to an object whose constraint has the
bit of the resource. -/
theorem match_valid_bit (objs out : List Nat) (h : match_valid objs out = true) (k : Nat)
    (hk : k < out.length) (hne : out.getD k UNMATCHED ≠ UNMATCHED) :
    Nat.testBit (objs.getD (out.getD k UNMATCHED) 0) k = true := by
  unfold match_valid at h
  rw [List.all_eq_true] at h
  have := h k (List.mem_range.mpr hk)
  simp only [Bool.or_eq_true, beq_iff_eq, Bool.and_eq_true] at this
  rcases this with h1 | h1
  · exact absurd h1 hne
  · exact h1.1

theorem filter_length_le_of_imp {α : Type} (l : List α) (p q : α → Bool)
    (h : ∀ a ∈ l, p a = true → q a = true) : (l.filter p).length ≤ (l.filter q).length := by
  induction l with
  | nil => simp
  | cons a l ih =>
    have ih1 := ih (fun b hb => h b (List.mem_cons_of_mem _ hb))
    have ha := h a (List.mem_cons_self _ _)
    simp only [List.filter_cons]
    cases hp : p a with
    | false =>
      cases hq : q a with
      | false => simpa using ih1
      | true => simp only [if_true, List.length_cons]; simp; omega
    | true =>
      rw [ha hp]
      simpa using ih1

theorem filter_imp_of_length_le {α : Type} (l : List α) (p q : α → Bool)
    (h : ∀ a ∈ l, p a = true → q a = true)
    (hlen : (l.filter q).length ≤ (l.filter p).length) :
    ∀ a ∈ l, q a = true → p a = true := by
  induction l with
  | nil => intro a ha; cases ha
  | cons a l ih =>
    have hsub := filter_length_le_of_imp l p q (fun b hb => h b (List.mem_cons_of_mem _ hb))
    have ha := h a (List.mem_cons_self _ _)
    simp only [List.filter_cons] at hlen
    cases hp : p a with
    | false =>
      cases hq : q a with
      | false =>
        rw [hp, hq] at hlen
        simp only [Bool.false_eq_true, if_false] at hlen
        have ih1 := ih (fun b hb => h b (List.mem_cons_of_mem _ hb)) hlen
        intro b hb hqb
        rcases List.mem_cons.mp hb with rfl | hb
        · rw [hq] at hqb; cases hqb
        · exact ih1 b hb hqb
      | true =>
        rw [hp, hq] at hlen
        simp only [Bool.false_eq_true, if_false, if_true, List.length_cons] at hlen
        omega
    | true =>
      rw [hp, ha hp] at hlen
      simp only [if_true, List.length_cons, Nat.add_le_add_iff_right] at hlen
      have ih1 := ih (fun b hb => h b (List.mem_cons_of_mem _ hb)) hlen
      intro b hb hqb
      rcases List.mem_cons.mp hb with rfl | hb
      · exact hp
      · exact ih1 b hb hqb

/-- The number of entries of a list with a property, counted over the
positions. -/
theorem filter_length_range (l : List Nat) (p : Nat → Bool) (d : Nat) :
    (l.filter p).length = ((List.range l.length).filter fun j => p (l.getD j d)).length := by
  induction l using List.reverseRecOn with
  | nil => rfl
  | append_singleton l a ih =>
    rw [List.filter_append, List.length_append, List.length_append, List.length_singleton,
      List.range_succ, List.filter_append, List.length_append, ih]
    congr 1
    · congr 1
      apply List.filter_congr
      intro j hj
      rw [List.mem_range] at hj
      rw [List.getD_eq_getElem?_getD, List.getD_eq_getElem?_getD, List.getElem?_append_left hj]
    · simp only [List.filter_cons, List.filter_nil, List.getD_eq_getElem?_getD,
        List.getElem?_concat_length, Option.getD_some]
      split <;> rfl

theorem match_score_range (out : List Nat) :
    match_score out =
      ((List.range out.length).filter fun j => out.getD j UNMATCHED != UNMATCHED).length := by
  unfold match_score
  exact filter_length_range out (fun v => v != UNMATCHED) UNMATCHED

theorem match_kept_le_score (res out : List Nat) : match_kept res out ≤ match_score out := by
  rw [match_score_range]
  unfold match_kept
  apply filter_length_le_of_imp
  intro j _ h
  simp only [Bool.and_eq_true, bne_iff_ne, ne_eq, beq_iff_eq] at h ⊢
  rw [h.2]
  exact h.1

theorem match_kept_self (res : List Nat) : match_kept res res = match_score res := by
  rw [match_score_range]
  unfold match_kept
  congr 1
  apply List.filter_congr
  intro j _
  simp

/-- An array that matches no more resources than `res` and keeps as many pairs
of `res` as `res` has is `res`. -/
theorem eq_of_kept_all (res out : List Nat) (hlen : out.length = res.length)
    (hscore : match_score out ≤ match_score res)
    (hkept : match_score res ≤ match_kept res out) : out = res := by
  have h1 : match_kept res out ≤ match_score out := match_kept_le_score res out
  have hout : ∀ j ∈ List.range out.length, (out.getD j UNMATCHED != UNMATCHED) = true →
      (res.getD j UNMATCHED != UNMATCHED && out.getD j UNMATCHED == res.getD j UNMATCHED) =
        true := by
    apply filter_imp_of_length_le
    · intro j _ h
      simp only [Bool.and_eq_true, bne_iff_ne, ne_eq, beq_iff_eq] at h ⊢
      rw [h.2]
      exact h.1
    · have := match_score_range out
      unfold match_kept at hkept h1
      omega
  have hres : ∀ j ∈ List.range out.length, (res.getD j UNMATCHED != UNMATCHED) = true →
      (res.getD j UNMATCHED != UNMATCHED && out.getD j UNMATCHED == res.getD j UNMATCHED) =
        true := by
    apply filter_imp_of_length_le
    · intro j _ h
      simp only [Bool.and_eq_true, bne_iff_ne, ne_eq, beq_iff_eq] at h ⊢
      exact h.1
    · have := match_score_range res
      rw [← hlen] at this
      unfold match_kept at hkept
      omega
  apply List.ext_getElem hlen
  intro j hj1 hj2
  have hmem : j ∈ List.range out.length := List.mem_range.mpr hj1
  have e1 : out.getD j UNMATCHED = out[j] := by
    rw [List.getD_eq_getElem?_getD, List.getElem?_eq_getElem hj1]; rfl
  have e2 : res.getD j UNMATCHED = res[j] := by
    rw [List.getD_eq_getElem?_getD, List.getElem?_eq_getElem hj2]; rfl
  by_cases hr : res.getD j UNMATCHED = UNMATCHED
  · by_cases ho : out.getD j UNMATCHED = UNMATCHED
    · rw [← e1, ← e2, hr, ho]
    · have := hout j hmem (by simpa using ho)
      simp only [Bool.and_eq_true, bne_iff_ne, ne_eq, beq_iff_eq] at this
      exact absurd hr this.1
  · have := hres j hmem (by simpa using hr)
    simp only [Bool.and_eq_true, bne_iff_ne, ne_eq, beq_iff_eq] at this
    rw [← e1, ← e2]
    exact this.2

theorem mem_match_candidates (num_objs : Nat) :
    ∀ (num_res : Nat) (out : List Nat), out.length = num_res →
      (∀ v ∈ out, v = UNMATCHED ∨ v < num_objs) → out ∈ match_candidates num_objs num_res := by
  intro num_res
  induction num_res with
  | zero =>
    intro out hlen _
    rw [List.length_eq_zero.mp hlen]
    simp [match_candidates]
  | succ m ih =>
    intro out hlen hall
    have hne : out ≠ [] := by
      intro h; rw [h] at hlen; cases hlen
    obtain ⟨init, last, rfl⟩ : ∃ init last, out = init ++ [last] :=
      ⟨out.dropLast, out.getLast hne, (List.dropLast_append_getLast hne).symm⟩
    simp only [match_candidates, List.mem_flatMap, List.mem_map]
    refine ⟨init, ih init (by simpa using hlen) (fun v hv => hall v (by simp [hv])), last, ?_,
      rfl⟩
    have := hall last (by simp)
    simp only [List.mem_cons, List.mem_range]
    exact this

/-- When the previous assignment is a matching and no matching has more pairs,
the matcher of the specification returns the previous assignment. -/
theorem match_obj_fixed (num_objs : Nat) (objs : List Nat) (num_res : Nat) (res : List Nat)
    (hmem : res ∈ match_candidates num_objs num_res)
    (hvalid : match_valid objs res = true)
    (hmax : ∀ cand ∈ match_candidates num_objs num_res, match_valid objs cand = true →
      match_score cand ≤ match_score res) :
    match_obj num_objs objs num_res res = res := by
  have hopt : match_optimal num_objs objs num_res res res = true := by
    unfold match_optimal
    simp only [Bool.and_eq_true, decide_eq_true_eq, List.all_eq_true, Bool.or_eq_true,
      Bool.not_eq_true']
    refine ⟨⟨hmem, hvalid⟩, ?_⟩
    intro cand hcand
    by_cases hv : match_valid objs cand = true
    · right
      have h1 := hmax cand hcand hv
      unfold match_at_least
      simp only [Bool.or_eq_true, Bool.and_eq_true, decide_eq_true_eq]
      by_cases hlt : match_score cand < match_score res
      · exact Or.inl hlt
      · right
        refine ⟨by omega, ?_⟩
        rw [match_kept_self]
        have := match_kept_le_score res cand
        omega
    · left
      simpa using hv
  unfold match_obj
  cases hf : (match_candidates num_objs num_res).find? fun out =>
      match_optimal num_objs objs num_res res out with
  | none =>
    rw [List.find?_eq_none] at hf
    exact absurd hopt (hf res hmem)
  | some out =>
    simp only [Option.getD_some]
    have hout := List.find?_some hf
    have hom := List.mem_of_find?_eq_some hf
    unfold match_optimal at hout
    simp only [Bool.and_eq_true, decide_eq_true_eq, List.all_eq_true, Bool.or_eq_true,
      Bool.not_eq_true'] at hout
    obtain ⟨⟨-, hov⟩, hall⟩ := hout
    have hle := hmax out hom hov
    rcases hall res hmem with h | h
    · rw [hvalid] at h
      cases h
    · unfold match_at_least at h
      simp only [Bool.or_eq_true, Bool.and_eq_true, decide_eq_true_eq] at h
      rcases h with h | ⟨h1, h2⟩
      · omega
      · rw [match_kept_self] at h2
        exact eq_of_kept_all res out
          (by rw [match_candidates_length _ _ _ hom, match_candidates_length _ _ _ hmem])
          hle h2

theorem previous_match_mem (drm : wlr_drm_backend) :
    previous_match drm ∈ match_candidates drm.outputs.length drm.crtcs.length := by
  apply mem_match_candidates
  · unfold previous_match
    rw [previous_match_from_length, List.length_replicate]
  · intro v hv
    obtain ⟨k, hk⟩ := List.mem_iff_getElem?.mp hv
    unfold previous_match at hk
    rcases previous_match_from_some _ _ _ _ _ hk with h | ⟨j, c, hj, -, hvj⟩
    · left
      rw [List.getElem?_replicate] at h
      split at h
      · simp only [Option.some.injEq] at h
        exact h.symm
      · cases h
    · right
      rw [hvj, Nat.zero_add]
      exact lt_length_of_getElem? hj

/-- The entry of `previous_match` for a CRTC that is held, when no CRTC is held
twice, is the position of the connector that holds it. -/
theorem previous_match_holder (drm : wlr_drm_backend) (hrange : crtcs_in_range drm)
    (hnodup : no_double_allocation drm) (s k : Nat) (conn : wlr_drm_connector)
    (hs : drm.outputs[s]? = some conn) (hk : conn.crtc = some k) :
    (previous_match drm)[k]? = some s := by
  have hkl : k < drm.crtcs.length := by
    apply hrange
    unfold held_crtcs
    rw [List.mem_filterMap]
    exact ⟨conn, List.mem_iff_getElem?.mpr ⟨s, hs⟩, hk⟩
  have := previous_match_from_last drm.outputs 0 (List.replicate drm.crtcs.length UNMATCHED)
    k s conn hs hk (by rw [List.length_replicate]; exact hkl)
    (fun j1 c1 hlt hj1 hc1 => by
      have := holder_unique drm.outputs hnodup s j1 k conn c1 hs hj1 hk hc1
      omega)
  rw [Nat.zero_add] at this
  exact this

/-- An entry of `previous_match` that is not UNMATCHED is the position of a
connector that holds the CRTC. -/
theorem previous_match_entry (drm : wlr_drm_backend) (k v : Nat)
    (h : (previous_match drm).getD k UNMATCHED = v) (hv : v ≠ UNMATCHED) :
    ∃ conn, drm.outputs[v]? = some conn ∧ conn.crtc = some k := by
  have hk := getElem?_of_getD_ne h hv
  unfold previous_match at hk
  rcases previous_match_from_some _ _ _ _ _ hk with h1 | ⟨j, c, hj, hc, hvj⟩
  · rw [List.getElem?_replicate] at h1
    split at h1
    · simp only [Option.some.injEq] at h1
      exact absurd h1.symm hv
    · cases h1
  · rw [Nat.zero_add] at hvj
    rw [hvj]
    exact ⟨c, hj, hc⟩

/-- The number of matched resources is the number of positions with a matched
entry. -/
theorem match_score_card (out : List Nat) :
    match_score out =
      ((List.range out.length).filter fun j =>
        out.getD j UNMATCHED != UNMATCHED).toFinset.card := by
  rw [List.toFinset_card_of_nodup ((List.nodup_range _).filter _)]
  exact match_score_range out

/-- In a matching, the entries that are matched are pairwise distinct. -/
theorem match_valid_injective (objs out : List Nat) (h : match_valid objs out = true)
    (j1 j2 : Nat) (h1 : j1 < out.length) (h2 : j2 < out.length)
    (hu : out.getD j1 UNMATCHED ≠ UNMATCHED)
    (heq : out.getD j1 UNMATCHED = out.getD j2 UNMATCHED) : j1 = j2 := by
  unfold match_valid at h
  rw [List.all_eq_true] at h
  by_contra hne
  rcases Nat.lt_or_gt_of_ne hne with hlt | hlt
  · have := h j2 (List.mem_range.mpr h2)
    simp only [Bool.or_eq_true, beq_iff_eq, Bool.and_eq_true, List.all_eq_true,
      List.mem_range, bne_iff_ne, ne_eq] at this
    rcases this with h3 | h3
    · rw [heq] at hu
      exact hu h3
    · exact h3.2 j1 hlt heq
  · have := h j1 (List.mem_range.mpr h1)
    simp only [Bool.or_eq_true, beq_iff_eq, Bool.and_eq_true, List.all_eq_true,
      List.mem_range, bne_iff_ne, ne_eq] at this
    rcases this with h3 | h3
    · exact hu h3
    · exact h3.2 j2 hlt heq.symm

/-- C3 (matching stability).  Let the assignment the connectors hold be one the
allocator has made for the present connectors and CRTCs: no CRTC is held twice,
every held CRTC exists, the assignment is a matching under the present
constraints (each holder is connected or waits for a modeset, is wanted, and may
use its CRTC), and no matching under these constraints has more pairs.  Then the
matcher of the specification returns the assignment that is held, and
`realloc_crtcs` with it returns and is a no-op: no field of a connector or of a
CRTC has changed, so every connector has the `crtc` and the state it had, and no
connector has been de-allocated: the log has grown only by calls of
`dealloc_crtc` for connectors that hold no CRTC, where it returns at its first
test. -/
theorem matching_stability (env : Env) (drm : wlr_drm_backend) (hcrtcs : drm.crtcs ≠ [])
    (hrange : crtcs_in_range drm) (hnodup : no_double_allocation drm)
    (hlen : drm.outputs.length ≤ UNMATCHED)
    (hvalid : match_valid (connector_constraints drm) (previous_match drm) = true)
    (hmax : ∀ cand ∈ match_candidates drm.outputs.length drm.crtcs.length,
      match_valid (connector_constraints drm) cand = true →
      match_score cand ≤ match_score (previous_match drm)) :
    match_obj drm.outputs.length (connector_constraints drm) drm.crtcs.length
      (previous_match drm) = previous_match drm ∧
    ∃ rest, realloc_crtcs env match_obj drm = some { drm with log := drm.log ++ rest } ∧
      ∀ e ∈ rest, ∃ j c, e = Event.dealloc_crtc j none ∧ drm.outputs[j]? = some c ∧
        c.crtc = none := by
  have hfix := match_obj_fixed drm.outputs.length (connector_constraints drm)
    drm.crtcs.length (previous_match drm) (previous_match_mem drm) hvalid hmax
  exact ⟨hfix, realloc_stable env match_obj drm hcrtcs hrange hnodup hlen hfix⟩

set_option maxRecDepth 100000 in
/-- C3 at a concrete backend.  One `realloc_crtcs` on `backend_hotplug` (three
CRTCs, four connectors) gives CRTC 0 to connector 0, CRTC 1 to connector 3 and
CRTC 2 to connector 1, and takes the CRTC of connector 2 away.  In the backend
it leaves, a second `realloc_crtcs` changes no connector and no CRTC, and calls
`dealloc_crtc` only for connector 2, which holds no CRTC. -/
theorem matching_stability_witness :
    realloc_crtcs env_no_gamma match_obj backend_hotplug = some backend_hotplug_settled ∧
    backend_hotplug_settled.outputs.map (fun conn => conn.crtc) =
      [some 0, some 2, none, some 1] ∧
    ∃ rest, realloc_crtcs env_no_gamma match_obj backend_hotplug_settled =
        some { backend_hotplug_settled with log := backend_hotplug_settled.log ++ rest } ∧
      ∀ e ∈ rest, ∃ j c, e = Event.dealloc_crtc j none ∧
        backend_hotplug_settled.outputs[j]? = some c ∧ c.crtc = none :=
  ⟨rfl, rfl,
    (matching_stability env_no_gamma backend_hotplug_settled (by decide) (by decide)
      (by decide) (by decide) (by decide) (by decide)).2⟩

/-! ## Connectors the reallocation leaves alone -/

theorem touches_refl (i : Nat) (drm : wlr_drm_backend) : touches_only i drm drm :=
  ⟨rfl, fun _ _ => rfl, rfl⟩

theorem touches_emit {i : Nat} {drm drm1 : wlr_drm_backend} (h : touches_only i drm drm1)
    (e : Event) : touches_only i drm (emit drm1 e) := h

theorem touches_set_conn {i : Nat} {drm drm1 : wlr_drm_backend} (h : touches_only i drm drm1)
    (c : wlr_drm_connector) : touches_only i drm (set_conn drm1 i c) := by
  obtain ⟨h1, h2, h3⟩ := h
  refine ⟨by rw [set_conn_outputs, List.length_set, h1], ?_, h3⟩
  intro j hj
  rw [set_conn_outputs, List.getElem?_set_ne (Ne.symm hj)]
  exact h2 j hj

theorem touches_set_crtc {i : Nat} {drm drm1 : wlr_drm_backend} (h : touches_only i drm drm1)
    (k : Nat) (c : wlr_drm_crtc) : touches_only i drm (set_crtc drm1 k c) := by
  obtain ⟨h1, h2, h3⟩ := h
  exact ⟨h1, h2, by rw [set_crtc_crtcs, List.length_set, h3]⟩

theorem touches_update_enabled {i : Nat} {drm drm1 : wlr_drm_backend}
    (h : touches_only i drm drm1) (b : Bool) :
    touches_only i drm (wlr_output_update_enabled drm1 i b) := by
  unfold wlr_output_update_enabled
  split
  · exact h
  · exact touches_emit (touches_set_conn h _) _

theorem touches_update_mode {i : Nat} {drm drm1 : wlr_drm_backend}
    (h : touches_only i drm drm1) (mode : Option wlr_output_mode) :
    touches_only i drm (wlr_output_update_mode drm1 i mode) := by
  unfold wlr_output_update_mode
  split
  · exact h
  · exact touches_emit (touches_set_conn h _) _

theorem touches_update_needs_frame {i : Nat} {drm drm1 : wlr_drm_backend}
    (h : touches_only i drm drm1) :
    touches_only i drm (wlr_output_update_needs_frame drm1 i) := by
  unfold wlr_output_update_needs_frame
  split
  · exact h
  · exact touches_emit (touches_set_conn h _) _

theorem touches_set_gamma_sized {i : Nat} {drm drm1 drm2 : wlr_drm_backend}
    (h : touches_only i drm drm1) (env : Env) (k : Nat) (reset : Bool) (size : Nat)
    (r g b : List Nat) (ok : Bool)
    (hs : set_gamma_sized env drm1 i k reset size r g b = some (drm2, ok)) :
    touches_only i drm drm2 := by
  unfold set_gamma_sized at hs
  split at hs
  · simp only [Option.some.injEq, Prod.mk.injEq] at hs
    rw [← hs.1]; exact touches_emit h _
  split at hs
  · cases hs
  split at hs
  · split at hs
    · cases hs
    · simp only [Option.some.injEq, Prod.mk.injEq] at hs
      rw [← hs.1]
      exact touches_set_crtc (touches_update_needs_frame (touches_emit (touches_emit h _) _)) _ _
  · simp only [Option.some.injEq, Prod.mk.injEq] at hs
    rw [← hs.1]; exact touches_emit (touches_emit h _) _

theorem touches_set_gamma {i : Nat} {drm drm1 drm2 : wlr_drm_backend}
    (h : touches_only i drm drm1) (env : Env) (size : Nat) (r g b : List Nat) (ok : Bool)
    (hs : set_drm_connector_gamma env drm1 i size r g b = some (drm2, ok)) :
    touches_only i drm drm2 := by
  unfold set_drm_connector_gamma at hs
  split at hs
  · cases hs
  split at hs
  · simp only [Option.some.injEq, Prod.mk.injEq] at hs
    rw [← hs.1]; exact h
  split at hs
  · split at hs
    · simp only [Option.some.injEq, Prod.mk.injEq] at hs
      rw [← hs.1]; exact h
    · exact touches_set_gamma_sized h env _ _ _ _ _ _ _ hs
  · exact touches_set_gamma_sized h env _ _ _ _ _ _ _ hs

theorem touches_dealloc {i : Nat} {drm drm1 drm2 : wlr_drm_backend}
    (h : touches_only i drm drm1) (env : Env) (hd : dealloc_crtc env drm1 i = some drm2) :
    touches_only i drm drm2 := by
  unfold dealloc_crtc at hd
  split at hd
  · cases hd
  dsimp only at hd
  split at hd
  · simp only [Option.some.injEq] at hd
    rw [← hd]; exact touches_emit h _
  split at hd
  · cases hd
  rename_i drm3 ok hg
  have h3 := touches_set_gamma (touches_emit h _) env _ _ _ _ _ hg
  split at hd
  · cases hd
  split at hd
  · cases hd
  split at hd
  · cases hd
  simp only [Option.some.injEq] at hd
  rw [← hd]
  exact touches_set_conn (touches_emit (touches_emit (touches_emit h3 _) _) _) _

theorem touches_start_renderer {i : Nat} {drm drm1 drm2 : wlr_drm_backend}
    (h : touches_only i drm drm1) (env : Env)
    (hd : drm_connector_start_renderer env drm1 i = some drm2) :
    touches_only i drm drm2 := by
  unfold drm_connector_start_renderer at hd
  split at hd
  · cases hd
  split at hd
  · simp only [Option.some.injEq] at hd
    rw [← hd]; exact h
  split at hd
  · simp only [Option.some.injEq] at hd
    rw [← hd]; exact h
  split at hd
  · cases hd
  dsimp only at hd
  split at hd
  · cases hd
  split at hd
  · simp only [Option.some.injEq] at hd
    rw [← hd]
    exact touches_update_enabled (touches_set_conn (touches_emit (touches_emit
      (touches_emit h _) _) _) _) _
  · split at hd
    · cases hd
    simp only [Option.some.injEq] at hd
    rw [← hd]
    exact touches_emit (touches_emit (touches_emit (touches_emit h _) _) _) _

theorem touches_cleanup {i : Nat} {drm drm1 drm2 : wlr_drm_backend}
    (h : touches_only i drm drm1) (env : Env)
    (hd : drm_connector_cleanup env drm1 i = some drm2) :
    touches_only i drm drm2 := by
  have hfin : ∀ d d2 : wlr_drm_backend, touches_only i drm d →
      (match dealloc_crtc env d i with
        | none => none
        | some drm =>
          match drm.outputs[i]? with
          | none => none
          | some conn =>
            match (emit (set_conn drm i
                { conn with possible_crtc := 0, desired_mode := none })
                (Event.destroy_signal i)).outputs[i]? with
            | none => none
            | some conn1 =>
              some (set_conn (emit (set_conn drm i
                { conn with possible_crtc := 0, desired_mode := none })
                (Event.destroy_signal i)) i
                { conn1 with state := WLR_DRM_CONN_DISCONNECTED })) = some d2 →
      touches_only i drm d2 := by
    intro d d2 hd1 hd2
    split at hd2
    · cases hd2
    rename_i d3 hde
    have h3 := touches_dealloc hd1 env hde
    split at hd2
    · cases hd2
    split at hd2
    · cases hd2
    simp only [Option.some.injEq] at hd2
    rw [← hd2]
    exact touches_set_conn (touches_emit (touches_set_conn h3 _) _) _
  unfold drm_connector_cleanup at hd
  split at hd
  · simp only [Option.some.injEq] at hd
    rw [← hd]; exact h
  dsimp only at hd
  split at hd
  · exact hfin _ _ (touches_set_conn (touches_emit (touches_emit h _) _) _) hd
  · exact hfin _ _ (touches_set_conn (touches_emit (touches_emit h _) _) _) hd
  · exact hfin _ _ h hd
  · simp only [Option.some.injEq] at hd
    rw [← hd]; exact touches_set_conn h _
  · simp only [Option.some.injEq] at hd
    rw [← hd]; exact h

theorem touches_realloc_step {i : Nat} {drm drm1 drm2 : wlr_drm_backend}
    (h : touches_only i drm drm1) (env : Env) (cm : List (Option Nat)) (brk : Bool)
    (hd : realloc_step env cm drm1 i = some (drm2, brk)) :
    touches_only i drm drm2 := by
  unfold realloc_step at hd
  split at hd
  · cases hd
  dsimp only at hd
  split at hd
  · simp only [Option.some.injEq, Prod.mk.injEq] at hd
    rw [← hd.1]; exact h
  split at hd
  · cases hd
  rename_i d3 hde
  have h3 := touches_dealloc h env hde
  split at hd
  · split at hd
    · split at hd
      · cases hd
      split at hd
      · cases hd
      simp only [Option.some.injEq, Prod.mk.injEq] at hd
      rw [← hd.1]
      exact touches_update_mode (touches_set_conn (touches_update_enabled
        (touches_set_conn h3 _) _) _) _
    · simp only [Option.some.injEq, Prod.mk.injEq] at hd
      rw [← hd.1]; exact h3
  · split at hd
    · cases hd
    split at hd
    · simp only [Option.some.injEq, Prod.mk.injEq] at hd
      rw [← hd.1]; exact touches_set_conn h3 _
    split at hd
    · cases hd
    split at hd
    · split at hd
      · cases hd
      rename_i d4 hcl
      simp only [Option.some.injEq, Prod.mk.injEq] at hd
      rw [← hd.1]
      exact touches_cleanup (touches_emit (touches_set_conn h3 _) _) env hcl
    · split at hd
      · cases hd
      rename_i d4 hst
      simp only [Option.some.injEq, Prod.mk.injEq] at hd
      rw [← hd.1]
      exact touches_emit (touches_start_renderer (touches_emit (touches_set_conn h3 _) _)
        env hst) _


theorem keeps_old_configuration_false (drm : wlr_drm_backend) (cm : List (Option Nat))
    (h : keeps_old_configuration drm cm = false) (s : Nat) (conn : wlr_drm_connector)
    (hconn : drm.outputs[s]? = some conn) (hstate : conn.state = WLR_DRM_CONN_CONNECTED)
    (hdesired : conn.desired_enabled = true) : cm.getD s none ≠ none := by
  intro hnone
  have hs : s < drm.outputs.length := lt_length_of_getElem? hconn
  have : keeps_old_configuration drm cm = true := by
    unfold keeps_old_configuration
    rw [List.any_eq_true]
    refine ⟨s, List.mem_range.mpr hs, ?_⟩
    simp only [hconn, hstate, hdesired, hnone, decide_True, Bool.and_self]
  rw [h] at this
  cases this

/-- The loop that applies the new configuration leaves alone every connector
that is matched to the CRTC it holds, or is unmatched and holds none. -/
theorem realloc_apply_fixed (env : Env) (cm : List (Option Nat)) (F : Nat → Prop)
    (orig : List wlr_drm_connector)
    (hF : ∀ j, F j → ∃ c, orig[j]? = some c ∧ cm.getD j none = c.crtc)
    (n i : Nat) (drm drm1 : wlr_drm_backend)
    (hinv : ∀ j, F j → drm.outputs[j]? = orig[j]?)
    (h : realloc_apply env cm n i drm = some drm1) :
    ∀ j, F j → drm1.outputs[j]? = orig[j]? := by
  induction n generalizing i drm with
  | zero =>
    simp only [realloc_apply, Option.some.injEq] at h
    rw [← h]; exact hinv
  | succ n ih =>
    unfold realloc_apply at h
    split at h
    · cases h
    · rename_i d hstep
      simp only [Option.some.injEq] at h
      rw [← h]
      by_cases hFi : F i
      · obtain ⟨c, hc, hcm⟩ := hF i hFi
        rw [realloc_step_stable env cm drm i c (by rw [hinv i hFi]; exact hc) hcm] at hstep
        cases hstep
      · have ht := touches_realloc_step (touches_refl i drm) env cm _ hstep
        intro j hj
        rw [ht.2.1 j (fun hji => hFi (hji ▸ hj))]
        exact hinv j hj
    · rename_i d hstep
      apply ih (i + 1) d _ h
      by_cases hFi : F i
      · obtain ⟨c, hc, hcm⟩ := hF i hFi
        rw [realloc_step_stable env cm drm i c (by rw [hinv i hFi]; exact hc) hcm] at hstep
        simp only [Option.some.injEq, Prod.mk.injEq, and_true] at hstep
        rw [← hstep]
        exact hinv
      · have ht := touches_realloc_step (touches_refl i drm) env cm _ hstep
        intro j hj
        rw [ht.2.1 j (fun hji => hFi (hji ▸ hj))]
        exact hinv j hj

/-- C4 (eviction avoidance).  Let S be a set of connectors that were fully
satisfied: each is connected, wanted, and holds a CRTC that it may use, no CRTC
is held twice and every held CRTC exists.  Let `c` be a further connector,
without a CRTC, and let the connectors outside S other than `c` hold no CRTC and
take no part in the allocation.  Let no CRTC be able to serve `c` without
evicting a member of S: every matching under the present constraints that gives
`c` a CRTC leaves a member of S without one.  Then `realloc_crtcs` with the
matcher of the specification returns, and leaves every member of S as it was,
on the CRTC it held, and `c` as it was, without a CRTC; indeed nothing but the
log has changed. -/
theorem eviction_avoidance (env : Env) (drm : wlr_drm_backend) (S : Finset Nat) (c : Nat)
    (cc : wlr_drm_connector) (hcrtcs : drm.crtcs ≠ [])
    (hlen : drm.outputs.length ≤ UNMATCHED)
    (hrange : crtcs_in_range drm) (hnodup : no_double_allocation drm)
    (hS : ∀ s ∈ S, ∃ conn k, drm.outputs[s]? = some conn ∧
      conn.state = WLR_DRM_CONN_CONNECTED ∧ conn.desired_enabled = true ∧
      conn.crtc = some k ∧ conn.possible_crtc.testBit k = true)
    (hc : drm.outputs[c]? = some cc) (hcS : c ∉ S) (hcnone : cc.crtc = none)
    (hothers : ∀ j conn, drm.outputs[j]? = some conn → j ∉ S → j ≠ c →
      conn.crtc = none ∧ connector_constraint conn = 0)
    (hevict : ∀ cand ∈ match_candidates drm.outputs.length drm.crtcs.length,
      match_valid (connector_constraints drm) cand = true → c ∈ cand →
      ∃ s ∈ S, s ∉ cand) :
    ∃ d rest, realloc_crtcs env match_obj drm = some d ∧
      d = { drm with log := drm.log ++ rest } ∧
      (∀ s ∈ S, d.outputs[s]? = drm.outputs[s]?) ∧ d.outputs[c]? = some cc := by
  -- a connector that holds a CRTC is a member of S
  have hholder : ∀ v conn k, drm.outputs[v]? = some conn → conn.crtc = some k → v ∈ S := by
    intro v conn k hv hk
    by_contra hvS
    by_cases hvc : v = c
    · subst hvc
      rw [hc] at hv
      cases hv
      rw [hcnone] at hk
      cases hk
    · have := (hothers v conn hv hvS hvc).1
      rw [this] at hk
      cases hk
  -- the constraint of a member of S is its mask
  have hmask : ∀ v conn, drm.outputs[v]? = some conn → v ∈ S →
      (connector_constraints drm).getD v 0 = conn.possible_crtc := by
    intro v conn hv hvS
    obtain ⟨conn1, k, h1, h2, h3, -, -⟩ := hS v hvS
    rw [hv] at h1
    cases h1
    unfold connector_constraints
    rw [List.getD_eq_getElem?_getD, List.getElem?_map, hv]
    simp only [Option.map_some', Option.getD_some]
    unfold connector_constraint
    rw [if_pos ⟨Or.inl h2, h3⟩]
  -- an object whose constraint is not 0 is a member of S or is `c`
  have hpart : ∀ o, (connector_constraints drm).getD o 0 ≠ 0 → o ∈ S ∨ o = c := by
    intro o ho
    by_contra hno
    push_neg at hno
    unfold connector_constraints at ho
    rw [List.getD_eq_getElem?_getD, List.getElem?_map] at ho
    cases hoo : drm.outputs[o]? with
    | none =>
      rw [hoo] at ho
      exact ho rfl
    | some conn =>
      rw [hoo] at ho
      simp only [Option.map_some', Option.getD_some] at ho
      exact ho (hothers o conn hoo hno.1 hno.2).2
  have hvalid : match_valid (connector_constraints drm) (previous_match drm) = true := by
    unfold match_valid
    rw [List.all_eq_true]
    intro j _
    simp only [Bool.or_eq_true, beq_iff_eq, Bool.and_eq_true, List.all_eq_true,
      List.mem_range, bne_iff_ne, ne_eq]
    by_cases hu : (previous_match drm).getD j UNMATCHED = UNMATCHED
    · exact Or.inl hu
    · right
      obtain ⟨conn, hv, hk⟩ := previous_match_entry drm j _ rfl hu
      have hvS := hholder _ conn j hv hk
      obtain ⟨conn1, k, h1, -, -, h4, h5⟩ := hS _ hvS
      rw [hv] at h1
      cases h1
      rw [hk] at h4
      cases h4
      refine ⟨?_, ?_⟩
      · rw [hmask _ conn hv hvS]
        exact h5
      · intro j2 hj2 heq
        obtain ⟨conn2, hv2, hk2⟩ := previous_match_entry drm j2 _ heq hu
        rw [hv] at hv2
        cases hv2
        rw [hk] at hk2
        cases hk2
        omega
  have hprev : S.card ≤ match_score (previous_match drm) := by
    rw [match_score_card]
    apply Finset.card_le_card_of_injOn
      (fun s => ((drm.outputs[s]?).bind fun conn => conn.crtc).getD 0)
    · intro s hs
      obtain ⟨conn, k, h1, -, -, h4, -⟩ := hS s hs
      have hpk := previous_match_holder drm hrange hnodup s k conn h1 h4
      simp only [h1, Option.some_bind, h4, Option.getD_some, List.mem_toFinset,
        List.mem_filter, List.mem_range, bne_iff_ne, ne_eq]
      refine ⟨lt_length_of_getElem? hpk, ?_⟩
      rw [List.getD_eq_getElem?_getD, hpk]
      simp only [Option.getD_some]
      have := lt_length_of_getElem? h1
      omega
    · intro s1 hs1 s2 hs2 heq
      obtain ⟨conn1, k1, h1, -, -, h4, -⟩ := hS s1 hs1
      obtain ⟨conn2, k2, h1b, -, -, h4b, -⟩ := hS s2 hs2
      simp only [h1, h1b, Option.some_bind, h4, h4b, Option.getD_some] at heq
      subst heq
      have e1 := previous_match_holder drm hrange hnodup s1 k1 conn1 h1 h4
      have e2 := previous_match_holder drm hrange hnodup s2 k1 conn2 h1b h4b
      rw [e1] at e2
      simpa using e2
  have hmax : ∀ cand ∈ match_candidates drm.outputs.length drm.crtcs.length,
      match_valid (connector_constraints drm) cand = true →
      match_score cand ≤ match_score (previous_match drm) := by
    intro cand hcand hv
    refine le_trans ?_ hprev
    rw [match_score_card]
    -- the matched entries of `cand`, as a set of objects
    have hinj : Set.InjOn (fun j => cand.getD j UNMATCHED)
        ((List.range cand.length).filter fun j =>
          cand.getD j UNMATCHED != UNMATCHED).toFinset := by
      intro j1 h1 j2 h2 heq
      simp only [List.coe_toFinset, Set.mem_setOf_eq, List.mem_filter, List.mem_range,
        bne_iff_ne, ne_eq] at h1 h2
      exact match_valid_injective _ cand hv j1 j2 h1.1 h2.1 h1.2 heq
    have hobj : ∀ j, j < cand.length → cand.getD j UNMATCHED ≠ UNMATCHED →
        (cand.getD j UNMATCHED ∈ S ∨ cand.getD j UNMATCHED = c) ∧
          cand.getD j UNMATCHED ∈ cand := by
      intro j hj hu
      refine ⟨?_, ?_⟩
      · apply hpart
        intro h0
        have := match_valid_bit _ cand hv j hj hu
        rw [h0] at this
        simp at this
      · rw [List.getD_eq_getElem?_getD, List.getElem?_eq_getElem hj]
        exact List.getElem_mem _
    by_cases hcm : c ∈ cand
    · obtain ⟨s0, hs0, hs0c⟩ := hevict cand hcand hv hcm
      have hT : (insert c (S.erase s0)).card ≤ S.card := by
        have h1 := Finset.card_insert_le c (S.erase s0)
        have h2 := Finset.card_erase_of_mem hs0
        have h3 : 0 < S.card := Finset.card_pos.mpr ⟨s0, hs0⟩
        omega
      refine le_trans ?_ hT
      apply Finset.card_le_card_of_injOn (fun j => cand.getD j UNMATCHED) ?_ hinj
      intro j hj
      simp only [List.mem_toFinset, List.mem_filter, List.mem_range, bne_iff_ne, ne_eq] at hj
      obtain ⟨h1, h2⟩ := hobj j hj.1 hj.2
      simp only [Finset.mem_insert, Finset.mem_erase]
      rcases h1 with h1 | h1
      · right
        refine ⟨?_, h1⟩
        intro heq
        rw [heq] at h2
        exact hs0c h2
      · exact Or.inl h1
    · apply Finset.card_le_card_of_injOn (fun j => cand.getD j UNMATCHED) ?_ hinj
      intro j hj
      simp only [List.mem_toFinset, List.mem_filter, List.mem_range, bne_iff_ne, ne_eq] at hj
      obtain ⟨h1, h2⟩ := hobj j hj.1 hj.2
      rcases h1 with h1 | h1
      · exact h1
      · rw [h1] at h2
        exact absurd h2 hcm
  have hfix := match_obj_fixed drm.outputs.length (connector_constraints drm)
    drm.crtcs.length (previous_match drm) (previous_match_mem drm) hvalid hmax
  obtain ⟨rest, h1, -⟩ := realloc_stable env match_obj drm hcrtcs hrange hnodup hlen hfix
  exact ⟨_, rest, h1, rfl, fun _ _ => rfl, hc⟩

/-- C4 at the scenario of the specification: connectors 0 and 2 (masks 0b01 and
0b10) hold CRTC 0 and CRTC 1, connector 1 (mask 0b11) has become wanted;
`realloc_crtcs` returns, and leaves connector 0 on CRTC 0, connector 2 on CRTC 1
and connector 1 without a CRTC. -/
theorem eviction_avoidance_witness :
    ∃ d rest, realloc_crtcs env_accepting match_obj backend_scenario = some d ∧
      d = { backend_scenario with log := backend_scenario.log ++ rest } ∧
      (∀ s ∈ ({0, 2} : Finset Nat), d.outputs[s]? = backend_scenario.outputs[s]?) ∧
      d.outputs[1]? = some (connector_waiting 71 3) :=
  eviction_avoidance env_accepting backend_scenario {0, 2} 1 (connector_waiting 71 3)
    (by decide) (by decide) (by decide) (by decide)
    (fun s hs => by
      simp only [Finset.mem_insert, Finset.mem_singleton] at hs
      rcases hs with rfl | rfl
      · exact ⟨_, 0, rfl, rfl, rfl, rfl, by decide⟩
      · exact ⟨_, 1, rfl, rfl, rfl, rfl, by decide⟩)
    rfl (by decide) rfl
    (fun j conn hj h1 h2 => by
      have hj3 : j < 3 := lt_length_of_getElem? hj
      simp only [Finset.mem_insert, Finset.mem_singleton, not_or] at h1
      omega)
    (by decide)

set_option maxRecDepth 1000000 in
/-- In the backend `backend_hotplug` the specification allows the matcher one
result only: CRTC 0 to connector 0, CRTC 1 to connector 3, CRTC 2 to
connector 1. -/
theorem hotplug_optimum_unique :
    ∀ nm ∈ match_candidates 4 3,
      match_optimal 4 (connector_constraints backend_hotplug) 3
        (previous_match backend_hotplug) nm = true → nm = [0, 3, 1] := by
  decide

/-- C2 fails on the path that leaves the loop through `break`: in
`backend_hotplug` no CRTC is held twice; the matcher gives CRTC 0 to connector 0,
CRTC 1 to connector 3 and CRTC 2 to connector 1; `realloc_crtcs` gives CRTC 0 to
connector 0, then fails to initialise the plane surfaces of connector 1 and
leaves the loop, so that connector 2, which was to lose CRTC 0, still holds it:
afterwards connectors 0 and 2 both hold CRTC 0. -/
theorem realloc_break_double_allocation :
    no_double_allocation backend_hotplug ∧ crtcs_in_range backend_hotplug ∧
    match_obj 4 (connector_constraints backend_hotplug) 3 (previous_match backend_hotplug) =
      [0, 3, 1] ∧
    ∃ drm1, realloc_crtcs env_surfaces_failing match_obj backend_hotplug = some drm1 ∧
      held_crtcs drm1 = [0, 0] ∧ holds drm1 0 0 ∧ holds drm1 2 0 ∧
      ¬ no_double_allocation drm1 :=
  ⟨by decide, by decide, by decide, _, rfl, rfl, ⟨_, rfl, rfl⟩, ⟨_, rfl, rfl⟩, by decide⟩

/-! ## Buffers and connector states -/


theorem buffers_only_connected_predicate : buffer_predicate buffers_only_connected := by
  refine ⟨?_, ?_, ?_⟩
  · intro c c1 ⟨h1, h2, h3⟩ hp
    unfold buffers_only_connected at hp ⊢
    rw [h1, h2, h3]; exact hp
  · intro c hc _; exact hc
  · intro c h1 h2 h
    rcases h with h | h
    · exact absurd h1 h
    · exact absurd h2 h

theorem buffers_only_connected_or_cleanup_predicate :
    buffer_predicate buffers_only_connected_or_cleanup := by
  refine ⟨?_, ?_, ?_⟩
  · intro c c1 ⟨h1, h2, h3⟩ hp
    unfold buffers_only_connected_or_cleanup at hp ⊢
    rw [h1, h2, h3]; exact hp
  · intro c hc _; exact Or.inl hc
  · intro c h1 h2 h
    rcases h with h | h
    · exact absurd h1 h
    · exact absurd h2 h

theorem same_refl (c : wlr_drm_connector) : same_state_and_buffers c c := ⟨rfl, rfl, rfl⟩

theorem same_trans {a b c : wlr_drm_connector} (h1 : same_state_and_buffers a b)
    (h2 : same_state_and_buffers b c) : same_state_and_buffers a c :=
  ⟨h2.1.trans h1.1, h2.2.1.trans h1.2.1, h2.2.2.trans h1.2.2⟩

theorem keeps_refl (i : Nat) (drm : wlr_drm_backend) : keeps_state_and_buffers i drm drm :=
  fun c hc => ⟨c, hc, same_refl c⟩

theorem keeps_emit {i : Nat} {drm drm1 : wlr_drm_backend}
    (h : keeps_state_and_buffers i drm drm1) (e : Event) :
    keeps_state_and_buffers i drm (emit drm1 e) := h

theorem keeps_set_crtc {i : Nat} {drm drm1 : wlr_drm_backend}
    (h : keeps_state_and_buffers i drm drm1) (k : Nat) (c : wlr_drm_crtc) :
    keeps_state_and_buffers i drm (set_crtc drm1 k c) := h

/-- Storing at position `i` a connector with the state and buffers of the one
that is there keeps state and buffers. -/
theorem keeps_set_conn {i : Nat} {drm drm1 : wlr_drm_backend}
    (h : keeps_state_and_buffers i drm drm1) (c0 c1 : wlr_drm_connector)
    (hc0 : drm1.outputs[i]? = some c0) (hsame : same_state_and_buffers c0 c1) :
    keeps_state_and_buffers i drm (set_conn drm1 i c1) := by
  intro c hc
  obtain ⟨c2, hc2, hs2⟩ := h c hc
  rw [hc0] at hc2
  cases hc2
  exact ⟨c1, by rw [set_conn_outputs]; exact getElem?_set_self_of_some _ _ _ _ hc0,
    same_trans hs2 hsame⟩

theorem keeps_update_enabled {i : Nat} {drm drm1 : wlr_drm_backend}
    (h : keeps_state_and_buffers i drm drm1) (b : Bool) :
    keeps_state_and_buffers i drm (wlr_output_update_enabled drm1 i b) := by
  unfold wlr_output_update_enabled
  split
  · exact h
  · rename_i c hc
    refine keeps_emit (keeps_set_conn h c _ hc ?_) _
    exact ⟨rfl, rfl, rfl⟩

theorem keeps_update_needs_frame {i : Nat} {drm drm1 : wlr_drm_backend}
    (h : keeps_state_and_buffers i drm drm1) :
    keeps_state_and_buffers i drm (wlr_output_update_needs_frame drm1 i) := by
  unfold wlr_output_update_needs_frame
  split
  · exact h
  · rename_i c hc
    refine keeps_emit (keeps_set_conn h c _ hc ?_) _
    exact ⟨rfl, rfl, rfl⟩

theorem keeps_send_frame {i : Nat} {drm drm1 : wlr_drm_backend}
    (h : keeps_state_and_buffers i drm drm1) :
    keeps_state_and_buffers i drm (wlr_output_send_frame drm1 i) := by
  unfold wlr_output_send_frame
  split
  · exact h
  · rename_i c hc
    refine keeps_emit (keeps_set_conn h c _ hc ?_) _
    exact ⟨rfl, rfl, rfl⟩

theorem keeps_set_gamma_sized {i : Nat} {drm drm1 drm2 : wlr_drm_backend}
    (h : keeps_state_and_buffers i drm drm1) (env : Env) (k : Nat) (reset : Bool) (size : Nat)
    (r g b : List Nat) (ok : Bool)
    (hs : set_gamma_sized env drm1 i k reset size r g b = some (drm2, ok)) :
    keeps_state_and_buffers i drm drm2 := by
  unfold set_gamma_sized at hs
  split at hs
  · simp only [Option.some.injEq, Prod.mk.injEq] at hs
    rw [← hs.1]; exact keeps_emit h _
  split at hs
  · cases hs
  split at hs
  · split at hs
    · cases hs
    · simp only [Option.some.injEq, Prod.mk.injEq] at hs
      rw [← hs.1]
      exact keeps_set_crtc (keeps_update_needs_frame (keeps_emit (keeps_emit h _) _)) _ _
  · simp only [Option.some.injEq, Prod.mk.injEq] at hs
    rw [← hs.1]; exact keeps_emit (keeps_emit h _) _

theorem keeps_set_gamma {i : Nat} {drm drm1 drm2 : wlr_drm_backend}
    (h : keeps_state_and_buffers i drm drm1) (env : Env) (size : Nat) (r g b : List Nat)
    (ok : Bool) (hs : set_drm_connector_gamma env drm1 i size r g b = some (drm2, ok)) :
    keeps_state_and_buffers i drm drm2 := by
  unfold set_drm_connector_gamma at hs
  split at hs
  · cases hs
  split at hs
  · simp only [Option.some.injEq, Prod.mk.injEq] at hs
    rw [← hs.1]; exact h
  split at hs
  · split at hs
    · simp only [Option.some.injEq, Prod.mk.injEq] at hs
      rw [← hs.1]; exact h
    · exact keeps_set_gamma_sized h env _ _ _ _ _ _ _ hs
  · exact keeps_set_gamma_sized h env _ _ _ _ _ _ _ hs

theorem keeps_dealloc {i : Nat} {drm drm1 drm2 : wlr_drm_backend}
    (h : keeps_state_and_buffers i drm drm1) (env : Env)
    (hd : dealloc_crtc env drm1 i = some drm2) :
    keeps_state_and_buffers i drm drm2 := by
  unfold dealloc_crtc at hd
  split at hd
  · cases hd
  dsimp only at hd
  split at hd
  · simp only [Option.some.injEq] at hd
    rw [← hd]; exact keeps_emit h _
  split at hd
  · cases hd
  rename_i drm3 ok hg
  have h3 := keeps_set_gamma (keeps_emit h _) env _ _ _ _ _ hg
  split at hd
  · cases hd
  split at hd
  · cases hd
  split at hd
  · cases hd
  rename_i c3 hc3
  simp only [Option.some.injEq] at hd
  rw [← hd]
  refine keeps_set_conn (keeps_emit (keeps_emit (keeps_emit h3 _) _) _) c3 _ hc3 ?_
  exact ⟨rfl, rfl, rfl⟩

/-- A predicate that holds for every connector of a list holds for every
connector of the list with one entry replaced by a connector it holds for. -/
theorem forall_mem_set {P : wlr_drm_connector → Prop} {l : List wlr_drm_connector}
    (h : ∀ c ∈ l, P c) (i : Nat) (c1 : wlr_drm_connector) (h1 : P c1) :
    ∀ c ∈ l.set i c1, P c := by
  intro c hc
  rcases List.mem_or_eq_of_mem_set hc with hc | hc
  · exact h c hc
  · rw [hc]; exact h1

theorem forall_mem_send_frame {P : wlr_drm_connector → Prop} (hP : buffer_predicate P)
    (drm : wlr_drm_backend) (i : Nat) (h : ∀ c ∈ drm.outputs, P c) :
    ∀ c ∈ (wlr_output_send_frame drm i).outputs, P c := by
  unfold wlr_output_send_frame
  split
  · exact h
  · rename_i c0 hc0
    exact forall_mem_set h i _
      (hP.1 c0 _ ⟨rfl, rfl, rfl⟩ (h c0 (List.mem_iff_getElem?.mpr ⟨i, hc0⟩)))

theorem forall_mem_update_enabled {P : wlr_drm_connector → Prop} (hP : buffer_predicate P)
    (drm : wlr_drm_backend) (i : Nat) (b : Bool) (h : ∀ c ∈ drm.outputs, P c) :
    ∀ c ∈ (wlr_output_update_enabled drm i b).outputs, P c := by
  unfold wlr_output_update_enabled
  split
  · exact h
  · rename_i c0 hc0
    exact forall_mem_set h i _
      (hP.1 c0 _ ⟨rfl, rfl, rfl⟩ (h c0 (List.mem_iff_getElem?.mpr ⟨i, hc0⟩)))

/-- The `page_flip_handler` preserves every predicate on connectors that looks
at state and buffers only and holds for connected connectors. -/
theorem page_flip_handler_preserves {P : wlr_drm_connector → Prop} (hP : buffer_predicate P)
    (drm drm1 : wlr_drm_backend) (ev : page_flip_event)
    (hinv : ∀ c ∈ drm.outputs, P c) (h : page_flip_handler drm ev = some drm1) :
    ∀ c ∈ drm1.outputs, P c := by
  unfold page_flip_handler at h
  split at h
  · simp only [Option.some.injEq] at h
    rw [← h]; exact hinv
  rename_i i _
  split at h
  · cases h
  rename_i conn hconn
  dsimp only at h
  have hPc : P conn := hinv conn (List.mem_iff_getElem?.mpr ⟨i, hconn⟩)
  have hP1 : P { conn with pageflip_pending := false } := hP.1 conn _ ⟨rfl, rfl, rfl⟩ hPc
  have hset : ∀ c ∈ (set_conn drm i { conn with pageflip_pending := false }).outputs, P c :=
    forall_mem_set hinv i _ hP1
  split at h
  · simp only [Option.some.injEq] at h
    rw [← h]
    intro c hc
    exact hset c (List.mem_of_mem_eraseIdx hc)
  split at h
  · simp only [Option.some.injEq] at h
    rw [← h]; exact hset
  split at h
  · simp only [Option.some.injEq] at h
    rw [← h]; exact hset
  rename_i hstate
  unfold page_flip_complete at h
  split at h
  · cases h
  simp only [Option.some.injEq] at h
  have hX : ∀ c ∈ (set_conn (emit (set_conn drm i { conn with pageflip_pending := false })
      (Event.wlr_buffer_unref conn.current_buffer)) i
      { conn with
        pageflip_pending := false, current_buffer := conn.pending_buffer,
        pending_buffer := none }).outputs, P c :=
    forall_mem_set hset i _ (hP.2.1 _ (by simpa using hstate))
  have hZ : ∀ (d : wlr_drm_backend) (e : Event), (∀ c ∈ d.outputs, P c) →
      ∀ c ∈ (if (emit d e).session_active = true then wlr_output_send_frame (emit d e) i
        else emit d e).outputs, P c := by
    intro d e hd
    split
    · exact forall_mem_send_frame hP (emit d e) i hd
    · exact hd
  rw [← h]
  apply hZ
  split
  · exact hX
  · rw [post_surfaces_outputs]; exact hX

theorem handle_drm_event_preserves {P : wlr_drm_connector → Prop} (hP : buffer_predicate P)
    (drm drm1 : wlr_drm_backend) (evs : List page_flip_event)
    (hinv : ∀ c ∈ drm.outputs, P c) (h : handle_drm_event drm evs = some drm1) :
    ∀ c ∈ drm1.outputs, P c := by
  induction evs generalizing drm with
  | nil =>
    simp only [handle_drm_event, Option.some.injEq] at h
    rw [← h]; exact hinv
  | cons ev rest ih =>
    unfold handle_drm_event at h
    split at h
    · cases h
    · rename_i d hd
      exact ih d (page_flip_handler_preserves hP drm d ev hinv hd) h

theorem restore_wait_preserves {P : wlr_drm_connector → Prop} (hP : buffer_predicate P)
    (batches : List (List page_flip_event)) (drm drm1 : wlr_drm_backend) (to_close : Nat)
    (hinv : ∀ c ∈ drm.outputs, P c) (h : restore_wait batches drm to_close = some drm1) :
    ∀ c ∈ drm1.outputs, P c := by
  induction batches generalizing drm to_close with
  | nil =>
    simp only [restore_wait, Option.some.injEq] at h
    rw [← h]; exact hinv
  | cons batch rest ih =>
    unfold restore_wait at h
    split at h
    · simp only [Option.some.injEq] at h
      rw [← h]; exact hinv
    split at h
    · cases h
    rename_i d hd
    split at h
    · cases h
    exact ih d _ (handle_drm_event_preserves hP drm d batch hinv hd) h

theorem restore_old_crtcs_outputs (l : List wlr_drm_connector) (drm : wlr_drm_backend) :
    (restore_old_crtcs l drm).outputs = drm.outputs := by
  induction l generalizing drm with
  | nil => rfl
  | cons c rest ih =>
    unfold restore_old_crtcs
    split
    · exact ih drm
    · rw [ih]; rfl

/-- After `restore_drm_outputs` every connector with a buffer is in the
connected or the cleanup state, if before every connector with a buffer was in
the connected state. -/
theorem restore_drm_outputs_weak (drm drm1 : wlr_drm_backend)
    (batches : List (List page_flip_event))
    (hinv : ∀ c ∈ drm.outputs, buffers_only_connected c)
    (h : restore_drm_outputs drm batches = some drm1) :
    ∀ c ∈ drm1.outputs, buffers_only_connected_or_cleanup c := by
  unfold restore_drm_outputs at h
  split at h
  · cases h
  dsimp only at h
  split at h
  · cases h
  rename_i d hd
  simp only [Option.some.injEq] at h
  rw [← h, restore_old_crtcs_outputs]
  refine restore_wait_preserves buffers_only_connected_or_cleanup_predicate batches _ d _ ?_ hd
  intro c hc
  simp only [restore_mark_cleanup, List.mem_map] at hc
  obtain ⟨c0, hc0, hc⟩ := hc
  have h0 := hinv c0 hc0
  split at hc
  · rw [← hc]
    intro _
    exact Or.inr rfl
  · rw [← hc]
    intro hb
    exact Or.inl (h0 hb)

/-- What `drm_connector_cleanup` leaves at the position it is called for: the
connector there keeps its state and buffers (a connector that has disappeared
or is disconnected), or has no buffers any more, or needed a modeset and keeps
its buffers. -/
theorem cleanup_at (env : Env) (drm drm1 : wlr_drm_backend) (i : Nat)
    (conn : wlr_drm_connector) (hconn : drm.outputs[i]? = some conn)
    (h : drm_connector_cleanup env drm i = some drm1) :
    ∃ c1, drm1.outputs[i]? = some c1 ∧
      (same_state_and_buffers conn c1 ∨
        (c1.pending_buffer = none ∧ c1.current_buffer = none) ∨
        (conn.state = WLR_DRM_CONN_NEEDS_MODESET ∧ c1.pending_buffer = conn.pending_buffer ∧
          c1.current_buffer = conn.current_buffer)) := by
  have hfin : ∀ (d d2 : wlr_drm_backend) (ci : wlr_drm_connector), d.outputs[i]? = some ci →
      (match dealloc_crtc env d i with
        | none => none
        | some drm =>
          match drm.outputs[i]? with
          | none => none
          | some conn =>
            match (emit (set_conn drm i
                { conn with possible_crtc := 0, desired_mode := none })
                (Event.destroy_signal i)).outputs[i]? with
            | none => none
            | some conn1 =>
              some (set_conn (emit (set_conn drm i
                { conn with possible_crtc := 0, desired_mode := none })
                (Event.destroy_signal i)) i
                { conn1 with state := WLR_DRM_CONN_DISCONNECTED })) = some d2 →
      ∃ c2, d2.outputs[i]? = some c2 ∧ c2.pending_buffer = ci.pending_buffer ∧
        c2.current_buffer = ci.current_buffer := by
    intro d d2 ci hci hd2
    split at hd2
    · cases hd2
    rename_i d3 hde
    obtain ⟨c3, hc3, hs3⟩ := keeps_dealloc (keeps_refl i d) env hde ci hci
    rw [hc3] at hd2
    dsimp only at hd2
    have hi3 : i < d3.outputs.length := lt_length_of_getElem? hc3
    rw [emit_outputs, set_conn_outputs, getElem?_set_self_of_lt _ _ _ hi3] at hd2
    simp only [Option.some.injEq] at hd2
    rw [← hd2]
    refine ⟨_, getElem?_set_self_of_lt _ _ _ (by simpa using hi3), ?_, ?_⟩
    · exact hs3.2.1
    · exact hs3.2.2
  have hi : i < drm.outputs.length := lt_length_of_getElem? hconn
  unfold drm_connector_cleanup at h
  rw [hconn] at h
  dsimp only at h
  split at h
  · obtain ⟨c2, h1, h2, h3⟩ := hfin _ _ _
      (by rw [set_conn_outputs]; exact getElem?_set_self_of_lt _ _ _ (by simpa using hi)) h
    exact ⟨c2, h1, Or.inr (Or.inl ⟨h2, h3⟩)⟩
  · obtain ⟨c2, h1, h2, h3⟩ := hfin _ _ _
      (by rw [set_conn_outputs]; exact getElem?_set_self_of_lt _ _ _ (by simpa using hi)) h
    exact ⟨c2, h1, Or.inr (Or.inl ⟨h2, h3⟩)⟩
  · rename_i hst
    obtain ⟨c2, h1, h2, h3⟩ := hfin _ _ _ hconn h
    exact ⟨c2, h1, Or.inr (Or.inr ⟨hst, h2, h3⟩)⟩
  · rename_i hst
    simp only [Option.some.injEq] at h
    rw [← h]
    exact ⟨_, getElem?_set_self_of_lt _ _ _ hi, Or.inl ⟨hst.symm, rfl, rfl⟩⟩
  · simp only [Option.some.injEq] at h
    rw [← h]
    exact ⟨conn, hconn, Or.inl (same_refl conn)⟩

/-- The `drm_connector_cleanup` preserves "a buffer implies the connected
state". -/
theorem cleanup_preserves (env : Env) (drm drm1 : wlr_drm_backend) (i : Nat)
    (hinv : ∀ c ∈ drm.outputs, buffers_only_connected c)
    (h : drm_connector_cleanup env drm i = some drm1) :
    ∀ c ∈ drm1.outputs, buffers_only_connected c := by
  have ht := touches_cleanup (touches_refl i drm) env h
  intro c hc
  obtain ⟨j, hj⟩ := List.mem_iff_getElem?.mp hc
  by_cases hji : j = i
  · subst hji
    have hjl : j < drm.outputs.length := by
      rw [← ht.1]; exact lt_length_of_getElem? hj
    obtain ⟨c1, h1, h2⟩ := cleanup_at env drm drm1 j drm.outputs[j]
      (List.getElem?_eq_getElem hjl) h
    rw [hj] at h1
    cases h1
    have h0 := hinv drm.outputs[j] (List.getElem_mem _)
    rcases h2 with h2 | h2 | h2
    · exact buffers_only_connected_predicate.1 _ _ h2 h0
    · exact buffers_only_connected_predicate.2.2 _ h2.1 h2.2
    · intro hb
      rw [h2.2.1, h2.2.2] at hb
      have := h0 hb
      rw [h2.1] at this
      cases this
  · rw [ht.2.1 j hji] at hj
    exact hinv c (List.mem_iff_getElem?.mpr ⟨j, hj⟩)

/-- The `drm_connector_commit` on a connected connector preserves "a buffer
implies the connected state". -/
theorem commit_preserves (env : Env) (drm drm1 : wlr_drm_backend) (i : Nat)
    (pending : wlr_output_state) (ok : Bool) (conn : wlr_drm_connector)
    (hconn : drm.outputs[i]? = some conn) (hstate : conn.state = WLR_DRM_CONN_CONNECTED)
    (hinv : ∀ c ∈ drm.outputs, buffers_only_connected c)
    (h : drm_connector_commit env drm i pending = some (drm1, ok)) :
    ∀ c ∈ drm1.outputs, buffers_only_connected c := by
  unfold drm_connector_commit at h
  simp only [hconn] at h
  split at h
  · simp only [Option.some.injEq, Prod.mk.injEq] at h
    rw [← h.1]; exact hinv
  split at h
  · simp only [Option.some.injEq, Prod.mk.injEq] at h
    rw [← h.1]; exact hinv
  rename_i k hk
  split at h
  · cases h
  rename_i crtc hcrtc
  have hlog := commit_acquire_logged env drm k crtc conn pending
  have hA : ∀ d : wlr_drm_backend, logged_without_pageflip drm d → d.outputs = drm.outputs := by
    intro d ⟨rest, hd, _⟩
    rw [hd]
  split at h
  · rename_i dA hacq
    rw [hacq] at hlog
    simp only [Option.some.injEq, Prod.mk.injEq] at h
    rw [← h.1, hA dA hlog]; exact hinv
  rename_i dA fb hacq
  rw [hacq] at hlog
  have hdA := hA dA hlog
  split at h
  · simp only [Option.some.injEq, Prod.mk.injEq] at h
    rw [← h.1, hdA]; exact hinv
  split at h
  · simp only [Option.some.injEq, Prod.mk.injEq] at h
    rw [← h.1, emit_outputs, hdA]; exact hinv
  simp only [Option.some.injEq, Prod.mk.injEq] at h
  rw [← h.1]
  apply forall_mem_update_enabled buffers_only_connected_predicate
  unfold commit_retain
  split
  · rw [set_conn_outputs, emit_outputs, emit_outputs, emit_outputs, hdA]
    exact forall_mem_set hinv i _ (buffers_only_connected_predicate.2.1 _ hstate)
  · rw [set_conn_outputs, emit_outputs, hdA]
    exact forall_mem_set hinv i _ (buffers_only_connected_predicate.2.1 _ hstate)


/-- C9 amended (a buffer implies the connected state): the predicate holds for
a connector as `scan_drm_connectors` creates it, and is preserved by
`page_flip_handler`, by `drm_connector_cleanup`, and by `drm_connector_commit`
on a connected connector; `restore_drm_outputs` moves connected connectors to
the cleanup state with their buffers, and after it every connector with a
buffer is in the connected or the cleanup state. -/
theorem buffers_invariant_preserved :
    (∀ id old_crtc, buffers_only_connected (new_connector id old_crtc)) ∧
    (∀ (drm drm1 : wlr_drm_backend) (ev : page_flip_event),
      (∀ c ∈ drm.outputs, buffers_only_connected c) →
      page_flip_handler drm ev = some drm1 →
      ∀ c ∈ drm1.outputs, buffers_only_connected c) ∧
    (∀ (env : Env) (drm drm1 : wlr_drm_backend) (i : Nat),
      (∀ c ∈ drm.outputs, buffers_only_connected c) →
      drm_connector_cleanup env drm i = some drm1 →
      ∀ c ∈ drm1.outputs, buffers_only_connected c) ∧
    (∀ (env : Env) (drm drm1 : wlr_drm_backend) (i : Nat) (pending : wlr_output_state)
      (ok : Bool) (conn : wlr_drm_connector),
      drm.outputs[i]? = some conn → conn.state = WLR_DRM_CONN_CONNECTED →
      (∀ c ∈ drm.outputs, buffers_only_connected c) →
      drm_connector_commit env drm i pending = some (drm1, ok) →
      ∀ c ∈ drm1.outputs, buffers_only_connected c) ∧
    (∀ (drm drm1 : wlr_drm_backend) (batches : List (List page_flip_event)),
      (∀ c ∈ drm.outputs, buffers_only_connected c) →
      restore_drm_outputs drm batches = some drm1 →
      ∀ c ∈ drm1.outputs, buffers_only_connected_or_cleanup c) :=
  ⟨fun _ _ h => by rcases h with h | h <;> exact absurd rfl h,
   fun drm drm1 ev hinv h =>
     page_flip_handler_preserves buffers_only_connected_predicate drm drm1 ev hinv h,
   fun env drm drm1 i hinv h => cleanup_preserves env drm drm1 i hinv h,
   fun env drm drm1 i pending ok conn hconn hstate hinv h =>
     commit_preserves env drm drm1 i pending ok conn hconn hstate hinv h,
   fun drm drm1 batches hinv h => restore_drm_outputs_weak drm drm1 batches hinv h⟩

/-- C9 amended, at concrete backends: a connector that scans out a client
buffer, through a completion event, a cleanup, a commit and a shutdown. -/
theorem buffers_invariant_preserved_witness :
    (∀ c ∈ ((page_flip_handler backend_scanout flip_event_40).getD backend_scanout).outputs,
      buffers_only_connected c) ∧
    (∀ c ∈ ((drm_connector_cleanup env_accepting backend_scanout 0).getD
      backend_scanout).outputs, buffers_only_connected c) ∧
    (∀ c ∈ ((drm_connector_commit env_accepting backend_scanout 0 pending_scanout).getD
      (backend_scanout, false)).1.outputs, buffers_only_connected c) ∧
    (∀ c ∈ ((restore_drm_outputs backend_scanout [[flip_event_40]]).getD
      backend_scanout).outputs, buffers_only_connected_or_cleanup c) :=
  ⟨buffers_invariant_preserved.2.1 backend_scanout _ flip_event_40 (by decide) rfl,
   buffers_invariant_preserved.2.2.1 env_accepting backend_scanout _ 0 (by decide) rfl,
   buffers_invariant_preserved.2.2.2.1 env_accepting backend_scanout _ 0 pending_scanout true
     _ rfl rfl (by decide) rfl,
   buffers_invariant_preserved.2.2.2.2 backend_scanout _ [[flip_event_40]] (by decide) rfl⟩

/-- C9, as stated, fails for `restore_drm_outputs`: a connected connector that
scans out a client buffer satisfies the predicate; `restore_drm_outputs` moves
it to the cleanup state and the completion event leaves its buffer in place, so
that afterwards it holds a buffer in a state other than connected. -/
theorem buffers_invariant_restore_counterexample :
    (∀ c ∈ backend_scanout.outputs, buffers_only_connected c) ∧
    ∃ drm1 c1, restore_drm_outputs backend_scanout [[flip_event_40]] = some drm1 ∧
      drm1.outputs[0]? = some c1 ∧ c1.state = WLR_DRM_CONN_CLEANUP ∧
      c1.current_buffer = some (client_buffer DRM_FORMAT_XRGB8888) ∧
      ¬ buffers_only_connected c1 :=
  ⟨by decide, _, _, rfl, rfl, rfl, rfl, by decide⟩

/-- In `realloc_crtcs` a connected connector that loses its CRTC moves to the
needs-modeset state and keeps its buffers: connector 0, disabled by the user and
scanning out a client buffer on CRTC 0, loses the CRTC to connector 1. -/
theorem realloc_lost_crtc_keeps_buffers :
    (∀ c ∈ backend_disabled_scanout.outputs, buffers_only_connected c) ∧
    ∃ drm1 c1, realloc_crtcs env_accepting match_obj backend_disabled_scanout = some drm1 ∧
      drm1.outputs[0]? = some c1 ∧ c1.state = WLR_DRM_CONN_NEEDS_MODESET ∧ c1.crtc = none ∧
      c1.current_buffer = some (client_buffer DRM_FORMAT_XRGB8888) :=
  ⟨by decide, _, _, rfl, rfl, rfl, rfl, rfl⟩

/-- A `drm_connector_commit` of a client buffer on a connector that holds a CRTC
and still needs a modeset retains the buffer as pending outside the connected
state. -/
theorem commit_needs_modeset_keeps_buffer :
    (∀ c ∈ backend_waiting_on_crtc.outputs, buffers_only_connected c) ∧
    ∃ drm1 c1, drm_connector_commit env_accepting backend_waiting_on_crtc 0 pending_scanout =
        some (drm1, true) ∧
      drm1.outputs[0]? = some c1 ∧ c1.state = WLR_DRM_CONN_NEEDS_MODESET ∧
      c1.pending_buffer = some (client_buffer DRM_FORMAT_XRGB8888) :=
  ⟨by decide, _, _, rfl, rfl, rfl, rfl⟩

/-! ## The pending flag in the commit paths -/


/-- While a flip is pending, `drm_connector_commit` requests no page-flip: it
returns false and changes nothing but the log. -/
theorem commit_respects_pending (env : Env) (drm : wlr_drm_backend) (i k : Nat)
    (pending : wlr_output_state) (conn : wlr_drm_connector) (crtc : wlr_drm_crtc)
    (hconn : drm.outputs[i]? = some conn) (hp : conn.pageflip_pending = true)
    (hk : conn.crtc = some k) (hcrtc : drm.crtcs[k]? = some crtc) :
    ∃ drm1, drm_connector_commit env drm i pending = some (drm1, false) ∧
      logged_without_pageflip drm drm1 := by
  have hlog := commit_acquire_logged env drm k crtc conn pending
  unfold drm_connector_commit
  simp only [hconn, hk, hcrtc, hp]
  split
  · exact ⟨drm, rfl, logged_refl drm⟩
  · rcases hacq : commit_acquire env drm k crtc conn pending with ⟨drmA, fb⟩
    rw [hacq] at hlog
    cases fb <;> exact ⟨drmA, by simp, hlog⟩

/-- While a flip is pending, `drm_connector_schedule_frame` requests no
page-flip. -/
theorem schedule_frame_respects_pending (env : Env) (drm drm1 : wlr_drm_backend) (i : Nat)
    (ok : Bool) (conn : wlr_drm_connector)
    (hconn : drm.outputs[i]? = some conn) (hp : conn.pageflip_pending = true)
    (h : drm_connector_schedule_frame env drm i = some (drm1, ok)) :
    ∀ e ∈ drm1.log.drop drm.log.length, is_crtc_pageflip e = false := by
  unfold drm_connector_schedule_frame at h
  simp only [hconn, hp] at h
  split at h
  · simp only [Option.some.injEq, Prod.mk.injEq] at h
    rw [← h.1]; simp
  split at h
  · simp only [Option.some.injEq, Prod.mk.injEq] at h
    rw [← h.1]; simp
  split at h
  · cases h
  split at h
  · simp only [Option.some.injEq, Prod.mk.injEq] at h
    rw [← h.1]
    unfold wlr_output_send_frame
    rw [hconn]
    simp [is_crtc_pageflip]
  · simp only [if_true, Option.some.injEq, Prod.mk.injEq] at h
    rw [← h.1]
    split <;> simp [is_crtc_pageflip]

/-- C8 (amended): a frame submission issues no page-flip while a prior one is
pending.  Let the connector at position `i` have `pageflip_pending` set, and let
the CRTC it holds, if any, exist.  Then `drm_connector_commit` returns false for
every pending state, having changed nothing but the log, to which it has added
no page-flip request; and `drm_connector_schedule_frame` returns, having added
no page-flip request to the log. -/
theorem pageflip_respects_pending (env : Env) (drm : wlr_drm_backend) (i : Nat)
    (conn : wlr_drm_connector) (hconn : drm.outputs[i]? = some conn)
    (hp : conn.pageflip_pending = true)
    (hheld : ∀ k, conn.crtc = some k → k < drm.crtcs.length) :
    (∀ pending, ∃ drm1, drm_connector_commit env drm i pending = some (drm1, false) ∧
      logged_without_pageflip drm drm1) ∧
    ∃ drm1 ok, drm_connector_schedule_frame env drm i = some (drm1, ok) ∧
      ∀ e ∈ drm1.log.drop drm.log.length, is_crtc_pageflip e = false := by
  constructor
  · intro pending
    cases hk : conn.crtc with
    | none =>
      refine ⟨drm, ?_, logged_refl drm⟩
      unfold drm_connector_commit
      simp only [hconn, hk]
      split <;> rfl
    | some k =>
      have hkl : k < drm.crtcs.length := hheld k hk
      exact commit_respects_pending env drm i k pending conn drm.crtcs[k] hconn hp hk
        (List.getElem?_eq_getElem hkl)
  · have htot : ∃ drm1 ok, drm_connector_schedule_frame env drm i = some (drm1, ok) := by
      unfold drm_connector_schedule_frame
      simp only [hconn, hp]
      split
      · exact ⟨_, _, rfl⟩
      split
      · exact ⟨_, _, rfl⟩
      rename_i k hk
      rw [List.getElem?_eq_getElem (hheld k hk)]
      dsimp only
      split
      · exact ⟨_, _, rfl⟩
      · exact ⟨_, _, rfl⟩
    obtain ⟨drm1, ok, h⟩ := htot
    exact ⟨drm1, ok, h, schedule_frame_respects_pending env drm drm1 i ok conn hconn hp h⟩

/-- C8 (amended) at a concrete backend: the connector of `backend_flipping` has
a page-flip pending; a commit of a rendered frame and a frame scheduling request
no page-flip. -/
theorem pageflip_respects_pending_witness :
    (∃ conn, backend_flipping.outputs[0]? = some conn ∧ conn.pageflip_pending = true) ∧
    (∀ pending, ∃ drm1,
      drm_connector_commit env_accepting backend_flipping 0 pending = some (drm1, false) ∧
      logged_without_pageflip backend_flipping drm1) ∧
    ∃ drm1 ok, drm_connector_schedule_frame env_accepting backend_flipping 0 = some (drm1, ok) ∧
      ∀ e ∈ drm1.log.drop backend_flipping.log.length, is_crtc_pageflip e = false :=
  ⟨⟨_, rfl, rfl⟩,
    pageflip_respects_pending env_accepting backend_flipping 0 _ rfl rfl (fun k hk => by
      cases hk
      decide)⟩

/-! ## Definedness of the release of a CRTC and of the cleanup -/

theorem set_self_of_getElem? {α : Type} (l : List α) (i : Nat) (a : α)
    (h : l[i]? = some a) : l.set i a = l := by
  apply List.ext_getElem?
  intro n
  rw [List.getElem?_set]
  split
  · rename_i hin
    subst hin
    rw [if_pos (lt_length_of_getElem? h), h]
  · rfl

theorem replaces_self (drm : wlr_drm_backend) (i : Nat) (c : wlr_drm_connector)
    (hc : drm.outputs[i]? = some c) : replaces drm drm i c [] :=
  ⟨(set_self_of_getElem? _ _ _ hc).symm, rfl, by simp, rfl, rfl, rfl⟩

theorem replaces_emit {drm drm1 : wlr_drm_backend} {i : Nat} {c1 : wlr_drm_connector}
    {rest : List Event} (h : replaces drm drm1 i c1 rest) (e : Event) :
    replaces drm (emit drm1 e) i c1 (rest ++ [e]) := by
  obtain ⟨h1, h2, h3, h4, h5, h6⟩ := h
  exact ⟨h1, h2, by rw [emit_log, h3, List.append_assoc], h4, h5, h6⟩

theorem replaces_set_conn {drm drm1 : wlr_drm_backend} {i : Nat} {c1 : wlr_drm_connector}
    {rest : List Event} (h : replaces drm drm1 i c1 rest) (c2 : wlr_drm_connector) :
    replaces drm (set_conn drm1 i c2) i c2 rest := by
  obtain ⟨h1, h2, h3, h4, h5, h6⟩ := h
  exact ⟨by rw [set_conn_outputs, h1, List.set_set], h2, h3, h4, h5, h6⟩

theorem replaces_trans {drm drm1 drm2 : wlr_drm_backend} {i : Nat}
    {c1 c2 : wlr_drm_connector} {r1 r2 : List Event} (h : replaces drm drm1 i c1 r1)
    (h2 : replaces drm1 drm2 i c2 r2) : replaces drm drm2 i c2 (r1 ++ r2) := by
  obtain ⟨a1, a2, a3, a4, a5, a6⟩ := h
  obtain ⟨b1, b2, b3, b4, b5, b6⟩ := h2
  exact ⟨by rw [b1, a1, List.set_set], by rw [b2, a2], by rw [b3, a3, List.append_assoc],
    by rw [b4, a4], by rw [b5, a5], by rw [b6, a6]⟩

theorem replaces_getElem? {drm drm1 : wlr_drm_backend} {i : Nat} {c1 : wlr_drm_connector}
    {rest : List Event} (h : replaces drm drm1 i c1 rest) (hi : i < drm.outputs.length) :
    drm1.outputs[i]? = some c1 := by
  rw [h.1]
  exact getElem?_set_self_of_lt _ _ _ hi

theorem replaces_other {drm drm1 : wlr_drm_backend} {i : Nat} {c1 : wlr_drm_connector}
    {rest : List Event} (h : replaces drm drm1 i c1 rest) (j : Nat) (hj : j ≠ i) :
    drm1.outputs[j]? = drm.outputs[j]? := by
  rw [h.1, List.getElem?_set_ne (Ne.symm hj)]

theorem replaces_length {drm drm1 : wlr_drm_backend} {i : Nat} {c1 : wlr_drm_connector}
    {rest : List Event} (h : replaces drm drm1 i c1 rest) :
    drm1.outputs.length = drm.outputs.length := by
  rw [h.1, List.length_set]

theorem cursors_of_set_crtc (drm : wlr_drm_backend) (k : Nat) (crtc new : wlr_drm_crtc)
    (h : drm.crtcs[k]? = some crtc) (hc : new.cursor = crtc.cursor) :
    cursors_of (set_crtc drm k new) = cursors_of drm := by
  unfold cursors_of set_crtc
  dsimp only
  rw [List.map_set, hc]
  apply List.ext_getElem?
  intro n
  rw [List.getElem?_set]
  split
  · rename_i hin
    subst hin
    rw [List.length_map, if_pos (lt_length_of_getElem? h), List.getElem?_map, h]
    rfl
  · rfl

/-- A CRTC in the array of a backend that has kept the cursor planes of a
backend in which every CRTC has one. -/
theorem cursor_of_present {drm d : wlr_drm_backend} (h : cursors_of d = cursors_of drm)
    (hp : cursors_present drm) (k : Nat) (hk : k < d.crtcs.length) :
    ∃ crtc, d.crtcs[k]? = some crtc ∧ crtc.cursor ≠ none := by
  refine ⟨d.crtcs[k], List.getElem?_eq_getElem hk, ?_⟩
  apply hp
  rw [← h]
  exact List.mem_map.mpr ⟨d.crtcs[k], List.getElem_mem hk, rfl⟩

theorem fill_defined (size : Nat) (h1 : size ≠ 1) (h2 : size < 2 ^ 32) :
    ∃ ramp, fill_empty_gamma_table size = some (ramp, ramp, ramp) := by
  unfold fill_empty_gamma_table
  rw [if_neg (by omega)]
  exact ⟨_, rfl⟩

theorem conn_with_crtc (c : wlr_drm_connector) (x : Option Nat) (h : c.crtc = x) :
    { c with crtc := x } = c := by
  subst h; rfl

theorem conn_with_needs_frame (c : wlr_drm_connector) :
    { c with needs_frame := c.needs_frame } = c := rfl

/-- The reset call `set_drm_connector_gamma(output, 0, NULL, NULL, NULL)`
returns when the CRTC the connector holds lies in the array and has a gamma size
for which the ramp is defined; the connector is as before up to `needs_frame`. -/
theorem set_gamma_reset_returns (env : Env) (drm : wlr_drm_backend) (i : Nat)
    (c : wlr_drm_connector) (hc : drm.outputs[i]? = some c)
    (hheld : ∀ k, c.crtc = some k → k < drm.crtcs.length)
    (hgamma : gamma_defined env drm) :
    ∃ d ok nf rest, set_drm_connector_gamma env drm i 0 [] [] [] = some (d, ok) ∧
      replaces drm d i { c with needs_frame := nf } rest ∧
      ∀ e ∈ rest, dealloc_event e = true := by
  have hi : i < drm.outputs.length := lt_length_of_getElem? hc
  have h0 : replaces drm drm i { c with needs_frame := c.needs_frame } [] :=
    replaces_self drm i c hc
  unfold set_drm_connector_gamma
  rw [hc]
  dsimp only
  split
  · exact ⟨_, _, _, _, rfl, h0, by simp⟩
  · rename_i k hk
    have hkl := hheld k hk
    obtain ⟨hg1, hg2⟩ := hgamma k hkl
    have hgs : drm_connector_get_gamma_size env drm i = env.crtc_get_gamma_size k := by
      simp [drm_connector_get_gamma_size, hc, hk]
    rw [if_pos rfl, hgs]
    split
    · exact ⟨_, _, _, _, rfl, h0, by simp⟩
    · obtain ⟨ramp, hramp⟩ := fill_defined _ hg1 hg2
      unfold set_gamma_sized
      simp only [gamma_channels, if_true, hramp]
      split
      · refine ⟨_, _, _, _, rfl, replaces_emit h0 _, ?_⟩
        intro e he
        simp only [List.nil_append, List.mem_singleton] at he
        subst he; rfl
      · split
        · rw [List.getElem?_eq_getElem hkl]
          rw [needs_frame_eq _ i c (by simpa using hc)]
          refine ⟨_, true, true, [Event.malloc (3 * env.crtc_get_gamma_size k * 2),
              Event.crtc_set_gamma k (env.crtc_get_gamma_size k) (ramp ++ ramp ++ ramp),
              Event.wlr_output_update_needs_frame i], rfl, ?_, ?_⟩
          · refine ⟨?_, ?_, ?_, rfl, rfl, ?_⟩
            · simp only [set_crtc_outputs, emit_outputs, set_conn_outputs]
            · simp only [set_crtc_crtcs, List.length_set, emit_crtcs, set_conn_crtcs]
            · simp only [set_crtc_log, emit_log, set_conn_log, List.append_assoc,
                List.singleton_append, List.cons_append, List.nil_append]
            · exact cursors_of_set_crtc _ k _ _ (List.getElem?_eq_getElem hkl) rfl
          · intro e he
            simp only [List.mem_cons, List.mem_singleton, List.not_mem_nil, or_false] at he
            rcases he with he | he | he <;> subst he <;> rfl
        · refine ⟨_, _, _, _, rfl, replaces_emit (replaces_emit h0 _) _, ?_⟩
          intro e he
          simp only [List.nil_append, List.mem_cons, List.mem_singleton, List.cons_append,
            List.not_mem_nil, or_false] at he
          rcases he with he | he <;> subst he <;> rfl

/-- The `dealloc_crtc` returns under the same conditions, and leaves the
connector without a CRTC and otherwise as before up to `needs_frame`. -/
theorem dealloc_returns (env : Env) (drm : wlr_drm_backend) (i : Nat)
    (c : wlr_drm_connector) (hc : drm.outputs[i]? = some c)
    (hheld : ∀ k, c.crtc = some k → k < drm.crtcs.length)
    (hgamma : gamma_defined env drm) (hcursor : cursors_present drm) :
    ∃ d nf rest, dealloc_crtc env drm i = some d ∧
      replaces drm d i { c with needs_frame := nf, crtc := none } rest ∧
      (∀ e ∈ rest, dealloc_event e = true) ∧
      Event.dealloc_crtc i c.crtc ∈ rest := by
  have hi : i < drm.outputs.length := lt_length_of_getElem? hc
  unfold dealloc_crtc
  rw [hc]
  dsimp only
  split
  · rename_i hk
    refine ⟨_, c.needs_frame, [Event.dealloc_crtc i c.crtc], rfl, ?_, ?_, ?_⟩
    · have h0 := replaces_emit (replaces_self drm i c hc) (Event.dealloc_crtc i c.crtc)
      have e : ({ c with needs_frame := c.needs_frame, crtc := none } : wlr_drm_connector) = c :=
        conn_with_crtc c none hk
      rw [e]
      exact h0
    · intro e he
      simp only [List.mem_singleton] at he
      subst he; rfl
    · simp
  · rename_i k hk
    obtain ⟨d, ok, nf, rest, h1, h2, h3⟩ := set_gamma_reset_returns env
      (emit drm (Event.dealloc_crtc i c.crtc)) i c hc hheld hgamma
    have hd : d.outputs[i]? = some { c with needs_frame := nf } := replaces_getElem? h2 hi
    obtain ⟨crtc, hcrtc, hcur⟩ := cursor_of_present h2.2.2.2.2.2 hcursor k
      (by rw [h2.2.1]; exact hheld k hk)
    rw [h1]
    dsimp only
    rw [emit_crtcs, hcrtc]
    dsimp only
    rw [if_neg hcur, emit_outputs, emit_outputs, emit_outputs, hd]
    dsimp only
    have h4 := replaces_trans
      (replaces_emit (replaces_self drm i c hc) (Event.dealloc_crtc i c.crtc)) h2
    refine ⟨_, nf, _, rfl,
      replaces_set_conn (replaces_emit (replaces_emit (replaces_emit h4 _) _) _) _, ?_, ?_⟩
    · intro e he
      simp only [List.nil_append, List.mem_append, List.mem_cons, List.mem_singleton,
        List.not_mem_nil, or_false] at he
      rcases he with ((((he | he) | he) | he) | he)
      · subst he; rfl
      · exact h3 e he
      · subst he; rfl
      · subst he; rfl
      · subst he; rfl
    · simp

/-! ## The cleanup of a connector -/

theorem count_destroy_of_dealloc (rest : List Event) (i : Nat)
    (h : ∀ e ∈ rest, dealloc_event e = true) : rest.count (Event.destroy_signal i) = 0 := by
  apply List.count_eq_zero_of_not_mem
  intro hmem
  have := h _ hmem
  cases this

/-- The common end of `drm_connector_cleanup` (the case `NEEDS_MODESET` and what
falls through to it), run in a backend `d` that is `drm` with the connector at
position `i` replaced by `ci`. -/
theorem cleanup_finish_returns (env : Env) (drm : wlr_drm_backend) (i : Nat)
    (hi : i < drm.outputs.length)
    (d : wlr_drm_backend) (ci : wlr_drm_connector) (pre : List Event)
    (hrep : replaces drm d i ci pre)
    (hheld : ∀ k, ci.crtc = some k → k < drm.crtcs.length)
    (hgamma : gamma_defined env drm) (hcursor : cursors_present drm) :
    ∃ d2 nf rest, (match dealloc_crtc env d i with
        | none => none
        | some drm =>
          match drm.outputs[i]? with
          | none => none
          | some conn =>
            match (emit (set_conn drm i
                { conn with possible_crtc := 0, desired_mode := none })
                (Event.destroy_signal i)).outputs[i]? with
            | none => none
            | some conn1 =>
              some (set_conn (emit (set_conn drm i
                { conn with possible_crtc := 0, desired_mode := none })
                (Event.destroy_signal i)) i
                { conn1 with state := WLR_DRM_CONN_DISCONNECTED })) = some d2 ∧
      replaces drm d2 i
        { ci with needs_frame := nf, crtc := none, possible_crtc := 0, desired_mode := none,
                  state := WLR_DRM_CONN_DISCONNECTED }
        (pre ++ rest ++ [Event.destroy_signal i]) ∧
      (∀ e ∈ rest, dealloc_event e = true) := by
  have hdi : i < d.outputs.length := by rw [replaces_length hrep]; exact hi
  have hci : d.outputs[i]? = some ci := replaces_getElem? hrep hi
  have hg : gamma_defined env d := by
    intro k hk
    exact hgamma k (by rw [← hrep.2.1]; exact hk)
  have hh : ∀ k, ci.crtc = some k → k < d.crtcs.length := by
    intro k hk
    rw [hrep.2.1]; exact hheld k hk
  have hcd : cursors_present d := by
    intro cursor hmem
    rw [cursors_of, ← cursors_of, hrep.2.2.2.2.2] at hmem
    exact hcursor cursor hmem
  obtain ⟨d3, nf, rest, h1, h2, h3, -⟩ := dealloc_returns env d i ci hci hh hg hcd
  have hi3 : i < d3.outputs.length := by rw [replaces_length h2]; exact hdi
  have h3i := replaces_getElem? h2 hdi
  simp only [h1, h3i, emit_outputs, set_conn_outputs, getElem?_set_self_of_lt _ _ _ hi3]
  refine ⟨_, nf, rest, rfl, ?_, h3⟩
  have h4 := replaces_set_conn (replaces_emit (replaces_set_conn (replaces_trans hrep h2)
    { ci with needs_frame := nf, crtc := none, possible_crtc := 0, desired_mode := none })
    (Event.destroy_signal i))
    { ci with needs_frame := nf, crtc := none, possible_crtc := 0, desired_mode := none,
              state := WLR_DRM_CONN_DISCONNECTED }
  exact h4

/-- What `drm_connector_cleanup` does to the connector at position `i`, state by
state, together with the fact that it returns. -/
theorem cleanup_spec (env : Env) (drm : wlr_drm_backend) (i : Nat)
    (c : wlr_drm_connector) (hc : drm.outputs[i]? = some c)
    (hheld : ∀ k, c.crtc = some k → k < drm.crtcs.length)
    (hgamma : gamma_defined env drm) (hcursor : cursors_present drm) :
    ∃ d c1 rest, drm_connector_cleanup env drm i = some d ∧
      replaces drm d i c1 rest ∧
      ((c.state = WLR_DRM_CONN_CONNECTED ∨ c.state = WLR_DRM_CONN_CLEANUP ∨
          c.state = WLR_DRM_CONN_NEEDS_MODESET) →
        c1.state = WLR_DRM_CONN_DISCONNECTED ∧ c1.crtc = none ∧ c1.possible_crtc = 0 ∧
        c1.desired_mode = none ∧ rest.count (Event.destroy_signal i) = 1) ∧
      ((c.state = WLR_DRM_CONN_CONNECTED ∨ c.state = WLR_DRM_CONN_CLEANUP) →
        c1.modes = [] ∧ c1.pending_buffer = none ∧ c1.current_buffer = none) ∧
      (c.state = WLR_DRM_CONN_NEEDS_MODESET →
        c1.modes = c.modes ∧ c1.pending_buffer = c.pending_buffer ∧
        c1.current_buffer = c.current_buffer) ∧
      ((c.state = WLR_DRM_CONN_DISAPPEARED ∨ c.state = WLR_DRM_CONN_DISCONNECTED) →
        d = drm) := by
  have hi : i < drm.outputs.length := lt_length_of_getElem? hc
  have hcount : ∀ pre rest : List Event, (∀ e ∈ pre, dealloc_event e = false ∧
      e ≠ Event.destroy_signal i) → (∀ e ∈ rest, dealloc_event e = true) →
      (pre ++ rest ++ [Event.destroy_signal i]).count (Event.destroy_signal i) = 1 := by
    intro pre rest hpre hrest
    rw [List.count_append, List.count_append, count_destroy_of_dealloc rest i hrest,
      List.count_eq_zero_of_not_mem (fun hm => (hpre _ hm).2 rfl)]
    simp
  have hfull : ∀ s : wlr_drm_connector_state,
      c.state = s → (s = WLR_DRM_CONN_CONNECTED ∨ s = WLR_DRM_CONN_CLEANUP) →
      ∃ d c1 rest, (match dealloc_crtc env
          (set_conn (emit (emit drm (Event.wlr_buffer_unref c.pending_buffer))
            (Event.wlr_buffer_unref c.current_buffer)) i
            { c with
              current_mode := none, desired_mode := none, modes := [], enabled := false,
              width := 0, height := 0, refresh := 0, needs_frame := false,
              frame_pending := false, pending_buffer := none, current_buffer := none }) i with
        | none => none
        | some drm =>
          match drm.outputs[i]? with
          | none => none
          | some conn =>
            match (emit (set_conn drm i
                { conn with possible_crtc := 0, desired_mode := none })
                (Event.destroy_signal i)).outputs[i]? with
            | none => none
            | some conn1 =>
              some (set_conn (emit (set_conn drm i
                { conn with possible_crtc := 0, desired_mode := none })
                (Event.destroy_signal i)) i
                { conn1 with state := WLR_DRM_CONN_DISCONNECTED })) = some d ∧
      replaces drm d i c1 rest ∧
      ((c.state = WLR_DRM_CONN_CONNECTED ∨ c.state = WLR_DRM_CONN_CLEANUP ∨
          c.state = WLR_DRM_CONN_NEEDS_MODESET) →
        c1.state = WLR_DRM_CONN_DISCONNECTED ∧ c1.crtc = none ∧ c1.possible_crtc = 0 ∧
        c1.desired_mode = none ∧ rest.count (Event.destroy_signal i) = 1) ∧
      ((c.state = WLR_DRM_CONN_CONNECTED ∨ c.state = WLR_DRM_CONN_CLEANUP) →
        c1.modes = [] ∧ c1.pending_buffer = none ∧ c1.current_buffer = none) ∧
      (c.state = WLR_DRM_CONN_NEEDS_MODESET →
        c1.modes = c.modes ∧ c1.pending_buffer = c.pending_buffer ∧
        c1.current_buffer = c.current_buffer) ∧
      ((c.state = WLR_DRM_CONN_DISAPPEARED ∨ c.state = WLR_DRM_CONN_DISCONNECTED) →
        d = drm) := by
    intro s hs hs2
    obtain ⟨d2, nf, rest, h1, h2, h3⟩ := cleanup_finish_returns env drm i hi _ _ _
      (replaces_set_conn (replaces_emit (replaces_emit (replaces_self drm i c hc)
        (Event.wlr_buffer_unref c.pending_buffer)) (Event.wlr_buffer_unref c.current_buffer))
        { c with
          current_mode := none, desired_mode := none, modes := [], enabled := false,
          width := 0, height := 0, refresh := 0, needs_frame := false,
          frame_pending := false, pending_buffer := none, current_buffer := none })
      hheld hgamma hcursor
    refine ⟨d2, _, _, h1, h2, ?_, ?_, ?_, ?_⟩
    · intro _
      refine ⟨rfl, rfl, rfl, rfl, hcount _ _ ?_ h3⟩
      intro e he
      simp only [List.nil_append, List.mem_cons, List.mem_singleton, List.cons_append,
        List.not_mem_nil, or_false] at he
      rcases he with he | he <;> subst he <;> exact ⟨rfl, by simp⟩
    · intro _
      exact ⟨rfl, rfl, rfl⟩
    · intro h
      rw [hs] at h
      subst h
      rcases hs2 with h | h <;> cases h
    · intro h
      rw [hs] at h
      rcases h with h | h <;> subst h <;> rcases hs2 with h | h <;> cases h
  unfold drm_connector_cleanup
  simp only [hc]
  split
  · rename_i hs
    exact hfull _ hs (Or.inl rfl)
  · rename_i hs
    exact hfull _ hs (Or.inr rfl)
  · rename_i hs
    obtain ⟨d2, nf, rest, h1, h2, h3⟩ := cleanup_finish_returns env drm i hi drm c []
      (replaces_self drm i c hc) hheld hgamma hcursor
    refine ⟨d2, _, _, h1, h2, ?_, ?_, ?_, ?_⟩
    · intro _
      exact ⟨rfl, rfl, rfl, rfl, hcount _ _ (by simp) h3⟩
    · intro h
      rw [hs] at h
      rcases h with h | h <;> cases h
    · intro _
      exact ⟨rfl, rfl, rfl⟩
    · intro h
      rw [hs] at h
      rcases h with h | h <;> cases h
  · rename_i hs
    have e : ({ c with state := WLR_DRM_CONN_DISCONNECTED } : wlr_drm_connector) = c := by
      rw [← hs]
    refine ⟨_, c, [], rfl, ?_, ?_, ?_, ?_, ?_⟩
    · have h0 := replaces_set_conn (replaces_self drm i c hc)
        { c with state := WLR_DRM_CONN_DISCONNECTED }
      rw [e] at h0
      rw [e]
      exact h0
    · intro h
      rw [hs] at h
      rcases h with h | h | h <;> cases h
    · intro h
      rw [hs] at h
      rcases h with h | h <;> cases h
    · intro h
      rw [hs] at h
      cases h
    · intro _
      rw [e]
      unfold set_conn
      rw [set_self_of_getElem? _ _ _ hc]
  · rename_i hs
    refine ⟨drm, c, [], rfl, replaces_self drm i c hc, ?_, ?_, ?_, ?_⟩
    · intro h
      rw [hs] at h
      rcases h with h | h | h <;> cases h
    · intro h
      rw [hs] at h
      rcases h with h | h <;> cases h
    · intro h
      rw [hs] at h
      cases h
    · intro _
      rfl

/-- C20 fails for a connector in state NEEDS_MODESET.  The connector of
`backend_waiting` waits for a modeset with one mode in its list, and after
`drm_connector_cleanup` it is DISCONNECTED and the mode is still in the list:
the modes are freed only in the cases CONNECTED and CLEANUP of the `switch`.
The state is reached by `scan_drm_connectors` when the kernel reports the
connector as disconnected; and when a following scan finds it connected again,
the one mode the kernel reports is put in front of the mode that was left, so
the list has two entries for the same mode. -/
theorem cleanup_needs_modeset_counterexample :
    (∃ c, backend_waiting.outputs[0]? = some c ∧ c.state = WLR_DRM_CONN_NEEDS_MODESET ∧
      c.modes = [mode_1080p]) ∧
    (∃ d c1, drm_connector_cleanup env_accepting backend_waiting 0 = some d ∧
      d.outputs[0]? = some c1 ∧ c1.state = WLR_DRM_CONN_DISCONNECTED ∧
      c1.modes = [mode_1080p] ∧ c1.modes ≠ []) ∧
    (scan_drm_connectors env_no_gamma match_obj (kernel_bound_encoder DRM_MODE_DISCONNECTED)
        backend_waiting).map (fun d => (state_of d 0, (modes_of d 0).length)) =
      some (some WLR_DRM_CONN_DISCONNECTED, 1) ∧
    ((kernel_bound_encoder DRM_MODE_CONNECTED).drmModeGetConnector 70).map
      (fun conn => conn.modes.length) = some 1 ∧
    ((scan_drm_connectors env_no_gamma match_obj (kernel_bound_encoder DRM_MODE_DISCONNECTED)
        backend_waiting).bind
      (scan_drm_connectors env_no_gamma match_obj (kernel_bound_encoder DRM_MODE_CONNECTED))).map
      (fun d => (state_of d 0,
        (modes_of d 0).map fun mode => (mode.width, mode.height, mode.refresh))) =
      some (some WLR_DRM_CONN_NEEDS_MODESET, [(1920, 1080, 60000), (1920, 1080, 60000)]) :=
  ⟨⟨_, rfl, rfl, rfl⟩, ⟨_, _, rfl, rfl, rfl, rfl, by decide⟩, by decide, rfl, by decide⟩

/-! ## Gamma and the session -/

theorem needs_frame_session (drm : wlr_drm_backend) (i : Nat) (flag : Bool) :
    wlr_output_update_needs_frame { drm with session_active := flag } i =
      { wlr_output_update_needs_frame drm i with session_active := flag } := by
  unfold wlr_output_update_needs_frame
  dsimp only
  split <;> rfl

theorem set_gamma_sized_session (env : Env) (drm : wlr_drm_backend) (i k : Nat)
    (reset : Bool) (size : Nat) (r g b : List Nat) (flag : Bool) :
    set_gamma_sized env { drm with session_active := flag } i k reset size r g b =
      (set_gamma_sized env drm i k reset size r g b).map
        (fun p => ({ p.1 with session_active := flag }, p.2)) := by
  unfold set_gamma_sized
  by_cases hm : env.malloc drm.log (3 * size * 2) = false
  · have hm2 : env.malloc ({ drm with session_active := flag } : wlr_drm_backend).log
        (3 * size * 2) = false := hm
    rw [if_pos hm, if_pos hm2]; rfl
  have hm2 : ¬ env.malloc ({ drm with session_active := flag } : wlr_drm_backend).log
      (3 * size * 2) = false := hm
  rw [if_neg hm, if_neg hm2]
  cases hch : gamma_channels reset size r g b with
  | none => rfl
  | some p =>
    obtain ⟨r1, g1, b1⟩ := p
    dsimp only
    by_cases hs : env.crtc_set_gamma (emit drm (Event.malloc (3 * size * 2))).log k size
        (r1 ++ g1 ++ b1) = true
    · have hs2 : env.crtc_set_gamma (emit { drm with session_active := flag }
          (Event.malloc (3 * size * 2))).log k size (r1 ++ g1 ++ b1) = true := hs
      rw [if_pos hs, if_pos hs2]
      cases hcr : drm.crtcs[k]? with
      | none => rfl
      | some crtc =>
        exact congrArg (fun d => some (set_crtc d k
          { crtc with gamma_table := r1 ++ g1 ++ b1, gamma_table_size := size }, true))
          (needs_frame_session (emit (emit drm (Event.malloc (3 * size * 2)))
            (Event.crtc_set_gamma k size (r1 ++ g1 ++ b1))) i flag)
    · have hs2 : ¬ env.crtc_set_gamma (emit { drm with session_active := flag }
          (Event.malloc (3 * size * 2))).log k size (r1 ++ g1 ++ b1) = true := hs
      rw [if_neg hs, if_neg hs2]
      rfl

/-- A successful `set_gamma_sized` has called `crtc_set_gamma`. -/
theorem set_gamma_sized_true_log (env : Env) (drm drm1 : wlr_drm_backend) (i k : Nat)
    (reset : Bool) (size : Nat) (r g b : List Nat)
    (h : set_gamma_sized env drm i k reset size r g b = some (drm1, true)) :
    ∃ table, Event.crtc_set_gamma k size table ∈ drm1.log ∧
      env.crtc_set_gamma (drm.log ++ [Event.malloc (3 * size * 2)]) k size table = true := by
  unfold set_gamma_sized at h
  split at h
  · simp at h
  split at h
  · cases h
  rename_i r1 g1 b1 hch
  split at h
  swap
  · simp at h
  rename_i hok
  split at h
  · cases h
  simp only [Option.some.injEq, Prod.mk.injEq, and_true] at h
  subst h
  refine ⟨r1 ++ g1 ++ b1, ?_, hok⟩
  unfold wlr_output_update_needs_frame
  split <;> simp [set_crtc, emit, set_conn]

/-- C13 (amended).  The `set_drm_connector_gamma` never reads `session->active`:
in a backend whose session flag is set to `flag` it returns exactly what it
returns for the original flag, with the same calls in the log; nothing is
deferred.  Whenever it returns true it has invoked the interface's
`crtc_set_gamma`, and that call has succeeded. -/
theorem gamma_ignores_session (env : Env) (drm : wlr_drm_backend) (i size : Nat)
    (r g b : List Nat) (flag : Bool) :
    set_drm_connector_gamma env { drm with session_active := flag } i size r g b =
      (set_drm_connector_gamma env drm i size r g b).map
        (fun p => ({ p.1 with session_active := flag }, p.2)) ∧
    ∀ drm1, set_drm_connector_gamma env drm i size r g b = some (drm1, true) →
      ∃ k sz table log, Event.crtc_set_gamma k sz table ∈ drm1.log ∧
        env.crtc_set_gamma log k sz table = true := by
  constructor
  · unfold set_drm_connector_gamma
    dsimp only
    split
    · rfl
    split
    · rfl
    have hgs : drm_connector_get_gamma_size env { drm with session_active := flag } i =
        drm_connector_get_gamma_size env drm i := rfl
    rw [hgs]
    split
    · split
      · rfl
      · exact set_gamma_sized_session env drm i _ true _ r g b flag
    · exact set_gamma_sized_session env drm i _ false _ r g b flag
  · intro drm1 h
    unfold set_drm_connector_gamma at h
    split at h
    · cases h
    split at h
    · simp at h
    rename_i k hk
    split at h
    · split at h
      · simp at h
      · obtain ⟨table, h1, h2⟩ := set_gamma_sized_true_log env drm drm1 i k _ _ r g b h
        exact ⟨k, _, table, _, h1, h2⟩
    · obtain ⟨table, h1, h2⟩ := set_gamma_sized_true_log env drm drm1 i k _ _ r g b h
      exact ⟨k, _, table, _, h1, h2⟩

/-- C13 (amended) at a concrete backend: setting a two-entry ramp with the
session switched away gives what it gives with the session active, and the call
of `crtc_set_gamma` is in the log. -/
theorem gamma_ignores_session_witness :
    set_drm_connector_gamma env_accepting backend_inactive 0 2 [0, 65535] [0, 65535]
        [0, 65535] =
      (set_drm_connector_gamma env_accepting backend_single 0 2 [0, 65535] [0, 65535]
        [0, 65535]).map (fun p => ({ p.1 with session_active := false }, p.2)) ∧
    ∃ drm1 k sz table log,
      set_drm_connector_gamma env_accepting backend_inactive 0 2 [0, 65535] [0, 65535]
        [0, 65535] = some (drm1, true) ∧
      Event.crtc_set_gamma k sz table ∈ drm1.log ∧
      env_accepting.crtc_set_gamma log k sz table = true := by
  refine ⟨(gamma_ignores_session env_accepting backend_single 0 2 [0, 65535] [0, 65535]
    [0, 65535] false).1, ?_⟩
  obtain ⟨k, sz, table, log, h1, h2⟩ :=
    (gamma_ignores_session env_accepting backend_inactive 0 2 [0, 65535] [0, 65535]
      [0, 65535] false).2 _ rfl
  exact ⟨_, k, sz, table, log, rfl, h1, h2⟩

/-- C13, as stated, fails: with the session inactive, a connector that holds a
CRTC, and a two-entry ramp, `set_drm_connector_gamma` invokes the interface's
`crtc_set_gamma`. -/
theorem gamma_inactive_counterexample :
    backend_inactive.session_active = false ∧
    (∃ c, backend_inactive.outputs[0]? = some c ∧ c.crtc = some 0) ∧
    ∃ drm1, set_drm_connector_gamma env_accepting backend_inactive 0 2 [0, 65535] [0, 65535]
        [0, 65535] = some (drm1, true) ∧
      drm1.log = [Event.malloc 12, Event.crtc_set_gamma 0 2 [0, 65535, 0, 65535, 0, 65535],
        Event.wlr_output_update_needs_frame 0] :=
  ⟨rfl, ⟨_, rfl, rfl⟩, _, rfl, rfl⟩

/-! ## Rejected page-flip requests -/

theorem timerless_refl (drm : wlr_drm_backend) : logged_without_timer drm drm :=
  ⟨[], by simp, by simp⟩

theorem timerless_emit {drm drm1 : wlr_drm_backend} (h : logged_without_timer drm drm1)
    (e : Event) (he : is_timer_update e = false) :
    logged_without_timer drm (emit drm1 e) := by
  obtain ⟨rest, h1, h2⟩ := h
  refine ⟨rest ++ [e], ?_, ?_⟩
  · subst h1; simp [emit]
  · intro x hx
    rcases List.mem_append.mp hx with hx | hx
    · exact h2 x hx
    · simp at hx; subst hx; exact he

theorem commit_acquire_timerless (env : Env) (drm : wlr_drm_backend) (k : Nat)
    (crtc : wlr_drm_crtc) (conn : wlr_drm_connector) (pending : wlr_output_state) :
    logged_without_timer drm (commit_acquire env drm k crtc conn pending).1 := by
  unfold commit_acquire commit_fb
  dsimp only
  repeat' split
  all_goals repeat (first | exact timerless_refl _ | refine timerless_emit ?_ _ rfl)

/-- C14 (amended).  Let every page-flip request for the connector at position
`i` on CRTC `k` be rejected.  (1) In `drm_connector_start_renderer`, for a
connected connector with a current mode whose refresh (in mHz) is not 0, the
request is made, the retry timer of the connector is armed with the refresh
interval, the whole number of milliseconds in 1000000 / refresh, no connector
changes (so `pageflip_pending` is not set), and the function returns.  (2) In
`drm_connector_commit`, once the buffer has been acquired and no flip is
pending, the request is made, the function returns false, no connector changes,
and no timer is armed.  (3) The same holds for `drm_connector_schedule_frame`
once a back buffer exists and no flip is pending. -/
theorem flip_failure_timer (env : Env) (drm : wlr_drm_backend) (i k : Nat)
    (conn : wlr_drm_connector) (crtc : wlr_drm_crtc)
    (hconn : drm.outputs[i]? = some conn) (hk : conn.crtc = some k)
    (hcrtc : drm.crtcs[k]? = some crtc)
    (hfail : ∀ log fb mode, env.crtc_pageflip log i k fb mode = false) :
    (∀ mode, conn.state = WLR_DRM_CONN_CONNECTED → conn.current_mode = some mode →
      mode.refresh ≠ 0 →
      ∃ bo fb, drm_connector_start_renderer env drm i =
        some { drm with log := drm.log ++
          [Event.get_drm_surface_front k, Event.get_fb_for_bo bo crtc.primary.drm_format,
           Event.crtc_pageflip i k fb (some mode),
           Event.timer_update i (1000000 / mode.refresh)] }) ∧
    (∀ pending, drm.session_active = true → conn.pageflip_pending = false →
      (commit_acquire env drm k crtc conn pending).2 ≠ none →
      ∃ d rest fb, drm_connector_commit env drm i pending = some (d, false) ∧
        d.outputs = drm.outputs ∧ d.log = drm.log ++ rest ++ [Event.crtc_pageflip i k fb none] ∧
        ∀ e ∈ rest, is_timer_update e = false) ∧
    (drm.session_active = true → conn.pageflip_pending = false →
      env.surf_back drm.log k ≠ none →
      ∃ d rest fb, drm_connector_schedule_frame env drm i = some (d, false) ∧
        d.outputs = drm.outputs ∧ d.log = drm.log ++ rest ++ [Event.crtc_pageflip i k fb none] ∧
        ∀ e ∈ rest, is_timer_update e = false) := by
  refine ⟨?_, ?_, ?_⟩
  · intro mode hstate hmode hrefresh
    refine ⟨env.get_drm_surface_front drm.log k,
      env.get_fb_for_bo (drm.log ++ [Event.get_drm_surface_front k])
        (env.get_drm_surface_front drm.log k) crtc.primary.drm_format, ?_⟩
    unfold drm_connector_start_renderer
    simp only [hconn, hstate, hk, hcrtc, hmode, hfail, ne_eq, not_true_eq_false, if_false,
      Bool.false_eq_true, hrefresh]
    simp [emit]
  · intro pending hact hpend hacq
    unfold drm_connector_commit
    simp only [hconn, hact, hk, hcrtc, Bool.not_true, Bool.false_eq_true, if_false]
    have hlog := commit_acquire_timerless env drm k crtc conn pending
    rcases hres : commit_acquire env drm k crtc conn pending with ⟨drmA, fbo⟩
    rw [hres] at hlog hacq
    cases fbo with
    | none => exact absurd rfl hacq
    | some fb =>
      obtain ⟨rest, hA, hrest⟩ := hlog
      simp only [] at hA
      simp only [hpend, hfail, Bool.false_eq_true, if_false, Bool.not_false, if_true]
      refine ⟨_, rest, fb, rfl, ?_, ?_, hrest⟩
      · rw [hA]; rfl
      · rw [hA]; rfl
  · intro hact hpend hback
    unfold drm_connector_schedule_frame
    simp only [hconn, hact, hk, hcrtc, Bool.not_true, Bool.false_eq_true, if_false]
    cases hb : env.surf_back drm.log k with
    | none => exact absurd hb hback
    | some b =>
      simp only [hpend, hfail, Bool.false_eq_true, if_false, Bool.not_false, if_true]
      by_cases hp : drm.parent = true
      · simp only [hp, if_true]
        refine ⟨_, [Event.copy_drm_surface_mgpu k (some b),
          Event.get_fb_for_bo (env.copy_drm_surface_mgpu drm.log k (some b))
            crtc.primary.drm_format],
          env.get_fb_for_bo (emit drm (Event.copy_drm_surface_mgpu k (some b))).log
            (env.copy_drm_surface_mgpu drm.log k (some b)) crtc.primary.drm_format, rfl,
          rfl, ?_, ?_⟩
        · simp [emit]
        · intro e he
          simp only [List.mem_cons, List.mem_singleton, List.not_mem_nil, or_false] at he
          rcases he with he | he <;> subst he <;> rfl
      · simp only [hp, if_false]
        refine ⟨_, [Event.get_fb_for_bo (some b) crtc.primary.drm_format],
          env.get_fb_for_bo drm.log (some b) crtc.primary.drm_format, rfl, rfl, ?_, ?_⟩
        · simp [emit]
        · intro e he
          simp only [List.mem_singleton] at he
          subst he; rfl

/-- C14 (amended) at a concrete backend: one connected connector on CRTC 0, in
an environment that rejects every page-flip request. -/
theorem flip_failure_timer_witness :
    (∃ bo fb, drm_connector_start_renderer env_flip_failing backend_single 0 =
      some { backend_single with log := backend_single.log ++
        [Event.get_drm_surface_front 0,
         Event.get_fb_for_bo bo (crtc_with_id 40).primary.drm_format,
         Event.crtc_pageflip 0 0 fb (some mode_1080p),
         Event.timer_update 0 (1000000 / mode_1080p.refresh)] }) ∧
    (∃ d rest fb,
      drm_connector_commit env_flip_failing backend_single 0 pending_render = some (d, false) ∧
        d.outputs = backend_single.outputs ∧
        d.log = backend_single.log ++ rest ++ [Event.crtc_pageflip 0 0 fb none] ∧
        ∀ e ∈ rest, is_timer_update e = false) ∧
    (∃ d rest fb,
      drm_connector_schedule_frame env_flip_failing backend_single 0 = some (d, false) ∧
        d.outputs = backend_single.outputs ∧
        d.log = backend_single.log ++ rest ++ [Event.crtc_pageflip 0 0 fb none] ∧
        ∀ e ∈ rest, is_timer_update e = false) :=
  ⟨(flip_failure_timer env_flip_failing backend_single 0 0 (connector_on 70 0)
      (crtc_with_id 40) rfl rfl rfl (fun _ _ _ => rfl)).1 mode_1080p rfl rfl (by decide),
   (flip_failure_timer env_flip_failing backend_single 0 0 (connector_on 70 0)
      (crtc_with_id 40) rfl rfl rfl (fun _ _ _ => rfl)).2.1 pending_render rfl rfl (by decide),
   (flip_failure_timer env_flip_failing backend_single 0 0 (connector_on 70 0)
      (crtc_with_id 40) rfl rfl rfl (fun _ _ _ => rfl)).2.2 rfl rfl (by decide)⟩

/-- C14, as stated, fails for `drm_connector_commit` and for
`drm_connector_schedule_frame`: with one connected connector and an interface
that rejects the page-flip request, both make the request, arm no timer and
return false. -/
theorem flip_failure_commit_counterexample :
    (∃ d, drm_connector_commit env_flip_failing backend_single 0 pending_render =
        some (d, false) ∧
      d.log = [Event.swap_drm_surface_buffers 0,
        Event.get_fb_for_bo (some 1) DRM_FORMAT_XRGB8888, Event.crtc_pageflip 0 0 7 none] ∧
      ∀ e ∈ d.log, is_timer_update e = false) ∧
    (∃ d, drm_connector_schedule_frame env_flip_failing backend_single 0 = some (d, false) ∧
      d.log = [Event.get_fb_for_bo (some 1) DRM_FORMAT_XRGB8888,
        Event.crtc_pageflip 0 0 7 none] ∧
      ∀ e ∈ d.log, is_timer_update e = false) :=
  ⟨⟨_, rfl, rfl, by decide⟩, ⟨_, rfl, rfl, by decide⟩⟩

/-! ## The DRM lease manager -/

theorem validate_connectors_leased (conns : List wlr_drm_lease_connector_v1) (cs : List Nat)
    (hvalid : ∀ c ∈ cs, c < conns.length)
    (hleased : ∃ c ∈ cs, ∃ lc, conns[c]? = some lc ∧ lc.active_lease ≠ none) :
    validate_connectors conns cs = some false := by
  induction cs with
  | nil =>
    obtain ⟨c, hc, -⟩ := hleased
    cases hc
  | cons c rest ih =>
    unfold validate_connectors
    have hc : c < conns.length := hvalid c (List.mem_cons_self _ _)
    rw [List.getElem?_eq_getElem hc]
    dsimp only
    by_cases ha : conns[c].active_lease ≠ none
    · rw [if_pos ha]
    · rw [if_neg ha]
      apply ih
      · intro x hx
        exact hvalid x (List.mem_cons_of_mem _ hx)
      · obtain ⟨x, hx, lc, hlc, hne⟩ := hleased
        rcases List.mem_cons.mp hx with hx | hx
        · subst hx
          rw [List.getElem?_eq_getElem hc] at hlc
          cases hlc
          exact absurd hne ha
        · exact ⟨x, hx, lc, hlc, hne⟩

theorem validate_connectors_free (conns : List wlr_drm_lease_connector_v1) (cs : List Nat)
    (hfree : ∀ c ∈ cs, ∃ lc, conns[c]? = some lc ∧ lc.active_lease = none) :
    validate_connectors conns cs = some true := by
  induction cs with
  | nil => rfl
  | cons c rest ih =>
    unfold validate_connectors
    obtain ⟨lc, hlc, hnone⟩ := hfree c (List.mem_cons_self _ _)
    rw [hlc]
    dsimp only
    rw [if_neg (by rw [hnone]; simp)]
    exact ih (fun x hx => hfree x (List.mem_cons_of_mem _ hx))

theorem lease_drm_connectors_defined (conns : List wlr_drm_lease_connector_v1)
    (cs : List Nat) (hvalid : ∀ c ∈ cs, ∃ lc, conns[c]? = some lc) :
    ∃ out, lease_drm_connectors conns cs = some out := by
  induction cs with
  | nil => exact ⟨[], rfl⟩
  | cons c rest ih =>
    obtain ⟨lc, hlc⟩ := hvalid c (List.mem_cons_self _ _)
    obtain ⟨out, hout⟩ := ih (fun x hx => hvalid x (List.mem_cons_of_mem _ hx))
    unfold lease_drm_connectors
    rw [hlc, hout]
    exact ⟨_, rfl⟩

/-- C17.  Let the request carry a lease, as the `assert` demands.  (1) If the
request is marked invalid, or if its entries point to connectors of the manager
and one of these has an active lease, then
`wlr_drm_lease_manager_v1_grant_lease_request` returns NULL and only sends
`finished`: it does not call `drm_create_lease`, and the connectors, with their
`active_lease`, are as before.  (2) If the request is valid, its lease is fresh,
and `drm_create_lease` returns a negative file descriptor, then the function
returns NULL as well and the connectors, with their `active_lease`, are as
before. -/
theorem lease_grant_refused
    (drm_create_lease : List LeaseEvent → List Nat → Nat → Int × Nat)
    (manager : wlr_drm_lease_manager_v1) (request : wlr_drm_lease_request_v1)
    (l : Nat) (lease : wlr_drm_lease_v1)
    (hl : request.lease = some l) (hlease : manager.leases[l]? = some lease) :
    ((request.invalid = true ∨
        ((∀ c ∈ request.connectors, c < manager.connectors.length) ∧
          ∃ c ∈ request.connectors, ∃ lc, manager.connectors[c]? = some lc ∧
            lc.active_lease ≠ none)) →
      wlr_drm_lease_manager_v1_grant_lease_request drm_create_lease manager request =
        some ({ manager with log := manager.log ++ [LeaseEvent.send_finished l] },
          request, none)) ∧
    (request.invalid = false →
      (∀ c ∈ request.connectors, ∃ lc, manager.connectors[c]? = some lc ∧
        lc.active_lease = none) →
      lease.connectors = [] →
      (∀ log conns nconns, (drm_create_lease log conns nconns).1 < 0) →
      ∃ manager1 request1,
        wlr_drm_lease_manager_v1_grant_lease_request drm_create_lease manager request =
          some (manager1, request1, none) ∧
        manager1.connectors = manager.connectors) := by
  constructor
  · intro h
    have hv : drm_lease_request_v1_validate manager request = some false := by
      unfold drm_lease_request_v1_validate
      rcases h with h | ⟨h1, h2⟩
      · rw [if_pos h]
      · split
        · rfl
        · exact validate_connectors_leased _ _ h1 h2
    unfold wlr_drm_lease_manager_v1_grant_lease_request
    simp only [hl, hlease, hv]
  · intro hinv hfree hfresh hfail
    have hv : drm_lease_request_v1_validate manager request = some true := by
      unfold drm_lease_request_v1_validate
      rw [if_neg (by rw [hinv]; simp)]
      exact validate_connectors_free _ _ hfree
    obtain ⟨out, hout⟩ := lease_drm_connectors_defined manager.connectors
      (request.connectors.reverse ++ lease.connectors) (by
        intro c hc
        rw [hfresh, List.append_nil, List.mem_reverse] at hc
        obtain ⟨lc, hlc, -⟩ := hfree c hc
        exact ⟨lc, hlc⟩)
    unfold wlr_drm_lease_manager_v1_grant_lease_request
    simp only [hl, hlease, hv, hout, hfail, if_true]
    rw [if_neg (by rw [hfresh]; simp)]
    exact ⟨_, _, rfl, rfl⟩

/-- C17 at a concrete manager: a request for a free and a leased connector, and
a request for the free connector alone with `drm_create_lease` failing. -/
theorem lease_grant_refused_witness :
    wlr_drm_lease_manager_v1_grant_lease_request (fun _ _ _ => (3, 9)) manager_one_leased
        { invalid := false, connectors := [0, 1], lease := some 1 } =
      some ({ manager_one_leased with log := [LeaseEvent.send_finished 1] },
        { invalid := false, connectors := [0, 1], lease := some 1 }, none) ∧
    ∃ manager1 request1,
      wlr_drm_lease_manager_v1_grant_lease_request (fun _ _ _ => (-1, 0)) manager_one_leased
          { invalid := false, connectors := [0], lease := some 1 } =
        some (manager1, request1, none) ∧
      manager1.connectors = manager_one_leased.connectors :=
  ⟨(lease_grant_refused (fun _ _ _ => (3, 9)) manager_one_leased
      { invalid := false, connectors := [0, 1], lease := some 1 } 1
      { connectors := [], lessee_id := 0 } rfl rfl).1
      (Or.inr ⟨by decide, 1, by decide, _, rfl, by decide⟩),
   (lease_grant_refused (fun _ _ _ => (-1, 0)) manager_one_leased
      { invalid := false, connectors := [0], lease := some 1 } 1
      { connectors := [], lessee_id := 0 } rfl rfl).2 rfl
      (by decide) rfl (fun _ _ _ => by decide)⟩

/-! ## Feature detection -/

theorem check_prime_log (caps : Caps) (drm : wlr_drm_backend) :
    ∃ rest, (check_prime caps drm).1 = { drm with log := drm.log ++ rest } ∧
      ∀ e ∈ rest, is_atomic_request e = false := by
  unfold check_prime
  split
  · split
    · exact ⟨[Event.drmGetCap false DRM_CAP_PRIME], rfl, by simp [is_atomic_request]⟩
    · split
      · exact ⟨[Event.drmGetCap false DRM_CAP_PRIME, Event.drmGetCap true DRM_CAP_PRIME],
          by simp [emit], by simp [is_atomic_request]⟩
      · exact ⟨[Event.drmGetCap false DRM_CAP_PRIME, Event.drmGetCap true DRM_CAP_PRIME],
          by simp [emit], by simp [is_atomic_request]⟩
  · exact ⟨[], by simp, by simp⟩

theorem select_clock_log (caps : Caps) (drm : wlr_drm_backend) :
    (select_clock caps drm).log = drm.log ++
      [Event.drmGetCap false DRM_CAP_TIMESTAMP_MONOTONIC,
       Event.drmGetCap false DRM_CAP_ADDFB2_MODIFIERS] := by
  simp [select_clock, emit]

theorem select_iface_bound (caps : Caps) (drm : wlr_drm_backend) :
    ((select_iface caps drm).iface = some legacy_iface ∨
      (select_iface caps drm).iface = some atomic_iface) ∧
    (caps.getenv_no_atomic = some "1" →
      (select_iface caps drm).iface = some legacy_iface ∧
      (select_iface caps drm).log = drm.log ++ [Event.getenv_no_atomic]) ∧
    (caps.getenv_no_atomic ≠ some "1" →
      (select_iface caps drm).log = drm.log ++
        [Event.getenv_no_atomic, Event.drmSetClientCap DRM_CLIENT_CAP_ATOMIC 1] ∧
      ((∀ log, caps.drmSetClientCap log DRM_CLIENT_CAP_ATOMIC 1 ≠ 0) →
        (select_iface caps drm).iface = some legacy_iface) ∧
      ((∀ log, caps.drmSetClientCap log DRM_CLIENT_CAP_ATOMIC 1 = 0) →
        (select_iface caps drm).iface = some atomic_iface)) := by
  unfold select_iface
  by_cases h : caps.getenv_no_atomic = some "1"
  · rw [if_pos h]
    exact ⟨Or.inl rfl, fun _ => ⟨rfl, rfl⟩, fun hn => absurd h hn⟩
  · rw [if_neg h]
    by_cases h2 : caps.drmSetClientCap (emit drm Event.getenv_no_atomic).log
        DRM_CLIENT_CAP_ATOMIC 1 ≠ 0
    · rw [if_pos h2]
      refine ⟨Or.inl rfl, fun hy => absurd hy h, fun _ => ⟨by simp [emit], fun _ => rfl, ?_⟩⟩
      intro hall
      exact absurd (hall _) h2
    · rw [if_neg h2]
      refine ⟨Or.inr rfl, fun hy => absurd hy h, fun _ => ⟨by simp [emit], ?_, fun _ => rfl⟩⟩
      intro hall
      exact absurd (hall _) h2

/-- C16.  Whenever `check_drm_features` returns true an interface is bound to
`drm->iface`, the legacy or the atomic one.  It is the legacy interface if the
environment variable `WLR_DRM_NO_ATOMIC` equals "1", and then the atomic client
capability is not requested at all; otherwise it is the legacy interface if the
request for the atomic client capability fails, and the atomic interface if
that request succeeds.  Whenever `check_drm_features` returns false, `drm->iface`
is as before; and it returns false when universal planes cannot be enabled, and
when the capability `DRM_CAP_CRTC_IN_VBLANK_EVENT` cannot be read or is 0. -/
theorem interface_selection (caps : Caps) (drm : wlr_drm_backend) :
    ∃ rest, (check_drm_features caps drm).1.log = drm.log ++ rest ∧
      ((check_drm_features caps drm).2 = true →
        ((check_drm_features caps drm).1.iface = some legacy_iface ∨
          (check_drm_features caps drm).1.iface = some atomic_iface) ∧
        (caps.getenv_no_atomic = some "1" →
          (check_drm_features caps drm).1.iface = some legacy_iface ∧
          ∀ e ∈ rest, is_atomic_request e = false) ∧
        (caps.getenv_no_atomic ≠ some "1" →
          ((∀ log, caps.drmSetClientCap log DRM_CLIENT_CAP_ATOMIC 1 ≠ 0) →
            (check_drm_features caps drm).1.iface = some legacy_iface) ∧
          ((∀ log, caps.drmSetClientCap log DRM_CLIENT_CAP_ATOMIC 1 = 0) →
            (check_drm_features caps drm).1.iface = some atomic_iface))) ∧
      ((check_drm_features caps drm).2 = false →
        (check_drm_features caps drm).1.iface = drm.iface) ∧
      ((∀ log, caps.drmSetClientCap log DRM_CLIENT_CAP_UNIVERSAL_PLANES 1 ≠ 0) →
        (check_drm_features caps drm).2 = false) ∧
      ((∀ log, (caps.drmGetCap log false DRM_CAP_CRTC_IN_VBLANK_EVENT).1 ≠ 0 ∨
          (caps.drmGetCap log false DRM_CAP_CRTC_IN_VBLANK_EVENT).2 = 0) →
        (check_drm_features caps drm).2 = false) := by
  obtain ⟨r0, hp, hr0⟩ := check_prime_log caps drm
  unfold check_drm_features
  by_cases h1 : (check_prime caps drm).2 = false
  · rw [if_pos h1]
    refine ⟨r0, ?_, ?_, ?_, ?_, ?_⟩
    · rw [hp]
    · intro h; cases h
    · intro _; rw [hp]
    · intro _; rfl
    · intro _; rfl
  rw [if_neg h1]
  dsimp only
  by_cases h2 : caps.drmSetClientCap (check_prime caps drm).1.log
      DRM_CLIENT_CAP_UNIVERSAL_PLANES 1 ≠ 0
  · rw [if_pos h2]
    refine ⟨r0 ++ [Event.drmSetClientCap DRM_CLIENT_CAP_UNIVERSAL_PLANES 1], ?_, ?_, ?_, ?_,
      ?_⟩
    · rw [hp]; simp [emit]
    · intro h; cases h
    · intro _; rw [hp]; rfl
    · intro _; rfl
    · intro _; rfl
  rw [if_neg h2]
  by_cases h3 : (caps.drmGetCap (emit (check_prime caps drm).1
        (Event.drmSetClientCap DRM_CLIENT_CAP_UNIVERSAL_PLANES 1)).log false
        DRM_CAP_CRTC_IN_VBLANK_EVENT).1 ≠ 0 ∨
      (caps.drmGetCap (emit (check_prime caps drm).1
        (Event.drmSetClientCap DRM_CLIENT_CAP_UNIVERSAL_PLANES 1)).log false
        DRM_CAP_CRTC_IN_VBLANK_EVENT).2 = 0
  · rw [if_pos h3]
    refine ⟨r0 ++ [Event.drmSetClientCap DRM_CLIENT_CAP_UNIVERSAL_PLANES 1,
      Event.drmGetCap false DRM_CAP_CRTC_IN_VBLANK_EVENT], ?_, ?_, ?_, ?_, ?_⟩
    · rw [hp]; simp [emit]
    · intro h; cases h
    · intro _; rw [hp]; rfl
    · intro _; rfl
    · intro _; rfl
  rw [if_neg h3]
  obtain ⟨hb1, hb2, hb3⟩ := select_iface_bound caps
    (emit (emit (check_prime caps drm).1
      (Event.drmSetClientCap DRM_CLIENT_CAP_UNIVERSAL_PLANES 1))
      (Event.drmGetCap false DRM_CAP_CRTC_IN_VBLANK_EVENT))
  by_cases henv : caps.getenv_no_atomic = some "1"
  · obtain ⟨hi, hlog⟩ := hb2 henv
    refine ⟨r0 ++ [Event.drmSetClientCap DRM_CLIENT_CAP_UNIVERSAL_PLANES 1,
      Event.drmGetCap false DRM_CAP_CRTC_IN_VBLANK_EVENT, Event.getenv_no_atomic,
      Event.drmGetCap false DRM_CAP_TIMESTAMP_MONOTONIC,
      Event.drmGetCap false DRM_CAP_ADDFB2_MODIFIERS], ?_, ?_, ?_, ?_, ?_⟩
    · rw [select_clock_log, hlog, hp]; simp [emit]
    · intro _
      refine ⟨hb1, fun _ => ⟨hi, ?_⟩, fun hn => absurd henv hn⟩
      intro e he
      rcases List.mem_append.mp he with he | he
      · exact hr0 e he
      · simp only [List.mem_cons, List.mem_singleton, List.not_mem_nil, or_false] at he
        rcases he with he | he | he | he | he <;> subst he <;> rfl
    · intro h; cases h
    · intro hall; exact absurd (hall _) h2
    · intro hall; exact absurd (hall _) h3
  · obtain ⟨hlog, hleg, hat⟩ := hb3 henv
    refine ⟨r0 ++ [Event.drmSetClientCap DRM_CLIENT_CAP_UNIVERSAL_PLANES 1,
      Event.drmGetCap false DRM_CAP_CRTC_IN_VBLANK_EVENT, Event.getenv_no_atomic,
      Event.drmSetClientCap DRM_CLIENT_CAP_ATOMIC 1,
      Event.drmGetCap false DRM_CAP_TIMESTAMP_MONOTONIC,
      Event.drmGetCap false DRM_CAP_ADDFB2_MODIFIERS], ?_, ?_, ?_, ?_, ?_⟩
    · rw [select_clock_log, hlog, hp]; simp [emit]
    · intro _
      exact ⟨hb1, fun hy => absurd hy henv, fun _ => ⟨hleg, hat⟩⟩
    · intro h; cases h
    · intro hall; exact absurd (hall _) h2
    · intro hall; exact absurd (hall _) h3

/-- C16 at two concrete devices with every capability: with
`WLR_DRM_NO_ATOMIC=1` the legacy interface is bound and the atomic capability is
not requested; without the variable the atomic interface is bound. -/
theorem interface_selection_witness :
    ((check_drm_features caps_no_atomic backend_single).2 = true ∧
      (check_drm_features caps_no_atomic backend_single).1.iface = some legacy_iface ∧
      ∀ e ∈ (check_drm_features caps_no_atomic backend_single).1.log,
        is_atomic_request e = false) ∧
    ((check_drm_features caps_full backend_single).2 = true ∧
      (check_drm_features caps_full backend_single).1.iface = some atomic_iface) := by
  obtain ⟨rest, hlog, h, _⟩ := interface_selection caps_no_atomic backend_single
  obtain ⟨_, _, h2, _⟩ := interface_selection caps_full backend_single
  refine ⟨⟨rfl, ((h rfl).2.1 rfl).1, ?_⟩, rfl, ((h2 rfl).2.2 (by decide)).2 (fun _ => rfl)⟩
  intro e he
  rw [hlog] at he
  exact ((h rfl).2.1 rfl).2 e (by simpa [backend_single, backend_of] using he)

/-! ## The hardware cursor and the session -/

/-- C12.  While the session is inactive, `drm_connector_move_cursor` on a
connector that holds a CRTC records the position, returns true and calls
nothing.  `drm_connector_set_cursor` does not: for the connector of
`backend_inactive_bare`, whose CRTC has no cursor plane yet, a call with the hotspot
(1, 1) and without a texture update invokes the interface's `crtc_move_cursor`
although the session is inactive, because the hotspot is updated before the
session is looked at. -/
theorem cursor_inactive_session :
    (∀ (cenv : CursorEnv) (drm : wlr_drm_backend) (i : Nat) (x y : Int)
        (conn : wlr_drm_connector) (k : Nat) (crtc : wlr_drm_crtc),
      drm.session_active = false → drm.outputs[i]? = some conn → conn.crtc = some k →
      drm.crtcs[k]? = some crtc →
      ∃ d, drm_connector_move_cursor cenv drm i x y = some (d, true) ∧ d.log = drm.log) ∧
    (backend_inactive_bare.session_active = false ∧
      (∃ c, backend_inactive_bare.outputs[0]? = some c ∧ c.crtc = some 0) ∧
      ∃ d, drm_connector_set_cursor cenv_accepting backend_inactive_bare 0 none 1 0 1 1 false =
          some (d, true) ∧
        d.log = [Event.calloc_plane 0, Event.crtc_move_cursor 0 (-1) (-1),
          Event.wlr_output_update_needs_frame 0] ∧
        ∃ e ∈ d.log, is_cursor_call e = true) := by
  refine ⟨?_, rfl, ⟨_, rfl, rfl⟩, _, rfl, rfl, Event.crtc_move_cursor 0 (-1) (-1), ?_, rfl⟩
  swap
  · decide
  intro cenv drm i x y conn k crtc hact hconn hk hcrtc
  unfold drm_connector_move_cursor
  simp only [hconn, hk, hcrtc, set_conn, hact, Bool.not_false, if_true]
  exact ⟨_, rfl, rfl⟩

/-- C12 for `drm_connector_move_cursor` at a concrete backend with an inactive
session. -/
theorem cursor_inactive_session_witness :
    ∃ d, drm_connector_move_cursor cenv_accepting backend_inactive 0 5 6 = some (d, true) ∧
      d.log = backend_inactive.log :=
  cursor_inactive_session.1 cenv_accepting backend_inactive 0 5 6 (connector_on 70 0) 0
    (crtc_with_id 40) rfl rfl rfl rfl

/-! ## Definedness of the reallocation -/

theorem start_renderer_spec (env : Env) (drm : wlr_drm_backend) (i : Nat)
    (c : wlr_drm_connector) (hc : drm.outputs[i]? = some c)
    (hheld : ∀ k, c.crtc = some k → k < drm.crtcs.length)
    (hmode : c.state = WLR_DRM_CONN_CONNECTED → c.current_mode ≠ none)
    (hrefresh : c.state = WLR_DRM_CONN_CONNECTED →
      c.current_mode.map (fun mode => mode.refresh) ≠ some 0) :
    ∃ d pp en rest, drm_connector_start_renderer env drm i = some d ∧
      replaces drm d i { c with pageflip_pending := pp, enabled := en } rest := by
  have h0 : replaces drm drm i
      { c with pageflip_pending := c.pageflip_pending, enabled := c.enabled } [] :=
    replaces_self drm i c hc
  unfold drm_connector_start_renderer
  simp only [hc]
  split
  · exact ⟨_, c.pageflip_pending, c.enabled, _, rfl, h0⟩
  rename_i hstate
  split
  · exact ⟨_, c.pageflip_pending, c.enabled, _, rfl, h0⟩
  rename_i k hk
  rw [List.getElem?_eq_getElem (hheld k hk)]
  dsimp only
  split
  · rename_i hm
    exact absurd hm (hmode (by simpa using hstate))
  · rename_i mode hm
    split
    · rw [update_enabled_eq _ i true ({ c with pageflip_pending := true } : wlr_drm_connector)
        (by
          rw [set_conn_outputs]
          simp only [emit_outputs]
          exact getElem?_set_self_of_lt _ _ _ (lt_length_of_getElem? hc))]
      refine ⟨_, true, true, ?_, rfl, ?_⟩
      rotate_left
      exact replaces_emit (replaces_set_conn (replaces_set_conn (replaces_emit (replaces_emit
        (replaces_emit h0 _) _) _) { c with pageflip_pending := true })
        { c with pageflip_pending := true, enabled := true }) _
    · split
      · rename_i hzero
        have := hrefresh (by simpa using hstate)
        rw [hm] at this
        simp only [Option.map_some', ne_eq, Option.some.injEq] at this
        exact absurd hzero this
      · refine ⟨_, c.pageflip_pending, c.enabled, ?_, rfl, ?_⟩
        rotate_left
        exact replaces_emit (replaces_emit (replaces_emit (replaces_emit h0 _) _) _) _

theorem dealloc_idle (env : Env) (drm : wlr_drm_backend) (i : Nat) (c : wlr_drm_connector)
    (hc : drm.outputs[i]? = some c) (hk : c.crtc = none) :
    dealloc_crtc env drm i = some (emit drm (Event.dealloc_crtc i none)) := by
  unfold dealloc_crtc
  simp only [hc, hk]

theorem step_post_mono {cm : List (Option Nat)} {i : Nat} {c c1 : wlr_drm_connector}
    {r r1 : List Event} (h : step_post cm i c c1 r) (hr : ∀ e ∈ r, e ∈ r1) :
    step_post cm i c c1 r1 := by
  obtain ⟨h1, h2, h3, h4, h5, h6, h7⟩ := h
  refine ⟨h1, h2, h3, h4, ?_, h6, h7⟩
  intro a b
  obtain ⟨x1, x2, x3, x4, x5⟩ := h5 a b
  exact ⟨x1, x2, x3, x4, hr _ x5⟩

/-- One iteration of the loop "Apply new configuration" is defined in a backend
that is ready for the reallocation; it replaces the connector at position `i`
as `step_post` tells, and it leaves the loop only after a plane surface could
not be set up. -/
theorem realloc_step_spec (env : Env) (cm : List (Option Nat)) (n : Nat)
    (drm : wlr_drm_backend) (i : Nat) (c : wlr_drm_connector)
    (hc : drm.outputs[i]? = some c) (hready : realloc_ready env n drm)
    (hcm : ∀ k, cm.getD i none = some k → k < n) :
    ∃ d brk c1 rest, realloc_step env cm drm i = some (d, brk) ∧ replaces drm d i c1 rest ∧
      step_post cm i c c1 rest ∧
      (brk = true → (¬ ∀ log k w h, env.init_drm_plane_surfaces log k w h = true) ∧
        Event.destroy_signal i ∈ rest) := by
  obtain ⟨hn, hgamma, hall, hcur⟩ := hready
  have hi : i < drm.outputs.length := lt_length_of_getElem? hc
  have hcmem : c ∈ drm.outputs := List.mem_iff_getElem?.mpr ⟨i, hc⟩
  obtain ⟨hheld, hmode, hrefresh⟩ := hall c hcmem
  have hheld2 : ∀ k, c.crtc = some k → k < drm.crtcs.length := by
    intro k hk; rw [hn]; exact hheld k hk
  unfold realloc_step
  simp only [hc]
  split
  · rename_i hsame
    refine ⟨drm, false, c, [], rfl, replaces_self drm i c hc, ?_, by simp⟩
    refine ⟨Or.inr hsame.2.symm, hmode, fun h => by rw [← hsame.2]; exact h,
      fun _ _ => rfl, ?_, ?_, hrefresh⟩
    · intro h hne
      rw [hsame.2] at h
      exact absurd h hne
    · intro k hk
      rw [hsame.2] at hk
      exact Or.inl ⟨hk, rfl⟩
  rename_i hdiff
  obtain ⟨d1, nf, r1, hd1, hrep1, hev1, -⟩ :=
    dealloc_returns env drm i c hc hheld2 hgamma hcur
  have hd1i := replaces_getElem? hrep1 hi
  have hi1 : i < d1.outputs.length := by rw [replaces_length hrep1]; exact hi
  rw [hd1]
  dsimp only
  split
  · rename_i hnone
    split
    · rename_i hprev
      have hne : c.crtc ≠ none := by
        intro h; rw [h] at hprev; simp at hprev
      simp only [hd1i]
      rw [update_enabled_eq _ i false
        ({ c with needs_frame := nf, crtc := none, state := WLR_DRM_CONN_NEEDS_MODESET } :
          wlr_drm_connector)
        (by rw [set_conn_outputs]; exact getElem?_set_self_of_lt _ _ _ hi1)]
      simp only [emit_outputs, set_conn_outputs, List.set_set,
        getElem?_set_self_of_lt _ _ _ hi1]
      unfold wlr_output_update_mode
      simp only [set_conn_outputs, emit_outputs, List.set_set,
        getElem?_set_self_of_lt _ _ _ hi1]
      refine ⟨_, false, ?c1a, ?resta, rfl, ?hrepa, ?hposta, by simp⟩
      case hrepa =>
        exact replaces_emit (replaces_set_conn (replaces_set_conn (replaces_emit
          (replaces_set_conn (replaces_set_conn hrep1 _) _)
          (Event.wlr_output_update_enabled i false)) _) _) _
      case hposta =>
        refine ⟨Or.inl rfl, fun h => ?_, fun _ => rfl, fun _ h => absurd h hne, ?_, ?_,
          fun h => ?_⟩
        · cases h
        · intro _ _
          refine ⟨rfl, rfl, rfl, rfl, ?_⟩
          simp
        · intro k hk
          rw [hnone] at hk
          cases hk
        · cases h
    · rename_i hprev
      have hk : c.crtc = none := by
        cases hcr : c.crtc with
        | none => rfl
        | some k => rw [hcr] at hprev; simp at hprev
      have hd2 := dealloc_idle env drm i c hc hk
      rw [hd1] at hd2
      simp only [Option.some.injEq] at hd2
      rw [hd2]
      refine ⟨_, false, c, ?restb, rfl, ?hrepb, ?hpostb, by simp⟩
      case hrepb => exact replaces_emit (replaces_self drm i c hc) _
      case hpostb =>
      refine ⟨Or.inl hk, hmode, fun _ => hk, fun _ _ => rfl, fun _ h => absurd hk h, ?_,
        hrefresh⟩
      intro k hk
      rw [hnone] at hk
      cases hk
  · rename_i k hsome
    have hkn : k < n := hcm k hsome
    simp only [hd1i]
    split
    · rename_i hstate
      refine ⟨_, false, ?c1c, ?restc, rfl, ?hrepc, ?hpostc, by simp⟩
      case hrepc => exact replaces_set_conn hrep1 _
      case hpostc =>
      refine ⟨Or.inr hsome.symm, fun h => absurd h hstate, fun h => ?_, fun h => ?_,
        fun h => ?_, ?_, fun h => absurd h hstate⟩
      · rw [hsome] at h; cases h
      · rw [hsome] at h; cases h
      · rw [hsome] at h; cases h
      · intro k2 hk2
        rw [hsome] at hk2
        cases hk2
        exact Or.inl ⟨rfl, rfl⟩
    · rename_i hstate
      have hst : c.state = WLR_DRM_CONN_CONNECTED := by simpa using hstate
      split
      · rename_i hm
        exact absurd hm (hmode hst)
      · rename_i mode hm
        have hrep2 := replaces_emit (replaces_set_conn hrep1
          ({ c with needs_frame := nf, crtc := some k } : wlr_drm_connector))
          (Event.init_drm_plane_surfaces k mode.width mode.height)
        have hd2i := replaces_getElem? hrep2 hi
        have hg2 : gamma_defined env (emit (set_conn d1 i
            ({ c with needs_frame := nf, crtc := some k } : wlr_drm_connector))
            (Event.init_drm_plane_surfaces k mode.width mode.height)) := by
          intro x hx
          exact hgamma x (by rw [← hrep2.2.1]; exact hx)
        have hh2 : ∀ x, ({ c with needs_frame := nf, crtc := some k } :
            wlr_drm_connector).crtc = some x →
            x < (emit (set_conn d1 i
              ({ c with needs_frame := nf, crtc := some k } : wlr_drm_connector))
              (Event.init_drm_plane_surfaces k mode.width mode.height)).crtcs.length := by
          intro x hx
          simp only [Option.some.injEq] at hx
          rw [hrep2.2.1, hn, ← hx]
          exact hkn
        have hc2 : cursors_present (emit (set_conn d1 i
            ({ c with needs_frame := nf, crtc := some k } : wlr_drm_connector))
            (Event.init_drm_plane_surfaces k mode.width mode.height)) := by
          intro cursor hmem
          rw [hrep2.2.2.2.2.2] at hmem
          exact hcur cursor hmem
        split
        · rename_i hfail
          obtain ⟨d3, c3, r3, h3, hrep3, hs3, -⟩ := cleanup_spec env _ i _ hd2i hh2 hg2 hc2
          obtain ⟨s1, s2, -, -, s5⟩ := hs3 (Or.inl hst)
          rw [h3]
          refine ⟨d3, true, c3, _, rfl, replaces_trans hrep2 hrep3, ?_, ?_⟩
          · refine ⟨Or.inl s2, fun h => ?_, fun h => ?_, fun h => ?_, fun h => ?_, ?_,
              fun h => ?_⟩
            · rw [s1] at h; cases h
            · rw [hsome] at h; cases h
            · rw [hsome] at h; cases h
            · rw [hsome] at h; cases h
            · intro k2 _
              exact Or.inr ⟨s2, hst, s1⟩
            · rw [s1] at h; cases h
          · intro _
            refine ⟨fun hallok => ?_, ?_⟩
            · rw [hallok] at hfail
              simp at hfail
            · apply List.mem_append_right
              exact List.count_pos_iff.mp (by rw [s5]; exact Nat.one_pos)
        · obtain ⟨d3, pp, en, r3, h3, hrep3⟩ := start_renderer_spec env _ i _ hd2i hh2
            (fun _ => by rw [hm]; simp) (fun _ => by
              have := hrefresh hst
              rw [hm] at this ⊢
              exact this)
          rw [h3]
          refine ⟨_, false, ?c1d, ?restd, rfl, ?hrepd, ?hpostd, by simp⟩
          case hrepd => exact replaces_emit (replaces_trans hrep2 hrep3) _
          case hpostd =>
          refine ⟨Or.inr hsome.symm, fun _ => by rw [hm]; simp, fun h => ?_, fun h => ?_,
            fun h => ?_, ?_, fun _ => hrefresh hst⟩
          · rw [hsome] at h; cases h
          · rw [hsome] at h; cases h
          · rw [hsome] at h; cases h
          · intro k2 hk2
            rw [hsome] at hk2
            cases hk2
            exact Or.inl ⟨rfl, rfl⟩

theorem realloc_ready_replaces {env : Env} {n : Nat} {drm d : wlr_drm_backend} {i : Nat}
    {c1 : wlr_drm_connector} {rest : List Event} (hready : realloc_ready env n drm)
    (hrep : replaces drm d i c1 rest) (h1 : ∀ k, c1.crtc = some k → k < n)
    (h2 : c1.state = WLR_DRM_CONN_CONNECTED → c1.current_mode ≠ none)
    (h3 : c1.state = WLR_DRM_CONN_CONNECTED →
      c1.current_mode.map (fun mode => mode.refresh) ≠ some 0) :
    realloc_ready env n d := by
  obtain ⟨hn, hgamma, hall, hcur⟩ := hready
  refine ⟨by rw [hrep.2.1, hn], ?_, ?_, ?_⟩
  · intro k hk
    exact hgamma k (by rw [← hrep.2.1]; exact hk)
  · intro c hc
    rw [hrep.1] at hc
    rcases List.mem_or_eq_of_mem_set hc with hc | hc
    · exact hall c hc
    · subst hc
      exact ⟨h1, h2, h3⟩
  · intro cursor hmem
    rw [hrep.2.2.2.2.2] at hmem
    exact hcur cursor hmem

theorem connector_match_in_range (n m : Nat) (nm : List Nat) (j k : Nat)
    (h : (connector_match_of n m nm).getD j none = some k) : k < m := by
  rw [List.getD_eq_getElem?_getD] at h
  cases hj : (connector_match_of n m nm)[j]? with
  | none => rw [hj] at h; cases h
  | some x =>
    rw [hj] at h
    simp only [Option.getD_some] at h
    subst h
    exact (connector_match_of_some n m nm j k hj).1

/-- The loop "Apply new configuration" is defined in a backend that is ready for
the reallocation.  It leaves the connectors outside the positions it visits
alone, and each connector it visits is replaced as `step_post` tells, or left
alone after the loop has been left because a plane surface could not be set
up. -/
theorem realloc_apply_spec (env : Env) (cm : List (Option Nat)) (n : Nat)
    (hcm : ∀ j k, cm.getD j none = some k → k < n) :
    ∀ (m i : Nat) (drm : wlr_drm_backend), realloc_ready env n drm →
      i + m ≤ drm.outputs.length →
      ∃ d rest, realloc_apply env cm m i drm = some d ∧ d.log = drm.log ++ rest ∧
        d.outputs.length = drm.outputs.length ∧ realloc_ready env n d ∧
        (∀ j, (j < i ∨ i + m ≤ j) → d.outputs[j]? = drm.outputs[j]?) ∧
        (∀ j c, i ≤ j → j < i + m → drm.outputs[j]? = some c →
          ∃ c1, d.outputs[j]? = some c1 ∧
            (step_post cm j c c1 rest ∨
              (c1 = c ∧ (¬ ∀ log k w h, env.init_drm_plane_surfaces log k w h = true) ∧
                ∃ x, Event.destroy_signal x ∈ rest))) := by
  intro m
  induction m with
  | zero =>
    intro i drm hready _
    refine ⟨drm, [], rfl, by simp, rfl, hready, fun _ _ => rfl, ?_⟩
    intro j c h1 h2
    omega
  | succ m ih =>
    intro i drm hready hlen
    have hi : i < drm.outputs.length := by omega
    obtain ⟨d1, brk, c1, r1, hstep, hrep, hpost, hbrk⟩ :=
      realloc_step_spec env cm n drm i drm.outputs[i] (List.getElem?_eq_getElem hi) hready
        (hcm i)
    have hin : ∀ k, c1.crtc = some k → k < n := by
      intro k hk
      rcases hpost.1 with h | h
      · rw [h] at hk; cases hk
      · rw [h] at hk; exact hcm i k hk
    have hready1 := realloc_ready_replaces hready hrep hin hpost.2.1 hpost.2.2.2.2.2.2
    unfold realloc_apply
    rw [hstep]
    cases brk with
    | true =>
      dsimp only
      refine ⟨d1, r1, rfl, hrep.2.2.1, replaces_length hrep, hready1, ?_, ?_⟩
      · intro j hj
        exact replaces_other hrep j (by omega)
      · intro j c h1 h2 hc
        by_cases hji : j = i
        · subst hji
          rw [List.getElem?_eq_getElem hi] at hc
          simp only [Option.some.injEq] at hc
          subst hc
          exact ⟨c1, replaces_getElem? hrep hi, Or.inl hpost⟩
        · refine ⟨c, ?_, Or.inr ⟨rfl, (hbrk rfl).1, i, (hbrk rfl).2⟩⟩
          rw [replaces_other hrep j hji]
          exact hc
    | false =>
      dsimp only
      obtain ⟨d, r2, hd, hlog, hl, hready2, hout, hin2⟩ := ih (i + 1) d1 hready1
        (by rw [replaces_length hrep]; omega)
      refine ⟨d, r1 ++ r2, hd, ?_, by rw [hl, replaces_length hrep], hready2, ?_, ?_⟩
      · rw [hlog, hrep.2.2.1, List.append_assoc]
      · intro j hj
        rw [hout j (by omega)]
        exact replaces_other hrep j (by omega)
      · intro j c h1 h2 hc
        by_cases hji : j = i
        · subst hji
          rw [List.getElem?_eq_getElem hi] at hc
          simp only [Option.some.injEq] at hc
          subst hc
          refine ⟨c1, ?_, Or.inl (step_post_mono hpost (fun e he => ?_))⟩
          · rw [hout j (by omega)]
            exact replaces_getElem? hrep hi
          · exact List.mem_append_left _ he
        · have hc1 : d1.outputs[j]? = some c := by
            rw [replaces_other hrep j hji]; exact hc
          obtain ⟨c2, hc2, hpost2⟩ := hin2 j c (by omega) (by omega) hc1
          refine ⟨c2, hc2, ?_⟩
          rcases hpost2 with h | ⟨h1, h2, x, h3⟩
          · exact Or.inl (step_post_mono h (fun e he => List.mem_append_right _ he))
          · exact Or.inr ⟨h1, h2, x, List.mem_append_right _ h3⟩

/-- The `realloc_crtcs` is defined in a backend with a CRTC that is ready for
the reallocation, whatever the matcher returns. -/
theorem realloc_crtcs_spec (env : Env)
    (matcher : Nat → List Nat → Nat → List Nat → List Nat) (drm : wlr_drm_backend)
    (hready : realloc_ready env drm.crtcs.length drm) (hcrtcs : drm.crtcs.length ≠ 0)
    (houts : drm.outputs.length ≠ 0) :
    ∃ d rest, realloc_crtcs env matcher drm = some d ∧ d.log = drm.log ++ rest ∧
      d.outputs.length = drm.outputs.length ∧
      realloc_ready env drm.crtcs.length d ∧
      (keeps_old_configuration drm (connector_match_of drm.outputs.length drm.crtcs.length
          (matcher drm.outputs.length (connector_constraints drm) drm.crtcs.length
            (previous_match drm))) = true → d = drm) ∧
      (keeps_old_configuration drm (connector_match_of drm.outputs.length drm.crtcs.length
          (matcher drm.outputs.length (connector_constraints drm) drm.crtcs.length
            (previous_match drm))) = false →
        ∀ j c, drm.outputs[j]? = some c →
          ∃ c1, d.outputs[j]? = some c1 ∧
            (step_post (connector_match_of drm.outputs.length drm.crtcs.length
                (matcher drm.outputs.length (connector_constraints drm) drm.crtcs.length
                  (previous_match drm))) j c c1 rest ∨
              (c1 = c ∧ (¬ ∀ log k w h, env.init_drm_plane_surfaces log k w h = true) ∧
                ∃ x, Event.destroy_signal x ∈ rest))) := by
  unfold realloc_crtcs
  rw [if_neg hcrtcs, if_neg houts]
  unfold realloc_crtcs_with
  dsimp only
  split
  · rename_i hkeep
    refine ⟨drm, [], rfl, by simp, rfl, hready, fun _ => rfl, ?_⟩
    intro h
    rw [hkeep] at h
    cases h
  · rename_i hkeep
    obtain ⟨d, rest, hd, hlog, hl, hready2, -, hin⟩ :=
      realloc_apply_spec env _ drm.crtcs.length
        (connector_match_in_range drm.outputs.length drm.crtcs.length _)
        drm.outputs.length 0 drm hready (by omega)
    refine ⟨d, rest, hd, hlog, hl, hready2, fun h => absurd h hkeep, ?_⟩
    intro _ j c hc
    exact hin j c (by omega) (by have := lt_length_of_getElem? hc; omega) hc

/-! ## What a reallocation that returns has done -/

/-- A `set_gamma_sized` that returns has replaced the connector by itself up to
`needs_frame`. -/
theorem set_gamma_sized_replaces (env : Env) (drm d : wlr_drm_backend) (i k : Nat)
    (reset : Bool) (size : Nat) (r g b : List Nat) (ok : Bool) (c : wlr_drm_connector)
    (hc : drm.outputs[i]? = some c)
    (h : set_gamma_sized env drm i k reset size r g b = some (d, ok)) :
    ∃ nf rest, replaces drm d i { c with needs_frame := nf } rest := by
  have h0 : replaces drm drm i { c with needs_frame := c.needs_frame } [] :=
    replaces_self drm i c hc
  unfold set_gamma_sized at h
  split at h
  · simp only [Option.some.injEq, Prod.mk.injEq] at h
    rw [← h.1]
    exact ⟨_, _, replaces_emit h0 _⟩
  split at h
  · cases h
  split at h
  · split at h
    · cases h
    · rename_i r1 g1 b1 _ _ _ crtc hcrtc
      simp only [Option.some.injEq, Prod.mk.injEq] at h
      rw [← h.1, needs_frame_eq _ i c (by simpa using hc)]
      have h1 := replaces_emit (replaces_set_conn (replaces_emit (replaces_emit h0
        (Event.malloc (3 * size * 2))) (Event.crtc_set_gamma k size (r1 ++ g1 ++ b1)))
        ({ c with needs_frame := true } : wlr_drm_connector))
        (Event.wlr_output_update_needs_frame i)
      obtain ⟨a1, a2, a3, a4, a5, a6⟩ := h1
      refine ⟨true, [] ++ [Event.malloc (3 * size * 2)] ++
        [Event.crtc_set_gamma k size (r1 ++ g1 ++ b1)] ++
        [Event.wlr_output_update_needs_frame i], ?_, ?_, ?_, ?_, ?_, ?_⟩
      · rw [set_crtc_outputs]; exact a1
      · rw [set_crtc_crtcs, List.length_set]; exact a2
      · rw [set_crtc_log]; exact a3
      · rw [set_crtc_session_active]; exact a4
      · rw [set_crtc_parent]; exact a5
      · have hcur := cursors_of_set_crtc
          (emit (set_conn (emit (emit drm (Event.malloc (3 * size * 2)))
            (Event.crtc_set_gamma k size (r1 ++ g1 ++ b1))) i
            ({ c with needs_frame := true } : wlr_drm_connector))
            (Event.wlr_output_update_needs_frame i)) k crtc
          { crtc with gamma_table := r1 ++ g1 ++ b1, gamma_table_size := size }
          (by simpa using hcrtc) rfl
        exact hcur.trans a6
  · simp only [Option.some.injEq, Prod.mk.injEq] at h
    rw [← h.1]
    exact ⟨_, _, replaces_emit (replaces_emit h0 _) _⟩

/-- A `set_drm_connector_gamma` that returns has replaced the connector by
itself up to `needs_frame`. -/
theorem set_gamma_replaces (env : Env) (drm d : wlr_drm_backend) (i : Nat) (size : Nat)
    (r g b : List Nat) (ok : Bool) (c : wlr_drm_connector)
    (hc : drm.outputs[i]? = some c)
    (h : set_drm_connector_gamma env drm i size r g b = some (d, ok)) :
    ∃ nf rest, replaces drm d i { c with needs_frame := nf } rest := by
  have h0 : replaces drm drm i { c with needs_frame := c.needs_frame } [] :=
    replaces_self drm i c hc
  unfold set_drm_connector_gamma at h
  split at h
  · cases h
  split at h
  · simp only [Option.some.injEq, Prod.mk.injEq] at h
    rw [← h.1]
    exact ⟨_, _, h0⟩
  split at h
  · split at h
    · simp only [Option.some.injEq, Prod.mk.injEq] at h
      rw [← h.1]
      exact ⟨_, _, h0⟩
    · exact set_gamma_sized_replaces env drm d i _ _ _ _ _ _ ok c hc h
  · exact set_gamma_sized_replaces env drm d i _ _ _ _ _ _ ok c hc h

/-- A `dealloc_crtc` that returns has replaced the connector by itself without
a CRTC, up to `needs_frame`. -/
theorem dealloc_replaces (env : Env) (drm d : wlr_drm_backend) (i : Nat)
    (c : wlr_drm_connector) (hc : drm.outputs[i]? = some c)
    (h : dealloc_crtc env drm i = some d) :
    ∃ nf rest, replaces drm d i { c with needs_frame := nf, crtc := none } rest := by
  have hi : i < drm.outputs.length := lt_length_of_getElem? hc
  unfold dealloc_crtc at h
  rw [hc] at h
  dsimp only at h
  split at h
  · rename_i hk
    simp only [Option.some.injEq] at h
    rw [← h]
    have h0 := replaces_emit (replaces_self drm i c hc) (Event.dealloc_crtc i c.crtc)
    have e : ({ c with needs_frame := c.needs_frame, crtc := none } : wlr_drm_connector) = c :=
      conn_with_crtc c none hk
    exact ⟨c.needs_frame, _, by rw [e]; exact h0⟩
  split at h
  · cases h
  rename_i d1 ok hg
  obtain ⟨nf, rest, h2⟩ := set_gamma_replaces env _ d1 i 0 [] [] [] ok c
    (by simpa using hc) hg
  have h4 := replaces_trans
    (replaces_emit (replaces_self drm i c hc) (Event.dealloc_crtc i c.crtc)) h2
  have hd : d1.outputs[i]? = some { c with needs_frame := nf } := replaces_getElem? h2 hi
  split at h
  · cases h
  split at h
  · cases h
  simp only [emit_outputs, hd] at h
  simp only [Option.some.injEq] at h
  rw [← h]
  exact ⟨nf, _, replaces_set_conn (replaces_emit (replaces_emit (replaces_emit h4 _) _) _) _⟩

/-- A `drm_connector_start_renderer` that returns has replaced the connector by
itself up to `pageflip_pending` and `enabled`. -/
theorem start_renderer_replaces (env : Env) (drm d : wlr_drm_backend) (i : Nat)
    (c : wlr_drm_connector) (hc : drm.outputs[i]? = some c)
    (h : drm_connector_start_renderer env drm i = some d) :
    ∃ pp en rest, replaces drm d i { c with pageflip_pending := pp, enabled := en } rest := by
  have h0 : replaces drm drm i
      { c with pageflip_pending := c.pageflip_pending, enabled := c.enabled } [] :=
    replaces_self drm i c hc
  have hi : i < drm.outputs.length := lt_length_of_getElem? hc
  unfold drm_connector_start_renderer at h
  simp only [hc] at h
  split at h
  · simp only [Option.some.injEq] at h
    rw [← h]
    exact ⟨_, _, _, h0⟩
  split at h
  · simp only [Option.some.injEq] at h
    rw [← h]
    exact ⟨_, _, _, h0⟩
  split at h
  · cases h
  split at h
  · cases h
  split at h
  · rw [update_enabled_eq _ i true ({ c with pageflip_pending := true } : wlr_drm_connector)
      (by
        rw [set_conn_outputs]
        simp only [emit_outputs]
        exact getElem?_set_self_of_lt _ _ _ hi)] at h
    simp only [Option.some.injEq] at h
    rw [← h]
    exact ⟨true, true, _, replaces_emit (replaces_set_conn (replaces_set_conn (replaces_emit
      (replaces_emit (replaces_emit h0 _) _) _) { c with pageflip_pending := true })
      { c with pageflip_pending := true, enabled := true }) _⟩
  split at h
  · cases h
  · simp only [Option.some.injEq] at h
    rw [← h]
    exact ⟨_, _, _, replaces_emit (replaces_emit (replaces_emit (replaces_emit h0 _) _) _) _⟩

/-- A `drm_connector_cleanup` of a connected connector that returns has left the
connector DISCONNECTED and without a CRTC, and has emitted the destroy
notification. -/
theorem cleanup_connected_replaces (env : Env) (drm d : wlr_drm_backend) (i : Nat)
    (c : wlr_drm_connector) (hc : drm.outputs[i]? = some c)
    (hst : c.state = WLR_DRM_CONN_CONNECTED) (h : drm_connector_cleanup env drm i = some d) :
    ∃ c1 rest, replaces drm d i c1 rest ∧ c1.state = WLR_DRM_CONN_DISCONNECTED ∧
      c1.crtc = none ∧ Event.destroy_signal i ∈ rest := by
  have hi : i < drm.outputs.length := lt_length_of_getElem? hc
  unfold drm_connector_cleanup at h
  rw [hc] at h
  dsimp only at h
  split at h
  · have hb := replaces_set_conn (replaces_emit (replaces_emit (replaces_self drm i c hc)
      (Event.wlr_buffer_unref c.pending_buffer)) (Event.wlr_buffer_unref c.current_buffer))
      ({ c with
        current_mode := none, desired_mode := none, modes := [], enabled := false,
        width := 0, height := 0, refresh := 0, needs_frame := false, frame_pending := false,
        pending_buffer := none, current_buffer := none } : wlr_drm_connector)
    split at h
    · cases h
    rename_i d1 hd1
    obtain ⟨nf, r1, h1⟩ := dealloc_replaces env _ d1 i _ (replaces_getElem? hb hi) hd1
    have h2 := replaces_trans hb h1
    have hi1 : i < d1.outputs.length := by rw [replaces_length h2]; exact hi
    rw [replaces_getElem? h2 hi] at h
    dsimp only at h
    rw [emit_outputs, set_conn_outputs, getElem?_set_self_of_lt _ _ _ hi1] at h
    simp only [Option.some.injEq] at h
    rw [← h]
    refine ⟨_, _, replaces_set_conn (replaces_emit (replaces_set_conn h2 _)
      (Event.destroy_signal i)) _, rfl, rfl, ?_⟩
    simp
  · rename_i h2
    rw [hst] at h2
    cases h2
  · rename_i h2
    rw [hst] at h2
    cases h2
  · rename_i h2
    rw [hst] at h2
    cases h2
  · rename_i h2
    rw [hst] at h2
    cases h2

/-- One iteration of the loop "Apply new configuration" that returns has
replaced the connector at position `i`: an unmatched connector holds no CRTC
afterwards, is untouched if it held none, and otherwise has taken the lost-CRTC
transition; a matched connector holds its new CRTC in the state it had, or has
been cleaned up.  The iteration leaves the loop only after a cleanup, whose
destroy notification is in the log. -/
theorem realloc_step_replaces (env : Env) (cm : List (Option Nat)) (drm d : wlr_drm_backend)
    (i : Nat) (brk : Bool) (c : wlr_drm_connector) (hc : drm.outputs[i]? = some c)
    (h : realloc_step env cm drm i = some (d, brk)) :
    ∃ c1 rest, replaces drm d i c1 rest ∧
      (cm.getD i none = none → c1.crtc = none) ∧
      (cm.getD i none = none → c.crtc = none → c1 = c) ∧
      (cm.getD i none = none → c.crtc ≠ none →
        c1.state = WLR_DRM_CONN_NEEDS_MODESET ∧ c1.desired_mode = c.current_mode ∧
        c1.current_mode = none ∧ c1.enabled = false ∧
        Event.wlr_output_update_enabled i false ∈ rest) ∧
      (∀ k, cm.getD i none = some k →
        (c1.crtc = some k ∧ c1.state = c.state) ∨
        (c1.crtc = none ∧ c.state = WLR_DRM_CONN_CONNECTED ∧
          c1.state = WLR_DRM_CONN_DISCONNECTED)) ∧
      (brk = true → Event.destroy_signal i ∈ rest) := by
  have hi : i < drm.outputs.length := lt_length_of_getElem? hc
  unfold realloc_step at h
  rw [hc] at h
  dsimp only at h
  split at h
  · rename_i hsame
    simp only [Option.some.injEq, Prod.mk.injEq] at h
    rw [← h.1, ← h.2]
    refine ⟨c, [], replaces_self drm i c hc, fun hn => by rw [← hsame.2]; exact hn,
      fun _ _ => rfl, ?_, ?_, fun hb => by cases hb⟩
    · intro hn hne
      rw [hsame.2] at hn
      exact absurd hn hne
    · intro k hk
      rw [hsame.2] at hk
      exact Or.inl ⟨hk, rfl⟩
  rename_i hdiff
  split at h
  · cases h
  rename_i d1 hd1
  obtain ⟨nf, r1, hrep1⟩ := dealloc_replaces env drm d1 i c hc hd1
  have hd1i := replaces_getElem? hrep1 hi
  have hi1 : i < d1.outputs.length := by rw [replaces_length hrep1]; exact hi
  split at h
  · rename_i hnone
    split at h
    · rename_i hprev
      have hne : c.crtc ≠ none := by
        intro h0; rw [h0] at hprev; simp at hprev
      simp only [hd1i] at h
      rw [update_enabled_eq _ i false
        ({ c with needs_frame := nf, crtc := none, state := WLR_DRM_CONN_NEEDS_MODESET } :
          wlr_drm_connector)
        (by rw [set_conn_outputs]; exact getElem?_set_self_of_lt _ _ _ hi1)] at h
      simp only [emit_outputs, set_conn_outputs, List.set_set,
        getElem?_set_self_of_lt _ _ _ hi1] at h
      unfold wlr_output_update_mode at h
      simp only [set_conn_outputs, emit_outputs, List.set_set,
        getElem?_set_self_of_lt _ _ _ hi1, Option.some.injEq, Prod.mk.injEq] at h
      rw [← h.1, ← h.2]
      refine ⟨_, _, replaces_emit (replaces_set_conn (replaces_set_conn (replaces_emit
          (replaces_set_conn (replaces_set_conn hrep1 _) _)
          (Event.wlr_output_update_enabled i false)) _) _) _, fun _ => rfl,
        fun _ h0 => absurd h0 hne, ?_, ?_, fun hb => by cases hb⟩
      · intro _ _
        refine ⟨rfl, rfl, rfl, rfl, ?_⟩
        simp
      · intro k hk
        rw [hnone] at hk
        cases hk
    · rename_i hprev
      have hk : c.crtc = none := by
        cases hcr : c.crtc with
        | none => rfl
        | some k => rw [hcr] at hprev; simp at hprev
      have hd2 := dealloc_idle env drm i c hc hk
      rw [hd1] at hd2
      simp only [Option.some.injEq] at hd2
      simp only [Option.some.injEq, Prod.mk.injEq] at h
      rw [← h.1, ← h.2, hd2]
      refine ⟨c, _, replaces_emit (replaces_self drm i c hc) _, fun _ => hk, fun _ _ => rfl,
        fun _ h0 => absurd hk h0, ?_, fun hb => by cases hb⟩
      intro k hk2
      rw [hnone] at hk2
      cases hk2
  · rename_i k hsome
    simp only [hd1i] at h
    split at h
    · rename_i hstate
      simp only [Option.some.injEq, Prod.mk.injEq] at h
      rw [← h.1, ← h.2]
      refine ⟨_, _, replaces_set_conn hrep1 _, fun h0 => ?_, fun h0 => ?_, fun h0 => ?_, ?_,
        fun hb => by cases hb⟩
      · rw [hsome] at h0; cases h0
      · rw [hsome] at h0; cases h0
      · rw [hsome] at h0; cases h0
      · intro k2 hk2
        rw [hsome] at hk2
        cases hk2
        exact Or.inl ⟨rfl, rfl⟩
    rename_i hstate
    have hst : c.state = WLR_DRM_CONN_CONNECTED := by simpa using hstate
    split at h
    · cases h
    rename_i mode hm
    have hrep2 := replaces_emit (replaces_set_conn hrep1
      ({ c with needs_frame := nf, crtc := some k } : wlr_drm_connector))
      (Event.init_drm_plane_surfaces k mode.width mode.height)
    have hd2i := replaces_getElem? hrep2 hi
    split at h
    · split at h
      · cases h
      rename_i d3 hd3
      simp only [Option.some.injEq, Prod.mk.injEq] at h
      rw [← h.1, ← h.2]
      obtain ⟨c3, r3, hrep3, s1, s2, s3⟩ := cleanup_connected_replaces env _ d3 i _ hd2i hst hd3
      refine ⟨c3, _, replaces_trans hrep2 hrep3, fun _ => s2, fun h0 => ?_, fun h0 => ?_, ?_,
        fun _ => List.mem_append_right _ s3⟩
      · rw [hsome] at h0; cases h0
      · rw [hsome] at h0; cases h0
      · intro k2 _
        exact Or.inr ⟨s2, hst, s1⟩
    · split at h
      · cases h
      rename_i d3 hd3
      simp only [Option.some.injEq, Prod.mk.injEq] at h
      rw [← h.1, ← h.2]
      obtain ⟨pp, en, r3, hrep3⟩ := start_renderer_replaces env _ d3 i _ hd2i hd3
      refine ⟨_, _, replaces_emit (replaces_trans hrep2 hrep3)
        (Event.wlr_output_damage_whole i), fun h0 => ?_, fun h0 => ?_, fun h0 => ?_, ?_,
        fun hb => by cases hb⟩
      · rw [hsome] at h0; cases h0
      · rw [hsome] at h0; cases h0
      · rw [hsome] at h0; cases h0
      · intro k2 hk2
        rw [hsome] at hk2
        cases hk2
        exact Or.inl ⟨rfl, rfl⟩

theorem step_done_mono {cm : List (Option Nat)} {i : Nat} {c c1 : wlr_drm_connector}
    {r r1 : List Event} (h : step_done cm i c c1 r) (hr : ∀ e ∈ r, e ∈ r1) :
    step_done cm i c c1 r1 := by
  obtain ⟨h1, h2, h3, h4⟩ := h
  refine ⟨h1, h2, ?_, h4⟩
  intro a b
  obtain ⟨x1, x2, x3, x4, x5⟩ := h3 a b
  exact ⟨x1, x2, x3, x4, hr _ x5⟩

/-- The loop "Apply new configuration", when it returns, has left the connectors
outside the positions it visits alone, and has done to each connector it visits
what `step_done` tells, or has left it alone after the loop has been left
through the `break` that follows a cleanup. -/
theorem realloc_apply_replaces (env : Env) (cm : List (Option Nat)) :
    ∀ (m i : Nat) (drm d : wlr_drm_backend), realloc_apply env cm m i drm = some d →
      i + m ≤ drm.outputs.length →
      ∃ rest, d.log = drm.log ++ rest ∧ d.outputs.length = drm.outputs.length ∧
        (∀ j, (j < i ∨ i + m ≤ j) → d.outputs[j]? = drm.outputs[j]?) ∧
        (∀ j c, i ≤ j → j < i + m → drm.outputs[j]? = some c →
          ∃ c1, d.outputs[j]? = some c1 ∧
            (step_done cm j c c1 rest ∨
              (c1 = c ∧ ∃ x, Event.destroy_signal x ∈ rest))) := by
  intro m
  induction m with
  | zero =>
    intro i drm d h _
    simp only [realloc_apply, Option.some.injEq] at h
    rw [← h]
    refine ⟨[], by simp, rfl, fun _ _ => rfl, ?_⟩
    intro j c h1 h2
    omega
  | succ m ih =>
    intro i drm d h hlen
    have hi : i < drm.outputs.length := by omega
    unfold realloc_apply at h
    split at h
    · cases h
    · rename_i d1 hstep
      simp only [Option.some.injEq] at h
      rw [← h]
      obtain ⟨c1, r1, hrep, p1, p2, p3, p4, hbrk⟩ := realloc_step_replaces env cm drm d1 i
        true drm.outputs[i] (List.getElem?_eq_getElem hi) hstep
      refine ⟨r1, hrep.2.2.1, replaces_length hrep, ?_, ?_⟩
      · intro j hj
        exact replaces_other hrep j (by omega)
      · intro j c h1 h2 hc
        by_cases hji : j = i
        · subst hji
          rw [List.getElem?_eq_getElem hi] at hc
          simp only [Option.some.injEq] at hc
          subst hc
          exact ⟨c1, replaces_getElem? hrep hi, Or.inl ⟨p1, p2, p3, p4⟩⟩
        · refine ⟨c, ?_, Or.inr ⟨rfl, i, hbrk rfl⟩⟩
          rw [replaces_other hrep j hji]
          exact hc
    · rename_i d1 hstep
      obtain ⟨c1, r1, hrep, p1, p2, p3, p4, -⟩ := realloc_step_replaces env cm drm d1 i
        false drm.outputs[i] (List.getElem?_eq_getElem hi) hstep
      obtain ⟨r2, hlog, hl, hout, hin2⟩ := ih (i + 1) d1 d h
        (by rw [replaces_length hrep]; omega)
      refine ⟨r1 ++ r2, ?_, by rw [hl, replaces_length hrep], ?_, ?_⟩
      · rw [hlog, hrep.2.2.1, List.append_assoc]
      · intro j hj
        rw [hout j (by omega)]
        exact replaces_other hrep j (by omega)
      · intro j c h1 h2 hc
        by_cases hji : j = i
        · subst hji
          rw [List.getElem?_eq_getElem hi] at hc
          simp only [Option.some.injEq] at hc
          subst hc
          refine ⟨c1, ?_, Or.inl (step_done_mono ⟨p1, p2, p3, p4⟩ (fun e he => ?_))⟩
          · rw [hout j (by omega)]
            exact replaces_getElem? hrep hi
          · exact List.mem_append_left _ he
        · have hc1 : d1.outputs[j]? = some c := by
            rw [replaces_other hrep j hji]; exact hc
          obtain ⟨c2, hc2, hpost2⟩ := hin2 j c (by omega) (by omega) hc1
          refine ⟨c2, hc2, ?_⟩
          rcases hpost2 with h0 | ⟨h1, x, h3⟩
          · exact Or.inl (step_done_mono h0 (fun e he => List.mem_append_right _ he))
          · exact Or.inr ⟨h1, x, List.mem_append_right _ h3⟩

/-- Whenever `realloc_crtcs` returns, the log has only grown; when the new
configuration has been discarded the backend is as before, and otherwise every
connector has been treated as `step_done` tells, or has been left alone after
the loop has been left through the `break` that follows a cleanup. -/
theorem realloc_crtcs_replaces (env : Env)
    (matcher : Nat → List Nat → Nat → List Nat → List Nat) (drm d : wlr_drm_backend)
    (h : realloc_crtcs env matcher drm = some d) :
    ∃ rest, d.log = drm.log ++ rest ∧ d.outputs.length = drm.outputs.length ∧
      (keeps_old_configuration drm (connector_match matcher drm) = true → d = drm) ∧
      (keeps_old_configuration drm (connector_match matcher drm) = false →
        ∀ j c, drm.outputs[j]? = some c →
          ∃ c1, d.outputs[j]? = some c1 ∧
            (step_done (connector_match matcher drm) j c c1 rest ∨
              (c1 = c ∧ ∃ x, Event.destroy_signal x ∈ rest))) := by
  unfold realloc_crtcs at h
  split at h
  · cases h
  split at h
  · rename_i houts
    simp only [Option.some.injEq] at h
    rw [← h]
    refine ⟨[], by simp, rfl, fun _ => rfl, ?_⟩
    intro _ j c hc
    have := lt_length_of_getElem? hc
    omega
  unfold realloc_crtcs_with at h
  dsimp only at h
  split at h
  · rename_i hkeep
    simp only [Option.some.injEq] at h
    rw [← h]
    refine ⟨[], by simp, rfl, fun _ => rfl, ?_⟩
    intro h0
    unfold connector_match at h0
    rw [hkeep] at h0
    cases h0
  · rename_i hkeep
    obtain ⟨rest, hlog, hl, -, hin⟩ := realloc_apply_replaces env _ drm.outputs.length 0 drm d
      h (by omega)
    refine ⟨rest, hlog, hl, fun h0 => ?_, ?_⟩
    · unfold connector_match at h0
      exact absurd h0 hkeep
    · intro _ j c hc
      exact hin j c (by omega) (by have := lt_length_of_getElem? hc; omega) hc

/-! ## Connectors that lose their CRTC -/

theorem ready_disabled_scanout : realloc_ready env_no_gamma 2 backend_disabled_scanout := by
  refine ⟨rfl, ?_, ?_, by decide⟩
  · intro k _
    exact ⟨by simp [env_no_gamma], by simp [env_no_gamma]⟩
  intro c hc
  simp only [backend_disabled_scanout, backend_of, List.mem_cons, List.mem_singleton,
    List.not_mem_nil, or_false] at hc
  rcases hc with rfl | rfl
  · refine ⟨?_, by decide, by decide⟩
    intro k hk
    cases hk
    decide
  · refine ⟨?_, by decide, by decide⟩
    intro k hk
    cases hk

/-- C18 (lost-CRTC transition).  Let a connector (CONNECTED, or in any other
state) hold a CRTC, let the new configuration assign it no CRTC, and let
`realloc_crtcs` not discard that configuration.  Whenever `realloc_crtcs`
returns and has applied the configuration, that is, the loop has not been left
through the `break` that follows a `drm_connector_cleanup` (which is told by the
destroy notification in the log of the run), then afterwards the connector's
`crtc` is NULL, its state is NEEDS_MODESET, its `desired_mode` is the mode that
was current before, its current mode is cleared, and it has been reported
disabled by `wlr_output_update_enabled` with false.  And `realloc_crtcs` does
return in a backend with a CRTC that is ready for the reallocation. -/
theorem lost_crtc_transition (env : Env)
    (matcher : Nat → List Nat → Nat → List Nat → List Nat) (drm : wlr_drm_backend)
    (s : Nat) (c : wlr_drm_connector)
    (hc : drm.outputs[s]? = some c) (hheld : c.crtc ≠ none)
    (happlied : keeps_old_configuration drm (connector_match matcher drm) = false)
    (hnone : (connector_match matcher drm).getD s none = none) :
    (∀ d, realloc_crtcs env matcher drm = some d →
      ∃ rest, d.log = drm.log ++ rest ∧
        ((∀ e ∈ rest, is_destroy_signal e = false) →
          ∃ c1, d.outputs[s]? = some c1 ∧ c1.crtc = none ∧
            c1.state = WLR_DRM_CONN_NEEDS_MODESET ∧
            c1.desired_mode = c.current_mode ∧ c1.current_mode = none ∧
            c1.enabled = false ∧ Event.wlr_output_update_enabled s false ∈ rest)) ∧
    (realloc_ready env drm.crtcs.length drm → drm.crtcs.length ≠ 0 →
      ∃ d, realloc_crtcs env matcher drm = some d) := by
  constructor
  · intro d hd
    obtain ⟨rest, hlog, -, -, happ⟩ := realloc_crtcs_replaces env matcher drm d hd
    refine ⟨rest, hlog, ?_⟩
    intro hnoabort
    obtain ⟨c1, hc1, hpost⟩ := happ happlied s c hc
    rcases hpost with hpost | ⟨-, x, hx⟩
    · obtain ⟨h1, -, h3, -⟩ := hpost
      obtain ⟨x1, x2, x3, x4, x5⟩ := h3 hnone hheld
      exact ⟨c1, hc1, h1 hnone, x1, x2, x3, x4, x5⟩
    · have := hnoabort _ hx
      cases this
  · intro hready hcrtcs
    have houts : drm.outputs.length ≠ 0 := by
      have := lt_length_of_getElem? hc
      omega
    obtain ⟨d, -, hd, -⟩ := realloc_crtcs_spec env matcher drm hready hcrtcs houts
    exact ⟨d, hd⟩

/-- C18 at a concrete backend: connector 0 shows a mode on CRTC 0 and has been
disabled by the user, connector 1 waits for that CRTC; the run is not
aborted. -/
theorem lost_crtc_transition_witness :
    (connector_on 70 0).state = WLR_DRM_CONN_CONNECTED ∧
    ∃ d c1, realloc_crtcs env_no_gamma match_obj backend_disabled_scanout = some d ∧
      (∀ e ∈ d.log, is_destroy_signal e = false) ∧
      d.outputs[0]? = some c1 ∧ c1.crtc = none ∧ c1.state = WLR_DRM_CONN_NEEDS_MODESET ∧
      c1.desired_mode = some mode_1080p ∧ c1.current_mode = none ∧ c1.enabled = false ∧
      Event.wlr_output_update_enabled 0 false ∈ d.log := by
  have h := lost_crtc_transition env_no_gamma match_obj backend_disabled_scanout 0 _ rfl
    (by decide) (by decide) (by decide)
  obtain ⟨d, hd⟩ := h.2 ready_disabled_scanout (by decide)
  obtain ⟨rest, hlog, hpost⟩ := h.1 d hd
  have hrun : (realloc_crtcs env_no_gamma match_obj backend_disabled_scanout).map
      (fun d => d.log.all fun e => !is_destroy_signal e) = some true := by decide
  rw [hd] at hrun
  simp only [Option.map_some', Option.some.injEq, List.all_eq_true, Bool.not_eq_true'] at hrun
  have hrest : rest = d.log := by rw [hlog]; rfl
  rw [hrest] at hpost
  obtain ⟨c1, h1, h2⟩ := hpost hrun
  exact ⟨rfl, d, c1, hd, hrun, h1, h2⟩

/-! ## Which connectors take part in the allocation -/

theorem ready_hotplug : realloc_ready env_no_gamma 3 backend_hotplug := by
  refine ⟨rfl, ?_, ?_, by decide⟩
  · intro k _
    exact ⟨by simp [env_no_gamma], by simp [env_no_gamma]⟩
  intro c hc
  simp only [backend_hotplug, backend_of, List.mem_cons, List.mem_singleton,
    List.not_mem_nil, or_false] at hc
  rcases hc with rfl | rfl | rfl | rfl
  · refine ⟨?_, by decide, by decide⟩
    intro k hk
    cases hk
  · refine ⟨?_, by decide, by decide⟩
    intro k hk
    cases hk
    decide
  · refine ⟨?_, by decide, by decide⟩
    intro k hk
    cases hk
    decide
  · refine ⟨?_, by decide, by decide⟩
    intro k hk
    cases hk

/-- A connector that is named only by entries of `new_match` that count as
unmatched has -1 in `connector_match`. -/
theorem connector_match_of_unnamed (n m : Nat) (nm : List Nat) (i : Nat) (hi : i < n)
    (h : ∀ k, k < m → nm.getD k UNMATCHED = i → i = UNMATCHED) :
    (connector_match_of n m nm)[i]? = some none := by
  induction m with
  | zero =>
    simp only [connector_match_of, List.range_zero, List.foldl_nil]
    rw [List.getElem?_replicate, if_pos hi]
  | succ m ih =>
    have ih1 := ih (fun k hk => h k (by omega))
    rw [connector_match_of_succ]
    split
    · rename_i hne
      rw [List.getElem?_set_ne]
      · exact ih1
      · intro heq
        have := h m (by omega) heq
        rw [heq, this] at hne
        exact hne rfl
    · exact ih1

/-- C19 (allocator participation).  The array of constraints `realloc_crtcs`
hands to the matcher has, for the connector at position `s`, the connector's
`possible_crtc` mask when its state is CONNECTED or NEEDS_MODESET and
`desired_enabled` is true, and 0 otherwise.  A connector whose constraint is 0
can never match: the matcher of the specification names it for no CRTC, so its
entry of `connector_match` is -1.  Whenever `realloc_crtcs` returns and has
applied a reallocation (the new configuration has not been discarded, and the
loop has not been left through the `break` that follows a
`drm_connector_cleanup`, which the destroy notification in the log tells), the
connector holds no CRTC afterwards.  And `realloc_crtcs` does return in a
backend with a CRTC that is ready for the reallocation. -/
theorem allocator_participation (env : Env) (drm : wlr_drm_backend)
    (s : Nat) (c : wlr_drm_connector) (hc : drm.outputs[s]? = some c) :
    (connector_constraints drm)[s]? = some
      (if (c.state = WLR_DRM_CONN_CONNECTED ∨ c.state = WLR_DRM_CONN_NEEDS_MODESET) ∧
          c.desired_enabled = true then c.possible_crtc else 0) ∧
    ((connector_constraints drm)[s]? = some 0 →
      (∀ k, k < drm.crtcs.length →
        (match_obj drm.outputs.length (connector_constraints drm) drm.crtcs.length
          (previous_match drm)).getD k UNMATCHED = s → s = UNMATCHED) ∧
      (connector_match match_obj drm).getD s none = none ∧
      (keeps_old_configuration drm (connector_match match_obj drm) = false →
        ∀ d, realloc_crtcs env match_obj drm = some d →
          ∃ rest, d.log = drm.log ++ rest ∧
            ((∀ e ∈ rest, is_destroy_signal e = false) →
              ∃ c1, d.outputs[s]? = some c1 ∧ c1.crtc = none))) ∧
    (realloc_ready env drm.crtcs.length drm → drm.crtcs.length ≠ 0 →
      ∃ d, realloc_crtcs env match_obj drm = some d) := by
  have hs : s < drm.outputs.length := lt_length_of_getElem? hc
  refine ⟨?_, ?_, ?_⟩
  · unfold connector_constraints
    rw [List.getElem?_map, hc]
    rfl
  · intro hzero
    have hunnamed : ∀ k, k < drm.crtcs.length →
        (match_obj drm.outputs.length (connector_constraints drm) drm.crtcs.length
          (previous_match drm)).getD k UNMATCHED = s → s = UNMATCHED := by
      intro k hk hnm
      by_contra hsu
      have hbit := match_valid_bit _ _ (match_obj_valid drm.outputs.length
        (connector_constraints drm) drm.crtcs.length (previous_match drm)).2 k
        (by rw [(match_obj_valid _ _ _ _).1]; exact hk) (by rw [hnm]; exact hsu)
      rw [hnm, List.getD_eq_getElem?_getD, hzero] at hbit
      simp at hbit
    have hnone : (connector_match match_obj drm).getD s none = none := by
      apply getD_none_of_getElem?
      unfold connector_match
      exact connector_match_of_unnamed _ _ _ _ hs hunnamed
    refine ⟨hunnamed, hnone, ?_⟩
    intro happlied d hd
    obtain ⟨rest, hlog, -, -, happ⟩ := realloc_crtcs_replaces env match_obj drm d hd
    refine ⟨rest, hlog, ?_⟩
    intro hnoabort
    obtain ⟨c1, hc1, hpost⟩ := happ happlied s c hc
    rcases hpost with hpost | ⟨-, x, hx⟩
    · exact ⟨c1, hc1, hpost.1 hnone⟩
    · have := hnoabort _ hx
      cases this
  · intro hready hcrtcs
    obtain ⟨d, -, hd, -⟩ := realloc_crtcs_spec env match_obj drm hready hcrtcs (by omega)
    exact ⟨d, hd⟩

/-- C19 at a concrete backend: connector 2 of `backend_hotplug` has been
disabled by the user, so its constraint is 0, and after the reallocation, which
is applied, it holds no CRTC. -/
theorem allocator_participation_witness :
    (connector_constraints backend_hotplug)[2]? = some 0 ∧
    (connector_match match_obj backend_hotplug).getD 2 none = none ∧
    ∃ d c1, realloc_crtcs env_no_gamma match_obj backend_hotplug = some d ∧
      (∀ e ∈ d.log, is_destroy_signal e = false) ∧
      d.outputs[2]? = some c1 ∧ c1.crtc = none := by
  have h := allocator_participation env_no_gamma backend_hotplug 2 _ rfl
  have h2 := h.2.1 (by decide)
  obtain ⟨d, hd⟩ := h.2.2 ready_hotplug (by decide)
  obtain ⟨rest, hlog, hpost⟩ := h2.2.2 (by decide) d hd
  have hrun : (realloc_crtcs env_no_gamma match_obj backend_hotplug).map
      (fun d => d.log.all fun e => !is_destroy_signal e) = some true := by decide
  rw [hd] at hrun
  simp only [Option.map_some', Option.some.injEq, List.all_eq_true, Bool.not_eq_true'] at hrun
  have hrest : rest = d.log := by rw [hlog]; rfl
  rw [hrest] at hpost
  obtain ⟨c1, h1, h3⟩ := hpost hrun
  exact ⟨by decide, h2.2.1, d, c1, hd, hrun, h1, h3⟩

/-! ## Setting a mode -/

/-- A `drm_connector_start_renderer` that returns leaves the connector as it
was up to `pageflip_pending` and `enabled`. -/
theorem start_renderer_keeps (env : Env) (drm d : wlr_drm_backend) (i : Nat)
    (c : wlr_drm_connector) (hc : drm.outputs[i]? = some c)
    (h : drm_connector_start_renderer env drm i = some d) :
    ∃ pp en, d.outputs[i]? = some { c with pageflip_pending := pp, enabled := en } := by
  have hi : i < drm.outputs.length := lt_length_of_getElem? hc
  unfold drm_connector_start_renderer at h
  simp only [hc] at h
  split at h
  · simp only [Option.some.injEq] at h
    subst h
    exact ⟨c.pageflip_pending, c.enabled, hc⟩
  split at h
  · simp only [Option.some.injEq] at h
    subst h
    exact ⟨c.pageflip_pending, c.enabled, hc⟩
  split at h
  · cases h
  split at h
  · cases h
  split at h
  · rw [update_enabled_eq _ i true ({ c with pageflip_pending := true } : wlr_drm_connector)
      (by
        rw [set_conn_outputs]
        simp only [emit_outputs]
        exact getElem?_set_self_of_lt _ _ _ hi)] at h
    simp only [Option.some.injEq] at h
    subst h
    refine ⟨true, true, ?_⟩
    simp only [emit_outputs, set_conn_outputs, List.set_set]
    exact getElem?_set_self_of_lt _ _ _ hi
  split at h
  · cases h
  · simp only [Option.some.injEq] at h
    subst h
    exact ⟨c.pageflip_pending, c.enabled, hc⟩

/-- C15.  (1) Let a connector hold no CRTC, and let the reallocation
`drm_connector_set_mode` triggers be discarded or assign the connector no CRTC.
Whenever `drm_connector_set_mode` returns, it returns false, and afterwards the
connector is as before, with its state, its current mode and `desired_enabled`,
except that `mode` is recorded as its `desired_mode`.  (2) It does return, in a
backend with a CRTC that is ready for the reallocation.  (3) Whenever
`drm_connector_set_mode` returns true, the connector is in state CONNECTED, its
`desired_mode` is NULL and `desired_enabled` is true. -/
theorem set_mode_without_crtc (env : Env)
    (matcher : Nat → List Nat → Nat → List Nat → List Nat) (drm : wlr_drm_backend)
    (i : Nat) (mode : wlr_output_mode) :
    (∀ c, drm.outputs[i]? = some c → c.crtc = none →
      (keeps_old_configuration drm (connector_match matcher drm) = true ∨
        (connector_match matcher drm).getD i none = none) →
      (∀ d ok, drm_connector_set_mode env matcher drm i mode = some (d, ok) →
        ok = false ∧ d.outputs[i]? = some { c with desired_mode := some mode }) ∧
      (realloc_ready env drm.crtcs.length drm → drm.crtcs.length ≠ 0 →
        ∃ d, drm_connector_set_mode env matcher drm i mode = some (d, false))) ∧
    (∀ d, drm_connector_set_mode env matcher drm i mode = some (d, true) →
      ∃ c1, d.outputs[i]? = some c1 ∧ c1.state = WLR_DRM_CONN_CONNECTED ∧
        c1.desired_mode = none ∧ c1.desired_enabled = true) := by
  constructor
  · intro c hc hcrtc hassign
    have hi : i < drm.outputs.length := lt_length_of_getElem? hc
    have hkeepc : ∀ d1, realloc_crtcs env matcher drm = some d1 →
        d1.outputs[i]? = some c ∧ d1.outputs.length = drm.outputs.length := by
      intro d1 hd1
      obtain ⟨rest, -, hlen, hkeep, happ⟩ := realloc_crtcs_replaces env matcher drm d1 hd1
      refine ⟨?_, hlen⟩
      by_cases hk : keeps_old_configuration drm (connector_match matcher drm) = true
      · rw [hkeep hk]; exact hc
      · have hk2 : keeps_old_configuration drm (connector_match matcher drm) = false := by
          simpa using hk
        have hnone : (connector_match matcher drm).getD i none = none := by
          rcases hassign with h | h
          · exact absurd h hk
          · exact h
        obtain ⟨c1, hc1, hpost⟩ := happ hk2 i c hc
        rcases hpost with hpost | ⟨heq, -⟩
        · rw [hc1, hpost.2.1 hnone hcrtc]
        · rw [hc1, heq]
    have hres : ∀ d1, realloc_crtcs env matcher drm = some d1 →
        drm_connector_set_mode env matcher drm i mode =
          some (set_conn d1 i { c with desired_mode := some mode }, false) := by
      intro d1 hd1
      unfold drm_connector_set_mode
      simp only [hc, hcrtc, if_true, hd1, (hkeepc d1 hd1).1]
    constructor
    · intro d ok h
      cases hr : realloc_crtcs env matcher drm with
      | none =>
        unfold drm_connector_set_mode at h
        simp only [hc, hcrtc, if_true, hr] at h
        cases h
      | some d1 =>
        rw [hres d1 hr] at h
        simp only [Option.some.injEq, Prod.mk.injEq] at h
        rw [← h.1, ← h.2]
        refine ⟨rfl, ?_⟩
        rw [set_conn_outputs]
        exact getElem?_set_self_of_lt _ _ _ (by rw [(hkeepc d1 hr).2]; exact hi)
    · intro hready hcrtcs
      obtain ⟨d1, -, hd1, -⟩ := realloc_crtcs_spec env matcher drm hready hcrtcs (by omega)
      exact ⟨_, hres d1 hd1⟩
  · intro d h
    unfold drm_connector_set_mode at h
    split at h
    · cases h
    dsimp only at h
    split at h
    · cases h
    rename_i d1 hd1
    split at h
    · cases h
    rename_i c2 hc2
    have hi2 : i < d1.outputs.length := lt_length_of_getElem? hc2
    split at h
    · simp at h
    rename_i k hk
    split at h
    · simp at h
    have hupd : (wlr_output_update_enabled (wlr_output_update_mode
        (set_conn (emit d1 (Event.init_drm_plane_surfaces k mode.width mode.height)) i
          { c2 with state := WLR_DRM_CONN_CONNECTED, desired_mode := none }) i (some mode))
        i true).outputs[i]? = some
          { c2 with state := WLR_DRM_CONN_CONNECTED, desired_mode := none,
                    current_mode := some mode, width := mode.width, height := mode.height,
                    refresh := mode.refresh, enabled := true } := by
      unfold wlr_output_update_mode
      simp only [set_conn_outputs, emit_outputs, getElem?_set_self_of_lt _ _ _ hi2]
      unfold wlr_output_update_enabled
      simp only [set_conn_outputs, emit_outputs, List.set_set,
        getElem?_set_self_of_lt _ _ _ hi2]
    split at h
    · cases h
    rename_i c3 hc3
    rw [hupd] at hc3
    simp only [Option.some.injEq] at hc3
    subst hc3
    split at h
    · cases h
    rename_i d3 hd3
    cases h
    obtain ⟨pp, en, hout⟩ := start_renderer_keeps env _ d3 i
      { c2 with state := WLR_DRM_CONN_CONNECTED, desired_mode := none,
                current_mode := some mode, width := mode.width, height := mode.height,
                refresh := mode.refresh, enabled := true, desired_enabled := true }
      (by
        rw [set_conn_outputs]
        apply getElem?_set_self_of_lt
        have := lt_length_of_getElem? hupd
        exact this) hd3
    exact ⟨_, hout, rfl, rfl, rfl⟩

theorem ready_contended : realloc_ready env_accepting 1 backend_contended := by
  refine ⟨rfl, ?_, ?_, by decide⟩
  · intro k _
    exact ⟨by simp [env_accepting], by simp [env_accepting]⟩
  intro c hc
  simp only [backend_contended, backend_of, List.mem_cons, List.mem_singleton,
    List.not_mem_nil, or_false] at hc
  rcases hc with rfl | rfl
  · refine ⟨?_, by decide, by decide⟩
    intro k hk
    cases hk
    decide
  · refine ⟨?_, by decide, by decide⟩
    intro k hk
    cases hk

/-- C15 at concrete backends: in `backend_contended` connector 1 holds no CRTC
and the reallocation is discarded; in `backend_waiting_on_crtc` the connector
holds a CRTC and the mode is set. -/
theorem set_mode_without_crtc_witness :
    (∃ d, drm_connector_set_mode env_accepting match_obj backend_contended 1 mode_1080p =
        some (d, false) ∧
      d.outputs[1]? = some
        { ({ connector_on 71 0 with crtc := none } : wlr_drm_connector) with
          desired_mode := some mode_1080p }) ∧
    (∃ d c1, drm_connector_set_mode env_accepting match_obj backend_waiting_on_crtc 0
        mode_1080p = some (d, true) ∧
      d.outputs[0]? = some c1 ∧ c1.state = WLR_DRM_CONN_CONNECTED ∧
      c1.desired_mode = none ∧ c1.desired_enabled = true) := by
  have h := (set_mode_without_crtc env_accepting match_obj backend_contended 1 mode_1080p).1
    _ rfl rfl (Or.inl (by decide))
  obtain ⟨d, hd⟩ := h.2 ready_contended (by decide)
  refine ⟨⟨d, hd, (h.1 d false hd).2⟩, ?_⟩
  obtain ⟨c1, h1, h2⟩ :=
    (set_mode_without_crtc env_accepting match_obj backend_waiting_on_crtc 0 mode_1080p).2
      _ rfl
  exact ⟨_, c1, rfl, h1, h2⟩

/-! ## Connectors that disappear with a page-flip pending -/

/-- C11 fails.  In `backend_flipping` the only connector is connected, holds
CRTC 0 (kernel id 40) and has a page-flip pending; the kernel no longer lists
it.  `scan_drm_connectors` cleans the connector up, which releases its CRTC, and
then moves it to the state DISAPPEARED: the result is `backend_vanished`.
There the connector holds no CRTC, so `page_flip_handler` finds no connector for
the completion event of CRTC 40, nor for any other event: the backend stays as
it is, the flip stays pending, and `wlr_output_destroy` is never called. -/
theorem disappeared_never_destroyed :
    (∃ c, backend_flipping.outputs[0]? = some c ∧ c.state = WLR_DRM_CONN_CONNECTED ∧
      c.crtc = some 0 ∧ c.pageflip_pending = true) ∧
    scan_drm_connectors env_no_gamma match_obj kernel_unplugged backend_flipping =
      some backend_vanished ∧
    (∃ c1, backend_vanished.outputs = [c1] ∧ c1.state = WLR_DRM_CONN_DISAPPEARED ∧
      c1.crtc = none ∧ c1.pageflip_pending = true) ∧
    page_flip_handler backend_vanished flip_event_40 = some backend_vanished ∧
    (∀ ev, page_flip_handler backend_vanished ev = some backend_vanished) ∧
    ∀ e ∈ backend_vanished.log, e ≠ Event.wlr_output_destroy 0 := by
  refine ⟨⟨_, rfl, rfl, rfl, rfl⟩, rfl, ⟨_, rfl, rfl, rfl, rfl⟩, rfl, ?_, by decide⟩
  intro ev
  unfold page_flip_handler
  rw [find_flipped_none]
  intro j c k crtc hj hk
  cases j with
  | zero =>
    simp only [backend_vanished, List.getElem?_cons_zero, Option.some.injEq] at hj
    subst hj
    cases hk
  | succ j =>
    simp [backend_vanished] at hj

/-! ## The linear gamma ramp -/

/-- The linear gamma ramp for the sizes from 2 on that a 32-bit counter
reaches: for every size with 2 ≤ size < 2^32, `fill_empty_gamma_table` is
defined (its divisor `size - 1` is not zero) and writes the same `size` entries
to the three channels; when moreover size ≤ 65537, the 32-bit product
`0xffff * i` does not wrap for any i < size, entry i is
floor(65535 * i / (size - 1)), entry 0 is 0, entry size - 1 is 65535 and the
entries are non-decreasing.  The reset path of `set_drm_connector_gamma` (size 0
on a connector holding a CRTC) passes the hardware-reported gamma size, when it
is not 0, to that fill. -/
theorem gamma_ramp_exact (size : Nat) (h2 : 2 ≤ size) (h3 : size < 2 ^ 32) :
    ∃ ramp, fill_empty_gamma_table size = some (ramp, ramp, ramp) ∧ ramp.length = size ∧
      size - 1 ≠ 0 ∧
      (size ≤ 65537 →
        (∀ i, i < size → 0xffff * i < 2 ^ 32 ∧ ramp[i]? = some (65535 * i / (size - 1))) ∧
        ramp[0]? = some 0 ∧ ramp[size - 1]? = some 65535 ∧
        (∀ i j, i ≤ j → j < size → ramp.getD i 0 ≤ ramp.getD j 0)) ∧
      (∀ (env : Env) (drm : wlr_drm_backend) (i k : Nat) (conn : wlr_drm_connector)
        (r g b : List Nat), drm.outputs[i]? = some conn → conn.crtc = some k →
        env.crtc_get_gamma_size k = size →
        set_drm_connector_gamma env drm i 0 r g b =
          set_gamma_sized env drm i k true size r g b ∧
        gamma_channels true size r g b = some (ramp, ramp, ramp)) := by
  have hfill : fill_empty_gamma_table size = some
      ((List.range size).map fun i => (0xffff * i % 2 ^ 32) / (size - 1) % 2 ^ 16,
       (List.range size).map fun i => (0xffff * i % 2 ^ 32) / (size - 1) % 2 ^ 16,
       (List.range size).map fun i => (0xffff * i % 2 ^ 32) / (size - 1) % 2 ^ 16) := by
    unfold fill_empty_gamma_table
    rw [if_neg (by omega)]
  have hget : ∀ i, i < size → size ≤ 65537 →
      ((List.range size).map fun i => (0xffff * i % 2 ^ 32) / (size - 1) % 2 ^ 16)[i]? =
        some (65535 * i / (size - 1)) := by
    intro i hi hs
    rw [List.getElem?_map, List.getElem?_range hi]
    simp only [Option.map_some']
    rw [ramp_entry_exact size i h2 (by omega) hi]
  refine ⟨_, hfill, by simp, by omega, ?_, ?_⟩
  · intro hs
    refine ⟨fun i hi => ⟨by omega, hget i hi hs⟩, ?_, ?_, ?_⟩
    · rw [hget 0 (by omega) hs]; simp
    · rw [hget (size - 1) (by omega) hs]
      rw [Nat.mul_div_cancel _ (by omega)]
    · intro i j hij hj
      rw [List.getD_eq_getElem?_getD, List.getD_eq_getElem?_getD, hget i (by omega) hs,
        hget j hj hs]
      simp only [Option.getD_some]
      exact Nat.div_le_div_right (Nat.mul_le_mul_left _ hij)
  · intro env drm i k conn r g b hconn hk hsz
    have hgs : drm_connector_get_gamma_size env drm i = size := by
      simp [drm_connector_get_gamma_size, hconn, hk, hsz]
    refine ⟨?_, ?_⟩
    · unfold set_drm_connector_gamma
      simp only [hconn, hk, hgs, if_true]
      rw [if_neg (by omega)]
    · simp only [gamma_channels, if_true]
      exact hfill

theorem gamma_ramp_exact_witness :
    ∃ ramp, fill_empty_gamma_table 256 = some (ramp, ramp, ramp) ∧ ramp.length = 256 ∧
      256 - 1 ≠ 0 ∧
      (256 ≤ 65537 →
        (∀ i, i < 256 → 0xffff * i < 2 ^ 32 ∧ ramp[i]? = some (65535 * i / (256 - 1))) ∧
        ramp[0]? = some 0 ∧ ramp[256 - 1]? = some 65535 ∧
        (∀ i j, i ≤ j → j < 256 → ramp.getD i 0 ≤ ramp.getD j 0)) ∧
      (∀ (env : Env) (drm : wlr_drm_backend) (i k : Nat) (conn : wlr_drm_connector)
        (r g b : List Nat), drm.outputs[i]? = some conn → conn.crtc = some k →
        env.crtc_get_gamma_size k = 256 →
        set_drm_connector_gamma env drm i 0 r g b =
          set_gamma_sized env drm i k true 256 r g b ∧
        gamma_channels true 256 r g b = some (ramp, ramp, ramp)) :=
  gamma_ramp_exact 256 (by decide) (by decide)

/-- C27 fails for the hardware-reported gamma size 1.  The reset path of
`set_drm_connector_gamma` turns away only the size 0 and passes the size 1 on
to `fill_empty_gamma_table`; there the divisor `size - 1` is zero, so the fill,
and with it the reset, has no defined result. -/
theorem gamma_unit_size_counterexample :
    backend_single.outputs[0]? = some (connector_on 70 0) ∧
    (connector_on 70 0).crtc = some 0 ∧ 1 ≤ env_unit_gamma.crtc_get_gamma_size 0 ∧
    drm_connector_get_gamma_size env_unit_gamma backend_single 0 = 1 ∧ 1 - 1 = 0 ∧
    fill_empty_gamma_table 1 = none ∧
    set_drm_connector_gamma env_unit_gamma backend_single 0 0 [] [] [] = none := by
  refine ⟨rfl, rfl, by decide, rfl, rfl, rfl, rfl⟩

/-! ## Connected connectors hold a CRTC -/

/-- A `dealloc_crtc` that returns leaves the connector without a CRTC and in
the state it had. -/
theorem dealloc_at (env : Env) (drm d : wlr_drm_backend) (i : Nat) (c : wlr_drm_connector)
    (hc : drm.outputs[i]? = some c) (h : dealloc_crtc env drm i = some d) :
    ∃ c1, d.outputs[i]? = some c1 ∧ c1.crtc = none ∧ c1.state = c.state := by
  obtain ⟨c1, h1, h2⟩ := keeps_dealloc (keeps_refl i drm) env h c hc
  refine ⟨c1, h1, ?_, h2.1⟩
  unfold dealloc_crtc at h
  rw [hc] at h
  dsimp only at h
  split at h
  · rename_i hk
    simp only [Option.some.injEq] at h
    subst h
    rw [emit_outputs, hc] at h1
    cases h1
    exact hk
  split at h
  · cases h
  split at h
  · cases h
  split at h
  · cases h
  split at h
  · cases h
  rename_i conn2 hconn2
  simp only [Option.some.injEq] at h
  subst h
  rw [set_conn_outputs, getElem?_set_self_of_lt _ _ _ (lt_length_of_getElem? hconn2)] at h1
  cases h1
  rfl

/-- A `drm_connector_cleanup` of a connected connector that returns leaves the
connector in the state DISCONNECTED. -/
theorem cleanup_connected (env : Env) (drm d : wlr_drm_backend) (i : Nat)
    (c : wlr_drm_connector) (hc : drm.outputs[i]? = some c)
    (hst : c.state = WLR_DRM_CONN_CONNECTED) (h : drm_connector_cleanup env drm i = some d) :
    ∃ c1, d.outputs[i]? = some c1 ∧ c1.state = WLR_DRM_CONN_DISCONNECTED := by
  unfold drm_connector_cleanup at h
  rw [hc] at h
  dsimp only at h
  split at h
  · split at h
    · cases h
    split at h
    · cases h
    split at h
    · cases h
    rename_i conn2 hconn2
    simp only [Option.some.injEq] at h
    subst h
    exact ⟨_, by
      rw [set_conn_outputs]
      exact getElem?_set_self_of_lt _ _ _ (lt_length_of_getElem? hconn2), rfl⟩
  · rename_i h2
    rw [hst] at h2
    cases h2
  · rename_i h2
    rw [hst] at h2
    cases h2
  · rename_i h2
    rw [hst] at h2
    cases h2
  · rename_i h2
    rw [hst] at h2
    cases h2

/-- One iteration of the loop "Apply new configuration" that returns leaves the
connector it is for holding a CRTC if it is connected, when that was so
before. -/
theorem realloc_step_connected (env : Env) (cm : List (Option Nat)) (drm d : wlr_drm_backend)
    (i : Nat) (brk : Bool) (c : wlr_drm_connector) (hc : drm.outputs[i]? = some c)
    (hinv : c.state = WLR_DRM_CONN_CONNECTED → c.crtc ≠ none)
    (h : realloc_step env cm drm i = some (d, brk)) :
    ∃ c1, d.outputs[i]? = some c1 ∧ (c1.state = WLR_DRM_CONN_CONNECTED → c1.crtc ≠ none) := by
  unfold realloc_step at h
  rw [hc] at h
  dsimp only at h
  split at h
  · simp only [Option.some.injEq, Prod.mk.injEq] at h
    rw [← h.1]
    exact ⟨c, hc, hinv⟩
  split at h
  · cases h
  rename_i d1 hd1
  obtain ⟨c2, hc2, hcrtc2, hstate2⟩ := dealloc_at env drm d1 i c hc hd1
  have hi1 : i < d1.outputs.length := lt_length_of_getElem? hc2
  split at h
  · split at h
    · rw [hc2] at h
      dsimp only at h
      rw [update_enabled_eq _ i false
        ({ c2 with state := WLR_DRM_CONN_NEEDS_MODESET } : wlr_drm_connector)
        (by rw [set_conn_outputs]; exact getElem?_set_self_of_lt _ _ _ hi1)] at h
      simp only [emit_outputs, set_conn_outputs, List.set_set,
        getElem?_set_self_of_lt _ _ _ hi1] at h
      unfold wlr_output_update_mode at h
      simp only [set_conn_outputs, emit_outputs, List.set_set,
        getElem?_set_self_of_lt _ _ _ hi1, Option.some.injEq, Prod.mk.injEq] at h
      rw [← h.1]
      simp only [emit_outputs, set_conn_outputs, List.set_set,
        getElem?_set_self_of_lt _ _ _ hi1]
      exact ⟨_, rfl, fun hx => by cases hx⟩
    · rename_i hprev
      simp only [Option.some.injEq, Prod.mk.injEq] at h
      rw [← h.1]
      refine ⟨c2, hc2, ?_⟩
      intro hx
      rw [hstate2] at hx
      have := hinv hx
      cases hcr : c.crtc with
      | none => exact absurd hcr this
      | some k => rw [hcr] at hprev; simp at hprev
  · rename_i k hk
    rw [hc2] at h
    dsimp only at h
    split at h
    · simp only [Option.some.injEq, Prod.mk.injEq] at h
      rw [← h.1]
      exact ⟨_, by
        rw [set_conn_outputs]
        exact getElem?_set_self_of_lt _ _ _ hi1, fun _ => by simp⟩
    rename_i hstate
    have hst : c2.state = WLR_DRM_CONN_CONNECTED := by simpa using hstate
    split at h
    · cases h
    rename_i mode hmode
    split at h
    · split at h
      · cases h
      rename_i d3 hd3
      simp only [Option.some.injEq, Prod.mk.injEq] at h
      rw [← h.1]
      obtain ⟨c3, h3, hs3⟩ := cleanup_connected env _ d3 i
        ({ c2 with crtc := some k } : wlr_drm_connector)
        (by
          rw [emit_outputs, set_conn_outputs]
          exact getElem?_set_self_of_lt _ _ _ hi1) hst hd3
      refine ⟨c3, h3, ?_⟩
      intro hx
      rw [hs3] at hx
      cases hx
    · split at h
      · cases h
      rename_i d3 hd3
      simp only [Option.some.injEq, Prod.mk.injEq] at h
      rw [← h.1]
      obtain ⟨pp, en, hout⟩ := start_renderer_keeps env _ d3 i
        ({ c2 with crtc := some k } : wlr_drm_connector)
        (by
          rw [emit_outputs, set_conn_outputs]
          exact getElem?_set_self_of_lt _ _ _ hi1) hd3
      exact ⟨_, by rw [emit_outputs]; exact hout, fun _ => by simp⟩

/-- One iteration of the loop "Apply new configuration", when it returns,
preserves "a connected connector holds a CRTC". -/
theorem realloc_step_preserves (env : Env) (cm : List (Option Nat)) (drm d : wlr_drm_backend)
    (i : Nat) (brk : Bool)
    (hinv : ∀ c ∈ drm.outputs, c.state = WLR_DRM_CONN_CONNECTED → c.crtc ≠ none)
    (h : realloc_step env cm drm i = some (d, brk)) :
    ∀ c ∈ d.outputs, c.state = WLR_DRM_CONN_CONNECTED → c.crtc ≠ none := by
  have ht := touches_realloc_step (touches_refl i drm) env cm brk h
  intro c1 hc1
  obtain ⟨j, hj⟩ := List.mem_iff_getElem?.mp hc1
  by_cases hji : j = i
  · subst hji
    have hjl : j < drm.outputs.length := by
      rw [← ht.1]; exact lt_length_of_getElem? hj
    obtain ⟨c2, h2, h3⟩ := realloc_step_connected env cm drm d j brk drm.outputs[j]
      (List.getElem?_eq_getElem hjl) (hinv _ (List.getElem_mem _)) h
    rw [hj] at h2
    cases h2
    exact h3
  · rw [ht.2.1 j hji] at hj
    exact hinv c1 (List.mem_iff_getElem?.mpr ⟨j, hj⟩)

/-- The loop "Apply new configuration", when it returns, preserves "a connected
connector holds a CRTC". -/
theorem realloc_apply_connected (env : Env) (cm : List (Option Nat)) (n i : Nat)
    (drm d : wlr_drm_backend)
    (hinv : ∀ c ∈ drm.outputs, c.state = WLR_DRM_CONN_CONNECTED → c.crtc ≠ none)
    (h : realloc_apply env cm n i drm = some d) :
    ∀ c ∈ d.outputs, c.state = WLR_DRM_CONN_CONNECTED → c.crtc ≠ none := by
  induction n generalizing i drm with
  | zero =>
    simp only [realloc_apply, Option.some.injEq] at h
    rw [← h]
    exact hinv
  | succ n ih =>
    unfold realloc_apply at h
    split at h
    · cases h
    · rename_i d1 hstep
      simp only [Option.some.injEq] at h
      rw [← h]
      exact realloc_step_preserves env cm drm d1 i true hinv hstep
    · rename_i d1 hstep
      exact ih (i + 1) d1 (realloc_step_preserves env cm drm d1 i false hinv hstep) h

/-- C28 (CONNECTED implies a CRTC is held).  In a backend state in which every
CONNECTED connector holds a CRTC, and for every `new_match` array `match_obj`
returns, after `realloc_crtcs` returns, whether the new configuration is
discarded, applied, or aborted because a plane surface could not be set up,
every connector whose state is CONNECTED holds a CRTC.  And `realloc_crtcs`
does return in a backend with a CRTC that is ready for the reallocation: the
CRTCs the connectors hold exist and have a cursor plane, no gamma size is 1 or
exceeds 32 bits, and a connected connector has a mode with a refresh rate. -/
theorem connected_holds_crtc (env : Env)
    (matcher : Nat → List Nat → Nat → List Nat → List Nat) (drm : wlr_drm_backend)
    (hinv : ∀ c ∈ drm.outputs, c.state = WLR_DRM_CONN_CONNECTED → c.crtc ≠ none) :
    (∀ d, realloc_crtcs env matcher drm = some d →
      ∀ c ∈ d.outputs, c.state = WLR_DRM_CONN_CONNECTED → c.crtc ≠ none) ∧
    (realloc_ready env drm.crtcs.length drm → drm.crtcs.length ≠ 0 →
      ∃ d, realloc_crtcs env matcher drm = some d) := by
  constructor
  · intro d h
    unfold realloc_crtcs at h
    split at h
    · cases h
    split at h
    · simp only [Option.some.injEq] at h
      rw [← h]
      exact hinv
    unfold realloc_crtcs_with at h
    dsimp only at h
    split at h
    · simp only [Option.some.injEq] at h
      rw [← h]
      exact hinv
    · exact realloc_apply_connected env _ _ 0 drm d hinv h
  · intro hready hcrtcs
    by_cases houts : drm.outputs.length = 0
    · refine ⟨drm, ?_⟩
      unfold realloc_crtcs
      rw [if_neg hcrtcs, if_pos houts]
    · obtain ⟨d, -, hd, -⟩ := realloc_crtcs_spec env matcher drm hready hcrtcs houts
      exact ⟨d, hd⟩

/-- C28 at a concrete backend: in `backend_hotplug` the connected connectors 1
and 2 hold CRTCs, the reallocation moves connector 1 to another CRTC and takes
the CRTC of connector 2 away, and the invariant holds afterwards. -/
theorem connected_holds_crtc_witness :
    (∀ c ∈ backend_hotplug.outputs, c.state = WLR_DRM_CONN_CONNECTED → c.crtc ≠ none) ∧
    (∀ d, realloc_crtcs env_no_gamma matcher_hotplug backend_hotplug = some d →
      ∀ c ∈ d.outputs, c.state = WLR_DRM_CONN_CONNECTED → c.crtc ≠ none) ∧
    ∃ d, realloc_crtcs env_no_gamma matcher_hotplug backend_hotplug = some d :=
  ⟨by decide,
    (connected_holds_crtc env_no_gamma matcher_hotplug backend_hotplug (by decide)).1,
    (connected_holds_crtc env_no_gamma matcher_hotplug backend_hotplug (by decide)).2
      ready_hotplug (by decide)⟩

/-! ## Planes: the format chosen, the formats registered, the CRTC chosen -/

theorem mem_format_set_add (formats : List (Nat × Nat)) (format modifier : Nat)
    (p : Nat × Nat) :
    p ∈ wlr_drm_format_set_add formats format modifier ↔ p ∈ formats ∨ p = (format, modifier) := by
  unfold wlr_drm_format_set_add
  split
  · rename_i h
    constructor
    · exact Or.inl
    · rintro (h1 | h1)
      · exact h1
      · rw [h1]; exact h
  · simp

/-- The `rgb_format` the legacy loop ends with, from any starting value. -/
theorem add_legacy_formats_rgb (l : List Nat) :
    ∀ (formats : List (Nat × Nat)) (rgb_format : Nat),
      (add_legacy_formats l formats rgb_format).2 =
        if DRM_FORMAT_ARGB8888 ∈ l then DRM_FORMAT_ARGB8888
        else if DRM_FORMAT_XRGB8888 ∈ l then DRM_FORMAT_XRGB8888
        else rgb_format := by
  induction l with
  | nil => intro formats rgb_format; simp [add_legacy_formats]
  | cons fmt rest ih =>
    intro formats rgb_format
    unfold add_legacy_formats
    by_cases h1 : fmt = DRM_FORMAT_ARGB8888
    · rw [if_pos h1]
      simp [h1]
    · rw [if_neg h1]
      have h1s : ¬ DRM_FORMAT_ARGB8888 = fmt := fun h => h1 h.symm
      by_cases h2 : fmt = DRM_FORMAT_XRGB8888
      · rw [if_pos h2, ih]
        simp only [List.mem_cons, h1s, false_or]
        split
        · rfl
        · simp [h2]
      · rw [if_neg h2, ih]
        have h2s : ¬ DRM_FORMAT_XRGB8888 = fmt := fun h => h2 h.symm
        simp only [List.mem_cons, h1s, h2s, false_or]

/-- The pairs in the format set after the legacy loop: those before it, and
the formats of the list up to and including the first ARGB8888. -/
theorem add_legacy_formats_mem (l : List Nat) :
    ∀ (formats : List (Nat × Nat)) (rgb_format : Nat) (p : Nat × Nat),
      p ∈ (add_legacy_formats l formats rgb_format).1 ↔
        p ∈ formats ∨
        (p.2 = DRM_FORMAT_MOD_INVALID ∧
          (p.1 ∈ l.takeWhile (fun f => decide (f ≠ DRM_FORMAT_ARGB8888)) ∨
            (p.1 = DRM_FORMAT_ARGB8888 ∧ DRM_FORMAT_ARGB8888 ∈ l))) := by
  induction l with
  | nil => intro formats rgb_format p; simp [add_legacy_formats]
  | cons fmt rest ih =>
    intro formats rgb_format p
    obtain ⟨f, m⟩ := p
    unfold add_legacy_formats
    by_cases h1 : fmt = DRM_FORMAT_ARGB8888
    · rw [if_pos h1]
      simp only [mem_format_set_add, Prod.mk.injEq, h1, List.mem_cons, true_or, and_true]
      rw [List.takeWhile_cons]
      simp only [ne_eq, not_true_eq_false, decide_False, Bool.false_eq_true, if_false,
        List.not_mem_nil, false_or]
      tauto
    · rw [if_neg h1]
      have h1s : ¬ DRM_FORMAT_ARGB8888 = fmt := fun h => h1 h.symm
      have key : ∀ rgb, (f, m) ∈ (add_legacy_formats rest
          (wlr_drm_format_set_add formats fmt DRM_FORMAT_MOD_INVALID) rgb).1 ↔
          (f, m) ∈ formats ∨ (m = DRM_FORMAT_MOD_INVALID ∧
            (f ∈ (fmt :: rest).takeWhile (fun f => decide (f ≠ DRM_FORMAT_ARGB8888)) ∨
              (f = DRM_FORMAT_ARGB8888 ∧ DRM_FORMAT_ARGB8888 ∈ fmt :: rest))) := by
        intro rgb
        rw [ih]
        rw [List.takeWhile_cons]
        simp only [mem_format_set_add, Prod.mk.injEq, ne_eq, h1, not_false_eq_true,
          decide_True, if_true, List.mem_cons, h1s, false_or]
        tauto
      by_cases h2 : fmt = DRM_FORMAT_XRGB8888
      · rw [if_pos h2]
        exact key fmt
      · rw [if_neg h2]
        exact key rgb_format

/-- What a successful `add_plane` that installs a plane leaves in the CRTC. -/
theorem add_plane_installs (penv : PlaneEnv) (crtc crtc1 : crtc_planes)
    (drm_plane : drmModePlane) (type : Nat) (props : wlr_drm_plane_props)
    (hnew : type = DRM_PLANE_TYPE_PRIMARY ∨ (type = DRM_PLANE_TYPE_CURSOR ∧ crtc.cursor = none))
    (h : add_plane penv crtc drm_plane type props = some (crtc1, true)) :
    ∃ p formats, plane_in_formats penv drm_plane.plane_id props
        (add_legacy_formats drm_plane.formats [] DRM_FORMAT_INVALID).1 = some (some formats) ∧
      p = { drm_format := (add_legacy_formats drm_plane.formats [] DRM_FORMAT_INVALID).2,
            formats := formats, type := type, id := drm_plane.plane_id } ∧
      (type = DRM_PLANE_TYPE_PRIMARY → crtc1 = { crtc with primary := some p }) ∧
      (type = DRM_PLANE_TYPE_CURSOR → crtc1 = { crtc with cursor := some p }) := by
  unfold add_plane at h
  split at h
  · cases h
  split at h
  · rename_i hc
    rcases hnew with h1 | ⟨-, h2⟩
    · rw [h1] at hc
      exact absurd hc.1 (by decide)
    · exact absurd h2 hc.2
  split at h
  · cases h
  split at h
  · cases h
  · cases h
  · rename_i formats hf
    split at h
    · rename_i hp
      simp only [Option.some.injEq, Prod.mk.injEq, and_true] at h
      refine ⟨_, formats, hf, rfl, fun _ => h.symm, fun hcur => ?_⟩
      rw [hp] at hcur
      exact absurd hcur (by decide)
    · rename_i hp
      split at h
      · simp only [Option.some.injEq, Prod.mk.injEq, and_true] at h
        exact ⟨_, formats, hf, rfl, fun hpr => absurd hpr hp, fun _ => h.symm⟩
      · cases h

/-- C22 (plane format preference): for every legacy format list, the loop of
`add_plane` ends with `rgb_format` equal to ARGB8888 if ARGB8888 occurs anywhere
in the list, otherwise XRGB8888 if XRGB8888 occurs in the list, otherwise
DRM_FORMAT_INVALID; and whenever `add_plane` succeeds in installing a primary
or cursor plane, the plane's `drm_format` is that value. -/
theorem plane_format_preference (penv : PlaneEnv) (crtc crtc1 : crtc_planes)
    (drm_plane : drmModePlane) (type : Nat) (props : wlr_drm_plane_props)
    (hnew : type = DRM_PLANE_TYPE_PRIMARY ∨ (type = DRM_PLANE_TYPE_CURSOR ∧ crtc.cursor = none))
    (h : add_plane penv crtc drm_plane type props = some (crtc1, true)) :
    (add_legacy_formats drm_plane.formats [] DRM_FORMAT_INVALID).2 =
      (if DRM_FORMAT_ARGB8888 ∈ drm_plane.formats then DRM_FORMAT_ARGB8888
       else if DRM_FORMAT_XRGB8888 ∈ drm_plane.formats then DRM_FORMAT_XRGB8888
       else DRM_FORMAT_INVALID) ∧
    ∃ p, (type = DRM_PLANE_TYPE_PRIMARY → crtc1.primary = some p) ∧
      (type = DRM_PLANE_TYPE_CURSOR → crtc1.cursor = some p) ∧
      p.drm_format =
        (if DRM_FORMAT_ARGB8888 ∈ drm_plane.formats then DRM_FORMAT_ARGB8888
         else if DRM_FORMAT_XRGB8888 ∈ drm_plane.formats then DRM_FORMAT_XRGB8888
         else DRM_FORMAT_INVALID) := by
  obtain ⟨p, formats, -, hp, h1, h2⟩ := add_plane_installs penv crtc crtc1 drm_plane type props
    hnew h
  refine ⟨add_legacy_formats_rgb _ _ _, p, fun ht => ?_, fun ht => ?_, ?_⟩
  · rw [h1 ht]
  · rw [h2 ht]
  · rw [hp]
    exact add_legacy_formats_rgb _ _ _

theorem plane_format_preference_witness :
    (add_legacy_formats plane_argb_first.formats [] DRM_FORMAT_INVALID).2 =
      (if DRM_FORMAT_ARGB8888 ∈ plane_argb_first.formats then DRM_FORMAT_ARGB8888
       else if DRM_FORMAT_XRGB8888 ∈ plane_argb_first.formats then DRM_FORMAT_XRGB8888
       else DRM_FORMAT_INVALID) ∧
    ∃ p, (1 = DRM_PLANE_TYPE_PRIMARY → crtc_argb_primary.primary = some p) ∧
      (1 = DRM_PLANE_TYPE_CURSOR → crtc_argb_primary.cursor = some p) ∧
      p.drm_format =
        (if DRM_FORMAT_ARGB8888 ∈ plane_argb_first.formats then DRM_FORMAT_ARGB8888
         else if DRM_FORMAT_XRGB8888 ∈ plane_argb_first.formats then DRM_FORMAT_XRGB8888
         else DRM_FORMAT_INVALID) :=
  plane_format_preference penv_accepting crtc_no_planes crtc_argb_primary plane_argb_first 1
    { type := 5, in_formats := 0 } (Or.inl rfl) (by decide)

/-- C23 does not hold of `add_plane`: the loop over the legacy formats is left
at the first ARGB8888, so the formats that follow it are not registered.  In
general the pairs (f, DRM_FORMAT_MOD_INVALID) the loop registers are those of
the formats up to and including the first ARGB8888; and for the primary plane
`plane_argb_first`, whose list is ARGB8888 followed by XRGB8888, `add_plane`
succeeds and the plane's format set holds ARGB8888 only. -/
theorem legacy_formats_after_argb_dropped :
    (∀ (l : List Nat) (f : Nat),
      (f, DRM_FORMAT_MOD_INVALID) ∈ (add_legacy_formats l [] DRM_FORMAT_INVALID).1 ↔
        (f ∈ l.takeWhile (fun f => decide (f ≠ DRM_FORMAT_ARGB8888)) ∨
          (f = DRM_FORMAT_ARGB8888 ∧ DRM_FORMAT_ARGB8888 ∈ l))) ∧
    DRM_FORMAT_XRGB8888 ∈ plane_argb_first.formats ∧
    ∃ p, add_plane penv_accepting crtc_no_planes plane_argb_first DRM_PLANE_TYPE_PRIMARY
        { type := 5, in_formats := 0 } = some ({ crtc_no_planes with primary := some p }, true) ∧
      p.formats = [(DRM_FORMAT_ARGB8888, DRM_FORMAT_MOD_INVALID)] ∧
      wlr_drm_format_set_has p.formats DRM_FORMAT_XRGB8888 DRM_FORMAT_MOD_INVALID = false := by
  refine ⟨?_, by decide, _, rfl, rfl, by decide⟩
  intro l f
  rw [add_legacy_formats_mem]
  simp

theorem testBit_of_and_shift (m j : Nat) : m &&& (1 <<< j) ≠ 0 ↔ m.testBit j = true := by
  rw [Nat.one_shiftLeft, Nat.and_two_pow]
  cases m.testBit j <;> simp

theorem add_in_formats_bits_spec (fmts : List Nat) (entry : drm_format_modifier)
    (hcount : fmts.length < 2 ^ 32) :
    ∀ (n j : Nat) (formats : List (Nat × Nat)),
      (∀ b, j ≤ b → b < j + n → entry.formats.testBit b = true →
        b + entry.offset < fmts.length) →
      ∃ formats1, add_in_formats_bits fmts entry n j formats = some formats1 ∧
        ∀ p : Nat × Nat, p ∈ formats1 ↔ p ∈ formats ∨
          ∃ b, j ≤ b ∧ b < j + n ∧ entry.formats.testBit b = true ∧
            fmts[b + entry.offset]? = some p.1 ∧ p.2 = entry.modifier := by
  intro n
  induction n with
  | zero =>
    intro j formats _
    refine ⟨formats, rfl, fun p => ⟨Or.inl, ?_⟩⟩
    rintro (h | ⟨b, h1, h2, -⟩)
    · exact h
    · omega
  | succ n ih =>
    intro j formats hpre
    unfold add_in_formats_bits
    by_cases hbit : entry.formats.testBit j = true
    · rw [if_pos ((testBit_of_and_shift _ _).mpr hbit)]
      have hlt := hpre j (le_refl _) (by omega) hbit
      rw [Nat.mod_eq_of_lt (by omega), List.getElem?_eq_getElem hlt]
      dsimp only
      obtain ⟨formats1, h1, h2⟩ := ih (j + 1)
        (wlr_drm_format_set_add formats fmts[j + entry.offset] entry.modifier)
        (fun b hb1 hb2 hb3 => hpre b (by omega) (by omega) hb3)
      refine ⟨formats1, h1, fun p => ?_⟩
      rw [h2, mem_format_set_add]
      constructor
      · rintro ((h | h) | ⟨b, hb1, hb2, hb3, hb4, hb5⟩)
        · exact Or.inl h
        · refine Or.inr ⟨j, le_refl _, by omega, hbit, ?_, ?_⟩
          · rw [h, List.getElem?_eq_getElem hlt]
          · rw [h]
        · exact Or.inr ⟨b, by omega, by omega, hb3, hb4, hb5⟩
      · rintro (h | ⟨b, hb1, hb2, hb3, hb4, hb5⟩)
        · exact Or.inl (Or.inl h)
        · by_cases hbj : b = j
          · subst hbj
            refine Or.inl (Or.inr ?_)
            rw [List.getElem?_eq_getElem hlt] at hb4
            simp only [Option.some.injEq] at hb4
            exact Prod.ext hb4.symm hb5
          · exact Or.inr ⟨b, by omega, by omega, hb3, hb4, hb5⟩
    · rw [if_neg (fun h => hbit ((testBit_of_and_shift _ _).mp h))]
      obtain ⟨formats1, h1, h2⟩ := ih (j + 1) formats
        (fun b hb1 hb2 hb3 => hpre b (by omega) (by omega) hb3)
      refine ⟨formats1, h1, fun p => ?_⟩
      rw [h2]
      constructor
      · rintro (h | ⟨b, hb1, hb2, hb3, hb4, hb5⟩)
        · exact Or.inl h
        · exact Or.inr ⟨b, by omega, by omega, hb3, hb4, hb5⟩
      · rintro (h | ⟨b, hb1, hb2, hb3, hb4, hb5⟩)
        · exact Or.inl h
        · by_cases hbj : b = j
          · subst hbj
            exact absurd hb3 hbit
          · exact Or.inr ⟨b, by omega, by omega, hb3, hb4, hb5⟩

theorem add_in_formats_spec (fmts : List Nat) (hcount : fmts.length < 2 ^ 32) :
    ∀ (mods : List drm_format_modifier) (formats : List (Nat × Nat)),
      (∀ entry ∈ mods, ∀ j, j < 64 → entry.formats.testBit j = true →
        j + entry.offset < fmts.length) →
      ∃ formats1, add_in_formats fmts mods formats = some formats1 ∧
        ∀ p : Nat × Nat, p ∈ formats1 ↔ p ∈ formats ∨
          ∃ entry ∈ mods, ∃ j, j < 64 ∧ entry.formats.testBit j = true ∧
            fmts[j + entry.offset]? = some p.1 ∧ p.2 = entry.modifier := by
  intro mods
  induction mods with
  | nil =>
    intro formats _
    exact ⟨formats, rfl, fun p => by simp⟩
  | cons entry rest ih =>
    intro formats hpre
    obtain ⟨f1, h1, h2⟩ := add_in_formats_bits_spec fmts entry hcount 64 0 formats
      (fun b _ hb2 hb3 => hpre entry (List.mem_cons_self _ _) b (by omega) hb3)
    obtain ⟨f2, h3, h4⟩ := ih f1 (fun e he => hpre e (List.mem_cons_of_mem _ he))
    unfold add_in_formats
    rw [h1]
    dsimp only
    refine ⟨f2, h3, fun p => ?_⟩
    rw [h4, h2]
    constructor
    · rintro ((h | ⟨b, -, hb2, hb3, hb4, hb5⟩) | ⟨e, he, j, hj⟩)
      · exact Or.inl h
      · exact Or.inr ⟨entry, List.mem_cons_self _ _, b, by omega, hb3, hb4, hb5⟩
      · exact Or.inr ⟨e, List.mem_cons_of_mem _ he, j, hj⟩
    · rintro (h | ⟨e, he, j, hj1, hj2⟩)
      · exact Or.inl (Or.inl h)
      · rcases List.mem_cons.mp he with rfl | he
        · exact Or.inl (Or.inr ⟨j, Nat.zero_le _, by omega, hj2⟩)
        · exact Or.inr ⟨e, he, j, hj1, hj2⟩

/-- C24 (IN_FORMATS decoding).  Let a primary or cursor plane that `add_plane`
is about to install have an IN_FORMATS property whose blob is read, with format
array `fmts` (of `count_formats` < 2^32 entries) and modifier entries
(mask_i, offset_i, modifier_i), such that every set bit j < 64 of every mask_i
satisfies j + offset_i < count_formats.  Then `add_plane` succeeds, no read of
`fmts` is out of range, and the plane's format set holds exactly the pairs of
the legacy loop and the pairs (fmts[j + offset_i], modifier_i) for
i < count_modifiers, j < 64 and bit j of mask_i set. -/
theorem in_formats_decoding (penv : PlaneEnv) (crtc : crtc_planes) (drm_plane : drmModePlane)
    (type : Nat) (props : wlr_drm_plane_props) (blob_id : Nat)
    (blob : drm_format_modifier_blob)
    (hnew : (type = DRM_PLANE_TYPE_PRIMARY ∧ crtc.primary = none) ∨
      (type = DRM_PLANE_TYPE_CURSOR ∧ crtc.cursor = none))
    (hcalloc : penv.calloc_plane drm_plane.plane_id = true)
    (hprop : props.in_formats ≠ 0)
    (hid : penv.get_drm_prop drm_plane.plane_id props.in_formats = some blob_id)
    (hblob : penv.drmModeGetPropertyBlob blob_id = some blob)
    (hcount : blob.fmts.length < 2 ^ 32)
    (hpre : ∀ (i : Nat) (entry : drm_format_modifier), blob.mods[i]? = some entry → ∀ j, j < 64 →
      entry.formats.testBit j = true → j + entry.offset < blob.fmts.length) :
    ∃ crtc1 p, add_plane penv crtc drm_plane type props = some (crtc1, true) ∧
      (type = DRM_PLANE_TYPE_PRIMARY → crtc1.primary = some p) ∧
      (type = DRM_PLANE_TYPE_CURSOR → crtc1.cursor = some p) ∧
      ∀ f modifier, (f, modifier) ∈ p.formats ↔
        (f, modifier) ∈ (add_legacy_formats drm_plane.formats [] DRM_FORMAT_INVALID).1 ∨
        ∃ (i : Nat) (entry : drm_format_modifier) (j : Nat), blob.mods[i]? = some entry ∧ j < 64 ∧
          entry.formats.testBit j = true ∧ j + entry.offset < blob.fmts.length ∧
          blob.fmts[j + entry.offset]? = some f ∧ modifier = entry.modifier := by
  obtain ⟨formats1, h1, h2⟩ := add_in_formats_spec blob.fmts hcount blob.mods
    (add_legacy_formats drm_plane.formats [] DRM_FORMAT_INVALID).1
    (fun entry he j hj hb => by
      obtain ⟨i, hi⟩ := List.mem_iff_getElem?.mp he
      exact hpre i entry hi j hj hb)
  have hmem : ∀ f modifier, (f, modifier) ∈ formats1 ↔
      (f, modifier) ∈ (add_legacy_formats drm_plane.formats [] DRM_FORMAT_INVALID).1 ∨
      ∃ (i : Nat) (entry : drm_format_modifier) (j : Nat), blob.mods[i]? = some entry ∧ j < 64 ∧
        entry.formats.testBit j = true ∧ j + entry.offset < blob.fmts.length ∧
        blob.fmts[j + entry.offset]? = some f ∧ modifier = entry.modifier := by
    intro f modifier
    rw [h2]
    constructor
    · rintro (h | ⟨e, he, j, hj1, hj2, hj3, hj4⟩)
      · exact Or.inl h
      · obtain ⟨i, hi⟩ := List.mem_iff_getElem?.mp he
        exact Or.inr ⟨i, e, j, hi, hj1, hj2, hpre i e hi j hj1 hj2, hj3, hj4⟩
    · rintro (h | ⟨i, e, j, hi, hj1, hj2, -, hj3, hj4⟩)
      · exact Or.inl h
      · exact Or.inr ⟨e, List.mem_iff_getElem?.mpr ⟨i, hi⟩, j, hj1, hj2, hj3, hj4⟩
  have hin : plane_in_formats penv drm_plane.plane_id props
      (add_legacy_formats drm_plane.formats [] DRM_FORMAT_INVALID).1 = some (some formats1) := by
    unfold plane_in_formats
    rw [if_neg hprop, hid]
    dsimp only
    rw [hblob]
    dsimp only
    rw [h1]
  unfold add_plane
  rw [hin]
  rcases hnew with ⟨ht, hs⟩ | ⟨ht, hs⟩
  · rw [if_neg (by rw [hs]; simp), if_neg (by rw [ht]; exact fun h => absurd h.1 (by decide)),
      if_neg (by rw [hcalloc]; simp)]
    dsimp only
    rw [if_pos ht]
    refine ⟨_, _, rfl, fun _ => rfl, fun h => ?_, hmem⟩
    rw [ht] at h
    exact absurd h (by decide)
  · rw [if_neg (by rw [ht]; exact fun h => absurd h.1 (by decide)), if_neg (by rw [hs]; simp),
      if_neg (by rw [hcalloc]; simp)]
    dsimp only
    rw [if_neg (by rw [ht]; decide), if_pos ht]
    refine ⟨_, _, rfl, fun h => ?_, fun _ => rfl, hmem⟩
    rw [ht] at h
    exact absurd h (by decide)

theorem in_formats_decoding_witness :
    ∃ crtc1 p, add_plane penv_in_formats crtc_no_planes plane_argb_first 1
        { type := 5, in_formats := 6 } = some (crtc1, true) ∧
      (1 = DRM_PLANE_TYPE_PRIMARY → crtc1.primary = some p) ∧
      (1 = DRM_PLANE_TYPE_CURSOR → crtc1.cursor = some p) ∧
      ∀ f modifier, (f, modifier) ∈ p.formats ↔
        (f, modifier) ∈ (add_legacy_formats plane_argb_first.formats [] DRM_FORMAT_INVALID).1 ∨
        ∃ (i : Nat) (entry : drm_format_modifier) (j : Nat), blob_linear.mods[i]? = some entry ∧ j < 64 ∧
          entry.formats.testBit j = true ∧ j + entry.offset < blob_linear.fmts.length ∧
          blob_linear.fmts[j + entry.offset]? = some f ∧ modifier = entry.modifier :=
  in_formats_decoding penv_in_formats crtc_no_planes plane_argb_first 1
    { type := 5, in_formats := 6 } 11 blob_linear (Or.inl ⟨rfl, rfl⟩) rfl (by decide) rfl rfl
    (by decide) (by
      intro i entry hi j hj hb
      cases i with
      | zero =>
        simp only [blob_linear, List.getElem?_cons_zero, Option.some.injEq] at hi
        subst hi
        have h2 : j < 2 := by
          by_contra hge
          have := Nat.testBit_lt_two_pow (x := 3) (i := j)
            (lt_of_lt_of_le (by decide : 3 < 2 ^ 2) (Nat.pow_le_pow_right (by decide) (by omega)))
          rw [this] at hb
          cases hb
        simp only [blob_linear, List.length_cons, List.length_nil]
        omega
      | succ i => simp [blob_linear] at hi)

theorem ffs_from_spec (i : Nat) :
    ∀ (n j b : Nat), j ≤ b → b < j + n → i.testBit b = true →
      ∃ r, ffs_from i n j = r + 1 ∧ j ≤ r ∧ r ≤ b ∧ i.testBit r = true ∧
        ∀ b1, j ≤ b1 → b1 < r → i.testBit b1 = false := by
  intro n
  induction n with
  | zero => intro j b h1 h2 _; omega
  | succ n ih =>
    intro j b h1 h2 h3
    unfold ffs_from
    by_cases hj : i.testBit j = true
    · rw [if_pos hj]
      exact ⟨j, rfl, le_refl _, h1, hj, fun b1 hb1 hb2 => by omega⟩
    · rw [if_neg hj]
      have hbj : b ≠ j := fun h => hj (h ▸ h3)
      obtain ⟨r, hr1, hr2, hr3, hr4, hr5⟩ := ih (j + 1) b (by omega) (by omega) h3
      refine ⟨r, hr1, by omega, hr3, hr4, fun b1 hb1 hb2 => ?_⟩
      by_cases hb : b1 = j
      · subst hb
        simpa using hj
      · exact hr5 b1 (by omega) hb2

/-- C25 (plane-to-CRTC association).  Let `init_planes` reach, in its loop over
the planes, a plane whose 32-bit `possible_crtcs` mask is not zero, the plane,
its properties and its type having been read.  Then the index
`ffs(possible_crtcs) - 1` it computes is the least j such that bit j of the
mask is set.  Whenever the mask has a set bit below `num_crtcs`, the `assert`
on the index holds and the iteration works on entry j of the CRTC array: an
overlay plane is appended to the overlays of CRTC j, and any other plane is
handed to `add_plane` with CRTC j, whose result is stored in entry j.  When j is
not below `num_crtcs` the `assert` fails.  The loop starts with the first plane
the kernel lists and the CRTC array of the backend. -/
theorem plane_crtc_association (penv : PlaneEnv) (id : Nat) (rest : List Nat)
    (crtcs : List crtc_planes) (plane : drmModePlane) (props : wlr_drm_plane_props)
    (type : Nat) (hplane : penv.drmModeGetPlane id = some plane)
    (hprops : penv.get_drm_plane_props id = some props)
    (htype : penv.get_drm_prop id props.type = some type)
    (h32 : plane.possible_crtcs < 2 ^ 32) (hne : plane.possible_crtcs ≠ 0) :
    (∃ j : Nat, plane_crtc_bit plane.possible_crtcs = (j : Int) ∧
      plane.possible_crtcs.testBit j = true ∧
      (∀ j1, j1 < j → plane.possible_crtcs.testBit j1 = false) ∧
      ((∃ b, b < crtcs.length ∧ plane.possible_crtcs.testBit b = true) →
        plane_crtc_assert crtcs.length (plane_crtc_bit plane.possible_crtcs) = true ∧
        ∃ crtc, crtcs[j]? = some crtc ∧
          init_planes_loop penv (id :: rest) crtcs =
            if type = DRM_PLANE_TYPE_OVERLAY then
              if penv.realloc_overlays id = true then
                init_planes_loop penv rest
                  (crtcs.set j { crtc with overlays := crtc.overlays ++ [id] })
              else init_planes_loop penv rest crtcs
            else
              match add_plane penv crtc plane (type % 2 ^ 32) props with
              | none => none
              | some (crtc1, false) => some (crtcs.set j crtc1, false)
              | some (crtc1, true) => init_planes_loop penv rest (crtcs.set j crtc1)) ∧
      (crtcs.length ≤ j → init_planes_loop penv (id :: rest) crtcs = none)) ∧
    ∀ planes, penv.drmModeGetPlaneResources = some planes →
      init_planes penv crtcs = init_planes_loop penv planes crtcs := by
  constructor
  · obtain ⟨b, hb⟩ := Nat.ne_zero_implies_bit_true hne
    have hb32 : b < 32 := by
      by_contra hge
      have := Nat.testBit_lt_two_pow (x := plane.possible_crtcs) (i := b)
        (lt_of_lt_of_le h32 (Nat.pow_le_pow_right (by decide) (by omega)))
      rw [this] at hb
      cases hb
    obtain ⟨r, hr1, -, hr3, hr4, hr5⟩ := ffs_from_spec plane.possible_crtcs 32 0 b
      (Nat.zero_le _) (by omega) hb
    have hbit : plane_crtc_bit plane.possible_crtcs = (r : Int) := by
      unfold plane_crtc_bit ffs
      rw [Nat.mod_eq_of_lt h32, hr1]
      push_cast
      omega
    refine ⟨r, hbit, hr4, fun j1 hj1 => hr5 j1 (Nat.zero_le _) hj1, ?_, ?_⟩
    · rintro ⟨b1, hb1, hb2⟩
      have hrb : r ≤ b1 := by
        by_contra hlt
        have := hr5 b1 (Nat.zero_le _) (by omega)
        rw [this] at hb2
        cases hb2
      have hrl : r < crtcs.length := by omega
      have hassert : plane_crtc_assert crtcs.length (plane_crtc_bit plane.possible_crtcs) =
          true := by
        rw [hbit]
        unfold plane_crtc_assert
        simp only [Int.toNat_ofNat, Bool.and_eq_true, decide_eq_true_eq]
        exact ⟨Int.natCast_nonneg _, hrl⟩
      refine ⟨hassert, crtcs[r], List.getElem?_eq_getElem hrl, ?_⟩
      rw [init_planes_loop]
      simp only [hplane, hprops, htype, hassert, Bool.true_eq_false, if_false]
      rw [hbit]
      simp only [Int.toNat_ofNat, List.getElem?_eq_getElem hrl]
    · intro hle
      have hassert : plane_crtc_assert crtcs.length (plane_crtc_bit plane.possible_crtcs) =
          false := by
        rw [hbit]
        unfold plane_crtc_assert
        simp only [Int.toNat_ofNat, Bool.and_eq_false_imp, decide_eq_true_eq,
          decide_eq_false_iff_not]
        intro _
        omega
      rw [init_planes_loop]
      simp only [hplane, hprops, htype, hassert, if_true]
  · intro planes hres
    unfold init_planes
    rw [hres]

/-- C25 at a concrete device: the first plane the kernel lists is a primary
plane that serves CRTC 0 only; `init_planes` hands it to `add_plane` with CRTC 0
and goes on with the second plane. -/
theorem plane_crtc_association_witness :
    ∃ j : Nat, plane_crtc_bit 1 = (j : Int) ∧ (1 : Nat).testBit j = true ∧
      (∀ j1, j1 < j → (1 : Nat).testBit j1 = false) ∧
      plane_crtc_assert 1 (plane_crtc_bit 1) = true ∧
      ∃ crtc, [crtc_no_planes][j]? = some crtc ∧
        init_planes penv_accepting [crtc_no_planes] =
          match add_plane penv_accepting crtc
              { plane_id := 1, possible_crtcs := 1,
                formats := [DRM_FORMAT_ARGB8888, DRM_FORMAT_XRGB8888] }
              (1 % 2 ^ 32) { type := 5, in_formats := 0 } with
          | none => none
          | some (crtc1, false) => some ([crtc_no_planes].set j crtc1, false)
          | some (crtc1, true) =>
            init_planes_loop penv_accepting [2] ([crtc_no_planes].set j crtc1) := by
  obtain ⟨⟨j, h1, h2, h3, h4, -⟩, h5⟩ := plane_crtc_association penv_accepting 1 [2]
    [crtc_no_planes] _ _ 1 rfl rfl rfl (by decide) (by decide)
  obtain ⟨h6, crtc, h7, h8⟩ := h4 ⟨0, by decide, by decide⟩
  refine ⟨j, h1, h2, h3, h6, crtc, h7, ?_⟩
  rw [h5 [1, 2] rfl, h8]
  rfl

/-! ## Custom modes are added at most once -/

theorem memcmp_modeinfo_self (a : drmModeModeInfo) : memcmp_modeinfo a a = true := by
  simp [memcmp_modeinfo]

theorem modes_of_emit (drm : wlr_drm_backend) (e : Event) (i : Nat) :
    modes_of (emit drm e) i = modes_of drm i := rfl

/-- C26 amended (custom modes are added at most once).  For the output at
position `i` and every mode description m, `wlr_drm_connector_add_mode` returns.
It returns false and leaves the mode list unchanged when m's type is not
DRM_MODE_TYPE_USERDEF.  For a m of that type, it returns true and leaves the
list unchanged when a mode with a byte-identical description is in the list;
otherwise it returns false and leaves the list unchanged when the allocation of
the mode fails, and it returns true having prepended exactly one mode, of width
m.hdisplay, height m.vdisplay and description m, when the allocation succeeds.
Whenever it returns true, a second call with the same m returns true and
changes nothing, so the mode list is the one after the first call. -/
theorem add_mode_once (calloc_mode calloc_mode2 : List Event → Nat → Bool)
    (drm : wlr_drm_backend) (i : Nat) (conn : wlr_drm_connector) (m : drmModeModeInfo)
    (hconn : drm.outputs[i]? = some conn) :
    ∃ d ret, wlr_drm_connector_add_mode calloc_mode drm i m = some (d, ret) ∧
      (m.type ≠ DRM_MODE_TYPE_USERDEF → ret = false ∧ d = drm) ∧
      (m.type = DRM_MODE_TYPE_USERDEF →
        (∃ mode ∈ conn.modes, memcmp_modeinfo mode.drm_mode m = true) →
        ret = true ∧ d = drm) ∧
      (m.type = DRM_MODE_TYPE_USERDEF →
        (∀ mode ∈ conn.modes, memcmp_modeinfo mode.drm_mode m = false) →
        calloc_mode drm.log i = false → ret = false ∧ modes_of d i = conn.modes) ∧
      (m.type = DRM_MODE_TYPE_USERDEF →
        (∀ mode ∈ conn.modes, memcmp_modeinfo mode.drm_mode m = false) →
        calloc_mode drm.log i = true →
        ret = true ∧ ∃ mode, modes_of d i = mode :: conn.modes ∧ mode.width = m.hdisplay ∧
          mode.height = m.vdisplay ∧ mode.drm_mode = m) ∧
      (ret = true → wlr_drm_connector_add_mode calloc_mode2 d i m = some (d, true)) := by
  have hi : i < drm.outputs.length := lt_length_of_getElem? hconn
  have hmodes : modes_of drm i = conn.modes := by simp [modes_of, hconn]
  unfold wlr_drm_connector_add_mode
  simp only [hconn]
  by_cases ht : m.type = DRM_MODE_TYPE_USERDEF
  · rw [if_neg (by simpa using ht)]
    by_cases hany : conn.modes.any (fun mode => memcmp_modeinfo mode.drm_mode m) = true
    · rw [if_pos hany]
      refine ⟨drm, true, rfl, fun h => absurd ht h, fun _ _ => ⟨rfl, rfl⟩, ?_, ?_, ?_⟩
      · intro _ hall
        obtain ⟨mode, hm1, hm2⟩ := List.any_eq_true.mp hany
        rw [hall mode hm1] at hm2
        cases hm2
      · intro _ hall
        obtain ⟨mode, hm1, hm2⟩ := List.any_eq_true.mp hany
        rw [hall mode hm1] at hm2
        cases hm2
      · intro _
        simp only [hconn]
        rw [if_neg (by simpa using ht), if_pos hany]
    · rw [if_neg hany]
      have hnone : ¬ ∃ mode ∈ conn.modes, memcmp_modeinfo mode.drm_mode m = true := by
        rintro ⟨mode, hm1, hm2⟩
        exact hany (List.any_eq_true.mpr ⟨mode, hm1, hm2⟩)
      by_cases hc : calloc_mode drm.log i = false
      · rw [if_pos hc]
        refine ⟨_, false, rfl, fun h => absurd ht h, fun _ h => absurd h hnone,
          fun _ _ _ => ⟨rfl, ?_⟩, ?_, ?_⟩
        · rw [modes_of_emit, hmodes]
        · intro _ _ h
          rw [h] at hc
          cases hc
        · intro h
          cases h
      · rw [if_neg hc]
        refine ⟨_, true, rfl, fun h => absurd ht h, fun _ h => absurd h hnone,
          fun _ _ h => absurd h hc, ?_, ?_⟩
        · intro _ _ _
          refine ⟨rfl, (⟨m.hdisplay, m.vdisplay, m.refresh_rate, false, m⟩ : wlr_output_mode),
            ?_, rfl, rfl, rfl⟩
          simp only [modes_of, set_conn_outputs, emit_outputs,
            getElem?_set_self_of_lt _ _ _ hi]
        · intro _
          simp only [set_conn_outputs, emit_outputs, getElem?_set_self_of_lt _ _ _ hi]
          rw [if_neg (by simpa using ht), if_pos]
          simp [memcmp_modeinfo_self]
  · rw [if_pos ht]
    refine ⟨drm, false, rfl, fun _ => ⟨rfl, rfl⟩, fun h => absurd h ht, fun h => absurd h ht,
      fun h => absurd h ht, ?_⟩
    intro h
    cases h

theorem add_mode_once_witness :
    ∃ d ret, wlr_drm_connector_add_mode (fun _ _ => true) backend_single 0 modeinfo_custom =
        some (d, ret) ∧
      (modeinfo_custom.type ≠ DRM_MODE_TYPE_USERDEF → ret = false ∧ d = backend_single) ∧
      (modeinfo_custom.type = DRM_MODE_TYPE_USERDEF →
        (∃ mode ∈ (connector_on 70 0).modes,
          memcmp_modeinfo mode.drm_mode modeinfo_custom = true) →
        ret = true ∧ d = backend_single) ∧
      (modeinfo_custom.type = DRM_MODE_TYPE_USERDEF →
        (∀ mode ∈ (connector_on 70 0).modes,
          memcmp_modeinfo mode.drm_mode modeinfo_custom = false) →
        (fun _ _ => true : List Event → Nat → Bool) backend_single.log 0 = false →
        ret = false ∧ modes_of d 0 = (connector_on 70 0).modes) ∧
      (modeinfo_custom.type = DRM_MODE_TYPE_USERDEF →
        (∀ mode ∈ (connector_on 70 0).modes,
          memcmp_modeinfo mode.drm_mode modeinfo_custom = false) →
        (fun _ _ => true : List Event → Nat → Bool) backend_single.log 0 = true →
        ret = true ∧ ∃ mode, modes_of d 0 = mode :: (connector_on 70 0).modes ∧
          mode.width = modeinfo_custom.hdisplay ∧ mode.height = modeinfo_custom.vdisplay ∧
          mode.drm_mode = modeinfo_custom) ∧
      (ret = true →
        wlr_drm_connector_add_mode (fun _ _ => false) d 0 modeinfo_custom = some (d, true)) :=
  add_mode_once (fun _ _ => true) (fun _ _ => false) backend_single 0 (connector_on 70 0)
    modeinfo_custom rfl

/-- C26, as stated, fails when the allocation of the mode fails: the
description `modeinfo_custom` has the type DRM_MODE_TYPE_USERDEF and no mode of
the connector has its description, yet `wlr_drm_connector_add_mode` returns
false and the mode list stays as it was. -/
theorem add_mode_alloc_counterexample :
    modeinfo_custom.type = DRM_MODE_TYPE_USERDEF ∧
    (∀ mode ∈ modes_of backend_single 0,
      memcmp_modeinfo mode.drm_mode modeinfo_custom = false) ∧
    ∃ d, wlr_drm_connector_add_mode (fun _ _ => false) backend_single 0 modeinfo_custom =
        some (d, false) ∧
      modes_of d 0 = modes_of backend_single 0 := by
  refine ⟨rfl, by decide, _, rfl, rfl⟩

/-! ## Creating the lease manager -/

theorem multi_backend_cb_fold (benv : BackendEnv) (l : List Nat) :
    ∀ ptr, benv.wlr_backend_is_drm (l.foldl (multi_backend_cb benv) ptr) = true ↔
      benv.wlr_backend_is_drm ptr = true ∨ ∃ b ∈ l, benv.wlr_backend_is_drm b = true := by
  induction l with
  | nil => intro ptr; simp
  | cons b rest ih =>
    intro ptr
    rw [List.foldl_cons, ih]
    unfold multi_backend_cb
    by_cases hb : benv.wlr_backend_is_drm b = true
    · rw [if_pos hb]
      simp [hb]
    · rw [if_neg hb]
      simp [hb]

/-- C30 (creating the lease manager): with a display, the
`wlr_drm_lease_manager_v1_create` returns; it returns a manager (not NULL) only
if the given backend is not itself a DRM backend and is a multi-backend holding
a DRM backend; for every backend that is itself a DRM backend, and for every
backend that is neither DRM nor multi, it returns NULL without creating a
global.  And it does return a manager for a multi-backend holding a DRM backend
when the allocation and the creation of the global succeed. -/
theorem lease_manager_create (benv : BackendEnv) (backend : Nat) :
    ∃ result log, wlr_drm_lease_manager_v1_create benv true backend = some (result, log) ∧
      (result ≠ none →
        benv.wlr_backend_is_drm backend = false ∧ benv.wlr_backend_is_multi backend = true ∧
        ∃ b ∈ benv.wlr_multi_for_each_backend backend, benv.wlr_backend_is_drm b = true) ∧
      (benv.wlr_backend_is_drm backend = true →
        result = none ∧ LeaseEvent.wl_global_create ∉ log) ∧
      (benv.wlr_backend_is_drm backend = false → benv.wlr_backend_is_multi backend = false →
        result = none ∧ LeaseEvent.wl_global_create ∉ log) ∧
      (benv.wlr_backend_is_drm backend = false → benv.wlr_backend_is_multi backend = true →
        (∃ b ∈ benv.wlr_multi_for_each_backend backend, benv.wlr_backend_is_drm b = true) →
        benv.calloc_manager = true → benv.wl_global_create = true → result ≠ none) := by
  unfold wlr_drm_lease_manager_v1_create
  rw [if_neg (by decide)]
  by_cases h : benv.wlr_backend_is_drm backend = false ∧ benv.wlr_backend_is_multi backend = true
  · rw [if_pos h]
    have hd : ¬ benv.wlr_backend_is_drm backend = true := by rw [h.1]; decide
    by_cases hf : benv.wlr_backend_is_drm
        ((benv.wlr_multi_for_each_backend backend).foldl (multi_backend_cb benv) backend) = false
    · rw [if_pos hf]
      refine ⟨none, [], rfl, fun hne => absurd rfl hne, fun _ => ⟨rfl, by simp⟩,
        fun _ _ => ⟨rfl, by simp⟩, ?_⟩
      intro _ _ hex _ _
      have := (multi_backend_cb_fold benv _ backend).mpr (Or.inr hex)
      rw [hf] at this
      cases this
    · rw [if_neg hf]
      have hex : ∃ b ∈ benv.wlr_multi_for_each_backend backend,
          benv.wlr_backend_is_drm b = true := by
        have ht : benv.wlr_backend_is_drm
            ((benv.wlr_multi_for_each_backend backend).foldl (multi_backend_cb benv) backend) =
            true := by simpa using hf
        rcases (multi_backend_cb_fold benv _ backend).mp ht with h1 | h1
        · exact absurd h1 hd
        · exact h1
      by_cases hc : benv.calloc_manager = false
      · rw [if_pos hc]
        refine ⟨none, [], rfl, fun hne => absurd rfl hne, fun _ => ⟨rfl, by simp⟩,
          fun _ _ => ⟨rfl, by simp⟩, ?_⟩
        intro _ _ _ hc2 _
        rw [hc] at hc2
        cases hc2
      · rw [if_neg hc]
        by_cases hg : benv.wl_global_create = false
        · rw [if_pos hg]
          refine ⟨none, _, rfl, fun hne => absurd rfl hne, fun h1 => absurd h1 hd, ?_, ?_⟩
          · intro _ h2
            rw [h.2] at h2
            cases h2
          · intro _ _ _ _ hg2
            rw [hg] at hg2
            cases hg2
        · rw [if_neg hg]
          refine ⟨_, _, rfl, fun _ => ⟨h.1, h.2, hex⟩, fun h1 => absurd h1 hd, ?_, ?_⟩
          · intro _ h2
            rw [h.2] at h2
            cases h2
          · intro _ _ _ _ _
            simp
  · rw [if_neg h]
    refine ⟨none, [], rfl, fun hne => absurd rfl hne, fun _ => ⟨rfl, by simp⟩,
      fun _ _ => ⟨rfl, by simp⟩, ?_⟩
    intro h1 h2 _ _ _
    exact absurd ⟨h1, h2⟩ h

theorem lease_manager_create_witness :
    ∃ result log, wlr_drm_lease_manager_v1_create benv_multi true 1 = some (result, log) ∧
      (result ≠ none →
        benv_multi.wlr_backend_is_drm 1 = false ∧ benv_multi.wlr_backend_is_multi 1 = true ∧
        ∃ b ∈ benv_multi.wlr_multi_for_each_backend 1, benv_multi.wlr_backend_is_drm b = true) ∧
      (benv_multi.wlr_backend_is_drm 1 = true →
        result = none ∧ LeaseEvent.wl_global_create ∉ log) ∧
      (benv_multi.wlr_backend_is_drm 1 = false → benv_multi.wlr_backend_is_multi 1 = false →
        result = none ∧ LeaseEvent.wl_global_create ∉ log) ∧
      (benv_multi.wlr_backend_is_drm 1 = false → benv_multi.wlr_backend_is_multi 1 = true →
        (∃ b ∈ benv_multi.wlr_multi_for_each_backend 1, benv_multi.wlr_backend_is_drm b = true) →
        benv_multi.calloc_manager = true → benv_multi.wl_global_create = true →
        result ≠ none) :=
  lease_manager_create benv_multi 1

/-! ## The attach-render lock of an exported frame -/

theorem frame_destroy_head (frames : List wlr_export_dmabuf_frame_v1) (log : List ExportEvent)
    (frame : wlr_export_dmabuf_frame_v1) :
    frame_destroy { frames := frame :: frames, log := log } frame.resource =
      { frames := frames.filter (fun f => decide (f.resource ≠ frame.resource))
        log := log ++ [ExportEvent.wlr_output_lock_attach_render frame.output false] ++
          (if frame.cursor_locked = true then
            [ExportEvent.wlr_output_lock_software_cursors frame.output false] else []) ++
          [ExportEvent.wlr_dmabuf_attributes_finish frame.resource,
           ExportEvent.wl_resource_set_user_data frame.resource] } := by
  unfold frame_destroy
  simp [List.find?_cons, List.filter_cons]

theorem send_objects_no_lock (env : ExportEnv) (resource : Nat)
    (attribs : wlr_dmabuf_attributes) :
    ∀ (n i : Nat) (objects : List ExportEvent),
      send_objects env resource attribs n i = some objects →
      ∀ e ∈ objects, ∃ a b c d f g, e = ExportEvent.send_object resource a b c d f g := by
  intro n
  induction n with
  | zero =>
    intro i objects h e he
    simp only [send_objects, Option.some.injEq] at h
    subst h
    cases he
  | succ n ih =>
    intro i objects h e he
    unfold send_objects at h
    split at h
    · rename_i fd offset stride _ _ _
      split at h
      · cases h
      · rename_i rest hrest
        simp only [Option.some.injEq] at h
        subst h
        rcases List.mem_cons.mp he with rfl | he
        · exact ⟨_, _, _, _, _, _, rfl⟩
        · exact ih (i + 1) rest hrest e he
    · cases h

theorem count_send_objects (env : ExportEnv) (resource : Nat) (attribs : wlr_dmabuf_attributes)
    (n i : Nat) (objects : List ExportEvent)
    (h : send_objects env resource attribs n i = some objects) (e : ExportEvent)
    (he : ∀ a b c d f g, e ≠ ExportEvent.send_object resource a b c d f g) :
    objects.count e = 0 := by
  rw [List.count_eq_zero]
  intro hmem
  obtain ⟨a, b, c, d, f, g, heq⟩ := send_objects_no_lock env resource attribs n i objects h e hmem
  exact he a b c d f g heq

/-- The run of `manager_handle_capture_output` that cancels the frame, for the
reason `reason`. -/
theorem capture_cancelled (env : ExportEnv) (manager : wlr_export_dmabuf_manager_v1)
    (id : Nat) (overlay_cursor : Int) (output resource : Nat)
    (hcalloc : env.calloc_frame = true) (hres : env.wl_resource_create id = some resource)
    (hcancel : env.export_dmabuf output = false ∨ env.wlr_output_export_dmabuf output = none) :
    ∃ reason, manager_handle_capture_output env manager id overlay_cursor output =
      some (wlr_export_dmabuf_manager_v1.mk
        (manager.frames.filter (fun f => decide (f.resource ≠ resource)))
        (manager.log ++ [ExportEvent.send_cancel resource reason,
          ExportEvent.wlr_output_lock_attach_render output false,
          ExportEvent.wlr_dmabuf_attributes_finish resource,
          ExportEvent.wl_resource_set_user_data resource])) := by
  have hc : ¬ env.calloc_frame = false := by rw [hcalloc]; decide
  have hd := fun log => frame_destroy_head manager.frames log
    (⟨resource, output, false, false⟩ : wlr_export_dmabuf_frame_v1)
  simp only [Bool.false_eq_true, if_false, List.append_nil, List.append_assoc,
    List.singleton_append] at hd
  unfold manager_handle_capture_output
  rw [if_neg hc, hres]
  dsimp only
  by_cases hexp : env.export_dmabuf output = false
  · rw [if_pos hexp]
    refine ⟨CANCEL_REASON_PERMANENT, ?_⟩
    rw [hd]
    simp
  · have hnone : env.wlr_output_export_dmabuf output = none := by
      rcases hcancel with h | h
      · exact absurd h hexp
      · exact h
    rw [if_neg hexp, hnone]
    dsimp only
    refine ⟨CANCEL_REASON_TEMPORARY, ?_⟩
    rw [hd]
    simp

/-- C29 does not hold of wlr_export_dmabuf_v1.c.  For a capture_output request
whose frame and resource are allocated: when the output does not implement
`export_dmabuf`, or when the export fails, `manager_handle_capture_output`
cancels the frame and calls `frame_destroy`, which releases the attach-render
lock of the output once although the request never took it; no software-cursor
lock is released.  When the export succeeds, the request takes the
attach-render lock once, and the software-cursor lock once exactly when
`overlay_cursor` is not 0, and the completion of the frame at the next
committed buffer releases each of them as often as it was taken. -/
theorem capture_cancel_releases_unheld_lock (env : ExportEnv)
    (manager : wlr_export_dmabuf_manager_v1) (id : Nat) (overlay_cursor : Int)
    (output resource : Nat) (hcalloc : env.calloc_frame = true)
    (hres : env.wl_resource_create id = some resource) :
    ((env.export_dmabuf output = false ∨ env.wlr_output_export_dmabuf output = none) →
      ∃ m rest, manager_handle_capture_output env manager id overlay_cursor output = some m ∧
        m.log = manager.log ++ rest ∧
        attach_render_calls rest output true = 0 ∧
        attach_render_calls rest output false = 1 ∧
        software_cursor_calls rest output true = 0 ∧
        software_cursor_calls rest output false = 0) ∧
    (∀ attribs objects, env.export_dmabuf output = true →
      env.wlr_output_export_dmabuf output = some attribs →
      send_objects env resource attribs attribs.n_planes 0 = some objects →
      ∃ m rest, manager_handle_capture_output env manager id overlay_cursor output = some m ∧
        m.log = manager.log ++ rest ∧
        attach_render_calls rest output true = 1 ∧
        attach_render_calls rest output false = 0 ∧
        software_cursor_calls rest output true = (if overlay_cursor ≠ 0 then 1 else 0) ∧
        software_cursor_calls rest output false = 0 ∧
        ∀ tv_sec tv_nsec, ∃ rest2,
          (frame_output_handle_precommit m resource true tv_sec tv_nsec).log =
            m.log ++ rest2 ∧
          attach_render_calls rest2 output true = 0 ∧
          attach_render_calls rest2 output false = 1 ∧
          software_cursor_calls rest2 output true = 0 ∧
          software_cursor_calls rest2 output false = (if overlay_cursor ≠ 0 then 1 else 0)) := by
  have hc : ¬ env.calloc_frame = false := by rw [hcalloc]; decide
  constructor
  · intro hcancel
    obtain ⟨reason, hrun⟩ := capture_cancelled env manager id overlay_cursor output resource
      hcalloc hres hcancel
    refine ⟨_, _, hrun, rfl, ?_⟩
    simp [attach_render_calls, software_cursor_calls, List.count_cons]
  · intro attribs objects hexp hattr hobj
    have hexp2 : ¬ env.export_dmabuf output = false := by rw [hexp]; decide
    have hcount : ∀ o l, objects.count (ExportEvent.wlr_output_lock_attach_render o l) = 0 ∧
        objects.count (ExportEvent.wlr_output_lock_software_cursors o l) = 0 := by
      intro o l
      exact ⟨count_send_objects env resource attribs _ _ objects hobj _
          (fun _ _ _ _ _ _ h => by cases h),
        count_send_objects env resource attribs _ _ objects hobj _
          (fun _ _ _ _ _ _ h => by cases h)⟩
    have hrun : manager_handle_capture_output env manager id overlay_cursor output =
        some (wlr_export_dmabuf_manager_v1.mk
          ((⟨resource, output, decide (overlay_cursor ≠ 0), true⟩ :
            wlr_export_dmabuf_frame_v1) :: manager.frames)
          (manager.log ++ ([ExportEvent.wlr_output_lock_attach_render output true] ++
            (if overlay_cursor ≠ 0 then
              [ExportEvent.wlr_output_lock_software_cursors output true] else []) ++
            [ExportEvent.send_frame resource (env.output_width output)
              (env.output_height output) attribs.flags FLAGS_TRANSIENT attribs.format
              (attribs.modifier / 2 ^ 32 % 2 ^ 32) (attribs.modifier % 2 ^ 32)
              attribs.n_planes] ++ objects))) := by
      unfold manager_handle_capture_output
      rw [if_neg hc, hres]
      dsimp only
      rw [if_neg hexp2, hattr]
      dsimp only
      rw [hobj]
      dsimp only
      simp only [List.append_assoc]
    refine ⟨_, _, hrun, rfl, ?_, ?_, ?_, ?_, ?_⟩
    · by_cases ho : overlay_cursor ≠ 0
      · simp [attach_render_calls, List.count_cons, List.count_append, ho, (hcount _ _).1]
      · simp [attach_render_calls, List.count_cons, List.count_append, ho, (hcount _ _).1]
    · by_cases ho : overlay_cursor ≠ 0
      · simp [attach_render_calls, List.count_cons, List.count_append, ho, (hcount _ _).1]
      · simp [attach_render_calls, List.count_cons, List.count_append, ho, (hcount _ _).1]
    · by_cases ho : overlay_cursor ≠ 0
      · simp [software_cursor_calls, List.count_cons, List.count_append, ho, (hcount _ _).2]
      · simp [software_cursor_calls, List.count_cons, List.count_append, ho, (hcount _ _).2]
    · by_cases ho : overlay_cursor ≠ 0
      · simp [software_cursor_calls, List.count_cons, List.count_append, ho, (hcount _ _).2]
      · simp [software_cursor_calls, List.count_cons, List.count_append, ho, (hcount _ _).2]
    · intro tv_sec tv_nsec
      unfold frame_output_handle_precommit
      rw [if_neg (by decide)]
      simp only [List.map_cons, if_true]
      rw [frame_destroy_head _ _
        (⟨resource, output, decide (overlay_cursor ≠ 0), false⟩ : wlr_export_dmabuf_frame_v1)]
      by_cases ho : overlay_cursor ≠ 0
      · refine ⟨[ExportEvent.send_ready resource (tv_sec / 2 ^ 32 % 2 ^ 32) (tv_sec % 2 ^ 32)
          tv_nsec, ExportEvent.wlr_output_lock_attach_render output false,
          ExportEvent.wlr_output_lock_software_cursors output false,
          ExportEvent.wlr_dmabuf_attributes_finish resource,
          ExportEvent.wl_resource_set_user_data resource], ?_, ?_⟩
        · simp [ho]
        · simp [attach_render_calls, software_cursor_calls, List.count_cons, ho]
      · refine ⟨[ExportEvent.send_ready resource (tv_sec / 2 ^ 32 % 2 ^ 32) (tv_sec % 2 ^ 32)
          tv_nsec, ExportEvent.wlr_output_lock_attach_render output false,
          ExportEvent.wlr_dmabuf_attributes_finish resource,
          ExportEvent.wl_resource_set_user_data resource], ?_, ?_⟩
        · simp [ho]
        · simp [attach_render_calls, software_cursor_calls, List.count_cons, ho]

theorem capture_cancel_releases_unheld_lock_witness :
    ∃ m rest, manager_handle_capture_output eenv_unsupported manager_idle 5 0 3 = some m ∧
      m.log = manager_idle.log ++ rest ∧
      attach_render_calls rest 3 true = 0 ∧
      attach_render_calls rest 3 false = 1 ∧
      software_cursor_calls rest 3 true = 0 ∧
      software_cursor_calls rest 3 false = 0 :=
  (capture_cancel_releases_unheld_lock eenv_unsupported manager_idle 5 0 3 5 rfl rfl).1
    (Or.inl rfl)

/-! ## Leaving the state DISCONNECTED -/

theorem ready_unplugged_bound : realloc_ready env_no_gamma 1 backend_unplugged_bound := by
  refine ⟨rfl, ?_, ?_, by decide⟩
  · intro k _
    exact ⟨by simp [env_no_gamma], by simp [env_no_gamma]⟩
  · intro c hc
    simp only [backend_unplugged_bound, backend_of, List.mem_singleton] at hc
    subst hc
    refine ⟨?_, by decide, by decide⟩
    intro k hk
    cases hk
    decide

/-- C21 does not hold of `realloc_crtcs`, and so not of `scan_drm_connectors`
and `enable_drm_connector`, which call it.  In a backend that is ready for the
reallocation, a DISCONNECTED connector that holds no CRTC is still DISCONNECTED
after `realloc_crtcs`; but one that holds a CRTC (`scan_drm_connectors` binds
the CRTC of the current encoder whatever the state is) and is assigned none by
an applied reallocation, with every plane surface set up, is in NEEDS_MODESET
afterwards.  Concretely: for the DISCONNECTED connector of `backend_unplugged`,
which the kernel reports as disconnected on an encoder bound to CRTC 40, one
`scan_drm_connectors` ends with the connector in NEEDS_MODESET and
`desired_enabled` false; and a following scan in which the kernel reports the
connector as connected leaves it so, reads no mode and announces no output. -/
theorem disconnected_leaves_without_hotplug (env : Env)
    (matcher : Nat → List Nat → Nat → List Nat → List Nat) (drm : wlr_drm_backend)
    (j : Nat) (c : wlr_drm_connector)
    (hready : realloc_ready env drm.crtcs.length drm) (hcrtcs : drm.crtcs.length ≠ 0)
    (hc : drm.outputs[j]? = some c) (hstate : c.state = WLR_DRM_CONN_DISCONNECTED) :
    (∃ d c1, realloc_crtcs env matcher drm = some d ∧ d.outputs[j]? = some c1 ∧
      (c.crtc = none → c1.state = WLR_DRM_CONN_DISCONNECTED) ∧
      (c.crtc ≠ none →
        keeps_old_configuration drm (connector_match matcher drm) = false →
        (connector_match matcher drm).getD j none = none →
        (∀ log k w h, env.init_drm_plane_surfaces log k w h = true) →
        c1.state = WLR_DRM_CONN_NEEDS_MODESET)) ∧
    state_of backend_unplugged 0 = some WLR_DRM_CONN_DISCONNECTED ∧
    ((kernel_bound_encoder DRM_MODE_DISCONNECTED).drmModeGetConnector 70).map
      (fun conn => decide (conn.connection = DRM_MODE_CONNECTED)) = some false ∧
    (scan_drm_connectors env_no_gamma matcher_unmatched
        (kernel_bound_encoder DRM_MODE_DISCONNECTED) backend_unplugged).map
      (fun d => (state_of d 0, d.outputs.map fun conn => conn.desired_enabled)) =
      some (some WLR_DRM_CONN_NEEDS_MODESET, [false]) ∧
    ((scan_drm_connectors env_no_gamma matcher_unmatched
        (kernel_bound_encoder DRM_MODE_DISCONNECTED) backend_unplugged).bind
      (scan_drm_connectors env_no_gamma matcher_unmatched
        (kernel_bound_encoder DRM_MODE_CONNECTED))).map
      (fun d => (state_of d 0, modes_of d 0, decide (Event.new_output 0 ∈ d.log))) =
      some (some WLR_DRM_CONN_NEEDS_MODESET, [], false) := by
  refine ⟨?_, rfl, rfl, rfl, by decide⟩
  have hj : j < drm.outputs.length := lt_length_of_getElem? hc
  obtain ⟨d, rest, hd, -, hlen, -, hkeep, happ⟩ :=
    realloc_crtcs_spec env matcher drm hready hcrtcs (by omega)
  have hcm : connector_match matcher drm = connector_match_of drm.outputs.length
      drm.crtcs.length (matcher drm.outputs.length (connector_constraints drm)
        drm.crtcs.length (previous_match drm)) := rfl
  rw [← hcm] at hkeep happ
  cases hk : keeps_old_configuration drm (connector_match matcher drm) with
  | true =>
    refine ⟨d, c, hd, ?_, fun _ => hstate, fun _ h => by cases h⟩
    rw [hkeep hk]
    exact hc
  | false =>
    obtain ⟨c1, hc1, hpost⟩ := happ hk j c hc
    refine ⟨d, c1, hd, hc1, ?_, ?_⟩
    · intro hnone
      rcases hpost with hpost | ⟨heq, -⟩
      · obtain ⟨-, -, -, h4, -, h6, -⟩ := hpost
        cases hm : (connector_match matcher drm).getD j none with
        | none =>
          rw [h4 hm hnone]
          exact hstate
        | some k =>
          rcases h6 k hm with ⟨-, h⟩ | ⟨-, h, -⟩
          · rw [h]
            exact hstate
          · rw [hstate] at h
            cases h
      · rw [heq]
        exact hstate
    · intro hheld _ hm hsurf
      rcases hpost with hpost | ⟨-, hfail, -⟩
      · exact (hpost.2.2.2.2.1 hm hheld).1
      · exact absurd hsurf hfail

theorem disconnected_leaves_without_hotplug_witness :
    ∃ d c1, realloc_crtcs env_no_gamma matcher_unmatched backend_unplugged_bound = some d ∧
      d.outputs[0]? = some c1 ∧
      ({ new_connector 70 none with crtc := some 0 } : wlr_drm_connector).crtc ≠ none ∧
      c1.state = WLR_DRM_CONN_NEEDS_MODESET := by
  obtain ⟨⟨d, c1, h1, h2, -, h3⟩, -⟩ := disconnected_leaves_without_hotplug env_no_gamma
    matcher_unmatched backend_unplugged_bound 0 { new_connector 70 none with crtc := some 0 }
    ready_unplugged_bound (by decide) rfl rfl
  exact ⟨d, c1, h1, h2, by decide, h3 (by decide) (by decide) (by decide) (fun _ _ _ _ => rfl)⟩

end Wlr
